import Mathlib

/-!
# OSKAR telescope-model loader: directory walk and stage pipeline

A shallow embedding of `apps/lib/src/oskar_telescope_load.cpp`
(`oskar_telescope_load` and the private `load_directories`), together with
the properties of the walk that the specification states.

Conventions of the embedding.

* In-place mutation through a pointer is rendered by value passing: a
  function that mutates `*telescope` or `*station` returns the new value and
  the caller stores it back into the slot it came from.
* `int* status` and the `oskar_Log*` are threaded through a `World`, which
  also records every call the walk makes to a collaborator (directory
  listing, stage `load`, recursive descent, duplication, ...) in the order
  in which the calls happen.
* An access to a station slot outside the slot array has no defined
  behaviour in C; the embedding returns `none` there.
* The two branches of `load_directories` (`depth == 0`, against the
  telescope model, and `depth != 0`, against one station) are the functions
  `load_directories` and `load_directories_station`; the `for` loops are
  recursions over the list they run through.
-/

namespace Oskar

/-! ## Constants of `oskar_global.h` -/

/-- Modelled from the spec: `oskar_global.h` is not among the sources. Error
kind for a missing or inaccessible root directory; only the facts that the
code is non-zero and differs from the other codes are used. -/
def OSKAR_ERR_FILE_IO : Int := -2

/-- Modelled from the spec: `oskar_global.h` is not among the sources. Error
kind for a model that does not reside in host memory. -/
def OSKAR_ERR_BAD_LOCATION : Int := -14

/-- Modelled from the spec: `oskar_global.h` is not among the sources. Error
kind for a child-directory count that disagrees with the slot count. -/
def OSKAR_ERR_SETUP_FAIL_TELESCOPE_ENTRIES_MISMATCH : Int := -73

/-- Modelled from the spec: `oskar_global.h` is not among the sources. Memory
location code of host (CPU) memory. -/
def OSKAR_CPU : Int := 0

/-! ## Data model -/

/-- The `std::map<std::string, std::string>` handed to every stage. The walk
only copies it; it never inspects an entry. -/
abbrev FileMap := List (String × String)

/-- Directory content: the name of a directory and its immediate
sub-directories, in the order in which `oskar_Dir::allSubDirs` lists them
(by the comment at the call site: sorted by name). -/
inductive DirTree where
  | node (name : String) (subs : List DirTree)

/-- Name of a directory node. -/
def DirTree.name : DirTree → String
  | .node n _ => n

/-- Immediate sub-directories of a directory node, in listing order. -/
def DirTree.subs : DirTree → List DirTree
  | .node _ s => s

/-- An `oskar_Dir` handle: the path it was opened with and what lies there. -/
structure oskar_Dir where
  path : String
  tree : DirTree

/-- Modelled from the spec: `oskar_dir.h` is not among the sources. The names
of the immediate sub-directories, in listing order. -/
def oskar_Dir.allSubDirs (cwd : oskar_Dir) : List String :=
  cwd.tree.subs.map DirTree.name

/-- Modelled from the spec: `oskar_dir.h` is not among the sources. Path-join
of the directory path with an entry name. -/
def oskar_Dir.filePath (cwd : oskar_Dir) (name : String) : String :=
  cwd.path ++ "/" ++ name

/-- Modelled from the spec: `oskar_dir.h` is not among the sources.
Absolute-path rendering for diagnostics; paths are kept absolute. -/
def oskar_Dir.absolutePath (cwd : oskar_Dir) : String :=
  cwd.path

/-- Modelled from the spec: `private_station.h` is not among the sources. A
station carries its identifier, its stage-specific fields (kept abstract as
a list of numbers) and the ordered sequence of child stations it owns. -/
inductive oskar_Station where
  | mk (unique_id : Int) (data : List Int) (child : List oskar_Station)

/-- Identifier of a station. -/
def oskar_Station.unique_id : oskar_Station → Int
  | .mk u _ _ => u

/-- Stage-specific fields of a station. -/
def oskar_Station.data : oskar_Station → List Int
  | .mk _ d _ => d

/-- Child stations of a station. -/
def oskar_Station.child : oskar_Station → List oskar_Station
  | .mk _ _ c => c

/-- Modelled from the spec: `private_telescope.h` is declared outside the
sources of the loader. The telescope model: memory location, model-wide
fields (kept abstract) and the station array. -/
structure oskar_Telescope where
  mem_location : Int
  data : List Int
  station : List oskar_Station

/-- Number of station slots of the telescope model. -/
def oskar_telescope_num_stations (telescope : oskar_Telescope) : Nat :=
  telescope.station.length

/-- Station slot `i` of the telescope model, if it exists. -/
def oskar_telescope_station (telescope : oskar_Telescope) (i : Nat) : Option oskar_Station :=
  telescope.station[i]?

/-- Memory location of the telescope model. -/
def oskar_telescope_mem_location (telescope : oskar_Telescope) : Int :=
  telescope.mem_location

/-- Number of child slots of a station. -/
def oskar_station_num_elements (station : oskar_Station) : Nat :=
  station.child.length

/-- Child slot `i` of a station, if it exists. -/
def oskar_station_child (station : oskar_Station) (i : Nat) : Option oskar_Station :=
  station.child[i]?

/-- Store a station back into slot `i` of the telescope model (the effect of
mutating the station behind `oskar_telescope_station(telescope, i)`). -/
def oskar_Telescope.setStation (telescope : oskar_Telescope) (i : Nat) (s : oskar_Station) :
    oskar_Telescope :=
  { telescope with station := telescope.station.set i s }

/-- Store a station back into child slot `i` of a station. -/
def oskar_Station.setChild : oskar_Station → Nat → oskar_Station → oskar_Station
  | .mk u d c, i, s => .mk u d (c.set i s)

/-- Modelled from the spec: `oskar_telescope_duplicate_first_station` is not
among the sources. After a successful recursive call the fully populated
first station is duplicated onto all other existing station slots; with a
non-zero status nothing is done. -/
def oskar_telescope_duplicate_first_station (telescope : oskar_Telescope) (status : Int) :
    oskar_Telescope × Int :=
  if status ≠ 0 then (telescope, status)
  else
    match telescope.station with
    | [] => (telescope, status)
    | s0 :: rest => ({ telescope with station := s0 :: rest.map (fun _ => s0) }, status)

/-- Modelled from the spec: `oskar_station_duplicate_first_child` is not
among the sources. After a successful recursive call the fully populated
first child is duplicated onto all other existing child slots; with a
non-zero status nothing is done. -/
def oskar_station_duplicate_first_child (station : oskar_Station) (status : Int) :
    oskar_Station × Int :=
  if status ≠ 0 then (station, status)
  else
    match station with
    | .mk u d [] => (.mk u d [], status)
    | .mk u d (c0 :: rest) => (.mk u d (c0 :: rest.map (fun _ => c0)), status)

mutual
/-- Numbering pass over one station and its descendants, in pre-order,
starting at `counter`; returns the renumbered station and the next counter. -/
def set_ids : oskar_Station → Nat → oskar_Station × Nat
  | .mk _ d c, counter =>
    let r := set_ids_list c (counter + 1)
    (.mk (counter : Int) d r.1, r.2)
/-- Numbering pass over a sequence of stations, left to right. -/
def set_ids_list : List oskar_Station → Nat → List oskar_Station × Nat
  | [], counter => ([], counter)
  | s :: rest, counter =>
    let r := set_ids s counter
    let q := set_ids_list rest r.2
    (r.1 :: q.1, q.2)
end

/-- Modelled from the spec: `oskar_telescope_set_station_ids` is not among
the sources. The finishing step assigns each station a unique identifier by
one stable numbering pass over the final tree. -/
def oskar_telescope_set_station_ids (telescope : oskar_Telescope) : oskar_Telescope :=
  { telescope with station := (set_ids_list telescope.station 0).1 }

/-! ## Stages -/

/-- The concrete loader classes instantiated by `oskar_telescope_load`. -/
inductive LoaderKind where
  | Position
  | Layout
  | GainPhase
  | Apodisation
  | FeedAngle
  | ElementTypes
  | MountTypes
  | PermittedBeams
  | ElementPattern
  | Noise
deriving DecidableEq, Repr

/-- The interface `oskar_TelescopeLoadAbstract` as declared for
`TelescopeLoaderPosition`: a telescope-level `load`, a station-level `load`
and `name`. A `load` receives the model, the directory, the number of
sub-directories, (the depth,) and the file map by reference, and sets
`*status`; it is rendered as a function returning the new model, the new
file map and the status it leaves (it is only ever called with status 0).
The class declares no data member besides a static constant, so a `load`
is a function of its arguments. The behaviour of the stages is a parameter
of the development. -/
structure oskar_TelescopeLoadAbstract where
  name : String
  load : oskar_Telescope → oskar_Dir → Nat → FileMap → oskar_Telescope × FileMap × Int
  load_station : oskar_Station → oskar_Dir → Nat → Nat → FileMap → oskar_Station × FileMap × Int

/-! ## Observable calls -/

/-- One call made by the loader to a collaborator, or one recursive call. -/
inductive Event where
  /-- Call `oskar_dir_exists(path)`. -/
  | dir_exists (path : String)
  /-- Construction `new TelescopeLoaderX`. -/
  | new_loader (kind : LoaderKind)
  /-- Destruction `delete loaders[i]`. -/
  | delete_loader (i : Nat)
  /-- Listing `cwd.allSubDirs()` of the directory at `path`. -/
  | allSubDirs (path : String)
  /-- Telescope-level `loaders[i]->load(telescope, cwd, num_dirs, filemap,
  status)`, with the file map it received and the status it left. -/
  | load (i : Nat) (path : String) (num_subdirs : Nat) (filemap : FileMap) (status : Int)
  /-- Station-level `loaders[i]->load(station, cwd, num_dirs, depth,
  filemap, status)`, with the file map it received and the status it left. -/
  | load_station (i : Nat) (path : String) (num_subdirs : Nat) (depth : Nat)
      (filemap : FileMap) (status : Int)
  /-- Report `oskar_log_error(log, "%s", s)` of a failing stage. -/
  | log_error (msg : String)
  /-- Report `oskar_log_error(log, "Failed to load telescope model (%s).", ...)`. -/
  | log_load_failed (status : Int)
  /-- Recursive call of `load_directories` for the directory at `path`,
  against slot `slot`, at depth `depth`, with the file map handed over. -/
  | call (path : String) (slot : Nat) (depth : Nat) (filemap : FileMap)
  /-- Call `oskar_telescope_duplicate_first_station`. -/
  | duplicate_first_station
  /-- Call `oskar_station_duplicate_first_child` for the station loaded
  from the directory at `path`. -/
  | duplicate_first_child (path : String)
  /-- Call `oskar_telescope_set_station_ids`. -/
  | set_station_ids
deriving DecidableEq, Repr

/-- The state threaded through the loader besides the model: `*status` and
the record of calls made so far (oldest first). -/
structure World where
  status : Int
  trace : List Event
deriving DecidableEq, Repr

/-- Record one more call. -/
def World.emit (w : World) (e : Event) : World :=
  { w with trace := w.trace ++ [e] }

/-! ## The walk -/

/-- The stage loop of the top level (lines 138-148), from stage index `i`
on: each stage in turn; the first one that leaves a non-zero status is
reported and ends the loop (the caller then returns). -/
def load_all : List oskar_TelescopeLoadAbstract → Nat → oskar_Telescope → oskar_Dir → Nat →
    FileMap → World → oskar_Telescope × FileMap × World
  | [], _, telescope, _, _, filemap, w => (telescope, filemap, w)
  | l :: rest, i, telescope, cwd, num_dirs, filemap, w =>
    let r := l.load telescope cwd num_dirs filemap
    let w1 : World :=
      { status := r.2.2, trace := w.trace ++ [Event.load i cwd.path num_dirs filemap r.2.2] }
    if r.2.2 ≠ 0 then
      (r.1, r.2.1,
        w1.emit (Event.log_error ("Error in " ++ l.name ++ " in '" ++ cwd.absolutePath ++ "'.")))
    else load_all rest (i + 1) r.1 cwd num_dirs r.2.1 w1

/-- The stage loop of a deeper level (lines 190-200), from stage index `i`
on. -/
def load_all_station : List oskar_TelescopeLoadAbstract → Nat → oskar_Station → oskar_Dir →
    Nat → Nat → FileMap → World → oskar_Station × FileMap × World
  | [], _, station, _, _, _, filemap, w => (station, filemap, w)
  | l :: rest, i, station, cwd, num_dirs, depth, filemap, w =>
    let r := l.load_station station cwd num_dirs depth filemap
    let w1 : World :=
      { status := r.2.2,
        trace := w.trace ++ [Event.load_station i cwd.path num_dirs depth filemap r.2.2] }
    if r.2.2 ≠ 0 then
      (r.1, r.2.1,
        w1.emit (Event.log_error ("Error in " ++ l.name ++ " in '" ++ cwd.absolutePath ++ "'.")))
    else load_all_station rest (i + 1) r.1 cwd num_dirs depth r.2.1 w1

mutual
/-- The branch `depth != 0` of `load_directories` (lines 127-132 and
186-236): the walk of the directory `cwd`, opened at `path`, against
`station`. Recursive calls are made with `depth + 1`, so every call other
than the one of `oskar_telescope_load` takes this branch. -/
def load_directories_station (station : oskar_Station) (path : String) (cwd : DirTree)
    (depth : Nat) (loaders : List oskar_TelescopeLoadAbstract) (filemap : FileMap) (w : World) :
    Option (oskar_Station × World) :=
  match cwd with
  | .node name subs =>
    -- Check if safe to proceed.
    if w.status ≠ 0 then some (station, w)
    else
      -- Get a list of all (child) stations in this directory.
      let w0 := w.emit (Event.allSubDirs path)
      -- Load everything at this level.
      let r := load_all_station loaders 0 station ⟨path, .node name subs⟩ subs.length depth
        filemap w0
      if r.2.2.status ≠ 0 then some (r.1, r.2.2)
      else
        match subs with
        | [] => some (r.1, r.2.2)
        | [d] =>
          -- One station directory. Load and copy it to all the others.
          let child_path := oskar_Dir.filePath ⟨path, .node name subs⟩ d.name
          match oskar_station_child r.1 0 with
          | none => none
          | some c =>
            match load_directories_station c child_path d (depth + 1) loaders r.2.1
                (r.2.2.emit (Event.call child_path 0 (depth + 1) r.2.1)) with
            | none => none
            | some (c1, w1) =>
              let q := oskar_station_duplicate_first_child (r.1.setChild 0 c1) w1.status
              some (q.1, { status := q.2,
                           trace := w1.trace ++ [Event.duplicate_first_child path] })
        | d1 :: d2 :: ds =>
          -- Consistency check.
          if (d1 :: d2 :: ds).length ≠ oskar_station_num_elements r.1 then
            some (r.1, { r.2.2 with status := OSKAR_ERR_SETUP_FAIL_TELESCOPE_ENTRIES_MISMATCH })
          else
            -- Loop over and descend into all stations.
            load_children r.1 ⟨path, .node name subs⟩ (d1 :: d2 :: ds) 0 depth loaders r.2.1 r.2.2
/-- The loop of lines 225-234 from index `i` on, over the remaining child
directories of `cwd`. -/
def load_children (station : oskar_Station) (cwd : oskar_Dir) (children : List DirTree) (i : Nat)
    (depth : Nat) (loaders : List oskar_TelescopeLoadAbstract) (filemap : FileMap) (w : World) :
    Option (oskar_Station × World) :=
  match children with
  | [] => some (station, w)
  | d :: ds =>
    -- Get the child directory.
    let child_path := cwd.filePath d.name
    -- Recursive call to load the station.
    match oskar_station_child station i with
    | none => none
    | some c =>
      match load_directories_station c child_path d (depth + 1) loaders filemap
          (w.emit (Event.call child_path i (depth + 1) filemap)) with
      | none => none
      | some (c1, w1) =>
        load_children (station.setChild i c1) cwd ds (i + 1) depth loaders filemap w1
end

/-- The loop of lines 173-182 from index `i` on, over the remaining child
directories of the root `cwd`. -/
def load_stations (telescope : oskar_Telescope) (cwd : oskar_Dir) (children : List DirTree)
    (i : Nat) (loaders : List oskar_TelescopeLoadAbstract) (filemap : FileMap) (w : World) :
    Option (oskar_Telescope × World) :=
  match children with
  | [] => some (telescope, w)
  | d :: ds =>
    -- Get the child directory.
    let child_path := cwd.filePath d.name
    -- Recursive call to load the station.
    match oskar_telescope_station telescope i with
    | none => none
    | some c =>
      match load_directories_station c child_path d (0 + 1) loaders filemap
          (w.emit (Event.call child_path i (0 + 1) filemap)) with
      | none => none
      | some (c1, w1) =>
        load_stations (telescope.setStation i c1) cwd ds (i + 1) loaders filemap w1

/-- The branch `depth == 0` of `load_directories` (lines 127-184): the walk
of the root directory `cwd`, opened at `path`, against the telescope model. -/
def load_directories (telescope : oskar_Telescope) (path : String) (cwd : DirTree)
    (loaders : List oskar_TelescopeLoadAbstract) (filemap : FileMap) (w : World) :
    Option (oskar_Telescope × World) :=
  -- Check if safe to proceed.
  if w.status ≠ 0 then some (telescope, w)
  else
    -- Get a list of all (child) stations in this directory.
    let w0 := w.emit (Event.allSubDirs path)
    -- Load everything at this level.
    let r := load_all loaders 0 telescope ⟨path, cwd⟩ cwd.subs.length filemap w0
    if r.2.2.status ≠ 0 then some (r.1, r.2.2)
    else
      match cwd.subs with
      | [] => some (r.1, r.2.2)
      | [d] =>
        -- One station directory. Load and copy it to all the others.
        let child_path := oskar_Dir.filePath ⟨path, cwd⟩ d.name
        match oskar_telescope_station r.1 0 with
        | none => none
        | some c =>
          match load_directories_station c child_path d (0 + 1) loaders r.2.1
              (r.2.2.emit (Event.call child_path 0 (0 + 1) r.2.1)) with
          | none => none
          | some (c1, w1) =>
            let q := oskar_telescope_duplicate_first_station (r.1.setStation 0 c1) w1.status
            some (q.1, { status := q.2, trace := w1.trace ++ [Event.duplicate_first_station] })
      | d1 :: d2 :: ds =>
        -- Consistency check.
        if (d1 :: d2 :: ds).length ≠ oskar_telescope_num_stations r.1 then
          some (r.1, { r.2.2 with status := OSKAR_ERR_SETUP_FAIL_TELESCOPE_ENTRIES_MISMATCH })
        else
          -- Loop over and descend into all stations.
          load_stations r.1 ⟨path, cwd⟩ (d1 :: d2 :: ds) 0 loaders r.2.1 r.2.2

/-- The classes pushed onto `loaders` by `oskar_telescope_load`, in the
order of the `push_back` calls (lines 85-94). -/
def loader_kinds : List LoaderKind :=
  ((((((((([] ++ [LoaderKind.Position]) ++ [LoaderKind.Layout]) ++ [LoaderKind.GainPhase])
    ++ [LoaderKind.Apodisation]) ++ [LoaderKind.FeedAngle]) ++ [LoaderKind.ElementTypes])
    ++ [LoaderKind.MountTypes]) ++ [LoaderKind.PermittedBeams]) ++ [LoaderKind.ElementPattern])
    ++ [LoaderKind.Noise]

/-- The vector `loaders` built by `oskar_telescope_load`; `impl` gives the
behaviour of each loader class. -/
def create_loaders (impl : LoaderKind → oskar_TelescopeLoadAbstract) :
    List oskar_TelescopeLoadAbstract :=
  loader_kinds.map impl

/-- `oskar_telescope_load` (lines 59-116). `fs` is the file system: the
directory found at a path, if one exists there. `path = none` is the null
pointer. -/
def oskar_telescope_load (impl : LoaderKind → oskar_TelescopeLoadAbstract)
    (fs : String → Option DirTree) (telescope : oskar_Telescope) (path : Option String)
    (w : World) : Option (oskar_Telescope × World) :=
  -- Check if safe to proceed.
  if w.status ≠ 0 then some (telescope, w)
  else
    -- Check that the telescope directory has been set and exists.
    match path with
    | none => some (telescope, { w with status := OSKAR_ERR_FILE_IO })
    | some p =>
      let w1 := w.emit (Event.dir_exists p)
      match fs p with
      | none => some (telescope, { w1 with status := OSKAR_ERR_FILE_IO })
      | some root =>
        -- Check that the telescope model is in CPU memory.
        if oskar_telescope_mem_location telescope ≠ OSKAR_CPU then
          some (telescope, { w1 with status := OSKAR_ERR_BAD_LOCATION })
        else
          -- Create the loaders.
          let w2 : World := { w1 with trace := w1.trace ++ loader_kinds.map Event.new_loader }
          -- Load everything recursively from the telescope directory tree.
          match load_directories telescope p root (create_loaders impl) [] w2 with
          | none => none
          | some (t, w3) =>
            let w4 := if w3.status ≠ 0 then w3.emit (Event.log_load_failed w3.status) else w3
            -- Delete all the loaders.
            let w5 : World :=
              { w4 with trace := w4.trace ++
                  (List.range (create_loaders impl).length).map Event.delete_loader }
            -- (Re-)Set unique station IDs.
            some (oskar_telescope_set_station_ids t, w5.emit Event.set_station_ids)


/-! ## Notions used to state the properties -/

/-- The stage loop of a deeper level as `load_directories_station` runs it:
after the listing, from stage 0, on the directory `t` opened at `path`. -/
def level_station (ls : List oskar_TelescopeLoadAbstract) (s : oskar_Station) (path : String)
    (t : DirTree) (depth : Nat) (fm : FileMap) (w : World) : oskar_Station × FileMap × World :=
  load_all_station ls 0 s ⟨path, t⟩ t.subs.length depth fm (w.emit (Event.allSubDirs path))

/-- The stage loop of the top level as `load_directories` runs it. -/
def level_telescope (ls : List oskar_TelescopeLoadAbstract) (tel : oskar_Telescope)
    (path : String) (t : DirTree) (fm : FileMap) (w : World) :
    oskar_Telescope × FileMap × World :=
  load_all ls 0 tel ⟨path, t⟩ t.subs.length fm (w.emit (Event.allSubDirs path))

/-- For a stage call: the stage index, the directory path and the status
the stage left. -/
def Event.stage? : Event → Option (Nat × String × Int)
  | .load i p _ _ st => some (i, p, st)
  | .load_station i p _ _ _ st => some (i, p, st)
  | _ => none

/-- Whether the event is the report of a failing stage. -/
def Event.isLogError : Event → Bool
  | .log_error _ => true
  | _ => false

/-- The text of the report of a failing stage (lines 143-144, 195-196). -/
def stage_report (name path : String) : String :=
  "Error in " ++ name ++ " in '" ++ path ++ "'."

/-- What stands right before the call of stage `i` for the directory at
`p`: the listing of that directory for stage 0, and otherwise the call of
stage `i - 1` for the same directory, which left status 0. -/
def ready (tr : List Event) (i : Nat) (p : String) : Prop :=
  match i with
  | 0 => tr.getLast? = some (Event.allSubDirs p)
  | j + 1 => ∃ e, tr.getLast? = some e ∧ e.stage? = some (j, p, 0)

/-- The elementary moves of the loader on `*status` and the record of
calls. -/
inductive Step (ls : List oskar_TelescopeLoadAbstract) : World → World → Prop
  /-- A call other than a stage `load` and other than a stage report. -/
  | other (w : World) (e : Event) (h1 : e.stage? = none) (h2 : e.isLogError = false) :
      Step ls w (w.emit e)
  /-- A stage `load` that leaves status 0, made with status 0. -/
  | stage (w : World) (e : Event) (i : Nat) (p : String) (hw : w.status = 0)
      (he : e.stage? = some (i, p, 0)) (hi : i < ls.length) (hr : ready w.trace i p) :
      Step ls w ⟨0, w.trace ++ [e]⟩
  /-- A stage `load` that leaves a non-zero status, made with status 0, and
  the report that follows it. -/
  | stage_fail (w : World) (e : Event) (i : Nat) (p : String) (st : Int)
      (l : oskar_TelescopeLoadAbstract) (hw : w.status = 0) (he : e.stage? = some (i, p, st))
      (hst : st ≠ 0) (hl : ls[i]? = some l) (hr : ready w.trace i p) :
      Step ls w ⟨st, w.trace ++ [e, Event.log_error (stage_report l.name p)]⟩
  /-- An error code set by the loader itself, with status 0. -/
  | fail (w : World) (c : Int) (hw : w.status = 0) : Step ls w ⟨c, w.trace⟩

/-- Zero or more elementary moves. -/
def Reach (ls : List oskar_TelescopeLoadAbstract) : World → World → Prop :=
  Relation.ReflTransGen (Step ls)

/-- The event is neither a stage call that left a non-zero status nor the
report of a failing stage. -/
def Event.quiet (e : Event) : Prop :=
  (∀ i p c, e.stage? = some (i, p, c) → c = 0) ∧ e.isLogError = false

/-- The shape of the record of calls with respect to stage failures: either
no stage has failed and nothing was reported, or the status is the code of
the one failing stage call, its report follows it directly, and no stage
call and no report comes after. -/
def FailInv (ls : List oskar_TelescopeLoadAbstract) (w : World) : Prop :=
  (∀ e ∈ w.trace, e.quiet) ∨
  (w.status ≠ 0 ∧ ∃ pre e i p l post,
    w.trace = pre ++ e :: Event.log_error (stage_report l.name p) :: post ∧
    e.stage? = some (i, p, w.status) ∧ ls[i]? = some l ∧
    (∀ x ∈ pre, x.quiet) ∧ (∀ x ∈ post, x.stage? = none ∧ x.isLogError = false))

/-- Every stage call in the record is made for a stage of the pipeline and
stands right after what `ready` asks for. -/
def Ordered (ls : List oskar_TelescopeLoadAbstract) (tr : List Event) : Prop :=
  ∀ pre e post i p c, tr = pre ++ e :: post → e.stage? = some (i, p, c) →
    i < ls.length ∧ ready pre i p

/-! ## Concrete inputs -/

/-- A layout stage: at the top level it creates `n` empty stations, at a
deeper level one empty child per sub-directory. -/
def exLayout (n : Nat) : oskar_TelescopeLoadAbstract :=
  { name := "layout"
    load := fun t _ _ fm => ({ t with station := List.replicate n (.mk 0 [] []) }, fm, 0)
    load_station := fun s _ k _ fm =>
      (.mk s.unique_id s.data (List.replicate k (.mk 0 [] [])), fm, 0) }

/-- A stage that records the depth in the station it visits and adds an
entry for its directory to the file map. -/
def exGain : oskar_TelescopeLoadAbstract :=
  { name := "gain"
    load := fun t cwd _ fm => (t, ("gain", cwd.path) :: fm, 0)
    load_station := fun s cwd _ depth fm =>
      (.mk s.unique_id ((depth : Int) :: s.data) s.child, ("gain", cwd.path) :: fm, 0) }

/-- A stage that fails with code -5 at depth `failDepth` and does nothing
elsewhere. -/
def exNoise (failDepth : Nat) : oskar_TelescopeLoadAbstract :=
  { name := "noise"
    load := fun t _ _ fm => (t, fm, 0)
    load_station := fun s _ _ depth fm => (s, fm, if depth = failDepth then -5 else 0) }

/-- A stage that does nothing. -/
def exIdle : oskar_TelescopeLoadAbstract :=
  { name := "idle"
    load := fun t _ _ fm => (t, fm, 0)
    load_station := fun s _ _ _ fm => (s, fm, 0) }

/-- Stage behaviours: a layout stage creating `n` stations, a stage that
writes to the file map, a stage failing at depth `failDepth`, and idle
stages otherwise. -/
def exImpl (n failDepth : Nat) : LoaderKind → oskar_TelescopeLoadAbstract
  | .Layout => exLayout n
  | .GainPhase => exGain
  | .Noise => exNoise failDepth
  | _ => exIdle

/-- A telescope directory with sub-directories `A` (holding one
sub-directory `x`) and `B`. -/
def exTreeAB : DirTree :=
  .node "tel" [.node "A" [.node "x" []], .node "B" []]

/-- A telescope directory with the single sub-directory `station0`. -/
def exTreeOne : DirTree :=
  .node "tel" [.node "station0" []]

/-- A file system holding `exTreeAB` at `/tel` and `exTreeOne` at `/one`. -/
def exFs : String → Option DirTree := fun p =>
  if p = "/tel" then some exTreeAB else if p = "/one" then some exTreeOne else none

/-- An empty telescope model in CPU memory. -/
def exTel : oskar_Telescope := ⟨OSKAR_CPU, [], []⟩

/-- The outcome of a load, or the untouched input where the load has no
defined outcome. -/
def exOut (n failDepth : Nat) (path : String) : oskar_Telescope × World :=
  (oskar_telescope_load (exImpl n failDepth) exFs exTel (some path) ⟨0, []⟩).getD
    (exTel, ⟨0, []⟩)

/-- The outcome of the walk inside the load of `/tel` with a stage failing at
depth 2, or the untouched input where the walk has no defined outcome. -/
def exWalk : oskar_Telescope × World :=
  (load_directories exTel "/tel" exTreeAB (create_loaders (exImpl 2 2)) []
    ⟨0, [] ++ Event.dir_exists "/tel" :: loader_kinds.map Event.new_loader⟩).getD
      (exTel, ⟨0, []⟩)

/-- For a recursive call of `load_directories`: the depth it is made at. -/
def Event.callDepth? : Event → Option Nat
  | .call _ _ d _ => some d
  | _ => none

/-- Whether the event is a recursive call of `load_directories`. -/
def Event.isCall (e : Event) : Bool :=
  e.callDepth?.isSome

/-- Whether the event is a recursive call of `load_directories` made at
depth `d`. -/
def Event.isCallAt (d : Nat) (e : Event) : Bool :=
  e.callDepth? == some d

/-- The recursive calls that the loop over the child directories `ds` of
`cwd` makes when it starts at slot index `i`: one call per directory, in
listing order, the directory at position `j` against slot `i + j`, all at
depth `depth` and with the file map `fm`. -/
def calls_of (cwd : oskar_Dir) (depth : Nat) (fm : FileMap) : Nat → List DirTree → List Event
  | _, [] => []
  | i, d :: ds => Event.call (cwd.filePath d.name) i depth fm :: calls_of cwd depth fm (i + 1) ds

/-- A layout stage that creates `n` empty slots at every level. -/
def exLayoutFixed (n : Nat) : oskar_TelescopeLoadAbstract :=
  { name := "layout"
    load := fun t _ _ fm => ({ t with station := List.replicate n (.mk 0 [] []) }, fm, 0)
    load_station := fun s _ _ _ fm =>
      (.mk s.unique_id s.data (List.replicate n (.mk 0 [] [])), fm, 0) }

/-- A two-stage pipeline: a layout stage creating `n` slots at every level
and a stage that writes to the file map. -/
def exPipeline (n : Nat) : List oskar_TelescopeLoadAbstract :=
  [exLayoutFixed n, exGain]

/-- The outcome of the walk of `exTreeAB` against the telescope model with
`exPipeline n`, or the untouched input where it has no defined outcome. -/
def exWalkTel (n : Nat) : oskar_Telescope × World :=
  (load_directories exTel "/tel" exTreeAB (exPipeline n) [] ⟨0, []⟩).getD (exTel, ⟨0, []⟩)

/-- The outcome of the walk of `exTreeAB` against a station at depth 1 with
`exPipeline n`, or the untouched input where it has no defined outcome. -/
def exWalkSta (n : Nat) : oskar_Station × World :=
  (load_directories_station (.mk 0 [] []) "/tel" exTreeAB 1 (exPipeline n) []
    ⟨0, []⟩).getD (.mk 0 [] [], ⟨0, []⟩)

/-- The world whose record of calls is `tr` followed by the record of `w`. -/
def World.prepend (tr : List Event) (w : World) : World :=
  ⟨w.status, tr ++ w.trace⟩

/-- An outcome with `tr` put in front of its record of calls. -/
def shift {α : Type} (tr : List Event) (r : Option (α × World)) : Option (α × World) :=
  r.map (fun x => (x.1, x.2.prepend tr))

mutual
/-- The identifiers of a station and of all its descendants, in pre-order. -/
def station_ids : oskar_Station → List Int
  | .mk u _ c => u :: station_ids_list c
/-- The identifiers of the stations of a sequence and of all their
descendants. -/
def station_ids_list : List oskar_Station → List Int
  | [] => []
  | s :: rest => station_ids s ++ station_ids_list rest
end

/-- The identifiers of all stations of the telescope model, at every
nesting depth. -/
def telescope_ids (telescope : oskar_Telescope) : List Int :=
  station_ids_list telescope.station

mutual
/-- The station with its identifier and the identifiers of all its
descendants set to 0. -/
def erase_ids : oskar_Station → oskar_Station
  | .mk _ d c => .mk 0 d (erase_ids_list c)
/-- The stations of a sequence with all identifiers set to 0. -/
def erase_ids_list : List oskar_Station → List oskar_Station
  | [] => []
  | s :: rest => erase_ids s :: erase_ids_list rest
end

/-- The directory of the level reached from the directory `t` along the
slot indices `path`: at a level with exactly one child directory every slot
is described by that directory, at any other level slot `i` is described by
the `i`-th listed child directory. -/
def dirAt : List Nat → DirTree → Option DirTree
  | [], t => some t
  | i :: rest, t =>
    match t.subs with
    | [d] => dirAt rest d
    | subs => (subs[i]?).bind (dirAt rest)

/-- The slot array of the level reached from the slot array `ss` along the
slot indices `path`. -/
def slotsAt : List Nat → List oskar_Station → Option (List oskar_Station)
  | [], ss => some ss
  | i :: rest, ss => (ss[i]?).bind (fun s => slotsAt rest s.child)

/-- At every level below (and including) the one of directory `t` and slot
array `ss` whose directory has exactly one child directory, every slot
equals slot 0. -/
def Uniform (t : DirTree) (ss : List oskar_Station) : Prop :=
  ∀ path d slots, dirAt path t = some d → d.subs.length = 1 →
    slotsAt path ss = some slots → ∀ c0, slots[0]? = some c0 → ∀ c ∈ slots, c = c0

/-! ## Further notions for the properties of the stage calls -/

/-- For a stage call: whether it is the telescope-level `load`, the stage
index, the directory path, the `num_subdirs` argument and the depth argument
(0 for the telescope-level `load`, which has none). -/
def Event.loadArgs? : Event → Option (Bool × Nat × String × Nat × Nat)
  | .load i p k _ _ => some (true, i, p, k, 0)
  | .load_station i p k d _ _ => some (false, i, p, k, d)
  | _ => none

/-- Whether the event is an error report of either kind. -/
def Event.isReport : Event → Bool
  | .log_error _ => true
  | .log_load_failed _ => true
  | _ => false

/-- Whether the event is the listing of a directory. -/
def Event.isListing : Event → Bool
  | .allSubDirs _ => true
  | _ => false

mutual
/-- The station-level stage calls of a walk that visits the directory `t`,
opened at `path`, at depth `depth`, and every directory below it, with a
pipeline of `n` stages: for each directory, in the order of the walk, one
call per stage, with the number of immediate sub-directories and the
distance from the root. -/
def expected_station (n : Nat) (path : String) (depth : Nat) :
    DirTree → List (Bool × Nat × String × Nat × Nat)
  | .node name subs =>
    (List.range n).map (fun i => (false, i, path, subs.length, depth)) ++
      expected_children n ⟨path, .node name subs⟩ (depth + 1) subs
/-- The station-level stage calls for the child directories `ds` of `cwd`,
which lie at depth `depth`. -/
def expected_children (n : Nat) (cwd : oskar_Dir) (depth : Nat) :
    List DirTree → List (Bool × Nat × String × Nat × Nat)
  | [] => []
  | d :: ds =>
    expected_station n (cwd.filePath d.name) depth d ++ expected_children n cwd depth ds
end

/-- The stage calls of a walk that visits every directory of the tree `t`
opened at `path`: the telescope-level calls for the root, then the
station-level calls for every directory below it. -/
def expected_root (n : Nat) (path : String) (t : DirTree) :
    List (Bool × Nat × String × Nat × Nat) :=
  (List.range n).map (fun i => (true, i, path, t.subs.length, 0)) ++
    expected_children n ⟨path, t⟩ (0 + 1) t.subs

mutual
/-- The number of directories of a tree. -/
def dir_count : DirTree → Nat
  | .node _ subs => 1 + dir_count_list subs
/-- The number of directories of a sequence of trees. -/
def dir_count_list : List DirTree → Nat
  | [] => 0
  | d :: ds => dir_count d + dir_count_list ds
end


/-- The outcome of the walk of `exTreeOne` against the telescope model with
`exPipeline n`, or the untouched input where it has no defined outcome. -/
def exOneTel (n : Nat) : oskar_Telescope × World :=
  (load_directories exTel "/one" exTreeOne (exPipeline n) [] ⟨0, []⟩).getD (exTel, ⟨0, []⟩)

/-- What a walk of a directory at depth `depth`, entered with the file map
`fm`, admits as event, for the file map `fm1` its stage loop leaves: stage
calls lie at depth `depth` or deeper and recursive calls strictly deeper,
the first stage at depth `depth` receives `fm`, and at depth `depth + 1`
every recursive call and every first stage receives `fm1`. -/
def Event.walkOk (depth : Nat) (fm fm1 : FileMap) : Event → Prop
  | .load_station j _ _ d f _ =>
    depth ≤ d ∧ (d = depth → j = 0 → f = fm) ∧ (d = depth + 1 → j = 0 → f = fm1)
  | .call _ _ d f => depth < d ∧ (d = depth + 1 → f = fm1)
  | _ => True

/-- What the loop over the child directories at depth `depth`, run with the
file map `fm`, admits as event: stage calls and recursive calls lie at depth
`depth` or deeper, and at depth `depth` every recursive call and every first
stage receives `fm`. -/
def Event.childOk (depth : Nat) (fm : FileMap) : Event → Prop
  | .load_station j _ _ d f _ => depth ≤ d ∧ (d = depth → j = 0 → f = fm)
  | .call _ _ d f => depth ≤ d ∧ (d = depth → f = fm)
  | _ => True

/-- Whether the event is a stage call that left a non-zero status. -/
def Event.isFailedStage (e : Event) : Bool :=
  match e.stage? with
  | some (_, _, c) => c != 0
  | none => false

/-- A stretch `Δ` of the record, entered with status `s` and left with status
`s1`, is accounted for: either it holds no error report and the status is
unchanged or is the mismatch code, or it holds a stage call that left a
non-zero status. -/
def Accounted (s s1 : Int) (Δ : List Event) : Prop :=
  ((∀ e ∈ Δ, e.isReport = false) ∧
      (s1 = s ∨ s1 = OSKAR_ERR_SETUP_FAIL_TELESCOPE_ENTRIES_MISMATCH)) ∨
    ∃ e ∈ Δ, e.isFailedStage = true

/-- A file system holding `exTreeAB` at `/other` only. -/
def exFsOther : String → Option DirTree := fun p =>
  if p = "/other" then some exTreeAB else none

/-- The outcome of a load from `exFsOther`, or the untouched input where the
load has no defined outcome. -/
def exOutOther (n failDepth : Nat) (path : String) : oskar_Telescope × World :=
  (oskar_telescope_load (exImpl n failDepth) exFsOther exTel (some path) ⟨0, []⟩).getD
    (exTel, ⟨0, []⟩)

/-! ## The reader of the visibility header (`oskar_vis_header_read.c`) -/

/-- The tags that `oskar_vis_header_read` reads. `OSKAR_TAG_SETTINGS` belongs
to the group `OSKAR_TAG_GROUP_SETTINGS`, every other tag to the group
`OSKAR_TAG_GROUP_VIS_HEADER`; the user index is 0 in every read. -/
inductive oskar_Tag
  | OSKAR_VIS_HEADER_TAG_WRITE_AUTOCORRELATIONS
  | OSKAR_VIS_HEADER_TAG_AMP_TYPE
  | OSKAR_VIS_HEADER_TAG_MAX_TIMES_PER_BLOCK
  | OSKAR_VIS_HEADER_TAG_NUM_TIMES_TOTAL
  | OSKAR_VIS_HEADER_TAG_NUM_CHANNELS
  | OSKAR_VIS_HEADER_TAG_NUM_STATIONS
  | OSKAR_TAG_SETTINGS
  | OSKAR_VIS_HEADER_TAG_TELESCOPE_PATH
  | OSKAR_VIS_HEADER_TAG_FREQ_START_HZ
  | OSKAR_VIS_HEADER_TAG_FREQ_INC_HZ
  | OSKAR_VIS_HEADER_TAG_CHANNEL_BANDWIDTH_HZ
  | OSKAR_VIS_HEADER_TAG_TIME_START_MJD_UTC
  | OSKAR_VIS_HEADER_TAG_TIME_INC_SEC
  | OSKAR_VIS_HEADER_TAG_TIME_AVERAGE_SEC
  | OSKAR_VIS_HEADER_TAG_PHASE_CENTRE
  | OSKAR_VIS_HEADER_TAG_TELESCOPE_CENTRE
  | OSKAR_VIS_HEADER_TAG_STATION_X_OFFSET_ECEF
  | OSKAR_VIS_HEADER_TAG_STATION_Y_OFFSET_ECEF
  | OSKAR_VIS_HEADER_TAG_STATION_Z_OFFSET_ECEF
deriving DecidableEq, Repr

/-- The fields of `oskar_VisHeader` that `oskar_vis_header_read` passes or
fills; `V` is the type of what a field other than the integer metadata
holds (a number, a pair or triple of numbers, or a block of memory). -/
structure oskar_VisHeader (V : Type) where
  amp_type : Int
  max_times_per_block : Int
  num_times_total : Int
  num_channels : Int
  num_stations : Int
  write_autocorr : Int
  settings : V
  telescope_path : V
  freq_start_hz : V
  freq_inc_hz : V
  channel_bandwidth_hz : V
  time_start_mjd_utc : V
  time_inc_sec : V
  time_average_sec : V
  phase_centre : V
  telescope_centre : V
  station_x_offset_ecef_metres : V
  station_y_offset_ecef_metres : V
  station_z_offset_ecef_metres : V

/-- The functions that `oskar_vis_header_read` calls and that are not among
the sources, taken as parameters. `H` is the state of the binary file handle.
A read takes the handle, the tag, the present content of its destination and
the value of the status variable it is given, and returns the handle, the
new content of the destination and the value it leaves in that variable.
`oskar_vis_header_create` takes the six integers and the status and returns
the new header and the status it leaves. -/
structure oskar_BinaryLib (H V : Type) where
  oskar_set_invalid_argument : Int → Int
  oskar_binary_read_int : H → oskar_Tag → Int → Int → H × Int × Int
  oskar_binary_read_double : H → oskar_Tag → V → Int → H × V × Int
  oskar_binary_read : H → oskar_Tag → V → Int → H × V × Int
  oskar_binary_read_mem : H → oskar_Tag → V → Int → H × V × Int
  oskar_vis_header_create : Int → Int → Int → Int → Int → Int → Int → oskar_VisHeader V × Int

/-- What a call of `oskar_vis_header_read` leaves: the returned header (`none`
for the null pointer), the handle, `*status`, the local `tag_error`, and the
reads made, in order, each with the value it left in the variable it was
given (`*status`, and `tag_error` for the settings read). -/
structure VisRead (H V : Type) where
  vis : Option (oskar_VisHeader V)
  h : Option H
  status : Int
  tag_error : Int
  reads : List (oskar_Tag × Int)

/-- The function `oskar_vis_header_read` (lines 39-120). The handle is `none`
for a null `h`; the status pointer is taken to be valid. -/
def oskar_vis_header_read {H V : Type} (lib : oskar_BinaryLib H V) (h : Option H)
    (status : Int) : VisRead H V :=
  match h with
  | none => ⟨none, none, lib.oskar_set_invalid_argument status, 0, []⟩
  | some h =>
    if status ≠ 0 then ⟨none, some h, status, 0, []⟩
    else
      let r1 := lib.oskar_binary_read_int h
        .OSKAR_VIS_HEADER_TAG_WRITE_AUTOCORRELATIONS 0 status
      let r2 := lib.oskar_binary_read_int r1.1 .OSKAR_VIS_HEADER_TAG_AMP_TYPE 0 r1.2.2
      let r3 := lib.oskar_binary_read_int r2.1 .OSKAR_VIS_HEADER_TAG_MAX_TIMES_PER_BLOCK 0 r2.2.2
      let r4 := lib.oskar_binary_read_int r3.1 .OSKAR_VIS_HEADER_TAG_NUM_TIMES_TOTAL 0 r3.2.2
      let r5 := lib.oskar_binary_read_int r4.1 .OSKAR_VIS_HEADER_TAG_NUM_CHANNELS 0 r4.2.2
      let r6 := lib.oskar_binary_read_int r5.1 .OSKAR_VIS_HEADER_TAG_NUM_STATIONS 0 r5.2.2
      let essential : List (oskar_Tag × Int) :=
        [(.OSKAR_VIS_HEADER_TAG_WRITE_AUTOCORRELATIONS, r1.2.2),
          (.OSKAR_VIS_HEADER_TAG_AMP_TYPE, r2.2.2),
          (.OSKAR_VIS_HEADER_TAG_MAX_TIMES_PER_BLOCK, r3.2.2),
          (.OSKAR_VIS_HEADER_TAG_NUM_TIMES_TOTAL, r4.2.2),
          (.OSKAR_VIS_HEADER_TAG_NUM_CHANNELS, r5.2.2),
          (.OSKAR_VIS_HEADER_TAG_NUM_STATIONS, r6.2.2)]
      if r6.2.2 ≠ 0 then ⟨none, some r6.1, r6.2.2, 0, essential⟩
      else
        let c := lib.oskar_vis_header_create r2.2.1 r3.2.1 r4.2.1 r5.2.1 r6.2.1 r1.2.1 r6.2.2
        let vis := c.1
        let s := lib.oskar_binary_read_mem r6.1 .OSKAR_TAG_SETTINGS vis.settings 0
        let p := lib.oskar_binary_read_mem s.1 .OSKAR_VIS_HEADER_TAG_TELESCOPE_PATH
          vis.telescope_path c.2
        let f1 := lib.oskar_binary_read_double p.1 .OSKAR_VIS_HEADER_TAG_FREQ_START_HZ
          vis.freq_start_hz p.2.2
        let f2 := lib.oskar_binary_read_double f1.1 .OSKAR_VIS_HEADER_TAG_FREQ_INC_HZ
          vis.freq_inc_hz f1.2.2
        let f3 := lib.oskar_binary_read_double f2.1 .OSKAR_VIS_HEADER_TAG_CHANNEL_BANDWIDTH_HZ
          vis.channel_bandwidth_hz f2.2.2
        let t1 := lib.oskar_binary_read_double f3.1 .OSKAR_VIS_HEADER_TAG_TIME_START_MJD_UTC
          vis.time_start_mjd_utc f3.2.2
        let t2 := lib.oskar_binary_read_double t1.1 .OSKAR_VIS_HEADER_TAG_TIME_INC_SEC
          vis.time_inc_sec t1.2.2
        let t3 := lib.oskar_binary_read_double t2.1 .OSKAR_VIS_HEADER_TAG_TIME_AVERAGE_SEC
          vis.time_average_sec t2.2.2
        let c1 := lib.oskar_binary_read t3.1 .OSKAR_VIS_HEADER_TAG_PHASE_CENTRE
          vis.phase_centre t3.2.2
        let c2 := lib.oskar_binary_read c1.1 .OSKAR_VIS_HEADER_TAG_TELESCOPE_CENTRE
          vis.telescope_centre c1.2.2
        let x := lib.oskar_binary_read_mem c2.1 .OSKAR_VIS_HEADER_TAG_STATION_X_OFFSET_ECEF
          vis.station_x_offset_ecef_metres c2.2.2
        let y := lib.oskar_binary_read_mem x.1 .OSKAR_VIS_HEADER_TAG_STATION_Y_OFFSET_ECEF
          vis.station_y_offset_ecef_metres x.2.2
        let z := lib.oskar_binary_read_mem y.1 .OSKAR_VIS_HEADER_TAG_STATION_Z_OFFSET_ECEF
          vis.station_z_offset_ecef_metres y.2.2
        ⟨some { vis with
            settings := s.2.1, telescope_path := p.2.1, freq_start_hz := f1.2.1,
            freq_inc_hz := f2.2.1, channel_bandwidth_hz := f3.2.1,
            time_start_mjd_utc := t1.2.1, time_inc_sec := t2.2.1, time_average_sec := t3.2.1,
            phase_centre := c1.2.1, telescope_centre := c2.2.1,
            station_x_offset_ecef_metres := x.2.1, station_y_offset_ecef_metres := y.2.1,
            station_z_offset_ecef_metres := z.2.1 },
          some z.1, z.2.2, s.2.2,
          essential ++
            [(.OSKAR_TAG_SETTINGS, s.2.2),
              (.OSKAR_VIS_HEADER_TAG_TELESCOPE_PATH, p.2.2),
              (.OSKAR_VIS_HEADER_TAG_FREQ_START_HZ, f1.2.2),
              (.OSKAR_VIS_HEADER_TAG_FREQ_INC_HZ, f2.2.2),
              (.OSKAR_VIS_HEADER_TAG_CHANNEL_BANDWIDTH_HZ, f3.2.2),
              (.OSKAR_VIS_HEADER_TAG_TIME_START_MJD_UTC, t1.2.2),
              (.OSKAR_VIS_HEADER_TAG_TIME_INC_SEC, t2.2.2),
              (.OSKAR_VIS_HEADER_TAG_TIME_AVERAGE_SEC, t3.2.2),
              (.OSKAR_VIS_HEADER_TAG_PHASE_CENTRE, c1.2.2),
              (.OSKAR_VIS_HEADER_TAG_TELESCOPE_CENTRE, c2.2.2),
              (.OSKAR_VIS_HEADER_TAG_STATION_X_OFFSET_ECEF, x.2.2),
              (.OSKAR_VIS_HEADER_TAG_STATION_Y_OFFSET_ECEF, y.2.2),
              (.OSKAR_VIS_HEADER_TAG_STATION_Z_OFFSET_ECEF, z.2.2)]⟩

/-- No read clears an error: a read given a non-zero status leaves a non-zero
status. -/
def oskar_BinaryLib.KeepsError {H V : Type} (lib : oskar_BinaryLib H V) : Prop :=
  (∀ h t v s, s ≠ 0 → (lib.oskar_binary_read_int h t v s).2.2 ≠ 0) ∧
  (∀ h t v s, s ≠ 0 → (lib.oskar_binary_read_double h t v s).2.2 ≠ 0) ∧
  (∀ h t v s, s ≠ 0 → (lib.oskar_binary_read h t v s).2.2 ≠ 0) ∧
  (∀ h t v s, s ≠ 0 → (lib.oskar_binary_read_mem h t v s).2.2 ≠ 0)

/-- A read of the example library: given a non-zero status it does nothing,
otherwise it advances the handle, stores `val` and leaves the code `err`. -/
def exRead {α : Type} (val : α) (err : Int) (h : Nat) (v : α) (s : Int) : Nat × α × Int :=
  if s ≠ 0 then (h, v, s) else (h + 1, val, err)

/-- An example library over a file in which the read of tag `t` gives the
code `err t`; the header is created from the six integers with status 0. -/
def exLib (err : oskar_Tag → Int) : oskar_BinaryLib Nat Int where
  oskar_set_invalid_argument := fun _ => -11
  oskar_binary_read_int := fun h t v s => exRead 3 (err t) h v s
  oskar_binary_read_double := fun h t v s => exRead 5 (err t) h v s
  oskar_binary_read := fun h t v s => exRead 7 (err t) h v s
  oskar_binary_read_mem := fun h t v s => exRead 9 (err t) h v s
  oskar_vis_header_create := fun a b c d e f s =>
    (⟨a, b, c, d, e, f, 0, 0, 0, 0, 0, 0, 0, 0, 0, 0, 0, 0, 0⟩, s)

/-- The file in which only the read of tag `t` fails, with code `code`. -/
def exErrAt (t : oskar_Tag) (code : Int) : oskar_Tag → Int :=
  fun x => if x = t then code else 0

/-! ## The image direction cosines (`oskar_evaluate_image_lmn_point.c`) -/

/-- The function `oskar_evaluate_image_lmn_point` (lines 39-55; the block
under `#if 0` is not compiled). The outputs `*l`, `*m`, `*n` are returned as
a triple; `sin` and `cos` of `math.h` are parameters. -/
def oskar_evaluate_image_lmn_point {R : Type} [Add R] [Sub R] [Mul R] (sin cos : R → R)
    (ra0 dec0 ra dec : R) : R × R × R :=
  (sin (ra - ra0) * cos dec,
    cos dec0 * sin dec - sin dec0 * cos dec * cos (ra - ra0),
    sin dec0 * sin dec + cos dec0 * cos dec * cos (ra - ra0))

/-! ## The reader of the station coordinates
(`oskar_telescope_load_station_coords.c`) -/

namespace Coords

/-- Modelled from the spec: `oskar_global.h` is not among the sources. Error
kind for a telescope model of an unsupported numeric type. -/
def OSKAR_ERR_BAD_DATA_TYPE : Int := -13

/-- The fields of the telescope model that `oskar_telescope_load_station_coords`
reads or writes itself; `R` is the type of a number, and `D` holds everything
that only the library functions touch (the station array and the coordinate
arrays). -/
structure oskar_Telescope (D R : Type) where
  longitude_rad : R
  latitude_rad : R
  altitude_m : R
  num_stations : Int
  coord_units : Int
  data : D

/-- The functions and constants that `oskar_telescope_load_station_coords`
uses and that are not among the sources, taken as parameters. `fopen` gives
the lines of the file, which `oskar_getline` then returns one by one until
`OSKAR_ERR_EOF`, or `none` when the file cannot be opened.
`oskar_string_to_array_d` takes the line, the size of the array and the
array, and returns the number of values parsed and the array.
`oskar_station_set_position` stands for the call on
`oskar_telescope_station(telescope, n)` and takes `n`. A function with a
status argument returns the status it leaves. -/
structure oskar_CoordsLib (D R : Type) where
  OSKAR_SINGLE : Int
  OSKAR_DOUBLE : Int
  OSKAR_METRES : Int
  oskar_set_invalid_argument : Int → Int
  oskar_telescope_type : oskar_Telescope D R → Int
  fopen : String → Option (List String)
  oskar_string_to_array_d : String → Nat → R × R × R → Nat × (R × R × R)
  oskar_telescope_resize : oskar_Telescope D R → Nat → Int → oskar_Telescope D R × Int
  oskar_horizon_plane_to_offset_geocentric_cartesian_d : R → R → R → R → R → R × R × R
  oskar_telescope_set_station_coords :
    oskar_Telescope D R → Nat → R → R → R → R → R → R → Int → oskar_Telescope D R × Int
  oskar_offset_geocentric_cartesian_to_geocentric_cartesian :
    R → R → R → R → R → R → R × R × R
  oskar_geocentric_cartesian_to_geodetic_spherical : R → R → R → R × R × R
  oskar_station_set_position : oskar_Telescope D R → Nat → R → R → R → oskar_Telescope D R

/-- The calls that the reader makes to the file and to the functions that
change the model, as recorded in the order in which they happen; a call with
a status argument is recorded with the status it left. -/
inductive Call (R : Type) where
  | fopen (filename : String) (opened : Bool)
  | resize (size : Nat) (status : Int)
  | set_station_coords (n : Nat) (x y z hx hy hz : R) (status : Int)
  | set_position (n : Nat) (lon lat alt : R)
  | fclose
deriving DecidableEq, Repr

/-- The state of the loop over the lines (lines 87-135): the model, `*status`,
the counter `n`, the calls made, and whether the loop ran to the end of the
file (`false`: it left through one of the `return` statements). -/
structure Lines (D R : Type) where
  telescope : oskar_Telescope D R
  status : Int
  n : Nat
  calls : List (Call R)
  finished : Bool

/-- The loop over the lines of the file (lines 87-135), from the counter
value `n` on. The counter is a natural number: a file has fewer than `2^31`
lines. -/
def read_lines {D R : Type} [Zero R] (lib : oskar_CoordsLib D R) (longitude latitude altitude : R) :
    List String → Nat → oskar_Telescope D R → Int → List (Call R) → Lines D R
  | [], n, telescope, status, calls => ⟨telescope, status, n, calls, true⟩
  | line :: rest, n, telescope, status, calls =>
    let par := lib.oskar_string_to_array_d line 3 (0, 0, 0)
    if par.1 < 2 then read_lines lib longitude latitude altitude rest n telescope status calls
    else
      let r : oskar_Telescope D R × Int × List (Call R) :=
        if telescope.num_stations ≤ (n : Int) then
          let q := lib.oskar_telescope_resize telescope (n + 1) status
          (q.1, q.2, calls ++ [Call.resize (n + 1) q.2])
        else (telescope, status, calls)
      if telescope.num_stations ≤ (n : Int) ∧ r.2.1 ≠ 0 then ⟨r.1, r.2.1, n, r.2.2, false⟩
      else
        let c := lib.oskar_horizon_plane_to_offset_geocentric_cartesian_d
          par.2.1 par.2.2.1 par.2.2.2 longitude latitude
        let s := lib.oskar_telescope_set_station_coords r.1 n c.1 c.2.1 c.2.2
          par.2.1 par.2.2.1 par.2.2.2 r.2.1
        let calls1 := r.2.2 ++
          [Call.set_station_coords n c.1 c.2.1 c.2.2 par.2.1 par.2.2.1 par.2.2.2 s.2]
        if s.2 ≠ 0 then ⟨s.1, s.2, n, calls1, false⟩
        else
          let e := lib.oskar_offset_geocentric_cartesian_to_geocentric_cartesian
            c.1 c.2.1 c.2.2 longitude latitude altitude
          let g := lib.oskar_geocentric_cartesian_to_geodetic_spherical e.1 e.2.1 e.2.2
          read_lines lib longitude latitude altitude rest (n + 1)
            (lib.oskar_station_set_position s.1 n g.1 g.2.1 g.2.2) s.2
            (calls1 ++ [Call.set_position n g.1 g.2.1 g.2.2])

/-- What a call of `oskar_telescope_load_station_coords` leaves: the model
(`none` for a null pointer), `*status` and the calls made. -/
structure Run (D R : Type) where
  telescope : Option (oskar_Telescope D R)
  status : Int
  calls : List (Call R)

/-- The function `oskar_telescope_load_station_coords` (lines 45-146).
`telescope` and `filename` are `none` for a null pointer; the status pointer
is taken to be valid. -/
def oskar_telescope_load_station_coords {D R : Type} [Zero R] (lib : oskar_CoordsLib D R)
    (telescope : Option (oskar_Telescope D R)) (filename : Option String)
    (longitude latitude altitude : R) (status : Int) : Run D R :=
  match telescope, filename with
  | some tel, some name =>
    if status ≠ 0 then ⟨some tel, status, []⟩
    else if lib.oskar_telescope_type tel ≠ lib.OSKAR_SINGLE ∧
        lib.oskar_telescope_type tel ≠ lib.OSKAR_DOUBLE then
      ⟨some tel, OSKAR_ERR_BAD_DATA_TYPE, []⟩
    else
      match lib.fopen name with
      | none => ⟨some tel, OSKAR_ERR_FILE_IO, [Call.fopen name false]⟩
      | some lines =>
        let out := read_lines lib longitude latitude altitude lines 0
          { tel with longitude_rad := longitude, latitude_rad := latitude,
                     altitude_m := altitude }
          status [Call.fopen name true]
        if out.finished then
          ⟨some { out.telescope with num_stations := out.n,
                                      coord_units := lib.OSKAR_METRES },
            out.status, out.calls ++ [Call.fclose]⟩
        else ⟨some out.telescope, out.status, out.calls ++ [Call.fclose]⟩
  | _, _ => ⟨telescope, lib.oskar_set_invalid_argument status, []⟩

/-- The lines from which at least two values are parsed, in file order. -/
def valid_lines {D R : Type} [Zero R] (lib : oskar_CoordsLib D R) (lines : List String) :
    List String :=
  lines.filter (fun line => 2 ≤ (lib.oskar_string_to_array_d line 3 (0, 0, 0)).1)

/-- Whether the call stores coordinates or a position of a station. -/
def Call.isStore {R : Type} : Call R → Bool
  | .set_station_coords _ _ _ _ _ _ _ _ => true
  | .set_position _ _ _ _ => true
  | _ => false

/-- The two calls that store what line `line` supplies for station `n`: the
coordinates converted from the values parsed from the line, with status 0,
and the position derived from them. -/
def stores {D R : Type} [Zero R] (lib : oskar_CoordsLib D R) (longitude latitude altitude : R)
    (n : Nat) (line : String) : List (Call R) :=
  let par := lib.oskar_string_to_array_d line 3 (0, 0, 0)
  let c := lib.oskar_horizon_plane_to_offset_geocentric_cartesian_d
    par.2.1 par.2.2.1 par.2.2.2 longitude latitude
  let e := lib.oskar_offset_geocentric_cartesian_to_geocentric_cartesian
    c.1 c.2.1 c.2.2 longitude latitude altitude
  let g := lib.oskar_geocentric_cartesian_to_geodetic_spherical e.1 e.2.1 e.2.2
  [Call.set_station_coords n c.1 c.2.1 c.2.2 par.2.1 par.2.2.1 par.2.2.2 0,
    Call.set_position n g.1 g.2.1 g.2.2]

/-- The calls that store what the lines supply for the stations `n`,
`n + 1`, ... in turn. -/
def stores_from {D R : Type} [Zero R] (lib : oskar_CoordsLib D R)
    (longitude latitude altitude : R) : Nat → List String → List (Call R)
  | _, [] => []
  | n, line :: rest =>
    stores lib longitude latitude altitude n line ++
      stores_from lib longitude latitude altitude (n + 1) rest

/-- An example library over whole numbers: the model data are the numeric
type and the coordinates of the stations; the file `layout.txt` has four
lines, two of which give at least two values; the conversions keep or swap
their arguments; a function given a non-zero status does nothing. -/
def exCoordsLib : oskar_CoordsLib (Int × List (Int × Int × Int)) Int where
  OSKAR_SINGLE := 4
  OSKAR_DOUBLE := 8
  OSKAR_METRES := 1
  oskar_set_invalid_argument := fun _ => -3
  oskar_telescope_type := fun t => t.data.1
  fopen := fun name => if name = "layout.txt" then some ["1 2 3", "# x", "4 5", "7"] else none
  oskar_string_to_array_d := fun line _ par =>
    if line = "1 2 3" then (3, (1, 2, 3))
    else if line = "4 5" then (2, (4, 5, par.2.2))
    else if line = "7" then (1, (7, par.2.1, par.2.2))
    else (0, par)
  oskar_telescope_resize := fun t n s =>
    if s ≠ 0 then (t, s)
    else ({ t with num_stations := n,
                   data := (t.data.1, (t.data.2 ++ List.replicate n (0, 0, 0)).take n) }, 0)
  oskar_horizon_plane_to_offset_geocentric_cartesian_d := fun hx hy hz _ _ => (hy, hx, hz)
  oskar_telescope_set_station_coords := fun t n x y z _ _ _ s =>
    if s ≠ 0 then (t, s) else ({ t with data := (t.data.1, t.data.2.set n (x, y, z)) }, 0)
  oskar_offset_geocentric_cartesian_to_geocentric_cartesian := fun x y z _ _ _ => (x, y, z)
  oskar_geocentric_cartesian_to_geodetic_spherical := fun x y z => (x, y, z)
  oskar_station_set_position := fun t _ _ _ _ => t

/-- A model of double precision that holds five stations. -/
def exCoordsTel : oskar_Telescope (Int × List (Int × Int × Int)) Int :=
  ⟨0, 0, 0, 5, 0, (8, List.replicate 5 (9, 9, 9))⟩

end Coords

/-! ## Loader objects with data members

The interface `oskar_TelescopeLoadAbstract` is implemented by ten classes, of
which only `TelescopeLoaderPosition` is declared among the sources. Here a
loader is an object on the heap with data members of its own, which a `load`
may read and write; `oskar_telescope_load` creates the objects with `new`,
`load_directories` calls them through the pointers in `loaders`, and
`oskar_telescope_load` deletes them. -/

namespace Objects

/-- A loader object: its `name`, its data members `state`, and its two `load`
methods, which receive the data members with the arguments of the call and
return the new data members, the new model, the new file map and the status
they leave. -/
structure oskar_TelescopeLoadAbstract (σ : Type) where
  name : String
  state : σ
  load : σ → oskar_Telescope → oskar_Dir → Nat → FileMap → σ × oskar_Telescope × FileMap × Int
  load_station :
    σ → oskar_Station → oskar_Dir → Nat → Nat → FileMap → σ × oskar_Station × FileMap × Int

/-- The state of the program around a load: `*status`, the record of calls,
and the heap of loader objects. A pointer to a loader is an index into the
heap; a cell is `none` once the object was deleted. -/
structure Machine (σ : Type) where
  status : Int
  trace : List Event
  heap : List (Option (oskar_TelescopeLoadAbstract σ))

/-- Record one more call. -/
def Machine.emit {σ : Type} (m : Machine σ) (e : Event) : Machine σ :=
  { m with trace := m.trace ++ [e] }

/-- The stage loop of the top level (lines 138-148), from stage index `i`
on, over the pointers that remain. A call through a pointer to no live
object has no defined behaviour (`none`). -/
def load_all {σ : Type} : List Nat → Nat → oskar_Telescope → oskar_Dir → Nat → FileMap →
    Machine σ → Option (oskar_Telescope × FileMap × Machine σ)
  | [], _, telescope, _, _, filemap, m => some (telescope, filemap, m)
  | p :: rest, i, telescope, cwd, num_dirs, filemap, m =>
    match m.heap[p]? with
    | some (some l) =>
      let r := l.load l.state telescope cwd num_dirs filemap
      let m1 : Machine σ :=
        { status := r.2.2.2,
          trace := m.trace ++ [Event.load i cwd.path num_dirs filemap r.2.2.2],
          heap := m.heap.set p (some { l with state := r.1 }) }
      if r.2.2.2 ≠ 0 then
        some (r.2.1, r.2.2.1,
          m1.emit (Event.log_error ("Error in " ++ l.name ++ " in '" ++ cwd.absolutePath ++ "'.")))
      else load_all rest (i + 1) r.2.1 cwd num_dirs r.2.2.1 m1
    | _ => none

/-- The stage loop of a deeper level (lines 190-200), from stage index `i`
on, over the pointers that remain. -/
def load_all_station {σ : Type} : List Nat → Nat → oskar_Station → oskar_Dir → Nat → Nat →
    FileMap → Machine σ → Option (oskar_Station × FileMap × Machine σ)
  | [], _, station, _, _, _, filemap, m => some (station, filemap, m)
  | p :: rest, i, station, cwd, num_dirs, depth, filemap, m =>
    match m.heap[p]? with
    | some (some l) =>
      let r := l.load_station l.state station cwd num_dirs depth filemap
      let m1 : Machine σ :=
        { status := r.2.2.2,
          trace := m.trace ++ [Event.load_station i cwd.path num_dirs depth filemap r.2.2.2],
          heap := m.heap.set p (some { l with state := r.1 }) }
      if r.2.2.2 ≠ 0 then
        some (r.2.1, r.2.2.1,
          m1.emit (Event.log_error ("Error in " ++ l.name ++ " in '" ++ cwd.absolutePath ++ "'.")))
      else load_all_station rest (i + 1) r.2.1 cwd num_dirs depth r.2.2.1 m1
    | _ => none

mutual
/-- The branch `depth != 0` of `load_directories` (lines 127-132 and
186-236), with `loaders` the vector of pointers to the loader objects. -/
def load_directories_station {σ : Type} (station : oskar_Station) (path : String)
    (cwd : DirTree) (depth : Nat) (loaders : List Nat) (filemap : FileMap) (m : Machine σ) :
    Option (oskar_Station × Machine σ) :=
  match cwd with
  | .node name subs =>
    -- Check if safe to proceed.
    if m.status ≠ 0 then some (station, m)
    else
      -- Load everything at this level.
      match load_all_station loaders 0 station ⟨path, .node name subs⟩ subs.length depth
          filemap (m.emit (Event.allSubDirs path)) with
      | none => none
      | some r =>
        if r.2.2.status ≠ 0 then some (r.1, r.2.2)
        else
          match subs with
          | [] => some (r.1, r.2.2)
          | [d] =>
            -- One station directory. Load and copy it to all the others.
            let child_path := oskar_Dir.filePath ⟨path, .node name subs⟩ d.name
            match oskar_station_child r.1 0 with
            | none => none
            | some c =>
              match load_directories_station c child_path d (depth + 1) loaders r.2.1
                  (r.2.2.emit (Event.call child_path 0 (depth + 1) r.2.1)) with
              | none => none
              | some (c1, m1) =>
                let q := oskar_station_duplicate_first_child (r.1.setChild 0 c1) m1.status
                some (q.1, { m1 with status := q.2,
                                     trace := m1.trace ++ [Event.duplicate_first_child path] })
          | d1 :: d2 :: ds =>
            -- Consistency check.
            if (d1 :: d2 :: ds).length ≠ oskar_station_num_elements r.1 then
              some (r.1,
                { r.2.2 with status := OSKAR_ERR_SETUP_FAIL_TELESCOPE_ENTRIES_MISMATCH })
            else
              -- Loop over and descend into all stations.
              load_children r.1 ⟨path, .node name subs⟩ (d1 :: d2 :: ds) 0 depth loaders
                r.2.1 r.2.2
/-- The loop of lines 225-234 from index `i` on, over the remaining child
directories of `cwd`. -/
def load_children {σ : Type} (station : oskar_Station) (cwd : oskar_Dir)
    (children : List DirTree) (i : Nat) (depth : Nat) (loaders : List Nat) (filemap : FileMap)
    (m : Machine σ) : Option (oskar_Station × Machine σ) :=
  match children with
  | [] => some (station, m)
  | d :: ds =>
    let child_path := cwd.filePath d.name
    match oskar_station_child station i with
    | none => none
    | some c =>
      match load_directories_station c child_path d (depth + 1) loaders filemap
          (m.emit (Event.call child_path i (depth + 1) filemap)) with
      | none => none
      | some (c1, m1) =>
        load_children (station.setChild i c1) cwd ds (i + 1) depth loaders filemap m1
end

/-- The loop of lines 173-182 from index `i` on, over the remaining child
directories of the root `cwd`. -/
def load_stations {σ : Type} (telescope : oskar_Telescope) (cwd : oskar_Dir)
    (children : List DirTree) (i : Nat) (loaders : List Nat) (filemap : FileMap)
    (m : Machine σ) : Option (oskar_Telescope × Machine σ) :=
  match children with
  | [] => some (telescope, m)
  | d :: ds =>
    let child_path := cwd.filePath d.name
    match oskar_telescope_station telescope i with
    | none => none
    | some c =>
      match load_directories_station c child_path d (0 + 1) loaders filemap
          (m.emit (Event.call child_path i (0 + 1) filemap)) with
      | none => none
      | some (c1, m1) =>
        load_stations (telescope.setStation i c1) cwd ds (i + 1) loaders filemap m1

/-- The branch `depth == 0` of `load_directories` (lines 127-184), with
`loaders` the vector of pointers to the loader objects. -/
def load_directories {σ : Type} (telescope : oskar_Telescope) (path : String) (cwd : DirTree)
    (loaders : List Nat) (filemap : FileMap) (m : Machine σ) :
    Option (oskar_Telescope × Machine σ) :=
  -- Check if safe to proceed.
  if m.status ≠ 0 then some (telescope, m)
  else
    -- Load everything at this level.
    match load_all loaders 0 telescope ⟨path, cwd⟩ cwd.subs.length filemap
        (m.emit (Event.allSubDirs path)) with
    | none => none
    | some r =>
      if r.2.2.status ≠ 0 then some (r.1, r.2.2)
      else
        match cwd.subs with
        | [] => some (r.1, r.2.2)
        | [d] =>
          -- One station directory. Load and copy it to all the others.
          let child_path := oskar_Dir.filePath ⟨path, cwd⟩ d.name
          match oskar_telescope_station r.1 0 with
          | none => none
          | some c =>
            match load_directories_station c child_path d (0 + 1) loaders r.2.1
                (r.2.2.emit (Event.call child_path 0 (0 + 1) r.2.1)) with
            | none => none
            | some (c1, m1) =>
              let q := oskar_telescope_duplicate_first_station (r.1.setStation 0 c1) m1.status
              some (q.1, { m1 with status := q.2,
                                   trace := m1.trace ++ [Event.duplicate_first_station] })
        | d1 :: d2 :: ds =>
          -- Consistency check.
          if (d1 :: d2 :: ds).length ≠ oskar_telescope_num_stations r.1 then
            some (r.1, { r.2.2 with status := OSKAR_ERR_SETUP_FAIL_TELESCOPE_ENTRIES_MISMATCH })
          else
            -- Loop over and descend into all stations.
            load_stations r.1 ⟨path, cwd⟩ (d1 :: d2 :: ds) 0 loaders r.2.1 r.2.2

/-- One `loaders.push_back(new TelescopeLoaderX)`: the object as its
constructor leaves it is put in a new cell of the heap, and the pointer to it
is appended to the vector. -/
def push_back_new {σ : Type} (impl : LoaderKind → oskar_TelescopeLoadAbstract σ)
    (acc : List Nat × Machine σ) (kind : LoaderKind) : List Nat × Machine σ :=
  (acc.1 ++ [acc.2.heap.length],
    { acc.2 with trace := acc.2.trace ++ [Event.new_loader kind],
                 heap := acc.2.heap ++ [some (impl kind)] })

/-- The vector `loaders` built by `oskar_telescope_load` (lines 85-94), and
the program state after the ten objects were created; `impl` gives the object
that the constructor of each class leaves. -/
def create_loaders {σ : Type} (impl : LoaderKind → oskar_TelescopeLoadAbstract σ)
    (m : Machine σ) : List Nat × Machine σ :=
  loader_kinds.foldl (push_back_new impl) ([], m)

/-- The loop `delete loaders[i]` (lines 109-112), from index `i` on. -/
def delete_loaders {σ : Type} : List Nat → Nat → Machine σ → Machine σ
  | [], _, m => m
  | p :: rest, i, m =>
    delete_loaders rest (i + 1)
      { m with trace := m.trace ++ [Event.delete_loader i], heap := m.heap.set p none }

/-- The function `oskar_telescope_load` (lines 59-116) with loader objects. -/
def oskar_telescope_load {σ : Type} (impl : LoaderKind → oskar_TelescopeLoadAbstract σ)
    (fs : String → Option DirTree) (telescope : oskar_Telescope) (path : Option String)
    (m : Machine σ) : Option (oskar_Telescope × Machine σ) :=
  -- Check if safe to proceed.
  if m.status ≠ 0 then some (telescope, m)
  else
    -- Check that the telescope directory has been set and exists.
    match path with
    | none => some (telescope, { m with status := OSKAR_ERR_FILE_IO })
    | some p =>
      let m1 := m.emit (Event.dir_exists p)
      match fs p with
      | none => some (telescope, { m1 with status := OSKAR_ERR_FILE_IO })
      | some root =>
        -- Check that the telescope model is in CPU memory.
        if oskar_telescope_mem_location telescope ≠ OSKAR_CPU then
          some (telescope, { m1 with status := OSKAR_ERR_BAD_LOCATION })
        else
          -- Create the loaders.
          let c := create_loaders impl m1
          -- Load everything recursively from the telescope directory tree.
          match load_directories telescope p root c.1 [] c.2 with
          | none => none
          | some (t, m3) =>
            let m4 := if m3.status ≠ 0 then m3.emit (Event.log_load_failed m3.status) else m3
            -- Delete all the loaders.
            let m5 := delete_loaders c.1 0 m4
            -- (Re-)Set unique station IDs.
            some (oskar_telescope_set_station_ids t, m5.emit Event.set_station_ids)

/-- The loader objects behind the `n` pointers from `b1` on in the heap `h1`
and behind the `n` pointers from `b2` on in the heap `h2` are live and
pairwise the same. -/
def SameLoaders {σ : Type} (b1 b2 n : Nat)
    (h1 h2 : List (Option (oskar_TelescopeLoadAbstract σ))) : Prop :=
  ∀ j, j < n → ∃ l, h1[b1 + j]? = some (some l) ∧ h2[b2 + j]? = some (some l)

/-- A layout loader without data members: at the top level it creates `n`
empty stations, at a deeper level one empty child per sub-directory. -/
def exLayoutObject (n : Nat) : oskar_TelescopeLoadAbstract Nat where
  name := "layout"
  state := 0
  load := fun st t _ _ fm => (st, { t with station := List.replicate n (.mk 0 [] []) }, fm, 0)
  load_station := fun st s _ k _ fm =>
    (st, .mk s.unique_id s.data (List.replicate k (.mk 0 [] [])), fm, 0)

/-- A loader that counts its calls in a data member and writes the count
into the model or station it is called for. -/
def exCountingObject : oskar_TelescopeLoadAbstract Nat where
  name := "gain"
  state := 0
  load := fun st t _ _ fm => (st + 1, { t with data := (st : Int) :: t.data }, fm, 0)
  load_station := fun st s _ _ _ fm =>
    (st + 1, .mk s.unique_id ((st : Int) :: s.data) s.child, fm, 0)

/-- A loader that does nothing. -/
def exIdleObject : oskar_TelescopeLoadAbstract Nat where
  name := "idle"
  state := 0
  load := fun st t _ _ fm => (st, t, fm, 0)
  load_station := fun st s _ _ _ fm => (st, s, fm, 0)

/-- The objects that the constructors leave: a layout loader creating `n`
stations, a counting loader, and idle loaders otherwise. -/
def exObjects (n : Nat) : LoaderKind → oskar_TelescopeLoadAbstract Nat
  | .Layout => exLayoutObject n
  | .GainPhase => exCountingObject
  | _ => exIdleObject

/-- The outcome of the load of `/tel` with `exObjects 2` in a program state
with an empty heap, or the untouched input where it has no defined outcome. -/
def exFirstLoad : oskar_Telescope × Machine Nat :=
  (oskar_telescope_load (exObjects 2) exFs exTel (some "/tel") ⟨0, [], []⟩).getD
    (exTel, ⟨0, [], []⟩)

/-- The walk of `/tel` run twice over the same loader objects, created once
and not deleted in between: the data that the first and the second walk leave
in the model. -/
def exWalkTwice : Option (List Int × List Int) :=
  let c := create_loaders (exObjects 2) ⟨0, [], []⟩
  (load_directories exTel "/tel" exTreeAB c.1 [] c.2).bind fun r =>
    (load_directories exTel "/tel" exTreeAB c.1 [] r.2).map fun q => (r.1.data, q.1.data)

end Objects

/-! # Properties

## Unfolding the walk -/

theorem DirTree.induct_subs (P : DirTree → Prop)
    (h : ∀ name subs, (∀ d ∈ subs, P d) → P (DirTree.node name subs)) : ∀ t, P t := by
  intro t
  refine @DirTree.rec P (fun ds => ∀ d ∈ ds, P d) (fun n subs ih => h n subs ih) ?_ ?_ t
  · intro d hd; cases hd
  · intro hd tl h1 h2 d hmem
    rcases List.mem_cons.mp hmem with rfl | h3
    · exact h1
    · exact h2 d h3

theorem node_eta (t : DirTree) : DirTree.node t.name t.subs = t := by
  cases t; rfl

theorem lds_skip (s : oskar_Station) (path : String) (t : DirTree) (depth : Nat)
    (ls : List oskar_TelescopeLoadAbstract) (fm : FileMap) (w : World) (hw : w.status ≠ 0) :
    load_directories_station s path t depth ls fm w = some (s, w) := by
  cases t with
  | node name subs => rw [load_directories_station]; simp [hw]

theorem lds_stage_fail (s : oskar_Station) (path : String) (t : DirTree) (depth : Nat)
    (ls : List oskar_TelescopeLoadAbstract) (fm : FileMap) (w : World) (hw : w.status = 0)
    (hr : (level_station ls s path t depth fm w).2.2.status ≠ 0) :
    load_directories_station s path t depth ls fm w
      = some ((level_station ls s path t depth fm w).1,
          (level_station ls s path t depth fm w).2.2) := by
  cases t with
  | node name subs =>
    rw [load_directories_station]
    simp only [level_station, DirTree.subs] at hr
    simp only [level_station, DirTree.subs, hw, hr, ne_eq, not_true_eq_false, if_false,
      not_false_eq_true, if_true]

theorem lds_leaf (s : oskar_Station) (path name : String) (depth : Nat)
    (ls : List oskar_TelescopeLoadAbstract) (fm : FileMap) (w : World) (hw : w.status = 0) :
    load_directories_station s path (.node name []) depth ls fm w
      = some ((level_station ls s path (.node name []) depth fm w).1,
          (level_station ls s path (.node name []) depth fm w).2.2) := by
  rw [load_directories_station]
  simp only [level_station, DirTree.subs, hw, ne_eq, not_true_eq_false, if_false]
  split <;> rfl

theorem lds_single (s : oskar_Station) (path name : String) (d : DirTree) (depth : Nat)
    (ls : List oskar_TelescopeLoadAbstract) (fm : FileMap) (w : World) (hw : w.status = 0)
    (hr : (level_station ls s path (.node name [d]) depth fm w).2.2.status = 0) :
    load_directories_station s path (.node name [d]) depth ls fm w
      = match oskar_station_child (level_station ls s path (.node name [d]) depth fm w).1 0 with
        | none => none
        | some c =>
          match load_directories_station c (oskar_Dir.filePath ⟨path, .node name [d]⟩ d.name) d
              (depth + 1) ls (level_station ls s path (.node name [d]) depth fm w).2.1
              ((level_station ls s path (.node name [d]) depth fm w).2.2.emit
                (Event.call (oskar_Dir.filePath ⟨path, .node name [d]⟩ d.name) 0 (depth + 1)
                  (level_station ls s path (.node name [d]) depth fm w).2.1)) with
          | none => none
          | some (c1, w1) =>
            some ((oskar_station_duplicate_first_child
                ((level_station ls s path (.node name [d]) depth fm w).1.setChild 0 c1)
                w1.status).1,
              { status := (oskar_station_duplicate_first_child
                  ((level_station ls s path (.node name [d]) depth fm w).1.setChild 0 c1)
                  w1.status).2,
                trace := w1.trace ++ [Event.duplicate_first_child path] }) := by
  rw [load_directories_station]
  simp only [level_station, DirTree.subs] at hr
  simp only [level_station, DirTree.subs, hw, hr, ne_eq, not_true_eq_false, if_false]

theorem lds_many (s : oskar_Station) (path name : String) (d1 d2 : DirTree)
    (ds : List DirTree) (depth : Nat) (ls : List oskar_TelescopeLoadAbstract) (fm : FileMap)
    (w : World) (hw : w.status = 0)
    (hr : (level_station ls s path (.node name (d1 :: d2 :: ds)) depth fm w).2.2.status = 0) :
    load_directories_station s path (.node name (d1 :: d2 :: ds)) depth ls fm w
      = if (d1 :: d2 :: ds).length ≠ oskar_station_num_elements
            (level_station ls s path (.node name (d1 :: d2 :: ds)) depth fm w).1 then
          some ((level_station ls s path (.node name (d1 :: d2 :: ds)) depth fm w).1,
            { (level_station ls s path (.node name (d1 :: d2 :: ds)) depth fm w).2.2 with
              status := OSKAR_ERR_SETUP_FAIL_TELESCOPE_ENTRIES_MISMATCH })
        else load_children (level_station ls s path (.node name (d1 :: d2 :: ds)) depth fm w).1
          ⟨path, .node name (d1 :: d2 :: ds)⟩ (d1 :: d2 :: ds) 0 depth ls
          (level_station ls s path (.node name (d1 :: d2 :: ds)) depth fm w).2.1
          (level_station ls s path (.node name (d1 :: d2 :: ds)) depth fm w).2.2 := by
  rw [load_directories_station]
  simp only [level_station, DirTree.subs] at hr
  simp only [level_station, DirTree.subs, hw, hr, ne_eq, not_true_eq_false, if_false]

theorem load_children_nil (s : oskar_Station) (cwd : oskar_Dir) (i depth : Nat)
    (ls : List oskar_TelescopeLoadAbstract) (fm : FileMap) (w : World) :
    load_children s cwd [] i depth ls fm w = some (s, w) := by
  rw [load_children]

theorem load_children_cons (s : oskar_Station) (cwd : oskar_Dir) (d : DirTree)
    (ds : List DirTree) (i depth : Nat) (ls : List oskar_TelescopeLoadAbstract) (fm : FileMap)
    (w : World) :
    load_children s cwd (d :: ds) i depth ls fm w
      = match oskar_station_child s i with
        | none => none
        | some c =>
          match load_directories_station c (cwd.filePath d.name) d (depth + 1) ls fm
              (w.emit (Event.call (cwd.filePath d.name) i (depth + 1) fm)) with
          | none => none
          | some (c1, w1) => load_children (s.setChild i c1) cwd ds (i + 1) depth ls fm w1 := by
  rw [load_children]


theorem dup_child_status (s : oskar_Station) (st : Int) :
    (oskar_station_duplicate_first_child s st).2 = st := by
  unfold oskar_station_duplicate_first_child
  split
  · rfl
  · split <;> rfl

theorem dup_station_status (t : oskar_Telescope) (st : Int) :
    (oskar_telescope_duplicate_first_station t st).2 = st := by
  unfold oskar_telescope_duplicate_first_station
  split
  · rfl
  · split <;> rfl

theorem load_children_inv {s : oskar_Station} {cwd : oskar_Dir} {d : DirTree}
    {ds : List DirTree} {i depth : Nat} {ls : List oskar_TelescopeLoadAbstract} {fm : FileMap}
    {w : World} {s' : oskar_Station} {w' : World}
    (h : load_children s cwd (d :: ds) i depth ls fm w = some (s', w')) :
    ∃ c c1 w1, oskar_station_child s i = some c ∧
      load_directories_station c (cwd.filePath d.name) d (depth + 1) ls fm
        (w.emit (Event.call (cwd.filePath d.name) i (depth + 1) fm)) = some (c1, w1) ∧
      load_children (s.setChild i c1) cwd ds (i + 1) depth ls fm w1 = some (s', w') := by
  rw [load_children_cons] at h
  cases hc : oskar_station_child s i with
  | none => rw [hc] at h; cases h
  | some c =>
    rw [hc] at h
    simp only at h
    cases hl : load_directories_station c (cwd.filePath d.name) d (depth + 1) ls fm
        (w.emit (Event.call (cwd.filePath d.name) i (depth + 1) fm)) with
    | none => rw [hl] at h; cases h
    | some r =>
      obtain ⟨c1, w1⟩ := r
      rw [hl] at h
      exact ⟨c, c1, w1, rfl, hl, h⟩

theorem lds_inv {s : oskar_Station} {path : String} {t : DirTree} {depth : Nat}
    {ls : List oskar_TelescopeLoadAbstract} {fm : FileMap} {w : World} {s' : oskar_Station}
    {w' : World} (h : load_directories_station s path t depth ls fm w = some (s', w')) :
    (w.status ≠ 0 ∧ s' = s ∧ w' = w) ∨
    (w.status = 0 ∧
      (((level_station ls s path t depth fm w).2.2.status ≠ 0 ∧
          s' = (level_station ls s path t depth fm w).1 ∧
          w' = (level_station ls s path t depth fm w).2.2) ∨
       ((level_station ls s path t depth fm w).2.2.status = 0 ∧ t.subs = [] ∧
          s' = (level_station ls s path t depth fm w).1 ∧
          w' = (level_station ls s path t depth fm w).2.2) ∨
       ((level_station ls s path t depth fm w).2.2.status = 0 ∧
          ∃ d c c1 w1, t.subs = [d] ∧
            oskar_station_child (level_station ls s path t depth fm w).1 0 = some c ∧
            load_directories_station c (oskar_Dir.filePath ⟨path, t⟩ d.name) d (depth + 1) ls
              (level_station ls s path t depth fm w).2.1
              ((level_station ls s path t depth fm w).2.2.emit
                (Event.call (oskar_Dir.filePath ⟨path, t⟩ d.name) 0 (depth + 1)
                  (level_station ls s path t depth fm w).2.1)) = some (c1, w1) ∧
            s' = (oskar_station_duplicate_first_child
              ((level_station ls s path t depth fm w).1.setChild 0 c1) w1.status).1 ∧
            w' = ⟨w1.status, w1.trace ++ [Event.duplicate_first_child path]⟩) ∨
       ((level_station ls s path t depth fm w).2.2.status = 0 ∧ 1 < t.subs.length ∧
          t.subs.length ≠ oskar_station_num_elements (level_station ls s path t depth fm w).1 ∧
          s' = (level_station ls s path t depth fm w).1 ∧
          w' = ⟨OSKAR_ERR_SETUP_FAIL_TELESCOPE_ENTRIES_MISMATCH,
            (level_station ls s path t depth fm w).2.2.trace⟩) ∨
       ((level_station ls s path t depth fm w).2.2.status = 0 ∧ 1 < t.subs.length ∧
          t.subs.length = oskar_station_num_elements (level_station ls s path t depth fm w).1 ∧
          load_children (level_station ls s path t depth fm w).1 ⟨path, t⟩ t.subs 0 depth ls
            (level_station ls s path t depth fm w).2.1
            (level_station ls s path t depth fm w).2.2 = some (s', w')))) := by
  by_cases hw : w.status = 0
  swap
  · left
    rw [lds_skip _ _ _ _ _ _ _ hw] at h
    simp only [Option.some.injEq, Prod.mk.injEq] at h
    exact ⟨hw, h.1.symm, h.2.symm⟩
  right
  refine ⟨hw, ?_⟩
  by_cases hr : (level_station ls s path t depth fm w).2.2.status = 0
  swap
  · left
    rw [lds_stage_fail _ _ _ _ _ _ _ hw hr] at h
    simp only [Option.some.injEq, Prod.mk.injEq] at h
    exact ⟨hr, h.1.symm, h.2.symm⟩
  right
  obtain ⟨name, subs⟩ := t
  match subs, h, hr with
  | [], h, hr =>
    left
    rw [lds_leaf _ _ _ _ _ _ _ hw] at h
    simp only [Option.some.injEq, Prod.mk.injEq] at h
    exact ⟨hr, rfl, h.1.symm, h.2.symm⟩
  | [d], h, hr =>
    right; left
    refine ⟨hr, ?_⟩
    rw [lds_single _ _ _ _ _ _ _ _ hw hr] at h
    cases hc : oskar_station_child (level_station ls s path (.node name [d]) depth fm w).1 0 with
    | none => rw [hc] at h; cases h
    | some c =>
      rw [hc] at h
      simp only at h
      cases hl : load_directories_station c (oskar_Dir.filePath ⟨path, .node name [d]⟩ d.name) d
          (depth + 1) ls (level_station ls s path (.node name [d]) depth fm w).2.1
          ((level_station ls s path (.node name [d]) depth fm w).2.2.emit
            (Event.call (oskar_Dir.filePath ⟨path, .node name [d]⟩ d.name) 0 (depth + 1)
              (level_station ls s path (.node name [d]) depth fm w).2.1)) with
      | none => rw [hl] at h; cases h
      | some r =>
        obtain ⟨c1, w1⟩ := r
        rw [hl] at h
        simp only [Option.some.injEq, Prod.mk.injEq, dup_child_status] at h
        exact ⟨d, c, c1, w1, rfl, rfl, hl, h.1.symm, h.2.symm⟩
  | d1 :: d2 :: ds, h, hr =>
    right; right
    rw [lds_many _ _ _ _ _ _ _ _ _ _ hw hr] at h
    by_cases hm : (d1 :: d2 :: ds).length = oskar_station_num_elements
        (level_station ls s path (.node name (d1 :: d2 :: ds)) depth fm w).1
    · right
      rw [if_neg (not_not.mpr hm)] at h
      exact ⟨hr, by simp [DirTree.subs], hm, h⟩
    · left
      rw [if_pos hm] at h
      simp only [Option.some.injEq, Prod.mk.injEq] at h
      exact ⟨hr, by simp [DirTree.subs], hm, h.1.symm, h.2.symm⟩


theorem ld_skip (tel : oskar_Telescope) (path : String) (t : DirTree)
    (ls : List oskar_TelescopeLoadAbstract) (fm : FileMap) (w : World) (hw : w.status ≠ 0) :
    load_directories tel path t ls fm w = some (tel, w) := by
  rw [load_directories]; simp [hw]

theorem ld_stage_fail (tel : oskar_Telescope) (path : String) (t : DirTree)
    (ls : List oskar_TelescopeLoadAbstract) (fm : FileMap) (w : World) (hw : w.status = 0)
    (hr : (level_telescope ls tel path t fm w).2.2.status ≠ 0) :
    load_directories tel path t ls fm w
      = some ((level_telescope ls tel path t fm w).1, (level_telescope ls tel path t fm w).2.2) := by
  rw [load_directories]
  simp only [level_telescope] at hr
  simp only [level_telescope, hw, hr, ne_eq, not_true_eq_false, if_false,
    not_false_eq_true, if_true]

theorem ld_leaf (tel : oskar_Telescope) (path : String) (t : DirTree)
    (ls : List oskar_TelescopeLoadAbstract) (fm : FileMap) (w : World) (hw : w.status = 0)
    (ht : t.subs = []) :
    load_directories tel path t ls fm w
      = some ((level_telescope ls tel path t fm w).1, (level_telescope ls tel path t fm w).2.2) := by
  rw [load_directories]
  simp only [level_telescope, hw, ht, ne_eq, not_true_eq_false, if_false]
  split <;> rfl

theorem ld_single (tel : oskar_Telescope) (path : String) (t : DirTree) (d : DirTree)
    (ls : List oskar_TelescopeLoadAbstract) (fm : FileMap) (w : World) (hw : w.status = 0)
    (hr : (level_telescope ls tel path t fm w).2.2.status = 0) (ht : t.subs = [d]) :
    load_directories tel path t ls fm w
      = match oskar_telescope_station (level_telescope ls tel path t fm w).1 0 with
        | none => none
        | some c =>
          match load_directories_station c (oskar_Dir.filePath ⟨path, t⟩ d.name) d
              (0 + 1) ls (level_telescope ls tel path t fm w).2.1
              ((level_telescope ls tel path t fm w).2.2.emit
                (Event.call (oskar_Dir.filePath ⟨path, t⟩ d.name) 0 (0 + 1)
                  (level_telescope ls tel path t fm w).2.1)) with
          | none => none
          | some (c1, w1) =>
            some ((oskar_telescope_duplicate_first_station
                ((level_telescope ls tel path t fm w).1.setStation 0 c1) w1.status).1,
              { status := (oskar_telescope_duplicate_first_station
                  ((level_telescope ls tel path t fm w).1.setStation 0 c1) w1.status).2,
                trace := w1.trace ++ [Event.duplicate_first_station] }) := by
  rw [load_directories]
  simp only [level_telescope, ht] at hr
  simp only [level_telescope, hw, hr, ht, ne_eq, not_true_eq_false, if_false]

theorem ld_many (tel : oskar_Telescope) (path : String) (t : DirTree) (d1 d2 : DirTree)
    (ds : List DirTree) (ls : List oskar_TelescopeLoadAbstract) (fm : FileMap)
    (w : World) (hw : w.status = 0)
    (hr : (level_telescope ls tel path t fm w).2.2.status = 0) (ht : t.subs = d1 :: d2 :: ds) :
    load_directories tel path t ls fm w
      = if t.subs.length ≠ oskar_telescope_num_stations (level_telescope ls tel path t fm w).1 then
          some ((level_telescope ls tel path t fm w).1,
            { (level_telescope ls tel path t fm w).2.2 with
              status := OSKAR_ERR_SETUP_FAIL_TELESCOPE_ENTRIES_MISMATCH })
        else load_stations (level_telescope ls tel path t fm w).1
          ⟨path, t⟩ t.subs 0 ls
          (level_telescope ls tel path t fm w).2.1
          (level_telescope ls tel path t fm w).2.2 := by
  rw [load_directories]
  simp only [level_telescope, ht] at hr
  simp only [level_telescope, hw, hr, ht, ne_eq, not_true_eq_false, if_false]

theorem load_stations_nil (tel : oskar_Telescope) (cwd : oskar_Dir) (i : Nat)
    (ls : List oskar_TelescopeLoadAbstract) (fm : FileMap) (w : World) :
    load_stations tel cwd [] i ls fm w = some (tel, w) := by
  rw [load_stations]

theorem load_stations_cons (tel : oskar_Telescope) (cwd : oskar_Dir) (d : DirTree)
    (ds : List DirTree) (i : Nat) (ls : List oskar_TelescopeLoadAbstract) (fm : FileMap)
    (w : World) :
    load_stations tel cwd (d :: ds) i ls fm w
      = match oskar_telescope_station tel i with
        | none => none
        | some c =>
          match load_directories_station c (cwd.filePath d.name) d (0 + 1) ls fm
              (w.emit (Event.call (cwd.filePath d.name) i (0 + 1) fm)) with
          | none => none
          | some (c1, w1) => load_stations (tel.setStation i c1) cwd ds (i + 1) ls fm w1 := by
  rw [load_stations]

theorem load_stations_inv {tel : oskar_Telescope} {cwd : oskar_Dir} {d : DirTree}
    {ds : List DirTree} {i : Nat} {ls : List oskar_TelescopeLoadAbstract} {fm : FileMap}
    {w : World} {tel' : oskar_Telescope} {w' : World}
    (h : load_stations tel cwd (d :: ds) i ls fm w = some (tel', w')) :
    ∃ c c1 w1, oskar_telescope_station tel i = some c ∧
      load_directories_station c (cwd.filePath d.name) d (0 + 1) ls fm
        (w.emit (Event.call (cwd.filePath d.name) i (0 + 1) fm)) = some (c1, w1) ∧
      load_stations (tel.setStation i c1) cwd ds (i + 1) ls fm w1 = some (tel', w') := by
  rw [load_stations_cons] at h
  cases hc : oskar_telescope_station tel i with
  | none => rw [hc] at h; cases h
  | some c =>
    rw [hc] at h
    simp only at h
    cases hl : load_directories_station c (cwd.filePath d.name) d (0 + 1) ls fm
        (w.emit (Event.call (cwd.filePath d.name) i (0 + 1) fm)) with
    | none => rw [hl] at h; cases h
    | some r =>
      obtain ⟨c1, w1⟩ := r
      rw [hl] at h
      exact ⟨c, c1, w1, rfl, hl, h⟩

theorem ld_inv {tel : oskar_Telescope} {path : String} {t : DirTree}
    {ls : List oskar_TelescopeLoadAbstract} {fm : FileMap} {w : World} {tel' : oskar_Telescope}
    {w' : World} (h : load_directories tel path t ls fm w = some (tel', w')) :
    (w.status ≠ 0 ∧ tel' = tel ∧ w' = w) ∨
    (w.status = 0 ∧
      (((level_telescope ls tel path t fm w).2.2.status ≠ 0 ∧
          tel' = (level_telescope ls tel path t fm w).1 ∧
          w' = (level_telescope ls tel path t fm w).2.2) ∨
       ((level_telescope ls tel path t fm w).2.2.status = 0 ∧ t.subs = [] ∧
          tel' = (level_telescope ls tel path t fm w).1 ∧
          w' = (level_telescope ls tel path t fm w).2.2) ∨
       ((level_telescope ls tel path t fm w).2.2.status = 0 ∧
          ∃ d c c1 w1, t.subs = [d] ∧
            oskar_telescope_station (level_telescope ls tel path t fm w).1 0 = some c ∧
            load_directories_station c (oskar_Dir.filePath ⟨path, t⟩ d.name) d (0 + 1) ls
              (level_telescope ls tel path t fm w).2.1
              ((level_telescope ls tel path t fm w).2.2.emit
                (Event.call (oskar_Dir.filePath ⟨path, t⟩ d.name) 0 (0 + 1)
                  (level_telescope ls tel path t fm w).2.1)) = some (c1, w1) ∧
            tel' = (oskar_telescope_duplicate_first_station
              ((level_telescope ls tel path t fm w).1.setStation 0 c1) w1.status).1 ∧
            w' = ⟨w1.status, w1.trace ++ [Event.duplicate_first_station]⟩) ∨
       ((level_telescope ls tel path t fm w).2.2.status = 0 ∧ 1 < t.subs.length ∧
          t.subs.length ≠ oskar_telescope_num_stations (level_telescope ls tel path t fm w).1 ∧
          tel' = (level_telescope ls tel path t fm w).1 ∧
          w' = ⟨OSKAR_ERR_SETUP_FAIL_TELESCOPE_ENTRIES_MISMATCH,
            (level_telescope ls tel path t fm w).2.2.trace⟩) ∨
       ((level_telescope ls tel path t fm w).2.2.status = 0 ∧ 1 < t.subs.length ∧
          t.subs.length = oskar_telescope_num_stations (level_telescope ls tel path t fm w).1 ∧
          load_stations (level_telescope ls tel path t fm w).1 ⟨path, t⟩ t.subs 0 ls
            (level_telescope ls tel path t fm w).2.1
            (level_telescope ls tel path t fm w).2.2 = some (tel', w')))) := by
  by_cases hw : w.status = 0
  swap
  · left
    rw [ld_skip _ _ _ _ _ _ hw] at h
    simp only [Option.some.injEq, Prod.mk.injEq] at h
    exact ⟨hw, h.1.symm, h.2.symm⟩
  right
  refine ⟨hw, ?_⟩
  by_cases hr : (level_telescope ls tel path t fm w).2.2.status = 0
  swap
  · left
    rw [ld_stage_fail _ _ _ _ _ _ hw hr] at h
    simp only [Option.some.injEq, Prod.mk.injEq] at h
    exact ⟨hr, h.1.symm, h.2.symm⟩
  right
  cases hsubs : t.subs with
  | nil =>
    left
    rw [ld_leaf _ _ _ _ _ _ hw hsubs] at h
    simp only [Option.some.injEq, Prod.mk.injEq] at h
    exact ⟨hr, rfl, h.1.symm, h.2.symm⟩
  | cons d rest =>
    cases rest with
    | nil =>
      right; left
      refine ⟨hr, ?_⟩
      rw [ld_single _ _ _ d _ _ _ hw hr hsubs] at h
      cases hc : oskar_telescope_station (level_telescope ls tel path t fm w).1 0 with
      | none => rw [hc] at h; cases h
      | some c =>
        rw [hc] at h
        simp only at h
        cases hl : load_directories_station c (oskar_Dir.filePath ⟨path, t⟩ d.name) d
            (0 + 1) ls (level_telescope ls tel path t fm w).2.1
            ((level_telescope ls tel path t fm w).2.2.emit
              (Event.call (oskar_Dir.filePath ⟨path, t⟩ d.name) 0 (0 + 1)
                (level_telescope ls tel path t fm w).2.1)) with
        | none => rw [hl] at h; cases h
        | some r =>
          obtain ⟨c1, w1⟩ := r
          rw [hl] at h
          simp only [Option.some.injEq, Prod.mk.injEq, dup_station_status] at h
          exact ⟨d, c, c1, w1, rfl, rfl, hl, h.1.symm, h.2.symm⟩
    | cons d2 ds =>
      right; right
      rw [ld_many _ _ _ d d2 ds _ _ _ hw hr hsubs] at h
      rw [hsubs] at h
      by_cases hm : (d :: d2 :: ds).length = oskar_telescope_num_stations
          (level_telescope ls tel path t fm w).1
      · right
        rw [if_neg (not_not.mpr hm)] at h
        exact ⟨hr, by simp, hm, h⟩
      · left
        rw [if_pos hm] at h
        simp only [Option.some.injEq, Prod.mk.injEq] at h
        exact ⟨hr, by simp, hm, h.1.symm, h.2.symm⟩


/-! ## Every run of the loader is a sequence of elementary moves -/

theorem reach_refl (ls : List oskar_TelescopeLoadAbstract) (w : World) : Reach ls w w :=
  Relation.ReflTransGen.refl

theorem reach_trans {ls : List oskar_TelescopeLoadAbstract} {a b c : World}
    (h1 : Reach ls a b) (h2 : Reach ls b c) : Reach ls a c :=
  Relation.ReflTransGen.trans h1 h2

theorem reach_one {ls : List oskar_TelescopeLoadAbstract} {a b : World}
    (h : Step ls a b) : Reach ls a b :=
  Relation.ReflTransGen.single h

theorem reach_others (ls : List oskar_TelescopeLoadAbstract) (es : List Event)
    (h : ∀ e ∈ es, e.stage? = none ∧ e.isLogError = false) :
    ∀ w : World, Reach ls w ⟨w.status, w.trace ++ es⟩ := by
  induction es with
  | nil => intro w; simp; exact reach_refl ls w
  | cons e es ih =>
    intro w
    have h1 := h e (List.mem_cons_self _ _)
    have h2 := ih (fun x hx => h x (List.mem_cons_of_mem _ hx)) (w.emit e)
    have h3 : Reach ls w (w.emit e) := reach_one (Step.other w e h1.1 h1.2)
    have h4 : (⟨(w.emit e).status, (w.emit e).trace ++ es⟩ : World)
        = ⟨w.status, w.trace ++ e :: es⟩ := by
      simp [World.emit]
    rw [h4] at h2
    exact reach_trans h3 h2

theorem load_all_station_reach (ls : List oskar_TelescopeLoadAbstract) :
    ∀ (rest : List oskar_TelescopeLoadAbstract) (i : Nat) (s : oskar_Station) (cwd : oskar_Dir)
      (k depth : Nat) (fm : FileMap) (w : World), w.status = 0 →
      (∀ j, rest[j]? = ls[i + j]?) → ready w.trace i cwd.path →
      Reach ls w (load_all_station rest i s cwd k depth fm w).2.2 := by
  intro rest
  induction rest with
  | nil => intro i s cwd k depth fm w _ _ _; simp only [load_all_station]; exact reach_refl ls w
  | cons l rest ih =>
    intro i s cwd k depth fm w hw hsuf hready
    have hl : ls[i]? = some l := by
      have := hsuf 0
      simpa using this.symm
    have hi : i < ls.length := by
      rcases List.getElem?_eq_some_iff.mp hl with ⟨h, _⟩
      exact h
    simp only [load_all_station]
    by_cases hst : (l.load_station s cwd k depth fm).2.2 = 0
    · rw [if_neg (not_not.mpr hst)]
      have hstep : Step ls w ⟨0, w.trace ++
          [Event.load_station i cwd.path k depth fm (l.load_station s cwd k depth fm).2.2]⟩ :=
        Step.stage w _ i cwd.path hw (by simp [Event.stage?, hst]) hi hready
      rw [hst] at hstep ⊢
      refine reach_trans (reach_one hstep) ?_
      refine ih (i + 1) _ cwd k depth _ _ rfl ?_ ?_
      · intro j
        have := hsuf (j + 1)
        simp only [List.getElem?_cons_succ] at this
        rw [this]
        congr 1
        omega
      · refine ⟨Event.load_station i cwd.path k depth fm 0, ?_, rfl⟩
        simp
    · rw [if_pos hst]
      have hstep := @Step.stage_fail ls w
        (Event.load_station i cwd.path k depth fm (l.load_station s cwd k depth fm).2.2)
        i cwd.path _ l hw (by simp [Event.stage?]) hst hl hready
      have heq : (World.emit ⟨(l.load_station s cwd k depth fm).2.2, w.trace ++
          [Event.load_station i cwd.path k depth fm (l.load_station s cwd k depth fm).2.2]⟩
          (Event.log_error ("Error in " ++ l.name ++ " in '" ++ cwd.absolutePath ++ "'.")))
          = ⟨(l.load_station s cwd k depth fm).2.2, w.trace ++
            [Event.load_station i cwd.path k depth fm (l.load_station s cwd k depth fm).2.2,
              Event.log_error (stage_report l.name cwd.path)]⟩ := by
        simp [World.emit, stage_report, oskar_Dir.absolutePath]
      rw [heq]
      exact reach_one hstep

theorem load_all_reach (ls : List oskar_TelescopeLoadAbstract) :
    ∀ (rest : List oskar_TelescopeLoadAbstract) (i : Nat) (tel : oskar_Telescope)
      (cwd : oskar_Dir) (k : Nat) (fm : FileMap) (w : World), w.status = 0 →
      (∀ j, rest[j]? = ls[i + j]?) → ready w.trace i cwd.path →
      Reach ls w (load_all rest i tel cwd k fm w).2.2 := by
  intro rest
  induction rest with
  | nil => intro i s cwd k fm w _ _ _; simp only [load_all]; exact reach_refl ls w
  | cons l rest ih =>
    intro i s cwd k fm w hw hsuf hready
    have hl : ls[i]? = some l := by
      have := hsuf 0
      simpa using this.symm
    have hi : i < ls.length := by
      rcases List.getElem?_eq_some_iff.mp hl with ⟨h, _⟩
      exact h
    simp only [load_all]
    by_cases hst : (l.load s cwd k fm).2.2 = 0
    · rw [if_neg (not_not.mpr hst)]
      have hstep : Step ls w ⟨0, w.trace ++
          [Event.load i cwd.path k fm (l.load s cwd k fm).2.2]⟩ :=
        Step.stage w _ i cwd.path hw (by simp [Event.stage?, hst]) hi hready
      rw [hst] at hstep ⊢
      refine reach_trans (reach_one hstep) ?_
      refine ih (i + 1) _ cwd k _ _ rfl ?_ ?_
      · intro j
        have := hsuf (j + 1)
        simp only [List.getElem?_cons_succ] at this
        rw [this]
        congr 1
        omega
      · refine ⟨Event.load i cwd.path k fm 0, ?_, rfl⟩
        simp
    · rw [if_pos hst]
      have hstep := @Step.stage_fail ls w
        (Event.load i cwd.path k fm (l.load s cwd k fm).2.2)
        i cwd.path _ l hw (by simp [Event.stage?]) hst hl hready
      have heq : (World.emit ⟨(l.load s cwd k fm).2.2, w.trace ++
          [Event.load i cwd.path k fm (l.load s cwd k fm).2.2]⟩
          (Event.log_error ("Error in " ++ l.name ++ " in '" ++ cwd.absolutePath ++ "'.")))
          = ⟨(l.load s cwd k fm).2.2, w.trace ++
            [Event.load i cwd.path k fm (l.load s cwd k fm).2.2,
              Event.log_error (stage_report l.name cwd.path)]⟩ := by
        simp [World.emit, stage_report, oskar_Dir.absolutePath]
      rw [heq]
      exact reach_one hstep

theorem level_station_reach (ls : List oskar_TelescopeLoadAbstract) (s : oskar_Station)
    (path : String) (t : DirTree) (depth : Nat) (fm : FileMap) (w : World) (hw : w.status = 0) :
    Reach ls w (level_station ls s path t depth fm w).2.2 := by
  have h1 : Reach ls w (w.emit (Event.allSubDirs path)) :=
    reach_one (Step.other w _ rfl rfl)
  refine reach_trans h1 ?_
  exact load_all_station_reach ls ls 0 s ⟨path, t⟩ _ depth fm _ hw (by intro j; simp)
    (by simp [ready, World.emit])

theorem level_telescope_reach (ls : List oskar_TelescopeLoadAbstract) (tel : oskar_Telescope)
    (path : String) (t : DirTree) (fm : FileMap) (w : World) (hw : w.status = 0) :
    Reach ls w (level_telescope ls tel path t fm w).2.2 := by
  have h1 : Reach ls w (w.emit (Event.allSubDirs path)) :=
    reach_one (Step.other w _ rfl rfl)
  refine reach_trans h1 ?_
  exact load_all_reach ls ls 0 tel ⟨path, t⟩ _ fm _ hw (by intro j; simp)
    (by simp [ready, World.emit])

theorem load_children_reach (ls : List oskar_TelescopeLoadAbstract) :
    ∀ (ds : List DirTree),
      (∀ d ∈ ds, ∀ s path depth fm w s' w',
        load_directories_station s path d depth ls fm w = some (s', w') → Reach ls w w') →
      ∀ s cwd i depth fm w s' w',
        load_children s cwd ds i depth ls fm w = some (s', w') → Reach ls w w' := by
  intro ds
  induction ds with
  | nil =>
    intro _ s cwd i depth fm w s' w' h
    rw [load_children_nil] at h
    simp only [Option.some.injEq, Prod.mk.injEq] at h
    rw [← h.2]; exact reach_refl ls w
  | cons d ds ih =>
    intro hP s cwd i depth fm w s' w' h
    obtain ⟨c, c1, w1, _, h2, h3⟩ := load_children_inv h
    have r1 : Reach ls w (w.emit (Event.call (cwd.filePath d.name) i (depth + 1) fm)) :=
      reach_one (Step.other w _ rfl rfl)
    have r2 := hP d (List.mem_cons_self _ _) _ _ _ _ _ _ _ h2
    have r3 := ih (fun x hx => hP x (List.mem_cons_of_mem _ hx)) _ _ _ _ _ _ _ _ h3
    exact reach_trans (reach_trans r1 r2) r3

theorem lds_reach (ls : List oskar_TelescopeLoadAbstract) :
    ∀ (t : DirTree) (s : oskar_Station) (path : String) (depth : Nat) (fm : FileMap) (w : World)
      (s' : oskar_Station) (w' : World),
      load_directories_station s path t depth ls fm w = some (s', w') → Reach ls w w' := by
  intro t
  induction t using DirTree.induct_subs with
  | h name subs ih =>
    intro s path depth fm w s' w' h
    rcases lds_inv h with ⟨_, _, h2⟩ | ⟨hw, hc⟩
    · rw [h2]; exact reach_refl ls w
    have hL := level_station_reach ls s path (.node name subs) depth fm w hw
    rcases hc with ⟨_, _, h2⟩ | ⟨_, _, _, h2⟩ | ⟨hr, d, c, c1, w1, hsub, _, hl, _, h2⟩ |
      ⟨hr, _, _, _, h2⟩ | ⟨_, _, _, h2⟩
    · rw [h2]; exact hL
    · rw [h2]; exact hL
    · have hd : d ∈ subs := by
        simp only [DirTree.subs] at hsub
        rw [hsub]; exact List.mem_singleton_self d
      have r1 := ih d hd _ _ _ _ _ _ _ hl
      have r0 : Reach ls (level_station ls s path (.node name subs) depth fm w).2.2
          ((level_station ls s path (.node name subs) depth fm w).2.2.emit
            (Event.call (oskar_Dir.filePath ⟨path, .node name subs⟩ d.name) 0 (depth + 1)
              (level_station ls s path (.node name subs) depth fm w).2.1)) :=
        reach_one (Step.other _ _ rfl rfl)
      have r2 : Reach ls w1 (w1.emit (Event.duplicate_first_child path)) :=
        reach_one (Step.other _ _ rfl rfl)
      rw [h2]
      exact reach_trans (reach_trans (reach_trans hL r0) r1) r2
    · rw [h2]
      exact reach_trans hL (reach_one (Step.fail _ _ hr))
    · exact reach_trans hL (load_children_reach ls subs ih _ _ _ _ _ _ _ _ h2)

theorem load_stations_reach (ls : List oskar_TelescopeLoadAbstract) :
    ∀ (ds : List DirTree) (tel : oskar_Telescope) (cwd : oskar_Dir) (i : Nat) (fm : FileMap)
      (w : World) (tel' : oskar_Telescope) (w' : World),
      load_stations tel cwd ds i ls fm w = some (tel', w') → Reach ls w w' := by
  intro ds
  induction ds with
  | nil =>
    intro tel cwd i fm w tel' w' h
    rw [load_stations_nil] at h
    simp only [Option.some.injEq, Prod.mk.injEq] at h
    rw [← h.2]; exact reach_refl ls w
  | cons d ds ih =>
    intro tel cwd i fm w tel' w' h
    obtain ⟨c, c1, w1, _, h2, h3⟩ := load_stations_inv h
    have r1 : Reach ls w (w.emit (Event.call (cwd.filePath d.name) i (0 + 1) fm)) :=
      reach_one (Step.other w _ rfl rfl)
    have r2 := lds_reach ls d _ _ _ _ _ _ _ h2
    have r3 := ih _ _ _ _ _ _ _ h3
    exact reach_trans (reach_trans r1 r2) r3

theorem ld_reach (ls : List oskar_TelescopeLoadAbstract) (tel : oskar_Telescope) (path : String)
    (t : DirTree) (fm : FileMap) (w : World) (tel' : oskar_Telescope) (w' : World)
    (h : load_directories tel path t ls fm w = some (tel', w')) : Reach ls w w' := by
  rcases ld_inv h with ⟨_, _, h2⟩ | ⟨hw, hc⟩
  · rw [h2]; exact reach_refl ls w
  have hL := level_telescope_reach ls tel path t fm w hw
  rcases hc with ⟨_, _, h2⟩ | ⟨_, _, _, h2⟩ | ⟨hr, d, c, c1, w1, hsub, _, hl, _, h2⟩ |
    ⟨hr, _, _, _, h2⟩ | ⟨_, _, _, h2⟩
  · rw [h2]; exact hL
  · rw [h2]; exact hL
  · have r1 := lds_reach ls d _ _ _ _ _ _ _ hl
    have r0 : Reach ls (level_telescope ls tel path t fm w).2.2
        ((level_telescope ls tel path t fm w).2.2.emit
          (Event.call (oskar_Dir.filePath ⟨path, t⟩ d.name) 0 (0 + 1)
            (level_telescope ls tel path t fm w).2.1)) :=
      reach_one (Step.other _ _ rfl rfl)
    have r2 : Reach ls w1 (w1.emit Event.duplicate_first_station) :=
      reach_one (Step.other _ _ rfl rfl)
    rw [h2]
    exact reach_trans (reach_trans (reach_trans hL r0) r1) r2
  · rw [h2]
    exact reach_trans hL (reach_one (Step.fail _ _ hr))
  · exact reach_trans hL (load_stations_reach ls _ _ _ _ _ _ _ _ h2)


/-! ## Unfolding `oskar_telescope_load` -/

theorem otl_skip (impl : LoaderKind → oskar_TelescopeLoadAbstract)
    (fs : String → Option DirTree) (tel : oskar_Telescope) (path : Option String) (w : World)
    (hw : w.status ≠ 0) : oskar_telescope_load impl fs tel path w = some (tel, w) := by
  unfold oskar_telescope_load; simp [hw]

theorem otl_null (impl : LoaderKind → oskar_TelescopeLoadAbstract)
    (fs : String → Option DirTree) (tel : oskar_Telescope) (w : World) (hw : w.status = 0) :
    oskar_telescope_load impl fs tel none w = some (tel, ⟨ OSKAR_ERR_FILE_IO, w.trace⟩) := by
  unfold oskar_telescope_load; simp [hw]

theorem otl_missing (impl : LoaderKind → oskar_TelescopeLoadAbstract)
    (fs : String → Option DirTree) (tel : oskar_Telescope) (p : String) (w : World)
    (hw : w.status = 0) (hp : fs p = none) :
    oskar_telescope_load impl fs tel (some p) w
      = some (tel, ⟨ OSKAR_ERR_FILE_IO, w.trace ++ [Event.dir_exists p]⟩) := by
  unfold oskar_telescope_load; simp [hw, hp, World.emit]

theorem otl_location (impl : LoaderKind → oskar_TelescopeLoadAbstract)
    (fs : String → Option DirTree) (tel : oskar_Telescope) (p : String) (root : DirTree)
    (w : World) (hw : w.status = 0) (hp : fs p = some root)
    (hm : oskar_telescope_mem_location tel ≠ OSKAR_CPU) :
    oskar_telescope_load impl fs tel (some p) w
      = some (tel, ⟨OSKAR_ERR_BAD_LOCATION, w.trace ++ [Event.dir_exists p]⟩) := by
  unfold oskar_telescope_load; simp [hw, hp, hm, World.emit]

/-- The record of calls at the moment the walk starts. -/
theorem otl_walk (impl : LoaderKind → oskar_TelescopeLoadAbstract)
    (fs : String → Option DirTree) (tel : oskar_Telescope) (p : String) (root : DirTree)
    (w : World) (hw : w.status = 0) (hp : fs p = some root)
    (hm : oskar_telescope_mem_location tel = OSKAR_CPU) :
    oskar_telescope_load impl fs tel (some p) w
      = match load_directories tel p root (create_loaders impl) []
          ⟨0, w.trace ++ Event.dir_exists p :: loader_kinds.map Event.new_loader⟩ with
        | none => none
        | some (t3, w3) =>
          some (oskar_telescope_set_station_ids t3,
            ⟨w3.status, w3.trace ++ ((if w3.status ≠ 0 then [Event.log_load_failed w3.status]
                else []) ++ ((List.range (create_loaders impl).length).map Event.delete_loader ++
                  [Event.set_station_ids]))⟩) := by
  obtain ⟨st, tr⟩ := w
  simp only at hw
  subst hw
  unfold oskar_telescope_load
  simp only [hp, hm, ne_eq, not_true_eq_false, if_false, World.emit, List.append_assoc,
    List.singleton_append]
  cases load_directories tel p root (create_loaders impl) []
      ⟨0, tr ++ Event.dir_exists p :: loader_kinds.map Event.new_loader⟩ with
  | none => rfl
  | some r =>
    obtain ⟨t3, w3⟩ := r
    simp only
    by_cases h3 : w3.status = 0
    · simp [h3]
    · simp [h3]

theorem otl_reach (impl : LoaderKind → oskar_TelescopeLoadAbstract)
    (fs : String → Option DirTree) (tel : oskar_Telescope) (path : Option String) (w : World)
    (tel' : oskar_Telescope) (w' : World)
    (h : oskar_telescope_load impl fs tel path w = some (tel', w')) :
    Reach (create_loaders impl) w w' := by
  by_cases hw : w.status = 0
  swap
  · rw [otl_skip _ _ _ _ _ hw] at h
    simp only [Option.some.injEq, Prod.mk.injEq] at h
    rw [← h.2]; exact reach_refl _ w
  cases path with
  | none =>
    rw [otl_null _ _ _ _ hw] at h
    simp only [Option.some.injEq, Prod.mk.injEq] at h
    rw [← h.2]; exact reach_one (Step.fail w _ hw)
  | some p =>
    have r1 : Reach (create_loaders impl) w ⟨w.status, w.trace ++ [Event.dir_exists p]⟩ :=
      reach_others _ _ (by simp [Event.stage?, Event.isLogError]) w
    cases hp : fs p with
    | none =>
      rw [otl_missing _ _ _ _ _ hw hp] at h
      simp only [Option.some.injEq, Prod.mk.injEq] at h
      rw [← h.2]
      exact reach_trans r1 (reach_one (Step.fail _ _ hw))
    | some root =>
      by_cases hm : oskar_telescope_mem_location tel = OSKAR_CPU
      swap
      · rw [otl_location _ _ _ _ _ _ hw hp hm] at h
        simp only [Option.some.injEq, Prod.mk.injEq] at h
        rw [← h.2]
        exact reach_trans r1 (reach_one (Step.fail _ _ hw))
      rw [otl_walk _ _ _ _ _ _ hw hp hm] at h
      cases hl : load_directories tel p root (create_loaders impl) []
          ⟨0, w.trace ++ Event.dir_exists p :: loader_kinds.map Event.new_loader⟩ with
      | none => rw [hl] at h; cases h
      | some r =>
        obtain ⟨t3, w3⟩ := r
        rw [hl] at h
        simp only [Option.some.injEq, Prod.mk.injEq] at h
        rw [← h.2]
        have r2 : Reach (create_loaders impl) w
            ⟨w.status, w.trace ++ Event.dir_exists p :: loader_kinds.map Event.new_loader⟩ :=
          reach_others _ _ (by
            intro e he
            rcases List.mem_cons.mp he with rfl | he
            · exact ⟨rfl, rfl⟩
            · obtain ⟨k, _, rfl⟩ := List.mem_map.mp he
              exact ⟨rfl, rfl⟩) w
        rw [hw] at r2
        have r3 := ld_reach _ _ _ _ _ _ _ _ hl
        have r4 := reach_others (create_loaders impl)
          ((if w3.status ≠ 0 then [Event.log_load_failed w3.status] else []) ++
            ((List.range (create_loaders impl).length).map Event.delete_loader ++
              [Event.set_station_ids])) (by
            intro e he
            rcases List.mem_append.mp he with he | he
            · split at he
              · rcases List.mem_singleton.mp he with rfl
                exact ⟨rfl, rfl⟩
              · cases he
            · rcases List.mem_append.mp he with he | he
              · obtain ⟨k, _, rfl⟩ := List.mem_map.mp he
                exact ⟨rfl, rfl⟩
              · rcases List.mem_singleton.mp he with rfl
                exact ⟨rfl, rfl⟩) w3
        exact reach_trans (reach_trans r2 r3) r4


/-! ## Invariants of the record of calls -/

theorem quiet_of_not_stage {e : Event} (h : e.stage? = none ∧ e.isLogError = false) :
    e.quiet := by
  refine ⟨fun i p c hc => ?_, h.2⟩
  rw [h.1] at hc
  cases hc

theorem isLogError_of_stage {e : Event} {x : Nat × String × Int} (h : e.stage? = some x) :
    e.isLogError = false := by
  cases e <;> simp [Event.stage?] at h <;> rfl

theorem failInv_step {ls : List oskar_TelescopeLoadAbstract} {a b : World}
    (h : Step ls a b) (ha : FailInv ls a) : FailInv ls b := by
  cases h with
  | other e h1 h2 =>
    rcases ha with hA | ⟨hs, pre, e0, i, p, l, post, htr, he0, hl, hpre, hpost⟩
    · left
      intro x hx
      simp only [World.emit, List.mem_append, List.mem_singleton] at hx
      rcases hx with hx | rfl
      · exact hA x hx
      · exact quiet_of_not_stage ⟨h1, h2⟩
    · right
      refine ⟨hs, pre, e0, i, p, l, post ++ [e], ?_, he0, hl, hpre, ?_⟩
      · simp [World.emit, htr]
      · intro x hx
        rcases List.mem_append.mp hx with hx | hx
        · exact hpost x hx
        · rcases List.mem_singleton.mp hx with rfl
          exact ⟨h1, h2⟩
  | stage e i p hw he hi hr =>
    rcases ha with hA | ⟨hs, _⟩
    · left
      intro x hx
      simp only [List.mem_append, List.mem_singleton] at hx
      rcases hx with hx | rfl
      · exact hA x hx
      · refine ⟨fun i' p' c' hc => ?_, isLogError_of_stage he⟩
        rw [he] at hc
        simp only [Option.some.injEq, Prod.mk.injEq] at hc
        exact hc.2.2.symm
    · exact absurd hw hs
  | stage_fail e i p st l hw he hst hl hr =>
    rcases ha with hA | ⟨hs, _⟩
    · right
      exact ⟨hst, a.trace, e, i, p, l, [], by simp, he, hl, hA, by simp⟩
    · exact absurd hw hs
  | fail c hw =>
    rcases ha with hA | ⟨hs, _⟩
    · left; exact hA
    · exact absurd hw hs

theorem failInv_reach {ls : List oskar_TelescopeLoadAbstract} {a b : World}
    (h : Reach ls a b) (ha : FailInv ls a) : FailInv ls b := by
  induction h with
  | refl => exact ha
  | tail _ hstep ih => exact failInv_step hstep ih

theorem append_singleton_eq_append_cons {α : Type} {tr pre post : List α} {x e : α}
    (h : tr ++ [x] = pre ++ e :: post) :
    (post = [] ∧ pre = tr ∧ e = x) ∨ (∃ post0, post = post0 ++ [x] ∧ tr = pre ++ e :: post0) := by
  rcases List.eq_nil_or_concat post with rfl | ⟨post0, y, rfl⟩
  · left
    have := List.append_inj' h (by simp)
    simp only [List.cons.injEq, and_true] at this
    exact ⟨rfl, this.1.symm, this.2.symm⟩
  · right
    have h' : tr ++ [x] = (pre ++ e :: post0) ++ [y] := by
      rw [h]; simp
    have := List.append_inj' h' (by simp)
    simp only [List.cons.injEq, and_true] at this
    refine ⟨post0, ?_, this.1⟩
    rw [this.2]; simp

theorem ordered_snoc {ls : List oskar_TelescopeLoadAbstract} {tr : List Event} {x : Event}
    (h : Ordered ls tr)
    (hx : ∀ i p c, x.stage? = some (i, p, c) → i < ls.length ∧ ready tr i p) :
    Ordered ls (tr ++ [x]) := by
  intro pre e post i p c hdec he
  rcases append_singleton_eq_append_cons hdec with ⟨_, h2, h3⟩ | ⟨post0, _, h2⟩
  · subst h2 h3
    exact hx i p c he
  · exact h pre e post0 i p c h2 he

theorem ordered_step {ls : List oskar_TelescopeLoadAbstract} {a b : World}
    (h : Step ls a b) (ha : Ordered ls a.trace) : Ordered ls b.trace := by
  cases h with
  | other e h1 h2 =>
    exact ordered_snoc ha (fun i p c hc => by rw [h1] at hc; cases hc)
  | stage e i p hw he hi hr =>
    refine ordered_snoc ha (fun i' p' c' hc => ?_)
    rw [he] at hc
    simp only [Option.some.injEq, Prod.mk.injEq] at hc
    rw [← hc.1, ← hc.2.1]
    exact ⟨hi, hr⟩
  | stage_fail e i p st l hw he hst hl hr =>
    have h1 : Ordered ls (a.trace ++ [e]) := by
      refine ordered_snoc ha (fun i' p' c' hc => ?_)
      rw [he] at hc
      simp only [Option.some.injEq, Prod.mk.injEq] at hc
      rw [← hc.1, ← hc.2.1]
      exact ⟨(List.getElem?_eq_some_iff.mp hl).1, hr⟩
    have h2 : Ordered ls ((a.trace ++ [e]) ++ [Event.log_error (stage_report l.name p)]) :=
      ordered_snoc h1 (fun i p c hc => by cases hc)
    simpa using h2
  | fail c hw => exact ha

theorem ordered_reach {ls : List oskar_TelescopeLoadAbstract} {a b : World}
    (h : Reach ls a b) (ha : Ordered ls a.trace) : Ordered ls b.trace := by
  induction h with
  | refl => exact ha
  | tail _ hstep ih => exact ordered_step hstep ih


theorem pairwise_of_left {α : Type} {R : α → α → Prop} :
    ∀ {l : List α}, (∀ a ∈ l, ∀ b, R a b) → l.Pairwise R := by
  intro l
  induction l with
  | nil => intro _; exact List.Pairwise.nil
  | cons x xs ih =>
    intro h
    refine List.Pairwise.cons (fun b _ => h x (List.mem_cons_self _ _) b) ?_
    exact ih (fun a ha b => h a (List.mem_cons_of_mem _ ha) b)

theorem failInv_no_stage_after_failure {ls : List oskar_TelescopeLoadAbstract} {w : World}
    (h : FailInv ls w) :
    w.trace.Pairwise
      (fun a b => (∃ i p c, a.stage? = some (i, p, c) ∧ c ≠ 0) → b.stage? = none) := by
  rcases h with hA | ⟨_, pre, e, i, p, l, post, htr, _, _, hpre, hpost⟩
  · refine pairwise_of_left (fun a ha b hf => ?_)
    obtain ⟨i, p, c, h1, h2⟩ := hf
    exact absurd ((hA a ha).1 i p c h1) h2
  · rw [htr]
    refine List.pairwise_append.mpr ⟨?_, ?_, ?_⟩
    · refine pairwise_of_left (fun a ha b hf => ?_)
      obtain ⟨i, p, c, h1, h2⟩ := hf
      exact absurd ((hpre a ha).1 i p c h1) h2
    · refine List.Pairwise.cons ?_ ?_
      · intro b hb _
        rcases List.mem_cons.mp hb with rfl | hb
        · rfl
        · exact (hpost b hb).1
      · refine pairwise_of_left (fun a ha b hf => ?_)
        obtain ⟨i, p, c, h1, _⟩ := hf
        rcases List.mem_cons.mp ha with rfl | ha
        · cases h1
        · rw [(hpost a ha).1] at h1; cases h1
    · intro a ha b _ hf
      obtain ⟨i, p, c, h1, h2⟩ := hf
      exact absurd ((hpre a ha).1 i p c h1) h2

theorem failInv_failure_unique {ls : List oskar_TelescopeLoadAbstract} {w : World}
    (h : FailInv ls w) {x : Event} (hx : x ∈ w.trace) {i : Nat} {p : String} {c : Int}
    (hs : x.stage? = some (i, p, c)) (hc : c ≠ 0) :
    w.status = c ∧ ∃ l, ls[i]? = some l ∧
      w.trace.filter Event.isLogError = [Event.log_error (stage_report l.name p)] := by
  rcases h with hA | ⟨_, pre, e, i0, p0, l, post, htr, he, hl, hpre, hpost⟩
  · exact absurd ((hA x hx).1 i p c hs) hc
  · rw [htr] at hx
    have hxe : x = e := by
      rcases List.mem_append.mp hx with hx | hx
      · exact absurd ((hpre x hx).1 i p c hs) hc
      · rcases List.mem_cons.mp hx with rfl | hx
        · rfl
        · rcases List.mem_cons.mp hx with rfl | hx
          · cases hs
          · rw [(hpost x hx).1] at hs; cases hs
    subst hxe
    rw [he] at hs
    simp only [Option.some.injEq, Prod.mk.injEq] at hs
    obtain ⟨h1, h2, h3⟩ := hs
    subst h1 h2
    refine ⟨h3, l, hl, ?_⟩
    rw [htr, List.filter_append, List.filter_cons, List.filter_cons]
    have hp1 : pre.filter Event.isLogError = [] :=
      List.filter_eq_nil_iff.mpr (fun a ha => by simp [(hpre a ha).2])
    have hp2 : post.filter Event.isLogError = [] :=
      List.filter_eq_nil_iff.mpr (fun a ha => by simp [(hpost a ha).2])
    rw [hp1, hp2, isLogError_of_stage he]
    simp [Event.isLogError]


/-! ## What a level appends to the record of calls -/

theorem load_all_station_ext :
    ∀ (rest : List oskar_TelescopeLoadAbstract) (i : Nat) (s : oskar_Station) (cwd : oskar_Dir)
      (k depth : Nat) (fm : FileMap) (w : World),
      ∃ Δ, (load_all_station rest i s cwd k depth fm w).2.2.trace = w.trace ++ Δ ∧
        ∀ e ∈ Δ, e.callDepth? = none := by
  intro rest
  induction rest with
  | nil => intro i s cwd k depth fm w; exact ⟨[], by simp [load_all_station], by simp⟩
  | cons l rest ih =>
    intro i s cwd k depth fm w
    simp only [load_all_station]
    split
    · refine ⟨[Event.load_station i cwd.path k depth fm (l.load_station s cwd k depth fm).2.2,
        Event.log_error ("Error in " ++ l.name ++ " in '" ++ cwd.absolutePath ++ "'.")], ?_, ?_⟩
      · simp [World.emit]
      · intro e he
        simp only [List.mem_cons, List.mem_singleton, List.not_mem_nil, or_false] at he
        rcases he with rfl | rfl <;> rfl
    · obtain ⟨Δ, h1, h2⟩ := ih (i + 1) (l.load_station s cwd k depth fm).1 cwd k depth
        (l.load_station s cwd k depth fm).2.1
        ⟨(l.load_station s cwd k depth fm).2.2, w.trace ++
          [Event.load_station i cwd.path k depth fm (l.load_station s cwd k depth fm).2.2]⟩
      refine ⟨Event.load_station i cwd.path k depth fm (l.load_station s cwd k depth fm).2.2 :: Δ,
        ?_, ?_⟩
      · rw [h1]; simp
      · intro e he
        rcases List.mem_cons.mp he with rfl | he
        · rfl
        · exact h2 e he

theorem load_all_ext :
    ∀ (rest : List oskar_TelescopeLoadAbstract) (i : Nat) (tel : oskar_Telescope)
      (cwd : oskar_Dir) (k : Nat) (fm : FileMap) (w : World),
      ∃ Δ, (load_all rest i tel cwd k fm w).2.2.trace = w.trace ++ Δ ∧
        ∀ e ∈ Δ, e.callDepth? = none := by
  intro rest
  induction rest with
  | nil => intro i s cwd k fm w; exact ⟨[], by simp [load_all], by simp⟩
  | cons l rest ih =>
    intro i s cwd k fm w
    simp only [load_all]
    split
    · refine ⟨[Event.load i cwd.path k fm (l.load s cwd k fm).2.2,
        Event.log_error ("Error in " ++ l.name ++ " in '" ++ cwd.absolutePath ++ "'.")], ?_, ?_⟩
      · simp [World.emit]
      · intro e he
        simp only [List.mem_cons, List.mem_singleton, List.not_mem_nil, or_false] at he
        rcases he with rfl | rfl <;> rfl
    · obtain ⟨Δ, h1, h2⟩ := ih (i + 1) (l.load s cwd k fm).1 cwd k (l.load s cwd k fm).2.1
        ⟨(l.load s cwd k fm).2.2, w.trace ++ [Event.load i cwd.path k fm (l.load s cwd k fm).2.2]⟩
      refine ⟨Event.load i cwd.path k fm (l.load s cwd k fm).2.2 :: Δ, ?_, ?_⟩
      · rw [h1]; simp
      · intro e he
        rcases List.mem_cons.mp he with rfl | he
        · rfl
        · exact h2 e he

theorem level_station_ext (ls : List oskar_TelescopeLoadAbstract) (s : oskar_Station)
    (path : String) (t : DirTree) (depth : Nat) (fm : FileMap) (w : World) :
    ∃ Δ, (level_station ls s path t depth fm w).2.2.trace = w.trace ++ Δ ∧
      ∀ e ∈ Δ, e.callDepth? = none := by
  obtain ⟨Δ, h1, h2⟩ := load_all_station_ext ls 0 s ⟨path, t⟩ t.subs.length depth fm
    (w.emit (Event.allSubDirs path))
  refine ⟨Event.allSubDirs path :: Δ, ?_, ?_⟩
  · rw [level_station, h1]; simp [World.emit]
  · intro e he
    rcases List.mem_cons.mp he with rfl | he
    · rfl
    · exact h2 e he

theorem level_telescope_ext (ls : List oskar_TelescopeLoadAbstract) (tel : oskar_Telescope)
    (path : String) (t : DirTree) (fm : FileMap) (w : World) :
    ∃ Δ, (level_telescope ls tel path t fm w).2.2.trace = w.trace ++ Δ ∧
      ∀ e ∈ Δ, e.callDepth? = none := by
  obtain ⟨Δ, h1, h2⟩ := load_all_ext ls 0 tel ⟨path, t⟩ t.subs.length fm
    (w.emit (Event.allSubDirs path))
  refine ⟨Event.allSubDirs path :: Δ, ?_, ?_⟩
  · rw [level_telescope, h1]; simp [World.emit]
  · intro e he
    rcases List.mem_cons.mp he with rfl | he
    · rfl
    · exact h2 e he

theorem filter_isCallAt_nil {Δ : List Event} {depth k : Nat}
    (h : ∀ e ∈ Δ, ∀ d, e.callDepth? = some d → depth < d) (hk : k ≤ depth) :
    Δ.filter (Event.isCallAt k) = [] := by
  refine List.filter_eq_nil_iff.mpr (fun e he => ?_)
  simp only [Event.isCallAt, beq_iff_eq]
  intro hc
  have := h e he k hc
  omega

theorem load_children_ext (ls : List oskar_TelescopeLoadAbstract) :
    ∀ (ds : List DirTree),
      (∀ d ∈ ds, ∀ s path depth fm w s' w',
        load_directories_station s path d depth ls fm w = some (s', w') →
        ∃ Δ, w'.trace = w.trace ++ Δ ∧ ∀ e ∈ Δ, ∀ k, e.callDepth? = some k → depth < k) →
      ∀ s cwd i depth fm w s' w',
        load_children s cwd ds i depth ls fm w = some (s', w') →
        ∃ Δ, w'.trace = w.trace ++ Δ ∧ (∀ e ∈ Δ, ∀ k, e.callDepth? = some k → depth < k) ∧
          Δ.filter (Event.isCallAt (depth + 1)) = calls_of cwd (depth + 1) fm i ds := by
  intro ds
  induction ds with
  | nil =>
    intro _ s cwd i depth fm w s' w' h
    rw [load_children_nil] at h
    simp only [Option.some.injEq, Prod.mk.injEq] at h
    exact ⟨[], by simp [h.2], by simp, by simp [calls_of]⟩
  | cons d ds ih =>
    intro hP s cwd i depth fm w s' w' h
    obtain ⟨c, c1, w1, _, h2, h3⟩ := load_children_inv h
    obtain ⟨Δ1, e1, p1⟩ := hP d (List.mem_cons_self _ _) _ _ _ _ _ _ _ h2
    obtain ⟨Δ2, e2, p2, q2⟩ := ih (fun x hx => hP x (List.mem_cons_of_mem _ hx)) _ _ _ _ _ _ _ _ h3
    refine ⟨Event.call (cwd.filePath d.name) i (depth + 1) fm :: (Δ1 ++ Δ2), ?_, ?_, ?_⟩
    · rw [e2, e1]; simp [World.emit]
    · intro e he k hk
      rcases List.mem_cons.mp he with rfl | he
      · simp only [Event.callDepth?, Option.some.injEq] at hk
        omega
      · rcases List.mem_append.mp he with he | he
        · have := p1 e he k hk
          omega
        · exact p2 e he k hk
    · rw [List.filter_cons, List.filter_append, filter_isCallAt_nil p1 (le_refl _), q2]
      simp [Event.isCallAt, Event.callDepth?, calls_of]

theorem lds_ext (ls : List oskar_TelescopeLoadAbstract) :
    ∀ (t : DirTree) (s : oskar_Station) (path : String) (depth : Nat) (fm : FileMap) (w : World)
      (s' : oskar_Station) (w' : World),
      load_directories_station s path t depth ls fm w = some (s', w') →
      ∃ Δ, w'.trace = w.trace ++ Δ ∧ ∀ e ∈ Δ, ∀ k, e.callDepth? = some k → depth < k := by
  intro t
  induction t using DirTree.induct_subs with
  | h name subs ih =>
    intro s path depth fm w s' w' h
    rcases lds_inv h with ⟨_, _, h2⟩ | ⟨hw, hc⟩
    · exact ⟨[], by simp [h2], by simp⟩
    obtain ⟨Δ0, e0, p0⟩ := level_station_ext ls s path (.node name subs) depth fm w
    have p0' : ∀ e ∈ Δ0, ∀ k, e.callDepth? = some k → depth < k := by
      intro e he k hk
      rw [p0 e he] at hk; cases hk
    rcases hc with ⟨_, _, h2⟩ | ⟨_, _, _, h2⟩ | ⟨hr, d, c, c1, w1, hsub, _, hl, _, h2⟩ |
      ⟨hr, _, _, _, h2⟩ | ⟨_, _, _, h2⟩
    · exact ⟨Δ0, by rw [h2, e0], p0'⟩
    · exact ⟨Δ0, by rw [h2, e0], p0'⟩
    · have hd : d ∈ subs := by
        simp only [DirTree.subs] at hsub
        rw [hsub]; exact List.mem_singleton_self d
      obtain ⟨Δ1, e1, p1⟩ := ih d hd _ _ _ _ _ _ _ hl
      refine ⟨Δ0 ++ Event.call (oskar_Dir.filePath ⟨path, .node name subs⟩ d.name) 0 (depth + 1)
        (level_station ls s path (.node name subs) depth fm w).2.1 :: (Δ1 ++
          [Event.duplicate_first_child path]), ?_, ?_⟩
      · rw [h2]; simp only; rw [e1]; simp [World.emit, e0]
      · intro e he k hk
        rcases List.mem_append.mp he with he | he
        · exact p0' e he k hk
        · rcases List.mem_cons.mp he with rfl | he
          · simp only [Event.callDepth?, Option.some.injEq] at hk
            omega
          · rcases List.mem_append.mp he with he | he
            · have := p1 e he k hk
              omega
            · rcases List.mem_singleton.mp he with rfl
              cases hk
    · exact ⟨Δ0, by rw [h2, e0], p0'⟩
    · obtain ⟨Δ1, e1, p1, _⟩ := load_children_ext ls subs ih _ _ _ _ _ _ _ _ h2
      refine ⟨Δ0 ++ Δ1, by rw [e1, e0]; simp, ?_⟩
      intro e he k hk
      rcases List.mem_append.mp he with he | he
      · exact p0' e he k hk
      · exact p1 e he k hk

theorem load_children_calls (ls : List oskar_TelescopeLoadAbstract) (ds : List DirTree)
    (s : oskar_Station) (cwd : oskar_Dir) (i depth : Nat) (fm : FileMap) (w : World)
    (s' : oskar_Station) (w' : World)
    (h : load_children s cwd ds i depth ls fm w = some (s', w')) :
    ∃ Δ, w'.trace = w.trace ++ Δ ∧ (∀ e ∈ Δ, ∀ k, e.callDepth? = some k → depth < k) ∧
      Δ.filter (Event.isCallAt (depth + 1)) = calls_of cwd (depth + 1) fm i ds :=
  load_children_ext ls ds (fun d _ => lds_ext ls d) s cwd i depth fm w s' w' h

theorem load_stations_calls (ls : List oskar_TelescopeLoadAbstract) :
    ∀ (ds : List DirTree) (tel : oskar_Telescope) (cwd : oskar_Dir) (i : Nat) (fm : FileMap)
      (w : World) (tel' : oskar_Telescope) (w' : World),
      load_stations tel cwd ds i ls fm w = some (tel', w') →
      ∃ Δ, w'.trace = w.trace ++ Δ ∧
        Δ.filter (Event.isCallAt (0 + 1)) = calls_of cwd (0 + 1) fm i ds := by
  intro ds
  induction ds with
  | nil =>
    intro tel cwd i fm w tel' w' h
    rw [load_stations_nil] at h
    simp only [Option.some.injEq, Prod.mk.injEq] at h
    exact ⟨[], by simp [h.2], by simp [calls_of]⟩
  | cons d ds ih =>
    intro tel cwd i fm w tel' w' h
    obtain ⟨c, c1, w1, _, h2, h3⟩ := load_stations_inv h
    obtain ⟨Δ1, e1, p1⟩ := lds_ext ls d _ _ _ _ _ _ _ h2
    obtain ⟨Δ2, e2, q2⟩ := ih _ _ _ _ _ _ _ h3
    refine ⟨Event.call (cwd.filePath d.name) i (0 + 1) fm :: (Δ1 ++ Δ2), ?_, ?_⟩
    · rw [e2, e1]; simp [World.emit]
    · rw [List.filter_cons, List.filter_append, filter_isCallAt_nil p1 (le_refl _), q2]
      simp [Event.isCallAt, Event.callDepth?, calls_of]


/-! ## The walk does not read the record of calls -/

theorem emit_prepend (tr : List Event) (w : World) (e : Event) :
    (w.prepend tr).emit e = (w.emit e).prepend tr := by
  simp [World.prepend, World.emit]

theorem load_all_station_frame (tr : List Event) :
    ∀ (rest : List oskar_TelescopeLoadAbstract) (i : Nat) (s : oskar_Station) (cwd : oskar_Dir)
      (k depth : Nat) (fm : FileMap) (w : World),
      load_all_station rest i s cwd k depth fm (w.prepend tr)
        = ((load_all_station rest i s cwd k depth fm w).1,
            (load_all_station rest i s cwd k depth fm w).2.1,
            (load_all_station rest i s cwd k depth fm w).2.2.prepend tr) := by
  intro rest
  induction rest with
  | nil => intro i s cwd k depth fm w; simp [load_all_station]
  | cons l rest ih =>
    intro i s cwd k depth fm w
    simp only [load_all_station]
    split
    · simp [World.prepend, World.emit]
    · have := ih (i + 1) (l.load_station s cwd k depth fm).1 cwd k depth
        (l.load_station s cwd k depth fm).2.1
        ⟨(l.load_station s cwd k depth fm).2.2, w.trace ++
          [Event.load_station i cwd.path k depth fm (l.load_station s cwd k depth fm).2.2]⟩
      simp only [World.prepend, List.append_assoc] at this ⊢
      exact this

theorem load_all_frame (tr : List Event) :
    ∀ (rest : List oskar_TelescopeLoadAbstract) (i : Nat) (tel : oskar_Telescope)
      (cwd : oskar_Dir) (k : Nat) (fm : FileMap) (w : World),
      load_all rest i tel cwd k fm (w.prepend tr)
        = ((load_all rest i tel cwd k fm w).1, (load_all rest i tel cwd k fm w).2.1,
            (load_all rest i tel cwd k fm w).2.2.prepend tr) := by
  intro rest
  induction rest with
  | nil => intro i s cwd k fm w; simp [load_all]
  | cons l rest ih =>
    intro i s cwd k fm w
    simp only [load_all]
    split
    · simp [World.prepend, World.emit]
    · have := ih (i + 1) (l.load s cwd k fm).1 cwd k (l.load s cwd k fm).2.1
        ⟨(l.load s cwd k fm).2.2, w.trace ++
          [Event.load i cwd.path k fm (l.load s cwd k fm).2.2]⟩
      simp only [World.prepend, List.append_assoc] at this ⊢
      exact this

theorem level_station_frame (tr : List Event) (ls : List oskar_TelescopeLoadAbstract)
    (s : oskar_Station) (path : String) (t : DirTree) (depth : Nat) (fm : FileMap) (w : World) :
    level_station ls s path t depth fm (w.prepend tr)
      = ((level_station ls s path t depth fm w).1, (level_station ls s path t depth fm w).2.1,
          (level_station ls s path t depth fm w).2.2.prepend tr) := by
  simp only [level_station, emit_prepend]
  exact load_all_station_frame tr ls 0 s ⟨path, t⟩ _ depth fm _

theorem level_telescope_frame (tr : List Event) (ls : List oskar_TelescopeLoadAbstract)
    (tel : oskar_Telescope) (path : String) (t : DirTree) (fm : FileMap) (w : World) :
    level_telescope ls tel path t fm (w.prepend tr)
      = ((level_telescope ls tel path t fm w).1, (level_telescope ls tel path t fm w).2.1,
          (level_telescope ls tel path t fm w).2.2.prepend tr) := by
  simp only [level_telescope, emit_prepend]
  exact load_all_frame tr ls 0 tel ⟨path, t⟩ _ fm _

theorem load_children_frame (ls : List oskar_TelescopeLoadAbstract) (tr : List Event) :
    ∀ (ds : List DirTree),
      (∀ d ∈ ds, ∀ s path depth fm w,
        load_directories_station s path d depth ls fm (w.prepend tr)
          = shift tr (load_directories_station s path d depth ls fm w)) →
      ∀ s cwd i depth fm w,
        load_children s cwd ds i depth ls fm (w.prepend tr)
          = shift tr (load_children s cwd ds i depth ls fm w) := by
  intro ds
  induction ds with
  | nil => intro _ s cwd i depth fm w; simp [load_children_nil, shift]
  | cons d ds ih =>
    intro hP s cwd i depth fm w
    rw [load_children_cons, load_children_cons]
    cases hc : oskar_station_child s i with
    | none => rfl
    | some c =>
      simp only
      rw [emit_prepend, hP d (List.mem_cons_self _ _)]
      cases hl : load_directories_station c (cwd.filePath d.name) d (depth + 1) ls fm
          (w.emit (Event.call (cwd.filePath d.name) i (depth + 1) fm)) with
      | none => rfl
      | some r =>
        obtain ⟨c1, w1⟩ := r
        simp only [shift, Option.map_some']
        exact ih (fun x hx => hP x (List.mem_cons_of_mem _ hx)) _ _ _ _ _ _

theorem lds_frame (ls : List oskar_TelescopeLoadAbstract) (tr : List Event) :
    ∀ (t : DirTree) (s : oskar_Station) (path : String) (depth : Nat) (fm : FileMap) (w : World),
      load_directories_station s path t depth ls fm (w.prepend tr)
        = shift tr (load_directories_station s path t depth ls fm w) := by
  intro t
  induction t using DirTree.induct_subs with
  | h name subs ih =>
    intro s path depth fm w
    by_cases hw : w.status = 0
    swap
    · rw [lds_skip _ _ _ _ _ _ _ hw, lds_skip _ _ _ _ _ _ _ (by exact hw)]
      rfl
    have hw' : (w.prepend tr).status = 0 := hw
    by_cases hr : (level_station ls s path (.node name subs) depth fm w).2.2.status = 0
    swap
    · have hr' : (level_station ls s path (.node name subs) depth fm (w.prepend tr)).2.2.status
          ≠ 0 := by
        rw [level_station_frame]; exact hr
      rw [lds_stage_fail _ _ _ _ _ _ _ hw hr, lds_stage_fail _ _ _ _ _ _ _ hw' hr',
        level_station_frame]
      rfl
    have hr' : (level_station ls s path (.node name subs) depth fm (w.prepend tr)).2.2.status
        = 0 := by
      rw [level_station_frame]; exact hr
    match subs, ih, hr, hr' with
    | [], _, hr, hr' =>
      rw [lds_leaf _ _ _ _ _ _ _ hw, lds_leaf _ _ _ _ _ _ _ hw', level_station_frame]
      rfl
    | [d], ih, hr, hr' =>
      rw [lds_single _ _ _ _ _ _ _ _ hw hr, lds_single _ _ _ _ _ _ _ _ hw' hr',
        level_station_frame]
      simp only
      cases hc : oskar_station_child (level_station ls s path (.node name [d]) depth fm w).1 0 with
      | none => rfl
      | some c =>
        simp only
        rw [emit_prepend, ih d (List.mem_singleton_self d)]
        cases hl : load_directories_station c (oskar_Dir.filePath ⟨path, .node name [d]⟩ d.name) d
            (depth + 1) ls (level_station ls s path (.node name [d]) depth fm w).2.1
            ((level_station ls s path (.node name [d]) depth fm w).2.2.emit
              (Event.call (oskar_Dir.filePath ⟨path, .node name [d]⟩ d.name) 0 (depth + 1)
                (level_station ls s path (.node name [d]) depth fm w).2.1)) with
        | none => rfl
        | some r =>
          obtain ⟨c1, w1⟩ := r
          simp [shift, World.prepend]
    | d1 :: d2 :: ds, ih, hr, hr' =>
      rw [lds_many _ _ _ _ _ _ _ _ _ _ hw hr, lds_many _ _ _ _ _ _ _ _ _ _ hw' hr',
        level_station_frame]
      simp only
      split
      · rfl
      · exact load_children_frame ls tr _ ih _ _ _ _ _ _

theorem load_stations_frame (ls : List oskar_TelescopeLoadAbstract) (tr : List Event) :
    ∀ (ds : List DirTree) (tel : oskar_Telescope) (cwd : oskar_Dir) (i : Nat) (fm : FileMap)
      (w : World),
      load_stations tel cwd ds i ls fm (w.prepend tr)
        = shift tr (load_stations tel cwd ds i ls fm w) := by
  intro ds
  induction ds with
  | nil => intro tel cwd i fm w; simp [load_stations_nil, shift]
  | cons d ds ih =>
    intro tel cwd i fm w
    rw [load_stations_cons, load_stations_cons]
    cases hc : oskar_telescope_station tel i with
    | none => rfl
    | some c =>
      simp only
      rw [emit_prepend, lds_frame]
      cases hl : load_directories_station c (cwd.filePath d.name) d (0 + 1) ls fm
          (w.emit (Event.call (cwd.filePath d.name) i (0 + 1) fm)) with
      | none => rfl
      | some r =>
        obtain ⟨c1, w1⟩ := r
        simp only [shift, Option.map_some']
        exact ih _ _ _ _ _


/-! ## Each child is loaded in isolation -/

theorem setChild_child (s : oskar_Station) (i : Nat) (c : oskar_Station) :
    (s.setChild i c).child = s.child.set i c := by
  cases s; rfl

theorem load_children_status (ls : List oskar_TelescopeLoadAbstract) :
    ∀ (ds : List DirTree) (s : oskar_Station) (cwd : oskar_Dir) (i depth : Nat) (fm : FileMap)
      (w : World) (s' : oskar_Station) (w' : World),
      load_children s cwd ds i depth ls fm w = some (s', w') → w.status ≠ 0 →
      w'.status ≠ 0 := by
  intro ds
  induction ds with
  | nil =>
    intro s cwd i depth fm w s' w' h hw
    rw [load_children_nil] at h
    simp only [Option.some.injEq, Prod.mk.injEq] at h
    rw [← h.2]; exact hw
  | cons d ds ih =>
    intro s cwd i depth fm w s' w' h hw
    obtain ⟨c, c1, w1, _, h2, h3⟩ := load_children_inv h
    rw [lds_skip _ _ _ _ _ _ _ (by exact hw)] at h2
    simp only [Option.some.injEq, Prod.mk.injEq] at h2
    refine ih _ _ _ _ _ _ _ _ h3 ?_
    rw [← h2.2]; exact hw

theorem load_stations_status (ls : List oskar_TelescopeLoadAbstract) :
    ∀ (ds : List DirTree) (tel : oskar_Telescope) (cwd : oskar_Dir) (i : Nat) (fm : FileMap)
      (w : World) (tel' : oskar_Telescope) (w' : World),
      load_stations tel cwd ds i ls fm w = some (tel', w') → w.status ≠ 0 →
      w'.status ≠ 0 := by
  intro ds
  induction ds with
  | nil =>
    intro tel cwd i fm w tel' w' h hw
    rw [load_stations_nil] at h
    simp only [Option.some.injEq, Prod.mk.injEq] at h
    rw [← h.2]; exact hw
  | cons d ds ih =>
    intro tel cwd i fm w tel' w' h hw
    obtain ⟨c, c1, w1, _, h2, h3⟩ := load_stations_inv h
    rw [lds_skip _ _ _ _ _ _ _ (by exact hw)] at h2
    simp only [Option.some.injEq, Prod.mk.injEq] at h2
    refine ih _ _ _ _ _ _ _ h3 ?_
    rw [← h2.2]; exact hw

theorem load_children_lower (ls : List oskar_TelescopeLoadAbstract) :
    ∀ (ds : List DirTree) (s : oskar_Station) (cwd : oskar_Dir) (i depth : Nat) (fm : FileMap)
      (w : World) (s' : oskar_Station) (w' : World),
      load_children s cwd ds i depth ls fm w = some (s', w') →
      ∀ k, k < i → s'.child[k]? = s.child[k]? := by
  intro ds
  induction ds with
  | nil =>
    intro s cwd i depth fm w s' w' h k _
    rw [load_children_nil] at h
    simp only [Option.some.injEq, Prod.mk.injEq] at h
    rw [← h.1]
  | cons d ds ih =>
    intro s cwd i depth fm w s' w' h k hk
    obtain ⟨c, c1, w1, _, _, h3⟩ := load_children_inv h
    rw [ih _ _ _ _ _ _ _ _ h3 k (by omega), setChild_child,
      List.getElem?_set_ne (by omega)]

theorem load_stations_lower (ls : List oskar_TelescopeLoadAbstract) :
    ∀ (ds : List DirTree) (tel : oskar_Telescope) (cwd : oskar_Dir) (i : Nat) (fm : FileMap)
      (w : World) (tel' : oskar_Telescope) (w' : World),
      load_stations tel cwd ds i ls fm w = some (tel', w') →
      ∀ k, k < i → tel'.station[k]? = tel.station[k]? := by
  intro ds
  induction ds with
  | nil =>
    intro tel cwd i fm w tel' w' h k _
    rw [load_stations_nil] at h
    simp only [Option.some.injEq, Prod.mk.injEq] at h
    rw [← h.1]
  | cons d ds ih =>
    intro tel cwd i fm w tel' w' h k hk
    obtain ⟨c, c1, w1, _, _, h3⟩ := load_stations_inv h
    rw [ih _ _ _ _ _ _ _ h3 k (by omega)]
    simp only [oskar_Telescope.setStation]
    rw [List.getElem?_set_ne (by omega)]

/-- One step of a loop over child directories, seen from a fresh record. -/
theorem lds_from_fresh (ls : List oskar_TelescopeLoadAbstract) {c : oskar_Station}
    {p : String} {d : DirTree} {depth : Nat} {fm : FileMap} {w : World} {e : Event}
    {c1 : oskar_Station} {w1 : World}
    (h : load_directories_station c p d depth ls fm (w.emit e) = some (c1, w1))
    (h1 : w1.status = 0) :
    w.status = 0 ∧ ∃ Δ, load_directories_station c p d depth ls fm ⟨0, []⟩ = some (c1, ⟨0, Δ⟩) ∧
      w1.trace = w.trace ++ e :: Δ := by
  have hw : w.status = 0 := by
    by_contra hne
    rw [lds_skip _ _ _ _ _ _ _ (by exact hne)] at h
    simp only [Option.some.injEq, Prod.mk.injEq] at h
    rw [← h.2] at h1
    exact hne h1
  refine ⟨hw, ?_⟩
  have he : w.emit e = (⟨0, []⟩ : World).prepend (w.trace ++ [e]) := by
    simp [World.emit, World.prepend, hw]
  rw [he, lds_frame] at h
  cases hl : load_directories_station c p d depth ls fm ⟨0, []⟩ with
  | none => rw [hl] at h; cases h
  | some r =>
    obtain ⟨c0, w0⟩ := r
    rw [hl] at h
    simp only [shift, Option.map_some', Option.some.injEq, Prod.mk.injEq] at h
    obtain ⟨h2, h3⟩ := h
    subst h2
    rw [← h3] at h1 ⊢
    obtain ⟨st0, tr0⟩ := w0
    simp only [World.prepend] at h1 ⊢
    subst h1
    exact ⟨tr0, rfl, by simp⟩

theorem load_children_isolated (ls : List oskar_TelescopeLoadAbstract) :
    ∀ (ds : List DirTree) (s : oskar_Station) (cwd : oskar_Dir) (i depth : Nat) (fm : FileMap)
      (w : World) (s' : oskar_Station) (w' : World),
      load_children s cwd ds i depth ls fm w = some (s', w') → w'.status = 0 →
      ∀ j d, ds[j]? = some d →
        ∃ c c' Δ, oskar_station_child s (i + j) = some c ∧
          load_directories_station c (cwd.filePath d.name) d (depth + 1) ls fm ⟨0, []⟩
            = some (c', ⟨0, Δ⟩) ∧
          oskar_station_child s' (i + j) = some c' ∧
          (Event.call (cwd.filePath d.name) (i + j) (depth + 1) fm :: Δ) <:+: w'.trace := by
  intro ds
  induction ds with
  | nil => intro s cwd i depth fm w s' w' _ _ j d hj; simp at hj
  | cons d0 ds ih =>
    intro s cwd i depth fm w s' w' h hs j d hj
    obtain ⟨c, c1, w1, hc, h2, h3⟩ := load_children_inv h
    have hw1 : w1.status = 0 := by
      by_contra hne
      exact load_children_status ls _ _ _ _ _ _ _ _ _ h3 hne hs
    obtain ⟨_, Δ, hfresh, htr⟩ := lds_from_fresh ls h2 hw1
    obtain ⟨Δ2, hext, _, _⟩ := load_children_calls ls _ _ _ _ _ _ _ _ _ h3
    cases j with
    | zero =>
      simp only [List.getElem?_cons_zero, Option.some.injEq] at hj
      subst hj
      refine ⟨c, c1, Δ, hc, hfresh, ?_, ?_⟩
      · have hlow := load_children_lower ls _ _ _ _ _ _ _ _ _ h3 i (by omega)
        have hi : i < s.child.length := by
          rcases List.getElem?_eq_some_iff.mp hc with ⟨hlt, _⟩
          exact hlt
        simp only [oskar_station_child, Nat.add_zero]
        rw [hlow, setChild_child, List.getElem?_set_eq_of_lt _ hi]
      · refine ⟨w.trace, Δ2, ?_⟩
        rw [hext, htr]; simp
    | succ j =>
      simp only [List.getElem?_cons_succ] at hj
      obtain ⟨c2, c2', Δ', hc2, hrun, hres, hinf⟩ := ih _ _ _ _ _ _ _ _ h3 hs j d hj
      have hidx : i + (j + 1) = i + 1 + j := by omega
      refine ⟨c2, c2', Δ', ?_, hrun, ?_, ?_⟩
      · simp only [oskar_station_child, setChild_child] at hc2 ⊢
        rw [List.getElem?_set_ne (by omega)] at hc2
        rw [hidx]; exact hc2
      · rw [hidx]; exact hres
      · rw [hidx]; exact hinf

theorem load_stations_isolated (ls : List oskar_TelescopeLoadAbstract) :
    ∀ (ds : List DirTree) (tel : oskar_Telescope) (cwd : oskar_Dir) (i : Nat) (fm : FileMap)
      (w : World) (tel' : oskar_Telescope) (w' : World),
      load_stations tel cwd ds i ls fm w = some (tel', w') → w'.status = 0 →
      ∀ j d, ds[j]? = some d →
        ∃ c c' Δ, oskar_telescope_station tel (i + j) = some c ∧
          load_directories_station c (cwd.filePath d.name) d (0 + 1) ls fm ⟨0, []⟩
            = some (c', ⟨0, Δ⟩) ∧
          oskar_telescope_station tel' (i + j) = some c' ∧
          (Event.call (cwd.filePath d.name) (i + j) (0 + 1) fm :: Δ) <:+: w'.trace := by
  intro ds
  induction ds with
  | nil => intro tel cwd i fm w tel' w' _ _ j d hj; simp at hj
  | cons d0 ds ih =>
    intro tel cwd i fm w tel' w' h hs j d hj
    obtain ⟨c, c1, w1, hc, h2, h3⟩ := load_stations_inv h
    have hw1 : w1.status = 0 := by
      by_contra hne
      exact load_stations_status ls _ _ _ _ _ _ _ _ h3 hne hs
    obtain ⟨_, Δ, hfresh, htr⟩ := lds_from_fresh ls h2 hw1
    obtain ⟨Δ2, hext, _⟩ := load_stations_calls ls _ _ _ _ _ _ _ _ h3
    cases j with
    | zero =>
      simp only [List.getElem?_cons_zero, Option.some.injEq] at hj
      subst hj
      refine ⟨c, c1, Δ, hc, hfresh, ?_, ?_⟩
      · have hlow := load_stations_lower ls _ _ _ _ _ _ _ _ h3 i (by omega)
        have hi : i < tel.station.length := by
          rcases List.getElem?_eq_some_iff.mp hc with ⟨hlt, _⟩
          exact hlt
        simp only [oskar_telescope_station, Nat.add_zero]
        rw [hlow]
        simp only [oskar_Telescope.setStation]
        rw [List.getElem?_set_eq_of_lt _ hi]
      · refine ⟨w.trace, Δ2, ?_⟩
        rw [hext, htr]; simp
    | succ j =>
      simp only [List.getElem?_cons_succ] at hj
      obtain ⟨c2, c2', Δ', hc2, hrun, hres, hinf⟩ := ih _ _ _ _ _ _ _ h3 hs j d hj
      have hidx : i + (j + 1) = i + 1 + j := by omega
      refine ⟨c2, c2', Δ', ?_, hrun, ?_, ?_⟩
      · simp only [oskar_telescope_station, oskar_Telescope.setStation] at hc2 ⊢
        rw [List.getElem?_set_ne (by omega)] at hc2
        rw [hidx]; exact hc2
      · rw [hidx]; exact hres
      · rw [hidx]; exact hinf


/-! ## Stage failures (C4, C5), stage order (C10), preconditions (C7) and
identifiers after a failed walk (C9) -/

theorem failInv_fresh (ls : List oskar_TelescopeLoadAbstract) (w : World) (hw : w.trace = []) :
    FailInv ls w := by
  left; intro e he; rw [hw] at he; cases he

theorem ordered_fresh (ls : List oskar_TelescopeLoadAbstract) (w : World) (hw : w.trace = []) :
    Ordered ls w.trace := by
  intro pre e post i p c h _
  rw [hw] at h
  cases pre <;> cases h

/-- C4: in every load started with an empty record of calls, no stage call
follows a stage call that left a non-zero status (neither a remaining stage
of that level nor a stage in a descendant or later sibling directory), and
the status that `oskar_telescope_load` returns is the code which that
failing stage left. -/
theorem C4_first_failure_ends_walk (impl : LoaderKind → oskar_TelescopeLoadAbstract)
    (fs : String → Option DirTree) (tel : oskar_Telescope) (path : Option String) (w : World)
    (tel' : oskar_Telescope) (w' : World) (hw : w.trace = [])
    (h : oskar_telescope_load impl fs tel path w = some (tel', w')) :
    w'.trace.Pairwise
      (fun a b => (∃ i p c, a.stage? = some (i, p, c) ∧ c ≠ 0) → b.stage? = none) ∧
    ∀ e ∈ w'.trace, ∀ i p c, e.stage? = some (i, p, c) → c ≠ 0 → w'.status = c := by
  have h1 := failInv_reach (otl_reach impl fs tel path w tel' w' h) (failInv_fresh _ w hw)
  exact ⟨failInv_no_stage_after_failure h1, fun e he i p c hs hc => (failInv_failure_unique h1 he hs hc).1⟩

theorem C4_first_failure_ends_walk_witness :
    (⟨0, []⟩ : World).trace = [] ∧
    oskar_telescope_load (exImpl 2 2) exFs exTel (some "/tel") ⟨0, []⟩
      = some (exOut 2 2 "/tel") ∧
    Event.load_station 9 "/tel/A/x" 0 2
        [("gain", "/tel/A/x"), ("gain", "/tel/A"), ("gain", "/tel")] (-5)
      ∈ (exOut 2 2 "/tel").2.trace ∧
    ((exOut 2 2 "/tel").2.trace.Pairwise
      (fun a b => (∃ i p c, a.stage? = some (i, p, c) ∧ c ≠ 0) → b.stage? = none) ∧
    ∀ e ∈ (exOut 2 2 "/tel").2.trace, ∀ i p c, e.stage? = some (i, p, c) → c ≠ 0 →
      (exOut 2 2 "/tel").2.status = c) :=
  ⟨rfl, rfl, by decide,
    C4_first_failure_ends_walk (exImpl 2 2) exFs exTel (some "/tel") ⟨0, []⟩
      (exOut 2 2 "/tel").1 (exOut 2 2 "/tel").2 rfl rfl⟩

/-- C5: in every load started with an empty record of calls in which a
stage call (stage `i`, directory path `p`) left a non-zero status, exactly
one stage-failure report is emitted, and its text names that stage (its
`name()`) and the path of that directory. -/
theorem C5_single_stage_report (impl : LoaderKind → oskar_TelescopeLoadAbstract)
    (fs : String → Option DirTree) (tel : oskar_Telescope) (path : Option String) (w : World)
    (tel' : oskar_Telescope) (w' : World) (e : Event) (i : Nat) (p : String) (c : Int)
    (hw : w.trace = []) (h : oskar_telescope_load impl fs tel path w = some (tel', w'))
    (he : e ∈ w'.trace) (hs : e.stage? = some (i, p, c)) (hc : c ≠ 0) :
    ∃ l, (create_loaders impl)[i]? = some l ∧
      w'.trace.filter Event.isLogError
        = [Event.log_error ("Error in " ++ l.name ++ " in '" ++ p ++ "'.")] := by
  have h1 := failInv_reach (otl_reach impl fs tel path w tel' w' h) (failInv_fresh _ w hw)
  exact (failInv_failure_unique h1 he hs hc).2

theorem C5_single_stage_report_witness :
    (⟨0, []⟩ : World).trace = [] ∧
    oskar_telescope_load (exImpl 2 2) exFs exTel (some "/tel") ⟨0, []⟩
      = some (exOut 2 2 "/tel") ∧
    Event.load_station 9 "/tel/A/x" 0 2
        [("gain", "/tel/A/x"), ("gain", "/tel/A"), ("gain", "/tel")] (-5)
      ∈ (exOut 2 2 "/tel").2.trace ∧
    (Event.load_station 9 "/tel/A/x" 0 2
        [("gain", "/tel/A/x"), ("gain", "/tel/A"), ("gain", "/tel")] (-5)).stage?
      = some (9, "/tel/A/x", -5) ∧
    (-5 : Int) ≠ 0 ∧
    ∃ l, (create_loaders (exImpl 2 2))[9]? = some l ∧
      (exOut 2 2 "/tel").2.trace.filter Event.isLogError
        = [Event.log_error ("Error in " ++ l.name ++ " in '" ++ "/tel/A/x" ++ "'.")] :=
  ⟨rfl, rfl, by decide, rfl, by decide,
    C5_single_stage_report (exImpl 2 2) exFs exTel (some "/tel") ⟨0, []⟩
      (exOut 2 2 "/tel").1 (exOut 2 2 "/tel").2
      (Event.load_station 9 "/tel/A/x" 0 2
        [("gain", "/tel/A/x"), ("gain", "/tel/A"), ("gain", "/tel")] (-5))
      9 "/tel/A/x" (-5) rfl rfl (by decide) rfl (by decide)⟩

/-- C10: the pipeline built by `oskar_telescope_load` is the position
loader, the layout loader and then the eight attribute loaders (gain/phase,
apodisation, feed angle, element types, mount types, permitted beams,
element pattern, noise), each class once; and in every load started with an
empty record of calls each stage call is made for a pipeline index below 10
and stands in index order: stage 0 right after the listing of the
directory, stage `i + 1` right after the call of stage `i` for the same
directory. -/
theorem C10_pipeline_order (impl : LoaderKind → oskar_TelescopeLoadAbstract)
    (fs : String → Option DirTree) (tel : oskar_Telescope) (path : Option String) (w : World)
    (tel' : oskar_Telescope) (w' : World) (hw : w.trace = [])
    (h : oskar_telescope_load impl fs tel path w = some (tel', w')) :
    create_loaders impl
      = [impl .Position, impl .Layout, impl .GainPhase, impl .Apodisation, impl .FeedAngle,
          impl .ElementTypes, impl .MountTypes, impl .PermittedBeams, impl .ElementPattern,
          impl .Noise] ∧
    loader_kinds.Nodup ∧
    ∀ pre e post i p c, w'.trace = pre ++ e :: post → e.stage? = some (i, p, c) →
      i < 10 ∧ ready pre i p := by
  refine ⟨rfl, by decide, ?_⟩
  have h1 := ordered_reach (otl_reach impl fs tel path w tel' w' h) (ordered_fresh _ w hw)
  intro pre e post i p c hdec hs
  have h2 := h1 pre e post i p c hdec hs
  exact ⟨by simpa [create_loaders, loader_kinds] using h2.1, h2.2⟩

theorem C10_pipeline_order_witness :
    (⟨0, []⟩ : World).trace = [] ∧
    oskar_telescope_load (exImpl 2 2) exFs exTel (some "/tel") ⟨0, []⟩
      = some (exOut 2 2 "/tel") ∧
    (create_loaders (exImpl 2 2)
      = [exImpl 2 2 .Position, exImpl 2 2 .Layout, exImpl 2 2 .GainPhase,
          exImpl 2 2 .Apodisation, exImpl 2 2 .FeedAngle, exImpl 2 2 .ElementTypes,
          exImpl 2 2 .MountTypes, exImpl 2 2 .PermittedBeams, exImpl 2 2 .ElementPattern,
          exImpl 2 2 .Noise] ∧
    loader_kinds.Nodup ∧
    ∀ pre e post i p c, (exOut 2 2 "/tel").2.trace = pre ++ e :: post →
      e.stage? = some (i, p, c) → i < 10 ∧ ready pre i p) :=
  ⟨rfl, rfl,
    C10_pipeline_order (exImpl 2 2) exFs exTel (some "/tel") ⟨0, []⟩
      (exOut 2 2 "/tel").1 (exOut 2 2 "/tel").2 rfl rfl⟩

/-- C7: called with status 0, `oskar_telescope_load` reports a null path or
a path at which no directory exists with `OSKAR_ERR_FILE_IO`, and otherwise
a model outside CPU memory with `OSKAR_ERR_BAD_LOCATION`; the two codes are
non-zero and distinct; the model is returned untouched and the only call
recorded is the existence check of the path, so no directory was listed and
no stage was invoked. -/
theorem C7_preconditions (impl : LoaderKind → oskar_TelescopeLoadAbstract)
    (fs : String → Option DirTree) (tel : oskar_Telescope) (w : World) (hw : w.status = 0) :
    oskar_telescope_load impl fs tel none w = some (tel, ⟨ OSKAR_ERR_FILE_IO, w.trace⟩) ∧
    (∀ p, fs p = none →
      oskar_telescope_load impl fs tel (some p) w
        = some (tel, ⟨ OSKAR_ERR_FILE_IO, w.trace ++ [Event.dir_exists p]⟩)) ∧
    (∀ p root, fs p = some root → oskar_telescope_mem_location tel ≠ OSKAR_CPU →
      oskar_telescope_load impl fs tel (some p) w
        = some (tel, ⟨OSKAR_ERR_BAD_LOCATION, w.trace ++ [Event.dir_exists p]⟩)) ∧
    OSKAR_ERR_FILE_IO ≠ 0 ∧ OSKAR_ERR_BAD_LOCATION ≠ 0 ∧
    OSKAR_ERR_FILE_IO ≠ OSKAR_ERR_BAD_LOCATION :=
  ⟨otl_null impl fs tel w hw, fun p hp => otl_missing impl fs tel p w hw hp,
    fun p root hp hm => otl_location impl fs tel p root w hw hp hm,
    by decide, by decide, by decide⟩

theorem C7_preconditions_witness :
    (⟨0, []⟩ : World).status = 0 ∧
    oskar_telescope_load (exImpl 2 2) exFs ⟨1, [], []⟩ none ⟨0, []⟩
      = some (⟨1, [], []⟩, ⟨-2, []⟩) ∧
    exFs "/nowhere" = none ∧
    oskar_telescope_load (exImpl 2 2) exFs ⟨1, [], []⟩ (some "/nowhere") ⟨0, []⟩
      = some (⟨1, [], []⟩, ⟨-2, [Event.dir_exists "/nowhere"]⟩) ∧
    exFs "/tel" = some exTreeAB ∧
    oskar_telescope_mem_location ⟨1, [], []⟩ ≠ OSKAR_CPU ∧
    oskar_telescope_load (exImpl 2 2) exFs ⟨1, [], []⟩ (some "/tel") ⟨0, []⟩
      = some (⟨1, [], []⟩, ⟨-14, [Event.dir_exists "/tel"]⟩) :=
  ⟨rfl,
    (C7_preconditions (exImpl 2 2) exFs ⟨1, [], []⟩ ⟨0, []⟩ rfl).1,
    rfl,
    (C7_preconditions (exImpl 2 2) exFs ⟨1, [], []⟩ ⟨0, []⟩ rfl).2.1 "/nowhere" rfl,
    rfl, by decide,
    (C7_preconditions (exImpl 2 2) exFs ⟨1, [], []⟩ ⟨0, []⟩ rfl).2.2.1 "/tel" exTreeAB
      rfl (by decide)⟩

/-- C9 fails as stated: in the load of `/tel` with a stage failing at depth
2, the load ends with the failing stage's status -5, and yet
`oskar_telescope_set_station_ids` is called after the failure and the
stations, all created with identifier 0, come back renumbered. -/
theorem C9_ids_assigned_after_failed_walk :
    oskar_telescope_load (exImpl 2 2) exFs exTel (some "/tel") ⟨0, []⟩
      = some (exOut 2 2 "/tel") ∧
    (exOut 2 2 "/tel").2.status = -5 ∧
    (exOut 2 2 "/tel").2.trace.filter
        (fun e => (e.stage?.any (fun x => x.2.2 != 0)) || e == Event.set_station_ids)
      = [Event.load_station 9 "/tel/A/x" 0 2
          [("gain", "/tel/A/x"), ("gain", "/tel/A"), ("gain", "/tel")] (-5),
        Event.set_station_ids] ∧
    (exOut 2 2 "/tel").1.station.map oskar_Station.unique_id = [0, 2] :=
  ⟨rfl, by decide, by decide, by decide⟩

/-- C9 as amended: whenever the preconditions hold (status 0 on entry, the
directory exists, the model is in CPU memory) and the walk returns, with
whatever status, `oskar_telescope_load` renumbers the stations of the model
the walk left, keeps the status of the walk, and the call of
`oskar_telescope_set_station_ids` is the last call it makes. -/
theorem C9_ids_set_after_every_walk (impl : LoaderKind → oskar_TelescopeLoadAbstract)
    (fs : String → Option DirTree) (tel : oskar_Telescope) (p : String) (root : DirTree)
    (w : World) (t3 : oskar_Telescope) (w3 : World) (hw : w.status = 0)
    (hp : fs p = some root) (hm : oskar_telescope_mem_location tel = OSKAR_CPU)
    (h : load_directories tel p root (create_loaders impl) []
      ⟨0, w.trace ++ Event.dir_exists p :: loader_kinds.map Event.new_loader⟩ = some (t3, w3)) :
    ∃ w', oskar_telescope_load impl fs tel (some p) w
        = some (oskar_telescope_set_station_ids t3, w') ∧
      w'.status = w3.status ∧ w'.trace.getLast? = some Event.set_station_ids := by
  rw [otl_walk impl fs tel p root w hw hp hm, h]
  refine ⟨_, rfl, rfl, ?_⟩
  simp only [← List.append_assoc]
  exact List.getLast?_append_cons _ _ []  |>.trans (by simp)


theorem C9_ids_set_after_every_walk_witness :
    (⟨0, []⟩ : World).status = 0 ∧ exFs "/tel" = some exTreeAB ∧
    oskar_telescope_mem_location exTel = OSKAR_CPU ∧
    load_directories exTel "/tel" exTreeAB (create_loaders (exImpl 2 2)) []
        ⟨0, [] ++ Event.dir_exists "/tel" :: loader_kinds.map Event.new_loader⟩
      = some exWalk ∧
    exWalk.2.status = -5 ∧
    ∃ w', oskar_telescope_load (exImpl 2 2) exFs exTel (some "/tel") ⟨0, []⟩
        = some (oskar_telescope_set_station_ids exWalk.1, w') ∧
      w'.status = exWalk.2.status ∧ w'.trace.getLast? = some Event.set_station_ids :=
  ⟨rfl, rfl, rfl, rfl, by decide,
    C9_ids_set_after_every_walk (exImpl 2 2) exFs exTel "/tel" exTreeAB ⟨0, []⟩
      exWalk.1 exWalk.2 rfl rfl rfl rfl⟩


/-! ## Levels with more than one child directory (C1, C2) -/

theorem filter_isCall_nil {Δ : List Event} (h : ∀ e ∈ Δ, e.callDepth? = none) :
    Δ.filter Event.isCall = [] := by
  refine List.filter_eq_nil_iff.mpr (fun e he => ?_)
  simp [Event.isCall, h e he]

theorem two_le_subs {t : DirTree} (hk : 1 < t.subs.length) :
    ∃ name d1 d2 ds, t = DirTree.node name (d1 :: d2 :: ds) := by
  obtain ⟨name, subs⟩ := t
  match subs, hk with
  | d1 :: d2 :: ds, _ => exact ⟨name, d1, d2, ds, rfl⟩

theorem calls_of_length (cwd : oskar_Dir) (depth : Nat) (fm : FileMap) :
    ∀ (ds : List DirTree) (i : Nat), (calls_of cwd depth fm i ds).length = ds.length := by
  intro ds
  induction ds with
  | nil => intro i; rfl
  | cons d ds ih => intro i; simp [calls_of, ih]

theorem calls_of_getElem? (cwd : oskar_Dir) (depth : Nat) (fm : FileMap) :
    ∀ (ds : List DirTree) (i j : Nat) (d : DirTree), ds[j]? = some d →
      (calls_of cwd depth fm i ds)[j]? = some (Event.call (cwd.filePath d.name) (i + j) depth fm) := by
  intro ds
  induction ds with
  | nil => intro i j d h; simp at h
  | cons d0 ds ih =>
    intro i j d h
    cases j with
    | zero =>
      simp only [List.getElem?_cons_zero, Option.some.injEq] at h
      subst h
      simp [calls_of]
    | succ j =>
      simp only [List.getElem?_cons_succ] at h
      simp only [calls_of, List.getElem?_cons_succ]
      rw [ih (i + 1) j d h]
      congr 2
      omega

/-- C1: at a level (the root, or a station at any depth) reached with
status 0 that has more than one child directory and whose stage loop ends
with status 0, a child-directory count different from the number of slots
(`oskar_telescope_num_stations` at the root, `oskar_station_num_elements`
below) makes `load_directories` return with status
`OSKAR_ERR_SETUP_FAIL_TELESCOPE_ENTRIES_MISMATCH`, with the model as the
stages left it and without any recursive call: the recursive calls in the
record are those that were there when the level was entered. -/
theorem C1_count_mismatch (ls : List oskar_TelescopeLoadAbstract) (fm : FileMap) (w : World)
    (path : String) (t : DirTree) (hw : w.status = 0) (hk : 1 < t.subs.length) :
    (∀ tel, (level_telescope ls tel path t fm w).2.2.status = 0 →
      t.subs.length ≠ oskar_telescope_num_stations (level_telescope ls tel path t fm w).1 →
      load_directories tel path t ls fm w
        = some ((level_telescope ls tel path t fm w).1,
            ⟨OSKAR_ERR_SETUP_FAIL_TELESCOPE_ENTRIES_MISMATCH,
              (level_telescope ls tel path t fm w).2.2.trace⟩) ∧
      (level_telescope ls tel path t fm w).2.2.trace.filter Event.isCall
        = w.trace.filter Event.isCall) ∧
    (∀ s depth, (level_station ls s path t depth fm w).2.2.status = 0 →
      t.subs.length ≠ oskar_station_num_elements (level_station ls s path t depth fm w).1 →
      load_directories_station s path t depth ls fm w
        = some ((level_station ls s path t depth fm w).1,
            ⟨OSKAR_ERR_SETUP_FAIL_TELESCOPE_ENTRIES_MISMATCH,
              (level_station ls s path t depth fm w).2.2.trace⟩) ∧
      (level_station ls s path t depth fm w).2.2.trace.filter Event.isCall
        = w.trace.filter Event.isCall) := by
  obtain ⟨name, d1, d2, ds, rfl⟩ := two_le_subs hk
  constructor
  · intro tel hr hm
    constructor
    · rw [ld_many tel path _ d1 d2 ds ls fm w hw hr rfl, if_pos hm]
    · obtain ⟨Δ, h1, h2⟩ := level_telescope_ext ls tel path (.node name (d1 :: d2 :: ds)) fm w
      rw [h1, List.filter_append, filter_isCall_nil h2, List.append_nil]
  · intro s depth hr hm
    constructor
    · have hm' : (d1 :: d2 :: ds).length ≠ oskar_station_num_elements
          (level_station ls s path (.node name (d1 :: d2 :: ds)) depth fm w).1 := hm
      rw [lds_many s path name d1 d2 ds depth ls fm w hw hr, if_pos hm']
    · obtain ⟨Δ, h1, h2⟩ := level_station_ext ls s path (.node name (d1 :: d2 :: ds)) depth fm w
      rw [h1, List.filter_append, filter_isCall_nil h2, List.append_nil]

theorem C1_count_mismatch_witness :
    (⟨0, []⟩ : World).status = 0 ∧ 1 < exTreeAB.subs.length ∧
    ((level_telescope (exPipeline 1) exTel "/tel" exTreeAB [] ⟨0, []⟩).2.2.status = 0 ∧
      exTreeAB.subs.length
        ≠ oskar_telescope_num_stations
            (level_telescope (exPipeline 1) exTel "/tel" exTreeAB [] ⟨0, []⟩).1 ∧
      load_directories exTel "/tel" exTreeAB (exPipeline 1) [] ⟨0, []⟩
        = some (⟨0, [], [.mk 0 [] []]⟩,
            ⟨-73, [Event.allSubDirs "/tel", Event.load 0 "/tel" 2 [] 0,
              Event.load 1 "/tel" 2 [] 0]⟩)) ∧
    ((level_station (exPipeline 1) (.mk 0 [] []) "/tel" exTreeAB 1 [] ⟨0, []⟩).2.2.status = 0 ∧
      exTreeAB.subs.length
        ≠ oskar_station_num_elements
            (level_station (exPipeline 1) (.mk 0 [] []) "/tel" exTreeAB 1 [] ⟨0, []⟩).1 ∧
      load_directories_station (.mk 0 [] []) "/tel" exTreeAB 1 (exPipeline 1) [] ⟨0, []⟩
        = some (.mk 0 [1] [.mk 0 [] []],
            ⟨-73, [Event.allSubDirs "/tel", Event.load_station 0 "/tel" 2 1 [] 0,
              Event.load_station 1 "/tel" 2 1 [] 0]⟩)) :=
  ⟨rfl, by decide,
    ⟨by decide, by decide,
      ((C1_count_mismatch (exPipeline 1) [] ⟨0, []⟩ "/tel" exTreeAB rfl (by decide)).1 exTel
        (by decide) (by decide)).1⟩,
    ⟨by decide, by decide,
      ((C1_count_mismatch (exPipeline 1) [] ⟨0, []⟩ "/tel" exTreeAB rfl (by decide)).2
        (.mk 0 [] []) 1 (by decide) (by decide)).1⟩⟩

/-- C2: at a level (the root, or a station at any depth) reached with
status 0 that has `k > 1` child directories, whose stage loop ends with
status 0 and whose slot count equals `k`, whenever `load_directories`
returns, the recursive calls it made for this level (those at depth + 1
among the calls appended after the stage loop) are exactly `k`: one per
child directory, in listing order, the call at position `j` being the one
for the `j`-th listed directory against slot `j`, at depth + 1, with the
file map the stage loop left. -/
theorem C2_children_in_listing_order (ls : List oskar_TelescopeLoadAbstract) (fm : FileMap)
    (w : World) (path : String) (t : DirTree) (hw : w.status = 0) (hk : 1 < t.subs.length) :
    (∀ tel tel' w', (level_telescope ls tel path t fm w).2.2.status = 0 →
      t.subs.length = oskar_telescope_num_stations (level_telescope ls tel path t fm w).1 →
      load_directories tel path t ls fm w = some (tel', w') →
      ∃ Δ, w'.trace = (level_telescope ls tel path t fm w).2.2.trace ++ Δ ∧
        (Δ.filter (Event.isCallAt (0 + 1))).length = t.subs.length ∧
        ∀ j d, t.subs[j]? = some d →
          (Δ.filter (Event.isCallAt (0 + 1)))[j]?
            = some (Event.call (oskar_Dir.filePath ⟨path, t⟩ d.name) j (0 + 1)
                (level_telescope ls tel path t fm w).2.1)) ∧
    (∀ s depth s' w', (level_station ls s path t depth fm w).2.2.status = 0 →
      t.subs.length = oskar_station_num_elements (level_station ls s path t depth fm w).1 →
      load_directories_station s path t depth ls fm w = some (s', w') →
      ∃ Δ, w'.trace = (level_station ls s path t depth fm w).2.2.trace ++ Δ ∧
        (Δ.filter (Event.isCallAt (depth + 1))).length = t.subs.length ∧
        ∀ j d, t.subs[j]? = some d →
          (Δ.filter (Event.isCallAt (depth + 1)))[j]?
            = some (Event.call (oskar_Dir.filePath ⟨path, t⟩ d.name) j (depth + 1)
                (level_station ls s path t depth fm w).2.1)) := by
  obtain ⟨name, d1, d2, ds, rfl⟩ := two_le_subs hk
  constructor
  · intro tel tel' w' hr hm h
    rw [ld_many tel path _ d1 d2 ds ls fm w hw hr rfl, if_neg (not_not.mpr hm)] at h
    obtain ⟨Δ, h1, h2⟩ := load_stations_calls ls _ _ _ _ _ _ _ _ h
    refine ⟨Δ, h1, ?_, ?_⟩
    · rw [h2, calls_of_length]
    · intro j d hj
      rw [h2, calls_of_getElem? _ _ _ _ 0 j d hj, Nat.zero_add]
  · intro s depth s' w' hr hm h
    have hm' : (d1 :: d2 :: ds).length = oskar_station_num_elements
        (level_station ls s path (.node name (d1 :: d2 :: ds)) depth fm w).1 := hm
    rw [lds_many s path name d1 d2 ds depth ls fm w hw hr, if_neg (not_not.mpr hm')] at h
    obtain ⟨Δ, h1, _, h2⟩ := load_children_calls ls _ _ _ _ _ _ _ _ _ h
    refine ⟨Δ, h1, ?_, ?_⟩
    · rw [h2, calls_of_length]; rfl
    · intro j d hj
      have hj' : (d1 :: d2 :: ds)[j]? = some d := hj
      rw [h2, calls_of_getElem? _ _ _ _ 0 j d hj', Nat.zero_add]

theorem C2_children_in_listing_order_witness :
    (⟨0, []⟩ : World).status = 0 ∧ 1 < exTreeAB.subs.length ∧
    ((level_telescope (exPipeline 2) exTel "/tel" exTreeAB [] ⟨0, []⟩).2.2.status = 0 ∧
      exTreeAB.subs.length
        = oskar_telescope_num_stations
            (level_telescope (exPipeline 2) exTel "/tel" exTreeAB [] ⟨0, []⟩).1 ∧
      load_directories exTel "/tel" exTreeAB (exPipeline 2) [] ⟨0, []⟩
        = some (exWalkTel 2) ∧
      ∃ Δ, (exWalkTel 2).2.trace
          = (level_telescope (exPipeline 2) exTel "/tel" exTreeAB [] ⟨0, []⟩).2.2.trace ++ Δ ∧
        (Δ.filter (Event.isCallAt (0 + 1))).length = exTreeAB.subs.length ∧
        ∀ j d, exTreeAB.subs[j]? = some d →
          (Δ.filter (Event.isCallAt (0 + 1)))[j]?
            = some (Event.call (oskar_Dir.filePath ⟨"/tel", exTreeAB⟩ d.name) j (0 + 1)
                (level_telescope (exPipeline 2) exTel "/tel" exTreeAB [] ⟨0, []⟩).2.1)) ∧
    ((level_station (exPipeline 2) (.mk 0 [] []) "/tel" exTreeAB 1 [] ⟨0, []⟩).2.2.status = 0 ∧
      exTreeAB.subs.length
        = oskar_station_num_elements
            (level_station (exPipeline 2) (.mk 0 [] []) "/tel" exTreeAB 1 [] ⟨0, []⟩).1 ∧
      load_directories_station (.mk 0 [] []) "/tel" exTreeAB 1 (exPipeline 2) [] ⟨0, []⟩
        = some (exWalkSta 2) ∧
      ∃ Δ, (exWalkSta 2).2.trace
          = (level_station (exPipeline 2) (.mk 0 [] []) "/tel" exTreeAB 1 [] ⟨0, []⟩).2.2.trace
            ++ Δ ∧
        (Δ.filter (Event.isCallAt (1 + 1))).length = exTreeAB.subs.length ∧
        ∀ j d, exTreeAB.subs[j]? = some d →
          (Δ.filter (Event.isCallAt (1 + 1)))[j]?
            = some (Event.call (oskar_Dir.filePath ⟨"/tel", exTreeAB⟩ d.name) j (1 + 1)
                (level_station (exPipeline 2) (.mk 0 [] []) "/tel" exTreeAB 1 []
                  ⟨0, []⟩).2.1)) :=
  ⟨rfl, by decide,
    ⟨by decide, by decide, rfl,
      (C2_children_in_listing_order (exPipeline 2) [] ⟨0, []⟩ "/tel" exTreeAB rfl
        (by decide)).1 exTel (exWalkTel 2).1 (exWalkTel 2).2 (by decide) (by decide) rfl⟩,
    ⟨by decide, by decide, rfl,
      (C2_children_in_listing_order (exPipeline 2) [] ⟨0, []⟩ "/tel" exTreeAB rfl
        (by decide)).2 (.mk 0 [] []) 1 (exWalkSta 2).1 (exWalkSta 2).2 (by decide) (by decide)
        rfl⟩⟩


/-! ## The file map handed to sibling directories (C6) -/

theorem range'_split (n a q : Nat) (h1 : n ≤ a) (h2 : a ≤ q) :
    List.range' n (a - n) ++ List.range' a (q - a) = List.range' n (q - n) := by
  obtain ⟨k, rfl⟩ := Nat.exists_eq_add_of_le h1
  obtain ⟨m, rfl⟩ := Nat.exists_eq_add_of_le h2
  have e1 : n + k - n = k := by omega
  have e2 : n + k + m - (n + k) = m := by omega
  have e3 : n + k + m - n = m + k := by omega
  rw [e1, e2, e3]
  exact List.range'_append_1 n k m

theorem set_ids_spec :
    ∀ s : oskar_Station, ∀ n, n ≤ (set_ids s n).2 ∧
      station_ids (set_ids s n).1 = (List.range' n ((set_ids s n).2 - n)).map Int.ofNat := by
  intro s
  refine @oskar_Station.rec
    (fun s => ∀ n, n ≤ (set_ids s n).2 ∧
      station_ids (set_ids s n).1 = (List.range' n ((set_ids s n).2 - n)).map Int.ofNat)
    (fun ss => ∀ n, n ≤ (set_ids_list ss n).2 ∧
      station_ids_list (set_ids_list ss n).1
        = (List.range' n ((set_ids_list ss n).2 - n)).map Int.ofNat)
    ?_ ?_ ?_ s
  · intro u d c ih n
    obtain ⟨h1, h2⟩ := ih (n + 1)
    simp only [set_ids, station_ids]
    refine ⟨by omega, ?_⟩
    rw [h2]
    have : (set_ids_list c (n + 1)).2 - n = ((set_ids_list c (n + 1)).2 - (n + 1)) + 1 := by
      omega
    rw [this, List.range'_succ]
    simp
  · intro n
    simp [set_ids_list, station_ids_list]
  · intro s rest ih1 ih2 n
    obtain ⟨h1, h2⟩ := ih1 n
    obtain ⟨h3, h4⟩ := ih2 (set_ids s n).2
    simp only [set_ids_list, station_ids_list]
    refine ⟨by omega, ?_⟩
    rw [h2, h4, ← List.map_append, range'_split n _ _ h1 h3]

theorem set_ids_list_spec (ss : List oskar_Station) (n : Nat) :
    station_ids_list (set_ids_list ss n).1
      = (List.range' n ((set_ids_list ss n).2 - n)).map Int.ofNat := by
  induction ss generalizing n with
  | nil => simp [set_ids_list, station_ids_list]
  | cons s rest ih =>
    obtain ⟨h1, h2⟩ := set_ids_spec s n
    have h4 := ih (set_ids s n).2
    have h3 : (set_ids s n).2 ≤ (set_ids_list rest (set_ids s n).2).2 := by
      clear h4 ih
      generalize (set_ids s n).2 = a
      induction rest generalizing a with
      | nil => simp [set_ids_list]
      | cons x xs ihx =>
        simp only [set_ids_list]
        exact le_trans (set_ids_spec x a).1 (ihx _)
    simp only [set_ids_list, station_ids_list]
    rw [h2, h4, ← List.map_append, range'_split n _ _ h1 h3]

theorem set_station_ids_nodup (t : oskar_Telescope) :
    (telescope_ids (oskar_telescope_set_station_ids t)).Nodup := by
  simp only [telescope_ids, oskar_telescope_set_station_ids]
  rw [set_ids_list_spec]
  exact (List.nodup_range' _ _).map Int.ofNat_injective

/-- C8: whenever `oskar_telescope_load` returns with status 0, from a tree
of any shape and with any stage behaviour (levels filled by duplicating the
first slot included), the identifiers of all stations of the resulting
model, at every nesting depth, are pairwise distinct. -/
theorem C8_unique_station_ids (impl : LoaderKind → oskar_TelescopeLoadAbstract)
    (fs : String → Option DirTree) (tel : oskar_Telescope) (path : Option String) (w : World)
    (tel' : oskar_Telescope) (w' : World)
    (h : oskar_telescope_load impl fs tel path w = some (tel', w')) (hs : w'.status = 0) :
    (telescope_ids tel').Nodup := by
  by_cases hw : w.status = 0
  swap
  · rw [otl_skip _ _ _ _ _ hw] at h
    simp only [Option.some.injEq, Prod.mk.injEq] at h
    rw [← h.2] at hs
    exact absurd hs hw
  cases path with
  | none =>
    rw [otl_null _ _ _ _ hw] at h
    simp only [Option.some.injEq, Prod.mk.injEq] at h
    rw [← h.2] at hs
    exact absurd hs (show OSKAR_ERR_FILE_IO ≠ 0 by decide)
  | some p =>
    cases hp : fs p with
    | none =>
      rw [otl_missing _ _ _ _ _ hw hp] at h
      simp only [Option.some.injEq, Prod.mk.injEq] at h
      rw [← h.2] at hs
      exact absurd hs (show OSKAR_ERR_FILE_IO ≠ 0 by decide)
    | some root =>
      by_cases hm : oskar_telescope_mem_location tel = OSKAR_CPU
      swap
      · rw [otl_location _ _ _ _ _ _ hw hp hm] at h
        simp only [Option.some.injEq, Prod.mk.injEq] at h
        rw [← h.2] at hs
        exact absurd hs (show OSKAR_ERR_BAD_LOCATION ≠ 0 by decide)
      rw [otl_walk _ _ _ _ _ _ hw hp hm] at h
      cases hl : load_directories tel p root (create_loaders impl) []
          ⟨0, w.trace ++ Event.dir_exists p :: loader_kinds.map Event.new_loader⟩ with
      | none => rw [hl] at h; cases h
      | some r =>
        obtain ⟨t3, w3⟩ := r
        rw [hl] at h
        simp only [Option.some.injEq, Prod.mk.injEq] at h
        rw [← h.1]
        exact set_station_ids_nodup t3

theorem C8_unique_station_ids_witness :
    oskar_telescope_load (exImpl 3 7) exFs exTel (some "/one") ⟨0, []⟩
      = some (exOut 3 7 "/one") ∧
    (exOut 3 7 "/one").2.status = 0 ∧
    telescope_ids (exOut 3 7 "/one").1 = [0, 1, 2] ∧
    (telescope_ids (exOut 3 7 "/one").1).Nodup :=
  ⟨rfl, by decide, by decide,
    C8_unique_station_ids (exImpl 3 7) exFs exTel (some "/one") ⟨0, []⟩
      (exOut 3 7 "/one").1 (exOut 3 7 "/one").2 rfl (by decide)⟩


/-! ## Duplication of the first slot (C3) -/

theorem dup_child_replicate (s : oskar_Station) (c c1 : oskar_Station)
    (h : oskar_station_child s 0 = some c) :
    (oskar_station_duplicate_first_child (s.setChild 0 c1) 0).1.child
      = List.replicate s.child.length c1 := by
  obtain ⟨u, d, ch⟩ := s
  cases ch with
  | nil => simp [oskar_station_child, oskar_Station.child] at h
  | cons x xs =>
    simp [oskar_station_duplicate_first_child, oskar_Station.setChild, oskar_Station.child,
      List.replicate_succ, List.map_const']

theorem dup_station_replicate (t : oskar_Telescope) (c c1 : oskar_Station)
    (h : oskar_telescope_station t 0 = some c) :
    (oskar_telescope_duplicate_first_station (t.setStation 0 c1) 0).1.station
      = List.replicate t.station.length c1 := by
  obtain ⟨m, d, st⟩ := t
  cases st with
  | nil => simp [oskar_telescope_station] at h
  | cons x xs =>
    simp [oskar_telescope_duplicate_first_station, oskar_Telescope.setStation,
      List.replicate_succ, List.map_const']

theorem uniform_leaf (t : DirTree) (ss : List oskar_Station) (h : t.subs = []) :
    Uniform t ss := by
  intro path d slots hd hlen _ _ _ _ _
  cases path with
  | nil =>
    simp only [dirAt, Option.some.injEq] at hd
    rw [← hd, h] at hlen
    simp at hlen
  | cons i rest =>
    simp only [dirAt, h] at hd
    simp at hd

theorem uniform_single (t d : DirTree) (n : Nat) (c1 : oskar_Station) (h : t.subs = [d])
    (hd : Uniform d c1.child) : Uniform t (List.replicate n c1) := by
  intro path d' slots hdir hlen hslots c0 hc0 c hc
  cases path with
  | nil =>
    simp only [slotsAt, Option.some.injEq] at hslots
    subst hslots
    have h1 := List.eq_of_mem_replicate hc
    have h2 : c0 ∈ List.replicate n c1 := List.getElem?_mem hc0
    rw [h1, List.eq_of_mem_replicate h2]
  | cons i rest =>
    simp only [dirAt, h] at hdir
    simp only [slotsAt] at hslots
    cases hi : (List.replicate n c1)[i]? with
    | none => rw [hi] at hslots; simp at hslots
    | some x =>
      rw [hi] at hslots
      simp only [Option.some_bind] at hslots
      have hx : x = c1 := List.eq_of_mem_replicate (List.getElem?_mem hi)
      subst hx
      exact hd rest d' slots hdir hlen hslots c0 hc0 c hc

theorem uniform_many (t : DirTree) (ss : List oskar_Station) (hk : 1 < t.subs.length)
    (h : ∀ (j : Nat) (d : DirTree) (c : oskar_Station), t.subs[j]? = some d → ss[j]? = some c →
      Uniform d c.child) :
    Uniform t ss := by
  intro path d' slots hdir hlen hslots c0 hc0 c hc
  cases path with
  | nil =>
    simp only [dirAt, Option.some.injEq] at hdir
    rw [← hdir] at hlen
    omega
  | cons i rest =>
    obtain ⟨name, d1, d2, ds, rfl⟩ := two_le_subs hk
    simp only [dirAt, DirTree.subs] at hdir
    simp only [slotsAt] at hslots
    cases hi : (d1 :: d2 :: ds)[i]? with
    | none => rw [hi] at hdir; simp at hdir
    | some di =>
      rw [hi] at hdir
      simp only [Option.some_bind] at hdir
      cases hj : ss[i]? with
      | none => rw [hj] at hslots; simp at hslots
      | some x =>
        rw [hj] at hslots
        simp only [Option.some_bind] at hslots
        exact h i di x hi hj rest d' slots hdir hlen hslots c0 hc0 c hc

theorem lds_uniform (ls : List oskar_TelescopeLoadAbstract) :
    ∀ (t : DirTree) (s : oskar_Station) (path : String) (depth : Nat) (fm : FileMap) (w : World)
      (s' : oskar_Station) (w' : World),
      load_directories_station s path t depth ls fm w = some (s', w') → w'.status = 0 →
      Uniform t s'.child := by
  intro t
  induction t using DirTree.induct_subs with
  | h name subs ih =>
    intro s path depth fm w s' w' h hs
    rcases lds_inv h with ⟨h1, _, h2⟩ | ⟨_, hc⟩
    · rw [h2] at hs; exact absurd hs h1
    rcases hc with ⟨hr, _, h2⟩ | ⟨_, hsub, _, _⟩ | ⟨_, d, c, c1, w1, hsub, hch, hl, h1, h2⟩ |
      ⟨_, _, _, _, h2⟩ | ⟨_, hk, _, h2⟩
    · rw [h2] at hs; exact absurd hs hr
    · exact uniform_leaf _ _ hsub
    · have hw1 : w1.status = 0 := by rw [h2] at hs; exact hs
      have hd : d ∈ subs := by
        simp only [DirTree.subs] at hsub
        rw [hsub]; exact List.mem_singleton_self d
      rw [h1, hw1, dup_child_replicate _ c c1 hch]
      exact uniform_single _ d _ c1 hsub (ih d hd _ _ _ _ _ _ _ hl hw1)
    · rw [h2] at hs
      exact absurd hs (show OSKAR_ERR_SETUP_FAIL_TELESCOPE_ENTRIES_MISMATCH ≠ 0 by decide)
    · refine uniform_many _ _ hk (fun j d c hj hcj => ?_)
      obtain ⟨c0, c', Δ, _, hrun, hres, _⟩ :=
        load_children_isolated ls _ _ _ _ _ _ _ _ _ h2 hs j d hj
      rw [Nat.zero_add] at hres
      have hcc : c = c' := by
        simp only [oskar_station_child] at hres
        rw [hcj] at hres
        exact Option.some.inj hres
      rw [hcc]
      exact ih d (List.getElem?_mem hj) _ _ _ _ _ _ _ hrun rfl

theorem ld_uniform (ls : List oskar_TelescopeLoadAbstract) (tel : oskar_Telescope)
    (path : String) (t : DirTree) (fm : FileMap) (w : World) (tel' : oskar_Telescope)
    (w' : World) (h : load_directories tel path t ls fm w = some (tel', w'))
    (hs : w'.status = 0) : Uniform t tel'.station := by
  rcases ld_inv h with ⟨h1, _, h2⟩ | ⟨_, hc⟩
  · rw [h2] at hs; exact absurd hs h1
  rcases hc with ⟨hr, _, h2⟩ | ⟨_, hsub, _, _⟩ | ⟨_, d, c, c1, w1, hsub, hch, hl, h1, h2⟩ |
    ⟨_, _, _, _, h2⟩ | ⟨_, hk, _, h2⟩
  · rw [h2] at hs; exact absurd hs hr
  · exact uniform_leaf _ _ hsub
  · have hw1 : w1.status = 0 := by rw [h2] at hs; exact hs
    rw [h1, hw1, dup_station_replicate _ c c1 hch]
    exact uniform_single _ d _ c1 hsub (lds_uniform ls d _ _ _ _ _ _ _ hl hw1)
  · rw [h2] at hs
    exact absurd hs (show OSKAR_ERR_SETUP_FAIL_TELESCOPE_ENTRIES_MISMATCH ≠ 0 by decide)
  · refine uniform_many _ _ hk (fun j d c hj hcj => ?_)
    obtain ⟨c0, c', Δ, _, hrun, hres, _⟩ :=
      load_stations_isolated ls _ _ _ _ _ _ _ _ h2 hs j d hj
    rw [Nat.zero_add] at hres
    have hcc : c = c' := by
      simp only [oskar_telescope_station] at hres
      rw [hcj] at hres
      exact Option.some.inj hres
    rw [hcc]
    exact lds_uniform ls d _ _ _ _ _ _ _ hrun rfl


theorem erase_ids_list_eq_map (ss : List oskar_Station) :
    erase_ids_list ss = ss.map erase_ids := by
  induction ss with
  | nil => rfl
  | cons s rest ih => simp [erase_ids_list, ih]

theorem erase_ids_child (s : oskar_Station) :
    (erase_ids s).child = s.child.map erase_ids := by
  obtain ⟨u, d, c⟩ := s
  simp [erase_ids, oskar_Station.child, erase_ids_list_eq_map]

theorem erase_set_ids :
    ∀ s : oskar_Station, ∀ n, erase_ids (set_ids s n).1 = erase_ids s := by
  intro s
  refine @oskar_Station.rec
    (fun s => ∀ n, erase_ids (set_ids s n).1 = erase_ids s)
    (fun ss => ∀ n, erase_ids_list (set_ids_list ss n).1 = erase_ids_list ss)
    ?_ ?_ ?_ s
  · intro u d c ih n
    simp only [set_ids, erase_ids, ih]
  · intro n
    simp [set_ids_list, erase_ids_list]
  · intro s rest ih1 ih2 n
    simp only [set_ids_list, erase_ids_list, ih1, ih2]

theorem erase_set_ids_list (ss : List oskar_Station) (n : Nat) :
    (set_ids_list ss n).1.map erase_ids = ss.map erase_ids := by
  induction ss generalizing n with
  | nil => simp [set_ids_list]
  | cons s rest ih => simp [set_ids_list, erase_set_ids, ih]

theorem slotsAt_erase :
    ∀ (path : List Nat) (ss : List oskar_Station),
      slotsAt path (ss.map erase_ids) = (slotsAt path ss).map (List.map erase_ids) := by
  intro path
  induction path with
  | nil => intro ss; rfl
  | cons i rest ih =>
    intro ss
    simp only [slotsAt, List.getElem?_map]
    cases ss[i]? with
    | none => rfl
    | some s =>
      simp only [Option.map_some', Option.some_bind, erase_ids_child]
      exact ih s.child

/-- Equality of all slots with slot 0 passes from a slot array to any slot
array that agrees with it up to identifiers. -/
theorem uniform_up_to_ids {t : DirTree} {ss ss' : List oskar_Station} (hU : Uniform t ss)
    (hE : ss'.map erase_ids = ss.map erase_ids) (path : List Nat) (d : DirTree)
    (slots : List oskar_Station) (c0 c : oskar_Station) (hd : dirAt path t = some d)
    (h1 : d.subs.length = 1) (hsl : slotsAt path ss' = some slots) (h0 : slots[0]? = some c0)
    (hc : c ∈ slots) : erase_ids c = erase_ids c0 := by
  have e1 : slotsAt path (ss'.map erase_ids) = some (slots.map erase_ids) := by
    rw [slotsAt_erase, hsl]; rfl
  rw [hE, slotsAt_erase] at e1
  cases hs : slotsAt path ss with
  | none => rw [hs] at e1; cases e1
  | some sl =>
    rw [hs] at e1
    simp only [Option.map_some', Option.some.injEq] at e1
    have hall := hU path d sl hd h1 hs
    have h0' : (slots.map erase_ids)[0]? = some (erase_ids c0) := by
      rw [List.getElem?_map, h0]; rfl
    rw [← e1, List.getElem?_map] at h0'
    cases hx : sl[0]? with
    | none => rw [hx] at h0'; cases h0'
    | some x0 =>
      rw [hx] at h0'
      simp only [Option.map_some', Option.some.injEq] at h0'
      have hc' : erase_ids c ∈ sl.map erase_ids := by
        rw [e1]; exact List.mem_map_of_mem _ hc
      obtain ⟨y, hy, hye⟩ := List.mem_map.mp hc'
      rw [← hye, hall x0 hx y hy, h0']

theorem otl_ok_inv {impl : LoaderKind → oskar_TelescopeLoadAbstract}
    {fs : String → Option DirTree} {tel : oskar_Telescope} {p : String} {root : DirTree}
    {w : World} {tel' : oskar_Telescope} {w' : World} (hp : fs p = some root)
    (h : oskar_telescope_load impl fs tel (some p) w = some (tel', w')) (hs : w'.status = 0) :
    ∃ t3 w3, load_directories tel p root (create_loaders impl) []
        ⟨0, w.trace ++ Event.dir_exists p :: loader_kinds.map Event.new_loader⟩ = some (t3, w3) ∧
      w3.status = 0 ∧ tel' = oskar_telescope_set_station_ids t3 := by
  by_cases hw : w.status = 0
  swap
  · rw [otl_skip _ _ _ _ _ hw] at h
    simp only [Option.some.injEq, Prod.mk.injEq] at h
    rw [← h.2] at hs
    exact absurd hs hw
  by_cases hm : oskar_telescope_mem_location tel = OSKAR_CPU
  swap
  · rw [otl_location _ _ _ _ _ _ hw hp hm] at h
    simp only [Option.some.injEq, Prod.mk.injEq] at h
    rw [← h.2] at hs
    exact absurd hs (show OSKAR_ERR_BAD_LOCATION ≠ 0 by decide)
  rw [otl_walk _ _ _ _ _ _ hw hp hm] at h
  cases hl : load_directories tel p root (create_loaders impl) []
      ⟨0, w.trace ++ Event.dir_exists p :: loader_kinds.map Event.new_loader⟩ with
  | none => rw [hl] at h; cases h
  | some r =>
    obtain ⟨t3, w3⟩ := r
    rw [hl] at h
    simp only [Option.some.injEq, Prod.mk.injEq] at h
    refine ⟨t3, w3, rfl, ?_, h.1.symm⟩
    rw [← h.2] at hs
    exact hs

/-- C3 fails as stated: the load of `/one`, whose root has exactly one child
directory and whose layout stage creates three stations, returns with status
0, and the three station slots of the root level are not all equal to slot
0: they carry the identifiers 0, 1 and 2. -/
theorem C3_duplicated_slots_differ :
    exFs "/one" = some exTreeOne ∧ exTreeOne.subs.length = 1 ∧
    oskar_telescope_load (exImpl 3 7) exFs exTel (some "/one") ⟨0, []⟩
      = some (exOut 3 7 "/one") ∧
    (exOut 3 7 "/one").2.status = 0 ∧
    (exOut 3 7 "/one").1.station = [.mk 0 [1] [], .mk 1 [1] [], .mk 2 [1] []] ∧
    ¬ Uniform exTreeOne (exOut 3 7 "/one").1.station := by
  refine ⟨rfl, by decide, rfl, by decide, rfl, fun hU => ?_⟩
  have h := hU [] exTreeOne [.mk 0 [1] [], .mk 1 [1] [], .mk 2 [1] []] rfl (by decide) rfl
    (.mk 0 [1] []) rfl (.mk 1 [1] []) (by simp)
  injection h with h1 _ _
  exact absurd h1 (by decide)

/-- C3 as amended: whenever `oskar_telescope_load` returns with status 0,
the walk has returned with status 0 and, at every level of the model the
walk left (the root or a station at any depth) whose directory has exactly
one child directory, every slot is equal to slot 0; in the model that
`oskar_telescope_load` returns these slots are equal to slot 0 up to the
station identifiers. -/
theorem C3_slots_equal_up_to_ids (impl : LoaderKind → oskar_TelescopeLoadAbstract)
    (fs : String → Option DirTree) (tel : oskar_Telescope) (p : String) (root : DirTree)
    (w : World) (tel' : oskar_Telescope) (w' : World) (hp : fs p = some root)
    (h : oskar_telescope_load impl fs tel (some p) w = some (tel', w')) (hs : w'.status = 0) :
    (∃ t3 w3, load_directories tel p root (create_loaders impl) []
        ⟨0, w.trace ++ Event.dir_exists p :: loader_kinds.map Event.new_loader⟩ = some (t3, w3) ∧
      w3.status = 0 ∧ Uniform root t3.station) ∧
    ∀ path d slots c0 c, dirAt path root = some d → d.subs.length = 1 →
      slotsAt path tel'.station = some slots → slots[0]? = some c0 → c ∈ slots →
      erase_ids c = erase_ids c0 := by
  obtain ⟨t3, w3, hl, h3, ht⟩ := otl_ok_inv hp h hs
  have hU := ld_uniform _ _ _ _ _ _ _ _ hl h3
  refine ⟨⟨t3, w3, hl, h3, hU⟩, ?_⟩
  intro path d slots c0 c hd h1 hsl h0 hc
  refine uniform_up_to_ids hU ?_ path d slots c0 c hd h1 hsl h0 hc
  rw [ht]
  exact erase_set_ids_list _ 0

theorem C3_slots_equal_up_to_ids_witness :
    exFs "/one" = some exTreeOne ∧
    oskar_telescope_load (exImpl 3 7) exFs exTel (some "/one") ⟨0, []⟩
      = some (exOut 3 7 "/one") ∧
    (exOut 3 7 "/one").2.status = 0 ∧
    ((∃ t3 w3, load_directories exTel "/one" exTreeOne (create_loaders (exImpl 3 7)) []
        ⟨0, [] ++ Event.dir_exists "/one" :: loader_kinds.map Event.new_loader⟩
          = some (t3, w3) ∧
      w3.status = 0 ∧ Uniform exTreeOne t3.station) ∧
    ∀ path d slots c0 c, dirAt path exTreeOne = some d → d.subs.length = 1 →
      slotsAt path (exOut 3 7 "/one").1.station = some slots → slots[0]? = some c0 →
      c ∈ slots → erase_ids c = erase_ids c0) :=
  ⟨rfl, rfl, by decide,
    C3_slots_equal_up_to_ids (exImpl 3 7) exFs exTel "/one" exTreeOne ⟨0, []⟩
      (exOut 3 7 "/one").1 (exOut 3 7 "/one").2 rfl rfl (by decide)⟩


/-! ## Non-zero status on entry (C20), leaf levels (C12) and slot access with
one child directory (C18) -/

/-- C20: called with a non-zero status, `oskar_telescope_load` returns the
telescope model, the status and the record of calls exactly as they were:
no existence check, no loader created, no directory listed, no stage
called, no identifier reassigned. -/
theorem C20_nonzero_status_is_noop (impl : LoaderKind → oskar_TelescopeLoadAbstract)
    (fs : String → Option DirTree) (tel : oskar_Telescope) (path : Option String) (w : World)
    (hw : w.status ≠ 0) : oskar_telescope_load impl fs tel path w = some (tel, w) :=
  otl_skip impl fs tel path w hw

theorem C20_nonzero_status_is_noop_witness :
    (⟨-5, [Event.dir_exists "/x"]⟩ : World).status ≠ 0 ∧
    oskar_telescope_load (exImpl 2 2) exFs ⟨0, [7], [.mk 4 [] [], .mk 4 [] []]⟩ (some "/tel")
        ⟨-5, [Event.dir_exists "/x"]⟩
      = some (⟨0, [7], [.mk 4 [] [], .mk 4 [] []]⟩, ⟨-5, [Event.dir_exists "/x"]⟩) :=
  ⟨by decide,
    C20_nonzero_status_is_noop (exImpl 2 2) exFs ⟨0, [7], [.mk 4 [] [], .mk 4 [] []]⟩
      (some "/tel") ⟨-5, [Event.dir_exists "/x"]⟩ (by decide)⟩

/-- C18 fails on the code: for the directory `/one`, which has exactly one
sub-directory, and a layout stage that leaves no station, the stage loop of
the root ends with status 0 and zero station slots, and the branch for one
sub-directory accesses station slot 0, which does not exist; the load has
no defined outcome. The same happens below the root for a station whose
directory has one sub-directory and whose stage loop leaves no child. -/
theorem C18_slot_zero_of_empty_level :
    exFs "/one" = some exTreeOne ∧ exTreeOne.subs.length = 1 ∧
    (level_telescope (create_loaders (exImpl 0 7)) exTel "/one" exTreeOne []
      ⟨0, [] ++ Event.dir_exists "/one" :: loader_kinds.map Event.new_loader⟩).2.2.status = 0 ∧
    oskar_telescope_num_stations
      (level_telescope (create_loaders (exImpl 0 7)) exTel "/one" exTreeOne []
        ⟨0, [] ++ Event.dir_exists "/one" :: loader_kinds.map Event.new_loader⟩).1 = 0 ∧
    oskar_telescope_station
      (level_telescope (create_loaders (exImpl 0 7)) exTel "/one" exTreeOne []
        ⟨0, [] ++ Event.dir_exists "/one" :: loader_kinds.map Event.new_loader⟩).1 0 = none ∧
    oskar_telescope_load (exImpl 0 7) exFs exTel (some "/one") ⟨0, []⟩ = none ∧
    (level_station (exPipeline 0) (.mk 0 [] []) "/tel/A" (.node "A" [.node "x" []]) 1 []
      ⟨0, []⟩).2.2.status = 0 ∧
    oskar_station_child
      (level_station (exPipeline 0) (.mk 0 [] []) "/tel/A" (.node "A" [.node "x" []]) 1 []
        ⟨0, []⟩).1 0 = none ∧
    load_directories_station (.mk 0 [] []) "/tel/A" (.node "A" [.node "x" []]) 1
      (exPipeline 0) [] ⟨0, []⟩ = none :=
  ⟨rfl, by decide, by decide, by decide, rfl, rfl, by decide, rfl, rfl⟩


theorem load_all_station_events :
    ∀ (rest : List oskar_TelescopeLoadAbstract) (i : Nat) (s : oskar_Station) (cwd : oskar_Dir)
      (k depth : Nat) (fm : FileMap) (w : World),
      ∃ Δ, (load_all_station rest i s cwd k depth fm w).2.2.trace = w.trace ++ Δ ∧
        (∀ e ∈ Δ, (∃ j f st, e = Event.load_station j cwd.path k depth f st) ∨
          ∃ m, e = Event.log_error m) ∧
        ((load_all_station rest i s cwd k depth fm w).2.2.status = w.status ∨
          ∃ j f, Event.load_station j cwd.path k depth f
            (load_all_station rest i s cwd k depth fm w).2.2.status ∈ Δ) := by
  intro rest
  induction rest with
  | nil =>
    intro i s cwd k depth fm w
    exact ⟨[], by simp [load_all_station], by simp, Or.inl (by simp [load_all_station])⟩
  | cons l rest ih =>
    intro i s cwd k depth fm w
    simp only [load_all_station]
    split
    · refine ⟨[Event.load_station i cwd.path k depth fm (l.load_station s cwd k depth fm).2.2,
        Event.log_error ("Error in " ++ l.name ++ " in '" ++ cwd.absolutePath ++ "'.")], ?_, ?_,
        Or.inr ⟨i, fm, ?_⟩⟩
      · simp [World.emit]
      · intro e he
        simp only [List.mem_cons, List.mem_singleton, List.not_mem_nil, or_false] at he
        rcases he with rfl | rfl
        · exact Or.inl ⟨_, _, _, rfl⟩
        · exact Or.inr ⟨_, rfl⟩
      · simp [World.emit]
    · obtain ⟨Δ, h1, h2, h3⟩ := ih (i + 1) (l.load_station s cwd k depth fm).1 cwd k depth
        (l.load_station s cwd k depth fm).2.1
        ⟨(l.load_station s cwd k depth fm).2.2, w.trace ++
          [Event.load_station i cwd.path k depth fm (l.load_station s cwd k depth fm).2.2]⟩
      refine ⟨Event.load_station i cwd.path k depth fm (l.load_station s cwd k depth fm).2.2 :: Δ,
        ?_, ?_, Or.inr ?_⟩
      · rw [h1]; simp
      · intro e he
        rcases List.mem_cons.mp he with rfl | he
        · exact Or.inl ⟨_, _, _, rfl⟩
        · exact h2 e he
      · rcases h3 with h3 | ⟨j, f, h3⟩
        · refine ⟨i, fm, ?_⟩
          rw [h3]
          exact List.mem_cons_self _ _
        · exact ⟨j, f, List.mem_cons_of_mem _ h3⟩

theorem load_all_events :
    ∀ (rest : List oskar_TelescopeLoadAbstract) (i : Nat) (tel : oskar_Telescope)
      (cwd : oskar_Dir) (k : Nat) (fm : FileMap) (w : World),
      ∃ Δ, (load_all rest i tel cwd k fm w).2.2.trace = w.trace ++ Δ ∧
        (∀ e ∈ Δ, (∃ j f st, e = Event.load j cwd.path k f st) ∨ ∃ m, e = Event.log_error m) ∧
        ((load_all rest i tel cwd k fm w).2.2.status = w.status ∨
          ∃ j f, Event.load j cwd.path k f (load_all rest i tel cwd k fm w).2.2.status ∈ Δ) := by
  intro rest
  induction rest with
  | nil =>
    intro i s cwd k fm w
    exact ⟨[], by simp [load_all], by simp, Or.inl (by simp [load_all])⟩
  | cons l rest ih =>
    intro i s cwd k fm w
    simp only [load_all]
    split
    · refine ⟨[Event.load i cwd.path k fm (l.load s cwd k fm).2.2,
        Event.log_error ("Error in " ++ l.name ++ " in '" ++ cwd.absolutePath ++ "'.")], ?_, ?_,
        Or.inr ⟨i, fm, ?_⟩⟩
      · simp [World.emit]
      · intro e he
        simp only [List.mem_cons, List.mem_singleton, List.not_mem_nil, or_false] at he
        rcases he with rfl | rfl
        · exact Or.inl ⟨_, _, _, rfl⟩
        · exact Or.inr ⟨_, rfl⟩
      · simp [World.emit]
    · obtain ⟨Δ, h1, h2, h3⟩ := ih (i + 1) (l.load s cwd k fm).1 cwd k
        (l.load s cwd k fm).2.1
        ⟨(l.load s cwd k fm).2.2, w.trace ++ [Event.load i cwd.path k fm (l.load s cwd k fm).2.2]⟩
      refine ⟨Event.load i cwd.path k fm (l.load s cwd k fm).2.2 :: Δ, ?_, ?_, Or.inr ?_⟩
      · rw [h1]; simp
      · intro e he
        rcases List.mem_cons.mp he with rfl | he
        · exact Or.inl ⟨_, _, _, rfl⟩
        · exact h2 e he
      · rcases h3 with h3 | ⟨j, f, h3⟩
        · refine ⟨i, fm, ?_⟩
          rw [h3]
          exact List.mem_cons_self _ _
        · exact ⟨j, f, List.mem_cons_of_mem _ h3⟩

/-- C12: at a directory without child directories, reached with status 0 at
any depth, `load_directories` lists the directory, runs the stage loop once
and returns what the stage loop left: after the listing the record gains
only stage calls for this directory (telescope-level ones at the root,
station-level ones below) and at most a stage report, so no recursive call
and no duplication are made and no slot count is compared, and a non-zero
status on return is the status one of these stage calls left. -/
theorem C12_leaf_level (ls : List oskar_TelescopeLoadAbstract) (fm : FileMap) (w : World)
    (path : String) (t : DirTree) (hw : w.status = 0) (ht : t.subs = []) :
    (∀ tel, ∃ Δ,
      load_directories tel path t ls fm w
        = some ((level_telescope ls tel path t fm w).1,
            ⟨(level_telescope ls tel path t fm w).2.2.status,
              w.trace ++ Event.allSubDirs path :: Δ⟩) ∧
      (∀ e ∈ Δ, (∃ j f st, e = Event.load j path 0 f st) ∨ ∃ m, e = Event.log_error m) ∧
      ((level_telescope ls tel path t fm w).2.2.status ≠ 0 →
        ∃ j f, Event.load j path 0 f (level_telescope ls tel path t fm w).2.2.status ∈ Δ)) ∧
    (∀ s depth, ∃ Δ,
      load_directories_station s path t depth ls fm w
        = some ((level_station ls s path t depth fm w).1,
            ⟨(level_station ls s path t depth fm w).2.2.status,
              w.trace ++ Event.allSubDirs path :: Δ⟩) ∧
      (∀ e ∈ Δ, (∃ j f st, e = Event.load_station j path 0 depth f st) ∨
        ∃ m, e = Event.log_error m) ∧
      ((level_station ls s path t depth fm w).2.2.status ≠ 0 →
        ∃ j f, Event.load_station j path 0 depth f
          (level_station ls s path t depth fm w).2.2.status ∈ Δ)) := by
  constructor
  · intro tel
    obtain ⟨Δ, h1, h2, h3⟩ := load_all_events ls 0 tel ⟨path, t⟩ t.subs.length fm
      (w.emit (Event.allSubDirs path))
    have hlen : t.subs.length = 0 := by rw [ht]; rfl
    rw [hlen] at h2 h3
    refine ⟨Δ, ?_, h2, ?_⟩
    · rw [ld_leaf tel path t ls fm w hw ht]
      congr 2
      have : (level_telescope ls tel path t fm w).2.2.trace = w.trace ++ Event.allSubDirs path :: Δ := by
        rw [level_telescope, h1]; simp [World.emit]
      rw [← this]
    · intro hne
      rcases h3 with h3 | h3
      · exfalso
        apply hne
        rw [level_telescope, hlen, h3]
        exact hw
      · rw [level_telescope, hlen]
        exact h3
  · intro s depth
    obtain ⟨name, subs⟩ := t
    simp only [DirTree.subs] at ht
    subst ht
    obtain ⟨Δ, h1, h2, h3⟩ := load_all_station_events ls 0 s ⟨path, .node name []⟩ 0 depth fm
      (w.emit (Event.allSubDirs path))
    refine ⟨Δ, ?_, h2, ?_⟩
    · rw [lds_leaf s path name depth ls fm w hw]
      congr 2
      have : (level_station ls s path (.node name []) depth fm w).2.2.trace
          = w.trace ++ Event.allSubDirs path :: Δ := by
        simp only [level_station, DirTree.subs, List.length_nil]
        rw [h1]; simp [World.emit]
      rw [← this]
    · intro hne
      rcases h3 with h3 | h3
      · exfalso
        apply hne
        simp only [level_station, DirTree.subs, List.length_nil]
        rw [h3]
        exact hw
      · simp only [level_station, DirTree.subs, List.length_nil]
        exact h3

theorem C12_leaf_level_witness :
    (⟨0, []⟩ : World).status = 0 ∧ (DirTree.node "x" []).subs = [] ∧
    (∃ Δ,
      load_directories exTel "/x" (.node "x" []) (exPipeline 2) [] ⟨0, []⟩
        = some ((level_telescope (exPipeline 2) exTel "/x" (.node "x" []) [] ⟨0, []⟩).1,
            ⟨(level_telescope (exPipeline 2) exTel "/x" (.node "x" []) [] ⟨0, []⟩).2.2.status,
              [] ++ Event.allSubDirs "/x" :: Δ⟩) ∧
      (∀ e ∈ Δ, (∃ j f st, e = Event.load j "/x" 0 f st) ∨ ∃ m, e = Event.log_error m) ∧
      ((level_telescope (exPipeline 2) exTel "/x" (.node "x" []) [] ⟨0, []⟩).2.2.status ≠ 0 →
        ∃ j f, Event.load j "/x" 0 f
          (level_telescope (exPipeline 2) exTel "/x" (.node "x" []) [] ⟨0, []⟩).2.2.status
            ∈ Δ)) ∧
    (∃ Δ,
      load_directories_station (.mk 0 [] []) "/x" (.node "x" []) 2 [exNoise 2] [] ⟨0, []⟩
        = some ((level_station [exNoise 2] (.mk 0 [] []) "/x" (.node "x" []) 2 [] ⟨0, []⟩).1,
            ⟨(level_station [exNoise 2] (.mk 0 [] []) "/x" (.node "x" []) 2 []
              ⟨0, []⟩).2.2.status, [] ++ Event.allSubDirs "/x" :: Δ⟩) ∧
      (∀ e ∈ Δ, (∃ j f st, e = Event.load_station j "/x" 0 2 f st) ∨
        ∃ m, e = Event.log_error m) ∧
      ((level_station [exNoise 2] (.mk 0 [] []) "/x" (.node "x" []) 2 []
          ⟨0, []⟩).2.2.status ≠ 0 →
        ∃ j f, Event.load_station j "/x" 0 2 f
          (level_station [exNoise 2] (.mk 0 [] []) "/x" (.node "x" []) 2 []
            ⟨0, []⟩).2.2.status ∈ Δ)) :=
  ⟨rfl, rfl,
    (C12_leaf_level (exPipeline 2) [] ⟨0, []⟩ "/x" (.node "x" []) rfl rfl).1 exTel,
    (C12_leaf_level [exNoise 2] [] ⟨0, []⟩ "/x" (.node "x" []) rfl rfl).2 (.mk 0 [] []) 2⟩


/-! ## The record of earlier calls does not influence a load -/

theorem ld_frame (ls : List oskar_TelescopeLoadAbstract) (tr : List Event)
    (tel : oskar_Telescope) (path : String) (t : DirTree) (fm : FileMap) (w : World) :
    load_directories tel path t ls fm (w.prepend tr)
      = shift tr (load_directories tel path t ls fm w) := by
  by_cases hw : w.status = 0
  swap
  · rw [ld_skip _ _ _ _ _ _ hw, ld_skip _ _ _ _ _ _ (by exact hw)]
    rfl
  have hw' : (w.prepend tr).status = 0 := hw
  by_cases hr : (level_telescope ls tel path t fm w).2.2.status = 0
  swap
  · have hr' : (level_telescope ls tel path t fm (w.prepend tr)).2.2.status ≠ 0 := by
      rw [level_telescope_frame]; exact hr
    rw [ld_stage_fail _ _ _ _ _ _ hw hr, ld_stage_fail _ _ _ _ _ _ hw' hr',
      level_telescope_frame]
    rfl
  have hr' : (level_telescope ls tel path t fm (w.prepend tr)).2.2.status = 0 := by
    rw [level_telescope_frame]; exact hr
  cases hsubs : t.subs with
  | nil =>
    rw [ld_leaf _ _ _ _ _ _ hw hsubs, ld_leaf _ _ _ _ _ _ hw' hsubs, level_telescope_frame]
    rfl
  | cons d rest =>
    cases rest with
    | nil =>
      rw [ld_single _ _ _ d _ _ _ hw hr hsubs, ld_single _ _ _ d _ _ _ hw' hr' hsubs,
        level_telescope_frame]
      simp only
      cases hc : oskar_telescope_station (level_telescope ls tel path t fm w).1 0 with
      | none => rfl
      | some c =>
        simp only
        rw [emit_prepend, lds_frame]
        cases hl : load_directories_station c (oskar_Dir.filePath ⟨path, t⟩ d.name) d
            (0 + 1) ls (level_telescope ls tel path t fm w).2.1
            ((level_telescope ls tel path t fm w).2.2.emit
              (Event.call (oskar_Dir.filePath ⟨path, t⟩ d.name) 0 (0 + 1)
                (level_telescope ls tel path t fm w).2.1)) with
        | none => rfl
        | some r =>
          obtain ⟨c1, w1⟩ := r
          simp [shift, World.prepend]
    | cons d2 ds =>
      rw [ld_many _ _ _ d d2 ds _ _ _ hw hr hsubs, ld_many _ _ _ d d2 ds _ _ _ hw' hr' hsubs,
        level_telescope_frame]
      simp only
      split
      · rfl
      · exact load_stations_frame ls tr _ _ _ _ _ _

theorem otl_frame (impl : LoaderKind → oskar_TelescopeLoadAbstract)
    (fs : String → Option DirTree) (tel : oskar_Telescope) (path : Option String)
    (tr : List Event) (w : World) :
    oskar_telescope_load impl fs tel path (w.prepend tr)
      = shift tr (oskar_telescope_load impl fs tel path w) := by
  by_cases hw : w.status = 0
  swap
  · rw [otl_skip _ _ _ _ _ hw, otl_skip _ _ _ _ _ (by exact hw)]
    rfl
  have hw' : (w.prepend tr).status = 0 := hw
  cases path with
  | none =>
    rw [otl_null _ _ _ _ hw, otl_null _ _ _ _ hw']
    rfl
  | some p =>
    cases hp : fs p with
    | none =>
      rw [otl_missing _ _ _ _ _ hw hp, otl_missing _ _ _ _ _ hw' hp]
      simp [shift, World.prepend]
    | some root =>
      by_cases hm : oskar_telescope_mem_location tel = OSKAR_CPU
      swap
      · rw [otl_location _ _ _ _ _ _ hw hp hm, otl_location _ _ _ _ _ _ hw' hp hm]
        simp [shift, World.prepend]
      rw [otl_walk _ _ _ _ _ _ hw hp hm, otl_walk _ _ _ _ _ _ hw' hp hm]
      have e : (⟨0, (w.prepend tr).trace ++
            Event.dir_exists p :: loader_kinds.map Event.new_loader⟩ : World)
          = World.prepend tr
            ⟨0, w.trace ++ Event.dir_exists p :: loader_kinds.map Event.new_loader⟩ := by
        simp [World.prepend]
      rw [e, ld_frame]
      cases load_directories tel p root (create_loaders impl) []
          ⟨0, w.trace ++ Event.dir_exists p :: loader_kinds.map Event.new_loader⟩ with
      | none => rfl
      | some r =>
        obtain ⟨t3, w3⟩ := r
        simp [shift, World.prepend]


/-! ## Termination and the number of levels visited (C19) -/

theorem level_station_events (ls : List oskar_TelescopeLoadAbstract) (s : oskar_Station)
    (path : String) (t : DirTree) (depth : Nat) (fm : FileMap) (w : World) :
    ∃ Δ, (level_station ls s path t depth fm w).2.2.trace
        = w.trace ++ Event.allSubDirs path :: Δ ∧
      ∀ e ∈ Δ, (∃ j f st, e = Event.load_station j path t.subs.length depth f st) ∨
        ∃ m, e = Event.log_error m := by
  obtain ⟨Δ, h1, h2, _⟩ := load_all_station_events ls 0 s ⟨path, t⟩ t.subs.length depth fm
    (w.emit (Event.allSubDirs path))
  refine ⟨Δ, ?_, h2⟩
  rw [level_station, h1]; simp [World.emit]

theorem level_telescope_events (ls : List oskar_TelescopeLoadAbstract) (tel : oskar_Telescope)
    (path : String) (t : DirTree) (fm : FileMap) (w : World) :
    ∃ Δ, (level_telescope ls tel path t fm w).2.2.trace
        = w.trace ++ Event.allSubDirs path :: Δ ∧
      ∀ e ∈ Δ, (∃ j f st, e = Event.load j path t.subs.length f st) ∨
        ∃ m, e = Event.log_error m := by
  obtain ⟨Δ, h1, h2, _⟩ := load_all_events ls 0 tel ⟨path, t⟩ t.subs.length fm
    (w.emit (Event.allSubDirs path))
  refine ⟨Δ, ?_, h2⟩
  rw [level_telescope, h1]; simp [World.emit]

theorem filter_nil_of_stage_events {Δ : List Event} (q : Event → Bool)
    (hq1 : ∀ j p k d f st, q (Event.load_station j p k d f st) = false)
    (hq2 : ∀ j p k f st, q (Event.load j p k f st) = false)
    (hq3 : ∀ m, q (Event.log_error m) = false)
    (h : ∀ e ∈ Δ, (∃ j p k d f st, e = Event.load_station j p k d f st) ∨
      (∃ j p k f st, e = Event.load j p k f st) ∨ ∃ m, e = Event.log_error m) :
    Δ.filter q = [] := by
  refine List.filter_eq_nil_iff.mpr (fun e he => ?_)
  rcases h e he with ⟨j, p, k, d, f, st, rfl⟩ | ⟨j, p, k, f, st, rfl⟩ | ⟨m, rfl⟩
  · simp [hq1]
  · simp [hq2]
  · simp [hq3]

theorem level_station_counts (ls : List oskar_TelescopeLoadAbstract) (s : oskar_Station)
    (path : String) (t : DirTree) (depth : Nat) (fm : FileMap) (w : World) :
    ∃ Δ, (level_station ls s path t depth fm w).2.2.trace = w.trace ++ Δ ∧
      (Δ.filter Event.isListing).length = 1 ∧ Δ.filter Event.isCall = [] := by
  obtain ⟨Δ, h1, h2⟩ := level_station_events ls s path t depth fm w
  have h3 : ∀ e ∈ Δ, (∃ j p k d f st, e = Event.load_station j p k d f st) ∨
      (∃ j p k f st, e = Event.load j p k f st) ∨ ∃ m, e = Event.log_error m := by
    intro e he
    rcases h2 e he with ⟨j, f, st, rfl⟩ | ⟨m, rfl⟩
    · exact Or.inl ⟨_, _, _, _, _, _, rfl⟩
    · exact Or.inr (Or.inr ⟨_, rfl⟩)
  refine ⟨Event.allSubDirs path :: Δ, h1, ?_, ?_⟩
  · rw [List.filter_cons, filter_nil_of_stage_events Event.isListing (by intros; rfl)
      (by intros; rfl) (by intros; rfl) h3]
    rfl
  · rw [List.filter_cons, filter_nil_of_stage_events Event.isCall (by intros; rfl)
      (by intros; rfl) (by intros; rfl) h3]
    rfl

theorem level_telescope_counts (ls : List oskar_TelescopeLoadAbstract) (tel : oskar_Telescope)
    (path : String) (t : DirTree) (fm : FileMap) (w : World) :
    ∃ Δ, (level_telescope ls tel path t fm w).2.2.trace = w.trace ++ Δ ∧
      (Δ.filter Event.isListing).length = 1 ∧ Δ.filter Event.isCall = [] := by
  obtain ⟨Δ, h1, h2⟩ := level_telescope_events ls tel path t fm w
  have h3 : ∀ e ∈ Δ, (∃ j p k d f st, e = Event.load_station j p k d f st) ∨
      (∃ j p k f st, e = Event.load j p k f st) ∨ ∃ m, e = Event.log_error m := by
    intro e he
    rcases h2 e he with ⟨j, f, st, rfl⟩ | ⟨m, rfl⟩
    · exact Or.inr (Or.inl ⟨_, _, _, _, _, rfl⟩)
    · exact Or.inr (Or.inr ⟨_, rfl⟩)
  refine ⟨Event.allSubDirs path :: Δ, h1, ?_, ?_⟩
  · rw [List.filter_cons, filter_nil_of_stage_events Event.isListing (by intros; rfl)
      (by intros; rfl) (by intros; rfl) h3]
    rfl
  · rw [List.filter_cons, filter_nil_of_stage_events Event.isCall (by intros; rfl)
      (by intros; rfl) (by intros; rfl) h3]
    rfl

theorem isCall_call (p : String) (i d : Nat) (f : FileMap) :
    Event.isCall (Event.call p i d f) = true := rfl

theorem isListing_call (p : String) (i d : Nat) (f : FileMap) :
    Event.isListing (Event.call p i d f) = false := rfl

theorem isCall_dup_child (p : String) : Event.isCall (Event.duplicate_first_child p) = false :=
  rfl

theorem isListing_dup_child (p : String) :
    Event.isListing (Event.duplicate_first_child p) = false := rfl

theorem isCall_dup_station : Event.isCall Event.duplicate_first_station = false := rfl

theorem isListing_dup_station : Event.isListing Event.duplicate_first_station = false := rfl

theorem dir_count_pos (t : DirTree) : 1 ≤ dir_count t := by
  cases t; simp [dir_count]

theorem load_children_count (ls : List oskar_TelescopeLoadAbstract) :
    ∀ (ds : List DirTree),
      (∀ d ∈ ds, ∀ s path depth fm w s' w',
        load_directories_station s path d depth ls fm w = some (s', w') →
        ∃ Δ, w'.trace = w.trace ++ Δ ∧ (Δ.filter Event.isListing).length ≤ dir_count d ∧
          (Δ.filter Event.isCall).length + 1 ≤ dir_count d) →
      ∀ s cwd i depth fm w s' w',
        load_children s cwd ds i depth ls fm w = some (s', w') →
        ∃ Δ, w'.trace = w.trace ++ Δ ∧
          (Δ.filter Event.isListing).length ≤ dir_count_list ds ∧
          (Δ.filter Event.isCall).length ≤ dir_count_list ds := by
  intro ds
  induction ds with
  | nil =>
    intro _ s cwd i depth fm w s' w' h
    rw [load_children_nil] at h
    simp only [Option.some.injEq, Prod.mk.injEq] at h
    exact ⟨[], by simp [h.2], by simp, by simp⟩
  | cons d ds ih =>
    intro hP s cwd i depth fm w s' w' h
    obtain ⟨c, c1, w1, _, h2, h3⟩ := load_children_inv h
    obtain ⟨Δ1, e1, p1, q1⟩ := hP d (List.mem_cons_self _ _) _ _ _ _ _ _ _ h2
    obtain ⟨Δ2, e2, p2, q2⟩ := ih (fun x hx => hP x (List.mem_cons_of_mem _ hx)) _ _ _ _ _ _ _ _ h3
    refine ⟨Event.call (cwd.filePath d.name) i (depth + 1) fm :: (Δ1 ++ Δ2), ?_, ?_, ?_⟩
    · rw [e2, e1]; simp [World.emit]
    · simp only [List.filter_cons, List.filter_append, isListing_call, Bool.false_eq_true,
        if_false, List.length_append, dir_count_list]
      omega
    · simp only [List.filter_cons, List.filter_append, isCall_call, if_true, List.length_cons,
        List.length_append, dir_count_list]
      omega

theorem lds_count (ls : List oskar_TelescopeLoadAbstract) :
    ∀ (t : DirTree) (s : oskar_Station) (path : String) (depth : Nat) (fm : FileMap) (w : World)
      (s' : oskar_Station) (w' : World),
      load_directories_station s path t depth ls fm w = some (s', w') →
      ∃ Δ, w'.trace = w.trace ++ Δ ∧ (Δ.filter Event.isListing).length ≤ dir_count t ∧
        (Δ.filter Event.isCall).length + 1 ≤ dir_count t := by
  intro t
  induction t using DirTree.induct_subs with
  | h name subs ih =>
    intro s path depth fm w s' w' h
    have hpos := dir_count_pos (.node name subs)
    rcases lds_inv h with ⟨_, _, h2⟩ | ⟨hw, hc⟩
    · exact ⟨[], by simp [h2], by simp, by simpa using hpos⟩
    obtain ⟨Δ0, e0, p0, q0⟩ := level_station_counts ls s path (.node name subs) depth fm w
    rcases hc with ⟨_, _, h2⟩ | ⟨_, _, _, h2⟩ | ⟨hr, d, c, c1, w1, hsub, _, hl, _, h2⟩ |
      ⟨hr, _, _, _, h2⟩ | ⟨_, _, _, h2⟩
    · exact ⟨Δ0, by rw [h2, e0], by omega, by rw [q0]; simpa using hpos⟩
    · exact ⟨Δ0, by rw [h2, e0], by omega, by rw [q0]; simpa using hpos⟩
    · simp only [DirTree.subs] at hsub
      subst hsub
      obtain ⟨Δ1, e1, p1, q1⟩ := ih d (List.mem_singleton_self d) _ _ _ _ _ _ _ hl
      refine ⟨Δ0 ++ Event.call (oskar_Dir.filePath ⟨path, .node name [d]⟩ d.name) 0 (depth + 1)
        (level_station ls s path (.node name [d]) depth fm w).2.1 :: (Δ1 ++
          [Event.duplicate_first_child path]), ?_, ?_, ?_⟩
      · rw [h2]; simp only; rw [e1]; simp [World.emit, e0]
      · simp only [List.filter_append, List.filter_cons, isListing_call, isListing_dup_child,
          List.length_append, Bool.false_eq_true, if_false, List.filter_nil, List.length_nil,
          dir_count, dir_count_list]
        omega
      · simp only [List.filter_append, List.filter_cons, isCall_call, isCall_dup_child, q0,
          if_true, Bool.false_eq_true, if_false, List.length_append, List.length_cons,
          List.filter_nil, List.length_nil, dir_count, dir_count_list]
        omega
    · exact ⟨Δ0, by rw [h2, e0], by omega, by rw [q0]; simpa using hpos⟩
    · obtain ⟨Δ1, e1, p1, q1⟩ := load_children_count ls subs ih _ _ _ _ _ _ _ _ h2
      refine ⟨Δ0 ++ Δ1, by rw [e1, e0]; simp, ?_, ?_⟩
      · simp only [List.filter_append, List.length_append, dir_count]
        omega
      · simp only [List.filter_append, List.length_append, dir_count, q0, List.length_nil]
        omega

theorem load_stations_count (ls : List oskar_TelescopeLoadAbstract) :
    ∀ (ds : List DirTree) (tel : oskar_Telescope) (cwd : oskar_Dir) (i : Nat) (fm : FileMap)
      (w : World) (tel' : oskar_Telescope) (w' : World),
      load_stations tel cwd ds i ls fm w = some (tel', w') →
      ∃ Δ, w'.trace = w.trace ++ Δ ∧
        (Δ.filter Event.isListing).length ≤ dir_count_list ds ∧
        (Δ.filter Event.isCall).length ≤ dir_count_list ds := by
  intro ds
  induction ds with
  | nil =>
    intro tel cwd i fm w tel' w' h
    rw [load_stations_nil] at h
    simp only [Option.some.injEq, Prod.mk.injEq] at h
    exact ⟨[], by simp [h.2], by simp, by simp⟩
  | cons d ds ih =>
    intro tel cwd i fm w tel' w' h
    obtain ⟨c, c1, w1, _, h2, h3⟩ := load_stations_inv h
    obtain ⟨Δ1, e1, p1, q1⟩ := lds_count ls d _ _ _ _ _ _ _ h2
    obtain ⟨Δ2, e2, p2, q2⟩ := ih _ _ _ _ _ _ _ h3
    refine ⟨Event.call (cwd.filePath d.name) i (0 + 1) fm :: (Δ1 ++ Δ2), ?_, ?_, ?_⟩
    · rw [e2, e1]; simp [World.emit]
    · simp only [List.filter_cons, List.filter_append, isListing_call, Bool.false_eq_true,
        if_false, List.length_append, dir_count_list]
      omega
    · simp only [List.filter_cons, List.filter_append, isCall_call, if_true, List.length_cons,
        List.length_append, dir_count_list]
      omega

theorem ld_count (ls : List oskar_TelescopeLoadAbstract) (tel : oskar_Telescope) (path : String)
    (t : DirTree) (fm : FileMap) (w : World) (tel' : oskar_Telescope) (w' : World)
    (h : load_directories tel path t ls fm w = some (tel', w')) :
    ∃ Δ, w'.trace = w.trace ++ Δ ∧ (Δ.filter Event.isListing).length ≤ dir_count t ∧
      (Δ.filter Event.isCall).length + 1 ≤ dir_count t := by
  have hpos := dir_count_pos t
  have hdc : dir_count t = 1 + dir_count_list t.subs := by cases t; rfl
  rcases ld_inv h with ⟨_, _, h2⟩ | ⟨hw, hc⟩
  · exact ⟨[], by simp [h2], by simp, by simpa using hpos⟩
  obtain ⟨Δ0, e0, p0, q0⟩ := level_telescope_counts ls tel path t fm w
  rcases hc with ⟨_, _, h2⟩ | ⟨_, _, _, h2⟩ | ⟨hr, d, c, c1, w1, hsub, _, hl, _, h2⟩ |
    ⟨hr, _, _, _, h2⟩ | ⟨_, _, _, h2⟩
  · exact ⟨Δ0, by rw [h2, e0], by omega, by rw [q0]; simpa using hpos⟩
  · exact ⟨Δ0, by rw [h2, e0], by omega, by rw [q0]; simpa using hpos⟩
  · obtain ⟨Δ1, e1, p1, q1⟩ := lds_count ls d _ _ _ _ _ _ _ hl
    rw [hsub] at hdc
    refine ⟨Δ0 ++ Event.call (oskar_Dir.filePath ⟨path, t⟩ d.name) 0 (0 + 1)
      (level_telescope ls tel path t fm w).2.1 :: (Δ1 ++ [Event.duplicate_first_station]),
      ?_, ?_, ?_⟩
    · rw [h2]; simp only; rw [e1]; simp [World.emit, e0]
    · simp only [List.filter_append, List.filter_cons, isListing_call, isListing_dup_station,
        List.length_append, Bool.false_eq_true, if_false, List.filter_nil, List.length_nil, hdc,
        dir_count_list]
      omega
    · simp only [List.filter_append, List.filter_cons, isCall_call, isCall_dup_station, q0,
        if_true, Bool.false_eq_true, if_false, List.length_append, List.length_cons,
        List.filter_nil, List.length_nil, hdc, dir_count_list]
      omega
  · exact ⟨Δ0, by rw [h2, e0], by omega, by rw [q0]; simpa using hpos⟩
  · obtain ⟨Δ1, e1, p1, q1⟩ := load_stations_count ls _ _ _ _ _ _ _ _ h2
    refine ⟨Δ0 ++ Δ1, by rw [e1, e0]; simp, ?_, ?_⟩
    · simp only [List.filter_append, List.length_append, hdc]
      omega
    · simp only [List.filter_append, List.length_append, hdc, q0, List.length_nil]
      omega


theorem ext_unique {w w' : World} {Δ1 Δ2 : List Event} (h1 : w'.trace = w.trace ++ Δ1)
    (h2 : w'.trace = w.trace ++ Δ2) : Δ1 = Δ2 := by
  have : w.trace ++ Δ1 = w.trace ++ Δ2 := by rw [← h1, h2]
  exact List.append_cancel_left this

theorem load_stations_ext (ls : List oskar_TelescopeLoadAbstract) :
    ∀ (ds : List DirTree) (tel : oskar_Telescope) (cwd : oskar_Dir) (i : Nat) (fm : FileMap)
      (w : World) (tel' : oskar_Telescope) (w' : World),
      load_stations tel cwd ds i ls fm w = some (tel', w') →
      ∃ Δ, w'.trace = w.trace ++ Δ ∧ ∀ e ∈ Δ, ∀ k, e.callDepth? = some k → 0 < k := by
  intro ds
  induction ds with
  | nil =>
    intro tel cwd i fm w tel' w' h
    rw [load_stations_nil] at h
    simp only [Option.some.injEq, Prod.mk.injEq] at h
    exact ⟨[], by simp [h.2], by simp⟩
  | cons d ds ih =>
    intro tel cwd i fm w tel' w' h
    obtain ⟨c, c1, w1, _, h2, h3⟩ := load_stations_inv h
    obtain ⟨Δ1, e1, p1⟩ := lds_ext ls d _ _ _ _ _ _ _ h2
    obtain ⟨Δ2, e2, p2⟩ := ih _ _ _ _ _ _ _ h3
    refine ⟨Event.call (cwd.filePath d.name) i (0 + 1) fm :: (Δ1 ++ Δ2), ?_, ?_⟩
    · rw [e2, e1]; simp [World.emit]
    · intro e he k hk
      rcases List.mem_cons.mp he with rfl | he
      · simp only [Event.callDepth?, Option.some.injEq] at hk
        omega
      · rcases List.mem_append.mp he with he | he
        · have := p1 e he k hk
          omega
        · exact p2 e he k hk

theorem ld_ext (ls : List oskar_TelescopeLoadAbstract) (tel : oskar_Telescope)
    (path : String) (t : DirTree) (fm : FileMap) (w : World) (tel' : oskar_Telescope)
    (w' : World) (h : load_directories tel path t ls fm w = some (tel', w')) :
    ∃ Δ, w'.trace = w.trace ++ Δ ∧ ∀ e ∈ Δ, ∀ k, e.callDepth? = some k → 0 < k := by
  rcases ld_inv h with ⟨_, _, h2⟩ | ⟨hw, hc⟩
  · exact ⟨[], by simp [h2], by simp⟩
  obtain ⟨Δ0, e0, p0⟩ := level_telescope_ext ls tel path t fm w
  have p0' : ∀ e ∈ Δ0, ∀ k, e.callDepth? = some k → 0 < k := by
    intro e he k hk
    rw [p0 e he] at hk; cases hk
  rcases hc with ⟨_, _, h2⟩ | ⟨_, _, _, h2⟩ | ⟨hr, d, c, c1, w1, hsub, _, hl, _, h2⟩ |
    ⟨hr, _, _, _, h2⟩ | ⟨_, _, _, h2⟩
  · exact ⟨Δ0, by rw [h2, e0], p0'⟩
  · exact ⟨Δ0, by rw [h2, e0], p0'⟩
  · obtain ⟨Δ1, e1, p1⟩ := lds_ext ls d _ _ _ _ _ _ _ hl
    refine ⟨Δ0 ++ Event.call (oskar_Dir.filePath ⟨path, t⟩ d.name) 0 (0 + 1)
      (level_telescope ls tel path t fm w).2.1 :: (Δ1 ++ [Event.duplicate_first_station]),
      ?_, ?_⟩
    · rw [h2]; simp only; rw [e1]; simp [World.emit, e0]
    · intro e he k hk
      rcases List.mem_append.mp he with he | he
      · exact p0' e he k hk
      · rcases List.mem_cons.mp he with rfl | he
        · simp only [Event.callDepth?, Option.some.injEq] at hk
          omega
        · rcases List.mem_append.mp he with he | he
          · have := p1 e he k hk
            omega
          · rcases List.mem_singleton.mp he with rfl
            cases hk
  · exact ⟨Δ0, by rw [h2, e0], p0'⟩
  · obtain ⟨Δ1, e1, q1⟩ := load_stations_ext ls _ _ _ _ _ _ _ _ h2
    refine ⟨Δ0 ++ Δ1, by rw [e1, e0]; simp, ?_⟩
    intro e he k hk
    rcases List.mem_append.mp he with he | he
    · exact p0' e he k hk
    · exact q1 e he k hk

theorem load_children_returns (ls : List oskar_TelescopeLoadAbstract) :
    ∀ (ds : List DirTree),
      (∀ d ∈ ds, ∀ s path depth fm w,
        ∃ r, load_directories_station s path d depth ls fm w = some r) →
      ∀ (s : oskar_Station) cwd i depth fm w, i + ds.length ≤ s.child.length →
        ∃ r, load_children s cwd ds i depth ls fm w = some r := by
  intro ds
  induction ds with
  | nil =>
    intro _ s cwd i depth fm w _
    exact ⟨_, load_children_nil s cwd i depth ls fm w⟩
  | cons d ds ih =>
    intro hP s cwd i depth fm w hlen
    simp only [List.length_cons] at hlen
    have hi : i < s.child.length := by omega
    obtain ⟨r, hr⟩ := hP d (List.mem_cons_self _ _) (s.child.get ⟨i, hi⟩) (cwd.filePath d.name)
      (depth + 1) fm (w.emit (Event.call (cwd.filePath d.name) i (depth + 1) fm))
    obtain ⟨c1, w1⟩ := r
    have hc : oskar_station_child s i = some (s.child.get ⟨i, hi⟩) := by
      simp [oskar_station_child, List.getElem?_eq_getElem hi]
    obtain ⟨r2, hr2⟩ := ih (fun x hx => hP x (List.mem_cons_of_mem _ hx)) (s.setChild i c1) cwd
      (i + 1) depth fm w1 (by rw [setChild_child, List.length_set]; omega)
    refine ⟨r2, ?_⟩
    rw [load_children_cons, hc]
    simp only
    rw [hr]
    exact hr2

theorem lds_returns (ls : List oskar_TelescopeLoadAbstract)
    (hs : ∀ s p d depth f v, (level_station ls s p d depth f v).2.2.status = 0 →
      d.subs.length = 1 → 0 < oskar_station_num_elements (level_station ls s p d depth f v).1) :
    ∀ (t : DirTree) (s : oskar_Station) (path : String) (depth : Nat) (fm : FileMap) (w : World),
      ∃ r, load_directories_station s path t depth ls fm w = some r := by
  intro t
  induction t using DirTree.induct_subs with
  | h name subs ih =>
    intro s path depth fm w
    by_cases hw : w.status = 0
    swap
    · exact ⟨_, lds_skip s path _ depth ls fm w hw⟩
    by_cases hr : (level_station ls s path (.node name subs) depth fm w).2.2.status = 0
    swap
    · exact ⟨_, lds_stage_fail s path _ depth ls fm w hw hr⟩
    match subs, ih, hr with
    | [], _, _ => exact ⟨_, lds_leaf s path name depth ls fm w hw⟩
    | [d], ih, hr =>
      have h0 := hs s path (.node name [d]) depth fm w hr rfl
      obtain ⟨r, hl⟩ := ih d (List.mem_singleton_self d)
        ((level_station ls s path (.node name [d]) depth fm w).1.child.get ⟨0, h0⟩)
        (oskar_Dir.filePath ⟨path, .node name [d]⟩ d.name) (depth + 1)
        (level_station ls s path (.node name [d]) depth fm w).2.1
        ((level_station ls s path (.node name [d]) depth fm w).2.2.emit
          (Event.call (oskar_Dir.filePath ⟨path, .node name [d]⟩ d.name) 0 (depth + 1)
            (level_station ls s path (.node name [d]) depth fm w).2.1))
      obtain ⟨c1, w1⟩ := r
      have hc : oskar_station_child (level_station ls s path (.node name [d]) depth fm w).1 0
          = some ((level_station ls s path (.node name [d]) depth fm w).1.child.get ⟨0, h0⟩) := by
        simp [oskar_station_child, List.getElem?_eq_getElem h0]
      rw [lds_single s path name d depth ls fm w hw hr, hc]
      simp only
      rw [hl]
      exact ⟨_, rfl⟩
    | d1 :: d2 :: ds, ih, hr =>
      rw [lds_many s path name d1 d2 ds depth ls fm w hw hr]
      split
      · exact ⟨_, rfl⟩
      · rename_i hlen
        exact load_children_returns ls _ ih _ _ _ _ _ _ (by
          simp only [ne_eq, not_not, oskar_station_num_elements] at hlen
          omega)

theorem load_stations_returns (ls : List oskar_TelescopeLoadAbstract)
    (hs : ∀ s p d depth f v, (level_station ls s p d depth f v).2.2.status = 0 →
      d.subs.length = 1 → 0 < oskar_station_num_elements (level_station ls s p d depth f v).1) :
    ∀ (ds : List DirTree) (tel : oskar_Telescope) cwd i fm w,
      i + ds.length ≤ tel.station.length →
        ∃ r, load_stations tel cwd ds i ls fm w = some r := by
  intro ds
  induction ds with
  | nil =>
    intro tel cwd i fm w _
    exact ⟨_, load_stations_nil tel cwd i ls fm w⟩
  | cons d ds ih =>
    intro tel cwd i fm w hlen
    simp only [List.length_cons] at hlen
    have hi : i < tel.station.length := by omega
    obtain ⟨r, hr⟩ := lds_returns ls hs d (tel.station.get ⟨i, hi⟩) (cwd.filePath d.name)
      (0 + 1) fm (w.emit (Event.call (cwd.filePath d.name) i (0 + 1) fm))
    obtain ⟨c1, w1⟩ := r
    have hc : oskar_telescope_station tel i = some (tel.station.get ⟨i, hi⟩) := by
      simp [oskar_telescope_station, List.getElem?_eq_getElem hi]
    obtain ⟨r2, hr2⟩ := ih (tel.setStation i c1) cwd (i + 1) fm w1 (by
      simp only [oskar_Telescope.setStation, List.length_set]; omega)
    refine ⟨r2, ?_⟩
    rw [load_stations_cons, hc]
    simp only
    rw [hr]
    exact hr2

theorem ld_returns (ls : List oskar_TelescopeLoadAbstract)
    (hs : ∀ s p d depth f v, (level_station ls s p d depth f v).2.2.status = 0 →
      d.subs.length = 1 → 0 < oskar_station_num_elements (level_station ls s p d depth f v).1)
    (tel : oskar_Telescope) (path : String) (t : DirTree) (fm : FileMap) (w : World)
    (ht : (level_telescope ls tel path t fm w).2.2.status = 0 → t.subs.length = 1 →
      0 < oskar_telescope_num_stations (level_telescope ls tel path t fm w).1) :
    ∃ r, load_directories tel path t ls fm w = some r := by
  by_cases hw : w.status = 0
  swap
  · exact ⟨_, ld_skip tel path t ls fm w hw⟩
  by_cases hr : (level_telescope ls tel path t fm w).2.2.status = 0
  swap
  · exact ⟨_, ld_stage_fail tel path t ls fm w hw hr⟩
  match hsub : t.subs with
  | [] => exact ⟨_, ld_leaf tel path t ls fm w hw hsub⟩
  | [d] =>
    have h0 := ht hr (by rw [hsub]; rfl)
    obtain ⟨r, hl⟩ := lds_returns ls hs d
      ((level_telescope ls tel path t fm w).1.station.get ⟨0, h0⟩)
      (oskar_Dir.filePath ⟨path, t⟩ d.name) (0 + 1)
      (level_telescope ls tel path t fm w).2.1
      ((level_telescope ls tel path t fm w).2.2.emit
        (Event.call (oskar_Dir.filePath ⟨path, t⟩ d.name) 0 (0 + 1)
          (level_telescope ls tel path t fm w).2.1))
    obtain ⟨c1, w1⟩ := r
    have hc : oskar_telescope_station (level_telescope ls tel path t fm w).1 0
        = some ((level_telescope ls tel path t fm w).1.station.get ⟨0, h0⟩) := by
      simp [oskar_telescope_station, List.getElem?_eq_getElem h0]
    rw [ld_single tel path t d ls fm w hw hr hsub, hc]
    simp only
    rw [hl]
    exact ⟨_, rfl⟩
  | d1 :: d2 :: ds =>
    rw [ld_many tel path t d1 d2 ds ls fm w hw hr hsub]
    split
    · exact ⟨_, rfl⟩
    · rename_i hlen
      rw [hsub] at hlen ⊢
      exact load_stations_returns ls hs _ _ _ _ _ _ (by
        simp only [ne_eq, not_not, oskar_telescope_num_stations] at hlen
        omega)

theorem exPipeline_slots (n : Nat) (s : oskar_Station) (p : String) (d : DirTree) (depth : Nat)
    (f : FileMap) (v : World) :
    oskar_station_num_elements (level_station (exPipeline n) s p d depth f v).1 = n := by
  simp [level_station, load_all_station, exPipeline, exLayoutFixed, exGain,
    oskar_station_num_elements, oskar_Station.child]

/-- C19: the walk is defined by recursion on the directory tree itself:
every recursive call is made for an immediate child directory, one level
deeper. With stages that leave at least one slot at every level that has
exactly one child directory, the walk of every tree returns, from the root
and from a station at any depth (first part). Whenever the walk of a tree
returns, the number of directories it listed is at most the number of
directories of the tree, it made fewer recursive calls than the tree has
directories, and every recursive call was made at a depth greater than the
depth of the level the walk started at (second part for the root, third part
for a station). -/
theorem C19_levels_bounded (ls : List oskar_TelescopeLoadAbstract) (fm : FileMap) (w : World)
    (path : String) (t : DirTree) (tel : oskar_Telescope) :
    ((∀ s p d depth f v, (level_station ls s p d depth f v).2.2.status = 0 →
        d.subs.length = 1 →
        0 < oskar_station_num_elements (level_station ls s p d depth f v).1) →
      (∀ s p d depth f v, ∃ r, load_directories_station s p d depth ls f v = some r) ∧
      (((level_telescope ls tel path t fm w).2.2.status = 0 → t.subs.length = 1 →
          0 < oskar_telescope_num_stations (level_telescope ls tel path t fm w).1) →
        ∃ r, load_directories tel path t ls fm w = some r)) ∧
    (∀ tel' w', load_directories tel path t ls fm w = some (tel', w') →
      ∃ Δ, w'.trace = w.trace ++ Δ ∧ (Δ.filter Event.isListing).length ≤ dir_count t ∧
        (Δ.filter Event.isCall).length + 1 ≤ dir_count t ∧
        ∀ e ∈ Δ, ∀ k, e.callDepth? = some k → 0 < k) ∧
    ∀ (s : oskar_Station) (p : String) (d : DirTree) (depth : Nat) (f : FileMap) (v : World)
      (s' : oskar_Station) (v' : World),
      load_directories_station s p d depth ls f v = some (s', v') →
      ∃ Δ, v'.trace = v.trace ++ Δ ∧ (Δ.filter Event.isListing).length ≤ dir_count d ∧
        (Δ.filter Event.isCall).length + 1 ≤ dir_count d ∧
        ∀ e ∈ Δ, ∀ k, e.callDepth? = some k → depth < k := by
  refine ⟨?_, ?_, ?_⟩
  · intro hs
    exact ⟨fun s p d depth f v => lds_returns ls hs d s p depth f v,
      fun ht => ld_returns ls hs tel path t fm w ht⟩
  · intro tel' w' h
    obtain ⟨Δ, h1, h2, h3⟩ := ld_count ls tel path t fm w tel' w' h
    obtain ⟨Δ', h1', h4⟩ := ld_ext ls tel path t fm w tel' w' h
    have := ext_unique h1 h1'
    subst this
    exact ⟨Δ, h1, h2, h3, h4⟩
  · intro s p d depth f v s' v' hs
    obtain ⟨Δ, h1, h2, h3⟩ := lds_count ls d s p depth f v s' v' hs
    obtain ⟨Δ', h1', h4⟩ := lds_ext ls d s p depth f v s' v' hs
    have := ext_unique h1 h1'
    subst this
    exact ⟨Δ, h1, h2, h3, h4⟩

theorem C19_levels_bounded_witness :
    (∀ s p d depth f v, (level_station (exPipeline 2) s p d depth f v).2.2.status = 0 →
      d.subs.length = 1 →
      0 < oskar_station_num_elements (level_station (exPipeline 2) s p d depth f v).1) ∧
    ((level_telescope (exPipeline 2) exTel "/tel" exTreeAB [] ⟨0, []⟩).2.2.status = 0 →
      exTreeAB.subs.length = 1 →
      0 < oskar_telescope_num_stations
        (level_telescope (exPipeline 2) exTel "/tel" exTreeAB [] ⟨0, []⟩).1) ∧
    (∃ r, load_directories exTel "/tel" exTreeAB (exPipeline 2) [] ⟨0, []⟩ = some r) ∧
    load_directories exTel "/tel" exTreeAB (exPipeline 2) [] ⟨0, []⟩ = some (exWalkTel 2) ∧
    dir_count exTreeAB = 4 ∧
    (∃ Δ, (exWalkTel 2).2.trace = [] ++ Δ ∧
      (Δ.filter Event.isListing).length ≤ dir_count exTreeAB ∧
      (Δ.filter Event.isCall).length + 1 ≤ dir_count exTreeAB ∧
      ∀ e ∈ Δ, ∀ k, e.callDepth? = some k → 0 < k) :=
  ⟨fun s p d depth f v _ _ => by rw [exPipeline_slots]; decide,
    fun _ h => absurd h (by decide),
    ((C19_levels_bounded (exPipeline 2) [] ⟨0, []⟩ "/tel" exTreeAB exTel).1
      (fun s p d depth f v _ _ => by rw [exPipeline_slots]; decide)).2
      (fun _ h => absurd h (by decide)),
    rfl, by decide,
    (C19_levels_bounded (exPipeline 2) [] ⟨0, []⟩ "/tel" exTreeAB exTel).2.1
      (exWalkTel 2).1 (exWalkTel 2).2 rfl⟩


/-! ## The stage calls of a successful walk (C11) -/

theorem load_all_station_ok :
    ∀ (rest : List oskar_TelescopeLoadAbstract) (i : Nat) (s : oskar_Station) (cwd : oskar_Dir)
      (k depth : Nat) (fm : FileMap) (w : World),
      (load_all_station rest i s cwd k depth fm w).2.2.status = 0 →
      ∃ Δ, (load_all_station rest i s cwd k depth fm w).2.2.trace = w.trace ++ Δ ∧
        Δ.filterMap Event.loadArgs?
          = (List.range' i rest.length).map (fun j => (false, j, cwd.path, k, depth)) ∧
        ∀ e ∈ Δ, e.isReport = false := by
  intro rest
  induction rest with
  | nil =>
    intro i s cwd k depth fm w _
    exact ⟨[], by simp [load_all_station], by simp, by simp⟩
  | cons l rest ih =>
    intro i s cwd k depth fm w hs
    simp only [load_all_station] at hs ⊢
    split at hs
    · rename_i hne
      exact absurd hs hne
    · rename_i hst
      rw [if_neg hst]
      obtain ⟨Δ, h1, h2, h3⟩ := ih (i + 1) (l.load_station s cwd k depth fm).1 cwd k depth
        (l.load_station s cwd k depth fm).2.1
        ⟨(l.load_station s cwd k depth fm).2.2, w.trace ++
          [Event.load_station i cwd.path k depth fm (l.load_station s cwd k depth fm).2.2]⟩ hs
      refine ⟨Event.load_station i cwd.path k depth fm (l.load_station s cwd k depth fm).2.2 :: Δ,
        ?_, ?_, ?_⟩
      · rw [h1]; simp
      · rw [List.filterMap_cons_some (by rfl : Event.loadArgs?
            (Event.load_station i cwd.path k depth fm (l.load_station s cwd k depth fm).2.2)
              = some (false, i, cwd.path, k, depth)), h2]
        simp [List.range'_succ]
      · intro e he
        rcases List.mem_cons.mp he with rfl | he
        · rfl
        · exact h3 e he

theorem load_all_ok :
    ∀ (rest : List oskar_TelescopeLoadAbstract) (i : Nat) (tel : oskar_Telescope)
      (cwd : oskar_Dir) (k : Nat) (fm : FileMap) (w : World),
      (load_all rest i tel cwd k fm w).2.2.status = 0 →
      ∃ Δ, (load_all rest i tel cwd k fm w).2.2.trace = w.trace ++ Δ ∧
        Δ.filterMap Event.loadArgs?
          = (List.range' i rest.length).map (fun j => (true, j, cwd.path, k, 0)) ∧
        ∀ e ∈ Δ, e.isReport = false := by
  intro rest
  induction rest with
  | nil =>
    intro i s cwd k fm w _
    exact ⟨[], by simp [load_all], by simp, by simp⟩
  | cons l rest ih =>
    intro i s cwd k fm w hs
    simp only [load_all] at hs ⊢
    split at hs
    · rename_i hne
      exact absurd hs hne
    · rename_i hst
      rw [if_neg hst]
      obtain ⟨Δ, h1, h2, h3⟩ := ih (i + 1) (l.load s cwd k fm).1 cwd k
        (l.load s cwd k fm).2.1
        ⟨(l.load s cwd k fm).2.2, w.trace ++
          [Event.load i cwd.path k fm (l.load s cwd k fm).2.2]⟩ hs
      refine ⟨Event.load i cwd.path k fm (l.load s cwd k fm).2.2 :: Δ, ?_, ?_, ?_⟩
      · rw [h1]; simp
      · rw [List.filterMap_cons_some (by rfl : Event.loadArgs?
            (Event.load i cwd.path k fm (l.load s cwd k fm).2.2)
              = some (true, i, cwd.path, k, 0)), h2]
        simp [List.range'_succ]
      · intro e he
        rcases List.mem_cons.mp he with rfl | he
        · rfl
        · exact h3 e he

theorem level_station_ok (ls : List oskar_TelescopeLoadAbstract) (s : oskar_Station)
    (path : String) (t : DirTree) (depth : Nat) (fm : FileMap) (w : World)
    (hs : (level_station ls s path t depth fm w).2.2.status = 0) :
    ∃ Δ, (level_station ls s path t depth fm w).2.2.trace = w.trace ++ Δ ∧
      Δ.filterMap Event.loadArgs?
        = (List.range ls.length).map (fun j => (false, j, path, t.subs.length, depth)) ∧
      ∀ e ∈ Δ, e.isReport = false := by
  obtain ⟨Δ, h1, h2, h3⟩ := load_all_station_ok ls 0 s ⟨path, t⟩ t.subs.length depth fm
    (w.emit (Event.allSubDirs path)) hs
  refine ⟨Event.allSubDirs path :: Δ, ?_, ?_, ?_⟩
  · rw [level_station, h1]; simp [World.emit]
  · rw [List.filterMap_cons_none (by rfl), h2, List.range_eq_range']
  · intro e he
    rcases List.mem_cons.mp he with rfl | he
    · rfl
    · exact h3 e he

theorem level_telescope_ok (ls : List oskar_TelescopeLoadAbstract) (tel : oskar_Telescope)
    (path : String) (t : DirTree) (fm : FileMap) (w : World)
    (hs : (level_telescope ls tel path t fm w).2.2.status = 0) :
    ∃ Δ, (level_telescope ls tel path t fm w).2.2.trace = w.trace ++ Δ ∧
      Δ.filterMap Event.loadArgs?
        = (List.range ls.length).map (fun j => (true, j, path, t.subs.length, 0)) ∧
      ∀ e ∈ Δ, e.isReport = false := by
  obtain ⟨Δ, h1, h2, h3⟩ := load_all_ok ls 0 tel ⟨path, t⟩ t.subs.length fm
    (w.emit (Event.allSubDirs path)) hs
  refine ⟨Event.allSubDirs path :: Δ, ?_, ?_, ?_⟩
  · rw [level_telescope, h1]; simp [World.emit]
  · rw [List.filterMap_cons_none (by rfl), h2, List.range_eq_range']
  · intro e he
    rcases List.mem_cons.mp he with rfl | he
    · rfl
    · exact h3 e he

theorem load_children_ok (ls : List oskar_TelescopeLoadAbstract) :
    ∀ (ds : List DirTree),
      (∀ d ∈ ds, ∀ s path depth fm w s' w',
        load_directories_station s path d depth ls fm w = some (s', w') → w'.status = 0 →
        ∃ Δ, w'.trace = w.trace ++ Δ ∧
          Δ.filterMap Event.loadArgs? = expected_station ls.length path depth d) →
      ∀ s cwd i depth fm w s' w',
        load_children s cwd ds i depth ls fm w = some (s', w') → w'.status = 0 →
        ∃ Δ, w'.trace = w.trace ++ Δ ∧
          Δ.filterMap Event.loadArgs? = expected_children ls.length cwd (depth + 1) ds := by
  intro ds
  induction ds with
  | nil =>
    intro _ s cwd i depth fm w s' w' h _
    rw [load_children_nil] at h
    simp only [Option.some.injEq, Prod.mk.injEq] at h
    exact ⟨[], by simp [h.2], by simp [expected_children]⟩
  | cons d ds ih =>
    intro hP s cwd i depth fm w s' w' h hs
    obtain ⟨c, c1, w1, _, h2, h3⟩ := load_children_inv h
    have hw1 : w1.status = 0 := by
      by_contra hne
      exact load_children_status ls _ _ _ _ _ _ _ _ _ h3 hne hs
    obtain ⟨Δ1, e1, p1⟩ := hP d (List.mem_cons_self _ _) _ _ _ _ _ _ _ h2 hw1
    obtain ⟨Δ2, e2, p2⟩ :=
      ih (fun x hx => hP x (List.mem_cons_of_mem _ hx)) _ _ _ _ _ _ _ _ h3 hs
    refine ⟨Event.call (cwd.filePath d.name) i (depth + 1) fm :: (Δ1 ++ Δ2), ?_, ?_⟩
    · rw [e2, e1]; simp [World.emit]
    · rw [List.filterMap_cons_none (by rfl), List.filterMap_append, p1, p2]
      simp [expected_children]

theorem lds_ok (ls : List oskar_TelescopeLoadAbstract) :
    ∀ (t : DirTree) (s : oskar_Station) (path : String) (depth : Nat) (fm : FileMap) (w : World)
      (s' : oskar_Station) (w' : World),
      load_directories_station s path t depth ls fm w = some (s', w') → w'.status = 0 →
      ∃ Δ, w'.trace = w.trace ++ Δ ∧
        Δ.filterMap Event.loadArgs? = expected_station ls.length path depth t := by
  intro t
  induction t using DirTree.induct_subs with
  | h name subs ih =>
    intro s path depth fm w s' w' h hs
    rcases lds_inv h with ⟨h1, _, h2⟩ | ⟨_, hc⟩
    · rw [h2] at hs; exact absurd hs h1
    rcases hc with ⟨hr, _, h2⟩ | ⟨hr, hsub, _, h2⟩ | ⟨hr, d, c, c1, w1, hsub, _, hl, _, h2⟩ |
      ⟨_, _, _, _, h2⟩ | ⟨hr, _, _, h2⟩
    · rw [h2] at hs; exact absurd hs hr
    · obtain ⟨Δ0, e0, p0, _⟩ := level_station_ok ls s path (.node name subs) depth fm w hr
      simp only [DirTree.subs] at hsub
      subst hsub
      exact ⟨Δ0, by rw [h2, e0], by rw [p0]; simp [expected_station, expected_children, DirTree.subs]⟩
    · obtain ⟨Δ0, e0, p0, _⟩ := level_station_ok ls s path (.node name subs) depth fm w hr
      simp only [DirTree.subs] at hsub
      subst hsub
      have hw1 : w1.status = 0 := by rw [h2] at hs; exact hs
      obtain ⟨Δ1, e1, p1⟩ := ih d (List.mem_singleton_self d) _ _ _ _ _ _ _ hl hw1
      refine ⟨Δ0 ++ Event.call (oskar_Dir.filePath ⟨path, .node name [d]⟩ d.name) 0 (depth + 1)
        (level_station ls s path (.node name [d]) depth fm w).2.1 :: (Δ1 ++
          [Event.duplicate_first_child path]), ?_, ?_⟩
      · rw [h2]; simp only; rw [e1]; simp [World.emit, e0]
      · rw [List.filterMap_append, List.filterMap_cons_none (by rfl), List.filterMap_append,
          p0, p1]
        simp [expected_station, expected_children, Event.loadArgs?, DirTree.subs]
    · rw [h2] at hs
      exact absurd hs (show OSKAR_ERR_SETUP_FAIL_TELESCOPE_ENTRIES_MISMATCH ≠ 0 by decide)
    · obtain ⟨Δ0, e0, p0, _⟩ := level_station_ok ls s path (.node name subs) depth fm w hr
      obtain ⟨Δ1, e1, p1⟩ := load_children_ok ls subs ih _ _ _ _ _ _ _ _ h2 hs
      refine ⟨Δ0 ++ Δ1, by rw [e1, e0]; simp, ?_⟩
      rw [List.filterMap_append, p0, p1]
      simp [expected_station, DirTree.subs]

theorem load_stations_ok (ls : List oskar_TelescopeLoadAbstract) :
    ∀ (ds : List DirTree) (tel : oskar_Telescope) (cwd : oskar_Dir) (i : Nat) (fm : FileMap)
      (w : World) (tel' : oskar_Telescope) (w' : World),
      load_stations tel cwd ds i ls fm w = some (tel', w') → w'.status = 0 →
      ∃ Δ, w'.trace = w.trace ++ Δ ∧
        Δ.filterMap Event.loadArgs? = expected_children ls.length cwd (0 + 1) ds := by
  intro ds
  induction ds with
  | nil =>
    intro tel cwd i fm w tel' w' h _
    rw [load_stations_nil] at h
    simp only [Option.some.injEq, Prod.mk.injEq] at h
    exact ⟨[], by simp [h.2], by simp [expected_children]⟩
  | cons d ds ih =>
    intro tel cwd i fm w tel' w' h hs
    obtain ⟨c, c1, w1, _, h2, h3⟩ := load_stations_inv h
    have hw1 : w1.status = 0 := by
      by_contra hne
      exact load_stations_status ls _ _ _ _ _ _ _ _ h3 hne hs
    obtain ⟨Δ1, e1, p1⟩ := lds_ok ls d _ _ _ _ _ _ _ h2 hw1
    obtain ⟨Δ2, e2, p2⟩ := ih _ _ _ _ _ _ _ h3 hs
    refine ⟨Event.call (cwd.filePath d.name) i (0 + 1) fm :: (Δ1 ++ Δ2), ?_, ?_⟩
    · rw [e2, e1]; simp [World.emit]
    · rw [List.filterMap_cons_none (by rfl), List.filterMap_append, p1, p2]
      simp [expected_children]

theorem ld_ok (ls : List oskar_TelescopeLoadAbstract) (tel : oskar_Telescope) (path : String)
    (t : DirTree) (fm : FileMap) (w : World) (tel' : oskar_Telescope) (w' : World)
    (h : load_directories tel path t ls fm w = some (tel', w')) (hs : w'.status = 0) :
    ∃ Δ, w'.trace = w.trace ++ Δ ∧
      Δ.filterMap Event.loadArgs? = expected_root ls.length path t := by
  rcases ld_inv h with ⟨h1, _, h2⟩ | ⟨_, hc⟩
  · rw [h2] at hs; exact absurd hs h1
  rcases hc with ⟨hr, _, h2⟩ | ⟨hr, hsub, _, h2⟩ | ⟨hr, d, c, c1, w1, hsub, _, hl, _, h2⟩ |
    ⟨_, _, _, _, h2⟩ | ⟨hr, _, _, h2⟩
  · rw [h2] at hs; exact absurd hs hr
  · obtain ⟨Δ0, e0, p0, _⟩ := level_telescope_ok ls tel path t fm w hr
    exact ⟨Δ0, by rw [h2, e0], by rw [p0]; simp [expected_root, hsub, expected_children]⟩
  · obtain ⟨Δ0, e0, p0, _⟩ := level_telescope_ok ls tel path t fm w hr
    have hw1 : w1.status = 0 := by rw [h2] at hs; exact hs
    obtain ⟨Δ1, e1, p1⟩ := lds_ok ls d _ _ _ _ _ _ _ hl hw1
    refine ⟨Δ0 ++ Event.call (oskar_Dir.filePath ⟨path, t⟩ d.name) 0 (0 + 1)
      (level_telescope ls tel path t fm w).2.1 :: (Δ1 ++ [Event.duplicate_first_station]),
      ?_, ?_⟩
    · rw [h2]; simp only; rw [e1]; simp [World.emit, e0]
    · rw [List.filterMap_append, List.filterMap_cons_none (by rfl), List.filterMap_append,
        p0, p1]
      simp [expected_root, hsub, expected_children, Event.loadArgs?]
  · rw [h2] at hs
    exact absurd hs (show OSKAR_ERR_SETUP_FAIL_TELESCOPE_ENTRIES_MISMATCH ≠ 0 by decide)
  · obtain ⟨Δ0, e0, p0, _⟩ := level_telescope_ok ls tel path t fm w hr
    obtain ⟨Δ1, e1, p1⟩ := load_stations_ok ls _ _ _ _ _ _ _ _ h2 hs
    refine ⟨Δ0 ++ Δ1, by rw [e1, e0]; simp, ?_⟩
    rw [List.filterMap_append, p0, p1]
    simp [expected_root]


theorem expected_children_spec (n : Nat) :
    ∀ (ds : List DirTree),
      (∀ d ∈ ds, ∀ p depth, (∀ x ∈ expected_station n p depth d,
          x.1 = false ∧ depth ≤ x.2.2.2.2) ∧
        (expected_station n p depth d).length = n * dir_count d) →
      ∀ cwd depth, (∀ x ∈ expected_children n cwd depth ds,
          x.1 = false ∧ depth ≤ x.2.2.2.2) ∧
        (expected_children n cwd depth ds).length = n * dir_count_list ds := by
  intro ds
  induction ds with
  | nil =>
    intro _ cwd depth
    exact ⟨by simp [expected_children], by simp [expected_children, dir_count_list]⟩
  | cons d ds ih =>
    intro hP cwd depth
    have h1 := hP d (List.mem_cons_self _ _) (cwd.filePath d.name) depth
    have h2 := ih (fun x hx => hP x (List.mem_cons_of_mem _ hx)) cwd depth
    constructor
    · intro x hx
      simp only [expected_children, List.mem_append] at hx
      rcases hx with hx | hx
      · exact h1.1 x hx
      · exact h2.1 x hx
    · simp only [expected_children, List.length_append, dir_count_list, h1.2, h2.2]
      ring

theorem expected_station_spec (n : Nat) :
    ∀ (t : DirTree) (p : String) (depth : Nat),
      (∀ x ∈ expected_station n p depth t, x.1 = false ∧ depth ≤ x.2.2.2.2) ∧
        (expected_station n p depth t).length = n * dir_count t := by
  intro t
  induction t using DirTree.induct_subs with
  | h name subs ih =>
    intro p depth
    have h2 := expected_children_spec n subs ih ⟨p, .node name subs⟩ (depth + 1)
    constructor
    · intro x hx
      simp only [expected_station, List.mem_append, List.mem_map] at hx
      rcases hx with ⟨i, _, rfl⟩ | hx
      · exact ⟨rfl, Nat.le_refl _⟩
      · exact ⟨(h2.1 x hx).1, by have := (h2.1 x hx).2; omega⟩
    · simp only [expected_station, List.length_append, List.length_map, List.length_range,
        dir_count, h2.2]
      ring

theorem expected_root_spec (n : Nat) (p : String) (t : DirTree) :
    (expected_root n p t).filter (fun x => x.1)
        = (List.range n).map (fun i => (true, i, p, t.subs.length, 0)) ∧
      (∀ x ∈ expected_root n p t, x.1 = false →
        1 ≤ x.2.2.2.2 ∧ x ∈ expected_children n ⟨p, t⟩ (0 + 1) t.subs) ∧
      (expected_root n p t).length = n * dir_count t := by
  have h2 := expected_children_spec n t.subs (fun d _ => expected_station_spec n d) ⟨p, t⟩ (0 + 1)
  refine ⟨?_, ?_, ?_⟩
  · rw [expected_root, List.filter_append]
    have a : (expected_children n ⟨p, t⟩ (0 + 1) t.subs).filter (fun x => x.1) = [] := by
      rw [List.filter_eq_nil_iff]
      intro x hx
      simp [(h2.1 x hx).1]
    have b : ((List.range n).map (fun i => (true, i, p, t.subs.length, 0))).filter
        (fun x => x.1) = (List.range n).map (fun i => (true, i, p, t.subs.length, 0)) := by
      rw [List.filter_eq_self]
      intro x hx
      obtain ⟨i, _, rfl⟩ := List.mem_map.mp hx
      rfl
    rw [a, b, List.append_nil]
  · intro x hx hf
    simp only [expected_root, List.mem_append, List.mem_map] at hx
    rcases hx with ⟨i, _, rfl⟩ | hx
    · cases hf
    · exact ⟨by have := (h2.1 x hx).2; omega, hx⟩
  · cases t with
    | node name subs =>
      have h3 := h2.2
      simp only [DirTree.subs] at h3
      simp only [expected_root, List.length_append, List.length_map, List.length_range,
        dir_count, DirTree.subs, h3]
      ring

/-- C11: in a walk that ends with status 0, the stage calls recorded are, in
order, exactly those of `expected_root`: one telescope-level `load` per
stage, for the root directory only, then for every directory below the root
one station-level `load` per stage, whose depth argument is the distance of
the directory from the root (at least 1) and whose `num_subdirs` argument is
the number of its immediate sub-directories; in all one call per stage and
directory. -/
theorem C11_stage_calls_of_successful_walk (ls : List oskar_TelescopeLoadAbstract)
    (tel : oskar_Telescope) (path : String) (t : DirTree) (fm : FileMap) (w : World)
    (tel' : oskar_Telescope) (w' : World)
    (h : load_directories tel path t ls fm w = some (tel', w')) (hs : w'.status = 0) :
    ∃ Δ, w'.trace = w.trace ++ Δ ∧
      Δ.filterMap Event.loadArgs? = expected_root ls.length path t ∧
      (Δ.filterMap Event.loadArgs?).filter (fun x => x.1)
        = (List.range ls.length).map (fun i => (true, i, path, t.subs.length, 0)) ∧
      (∀ x ∈ Δ.filterMap Event.loadArgs?, x.1 = false →
        1 ≤ x.2.2.2.2 ∧ x ∈ expected_children ls.length ⟨path, t⟩ (0 + 1) t.subs) ∧
      (Δ.filterMap Event.loadArgs?).length = ls.length * dir_count t := by
  obtain ⟨Δ, e, p⟩ := ld_ok ls tel path t fm w tel' w' h hs
  refine ⟨Δ, e, p, ?_⟩
  rw [p]
  exact expected_root_spec ls.length path t

theorem C11_stage_calls_of_successful_walk_witness :
    load_directories exTel "/tel" exTreeAB (exPipeline 2) [] ⟨0, []⟩ = some (exWalkTel 2) ∧
    (exWalkTel 2).2.status = 0 ∧
    ∃ Δ, (exWalkTel 2).2.trace = ([] : List Event) ++ Δ ∧
      Δ.filterMap Event.loadArgs? = expected_root (exPipeline 2).length "/tel" exTreeAB ∧
      (Δ.filterMap Event.loadArgs?).filter (fun x => x.1)
        = (List.range (exPipeline 2).length).map
            (fun i => (true, i, "/tel", exTreeAB.subs.length, 0)) ∧
      (∀ x ∈ Δ.filterMap Event.loadArgs?, x.1 = false →
        1 ≤ x.2.2.2.2 ∧
          x ∈ expected_children (exPipeline 2).length ⟨"/tel", exTreeAB⟩ (0 + 1) exTreeAB.subs) ∧
      (Δ.filterMap Event.loadArgs?).length = (exPipeline 2).length * dir_count exTreeAB :=
  ⟨rfl, by decide,
    C11_stage_calls_of_successful_walk (exPipeline 2) exTel "/tel" exTreeAB [] ⟨0, []⟩
      (exWalkTel 2).1 (exWalkTel 2).2 rfl (by decide)⟩


/-! ## The level with exactly one child directory (C16) -/

theorem expected_station_at_depth (n : Nat) (p : String) (depth : Nat) (t : DirTree) :
    (expected_station n p depth t).filter (fun x => x.2.2.2.2 == depth)
      = (List.range n).map (fun i => (false, i, p, t.subs.length, depth)) := by
  cases t with
  | node name subs =>
    have h2 := expected_children_spec n subs (fun d _ => expected_station_spec n d)
      ⟨p, .node name subs⟩ (depth + 1)
    rw [expected_station, List.filter_append]
    have a : (expected_children n ⟨p, .node name subs⟩ (depth + 1) subs).filter
        (fun x => x.2.2.2.2 == depth) = [] := by
      rw [List.filter_eq_nil_iff]
      intro x hx
      have := (h2.1 x hx).2
      simp only [beq_iff_eq]
      omega
    have b : ((List.range n).map (fun i => (false, i, p, subs.length, depth))).filter
        (fun x => x.2.2.2.2 == depth)
          = (List.range n).map (fun i => (false, i, p, subs.length, depth)) := by
      rw [List.filter_eq_self]
      intro x hx
      obtain ⟨i, _, rfl⟩ := List.mem_map.mp hx
      simp
    rw [a, b, List.append_nil]
    rfl

theorem loads_off_depth {Δ : List Event} (k : Nat)
    (h : ∀ e ∈ Δ, ∀ x, e.loadArgs? = some x → x.2.2.2.2 ≠ k) :
    (Δ.filterMap Event.loadArgs?).filter (fun x => x.2.2.2.2 == k) = [] := by
  rw [List.filter_eq_nil_iff]
  intro x hx
  obtain ⟨e, he, hx⟩ := List.mem_filterMap.mp hx
  simp only [beq_iff_eq]
  exact h e he x hx

theorem calls_off_depth {Δ : List Event} (k : Nat)
    (h : ∀ e ∈ Δ, ∀ j, e.callDepth? = some j → j ≠ k) :
    Δ.filter (Event.isCallAt k) = [] := by
  rw [List.filter_eq_nil_iff]
  intro e he hc
  simp only [Event.isCallAt, beq_iff_eq] at hc
  exact h e he k hc rfl

theorem lds_single_descent (ls : List oskar_TelescopeLoadAbstract) (s : oskar_Station)
    (path : String) (t : DirTree) (depth : Nat) (fm : FileMap) (w : World) (s' : oskar_Station)
    (w' : World) (d : DirTree)
    (h : load_directories_station s path t depth ls fm w = some (s', w'))
    (hw : w.status = 0) (hr : (level_station ls s path t depth fm w).2.2.status = 0)
    (ht : t.subs = [d]) :
    ∃ c c1 w1 Δ,
      oskar_station_child (level_station ls s path t depth fm w).1 0 = some c ∧
      load_directories_station c (oskar_Dir.filePath ⟨path, t⟩ d.name) d (depth + 1) ls
        (level_station ls s path t depth fm w).2.1
        ((level_station ls s path t depth fm w).2.2.emit
          (Event.call (oskar_Dir.filePath ⟨path, t⟩ d.name) 0 (depth + 1)
            (level_station ls s path t depth fm w).2.1)) = some (c1, w1) ∧
      s' = (oskar_station_duplicate_first_child
        ((level_station ls s path t depth fm w).1.setChild 0 c1) w1.status).1 ∧
      w'.status = w1.status ∧
      (∀ i, 0 < i →
        ((level_station ls s path t depth fm w).1.setChild 0 c1).child[i]?
          = (level_station ls s path t depth fm w).1.child[i]?) ∧
      w'.trace = w.trace ++ Δ ∧
      Δ.filter (Event.isCallAt (depth + 1))
        = [Event.call (oskar_Dir.filePath ⟨path, t⟩ d.name) 0 (depth + 1)
            (level_station ls s path t depth fm w).2.1] ∧
      Δ.getLast? = some (Event.duplicate_first_child path) ∧
      (w'.status = 0 →
        (Δ.filterMap Event.loadArgs?).filter (fun x => x.2.2.2.2 == depth + 1)
          = (List.range ls.length).map
              (fun j => (false, j, oskar_Dir.filePath ⟨path, t⟩ d.name, d.subs.length,
                depth + 1))) := by
  rcases lds_inv h with ⟨h1, _, _⟩ | ⟨_, hc⟩
  · exact absurd hw h1
  rcases hc with ⟨h1, _, _⟩ | ⟨_, hsub, _, _⟩ | ⟨_, d', c, c1, w1, hsub, hc0, hl, hs', hw'⟩ |
    ⟨_, hlen, _, _, _⟩ | ⟨_, hlen, _, _⟩
  · exact absurd hr h1
  · rw [ht] at hsub; cases hsub
  · rw [ht] at hsub
    simp only [List.cons.injEq, and_true] at hsub
    subst hsub
    obtain ⟨Δ0, e0, p0⟩ := level_station_events ls s path t depth fm w
    obtain ⟨Δ1, e1, p1⟩ := lds_ext ls d _ _ _ _ _ _ _ hl
    refine ⟨c, c1, w1, Event.allSubDirs path :: Δ0 ++
      Event.call (oskar_Dir.filePath ⟨path, t⟩ d.name) 0 (depth + 1)
        (level_station ls s path t depth fm w).2.1 :: (Δ1 ++ [Event.duplicate_first_child path]),
      hc0, hl, hs', by rw [hw'], ?_, ?_, ?_, ?_, ?_⟩
    · intro i hi
      cases hL : (level_station ls s path t depth fm w).1 with
      | mk u dt ch =>
        simp only [oskar_Station.setChild, oskar_Station.child]
        rw [List.getElem?_set_ne (by omega)]
    · rw [hw']; simp only; rw [e1]; simp [World.emit, e0]
    · have a : (Event.allSubDirs path :: Δ0).filter (Event.isCallAt (depth + 1)) = [] := by
        apply calls_off_depth
        intro e he j hj
        rcases List.mem_cons.mp he with rfl | he
        · cases hj
        · rcases p0 e he with ⟨_, _, _, rfl⟩ | ⟨_, rfl⟩ <;> cases hj
      have b : Δ1.filter (Event.isCallAt (depth + 1)) = [] := by
        apply calls_off_depth
        intro e he j hj
        have := p1 e he j hj
        omega
      rw [List.filter_append, a, List.filter_cons, List.filter_append, b]
      simp [Event.isCallAt, Event.callDepth?]
    · have : Event.allSubDirs path :: Δ0 ++
          Event.call (oskar_Dir.filePath ⟨path, t⟩ d.name) 0 (depth + 1)
            (level_station ls s path t depth fm w).2.1 ::
              (Δ1 ++ [Event.duplicate_first_child path])
          = (Event.allSubDirs path :: Δ0 ++
            Event.call (oskar_Dir.filePath ⟨path, t⟩ d.name) 0 (depth + 1)
              (level_station ls s path t depth fm w).2.1 :: Δ1) ++
                [Event.duplicate_first_child path] := by simp
      rw [this, List.getLast?_concat]
    · intro hs
      have hw1 : w1.status = 0 := by rw [hw'] at hs; exact hs
      obtain ⟨Δ2, e2, p2⟩ := lds_ok ls d _ _ _ _ _ _ _ hl hw1
      have : Δ1 = Δ2 := by
        rw [e1] at e2
        exact List.append_cancel_left e2
      subst this
      have a : ((Event.allSubDirs path :: Δ0).filterMap Event.loadArgs?).filter
          (fun x => x.2.2.2.2 == depth + 1) = [] := by
        apply loads_off_depth
        intro e he x hx
        rcases List.mem_cons.mp he with rfl | he
        · cases hx
        · rcases p0 e he with ⟨_, _, _, rfl⟩ | ⟨_, rfl⟩
          · simp only [Event.loadArgs?, Option.some.injEq] at hx
            rw [← hx]
            simp
          · cases hx
      rw [List.filterMap_append, List.filter_append, a, List.filterMap_cons_none (by rfl),
        List.filterMap_append, List.filter_append, p2, expected_station_at_depth]
      simp [Event.loadArgs?]
  · rw [ht] at hlen; simp at hlen
  · rw [ht] at hlen; simp at hlen

theorem ld_single_descent (ls : List oskar_TelescopeLoadAbstract) (tel : oskar_Telescope)
    (path : String) (t : DirTree) (fm : FileMap) (w : World) (tel' : oskar_Telescope)
    (w' : World) (d : DirTree)
    (h : load_directories tel path t ls fm w = some (tel', w'))
    (hw : w.status = 0) (hr : (level_telescope ls tel path t fm w).2.2.status = 0)
    (ht : t.subs = [d]) :
    ∃ c c1 w1 Δ,
      oskar_telescope_station (level_telescope ls tel path t fm w).1 0 = some c ∧
      load_directories_station c (oskar_Dir.filePath ⟨path, t⟩ d.name) d (0 + 1) ls
        (level_telescope ls tel path t fm w).2.1
        ((level_telescope ls tel path t fm w).2.2.emit
          (Event.call (oskar_Dir.filePath ⟨path, t⟩ d.name) 0 (0 + 1)
            (level_telescope ls tel path t fm w).2.1)) = some (c1, w1) ∧
      tel' = (oskar_telescope_duplicate_first_station
        ((level_telescope ls tel path t fm w).1.setStation 0 c1) w1.status).1 ∧
      w'.status = w1.status ∧
      (∀ i, 0 < i →
        ((level_telescope ls tel path t fm w).1.setStation 0 c1).station[i]?
          = (level_telescope ls tel path t fm w).1.station[i]?) ∧
      w'.trace = w.trace ++ Δ ∧
      Δ.filter (Event.isCallAt (0 + 1))
        = [Event.call (oskar_Dir.filePath ⟨path, t⟩ d.name) 0 (0 + 1)
            (level_telescope ls tel path t fm w).2.1] ∧
      Δ.getLast? = some Event.duplicate_first_station ∧
      (w'.status = 0 →
        (Δ.filterMap Event.loadArgs?).filter (fun x => x.2.2.2.2 == 0 + 1)
          = (List.range ls.length).map
              (fun j => (false, j, oskar_Dir.filePath ⟨path, t⟩ d.name, d.subs.length,
                0 + 1))) := by
  rcases ld_inv h with ⟨h1, _, _⟩ | ⟨_, hc⟩
  · exact absurd hw h1
  rcases hc with ⟨h1, _, _⟩ | ⟨_, hsub, _, _⟩ | ⟨_, d', c, c1, w1, hsub, hc0, hl, hs', hw'⟩ |
    ⟨_, hlen, _, _, _⟩ | ⟨_, hlen, _, _⟩
  · exact absurd hr h1
  · rw [ht] at hsub; cases hsub
  · rw [ht] at hsub
    simp only [List.cons.injEq, and_true] at hsub
    subst hsub
    obtain ⟨Δ0, e0, p0⟩ := level_telescope_events ls tel path t fm w
    obtain ⟨Δ1, e1, p1⟩ := lds_ext ls d _ _ _ _ _ _ _ hl
    refine ⟨c, c1, w1, Event.allSubDirs path :: Δ0 ++
      Event.call (oskar_Dir.filePath ⟨path, t⟩ d.name) 0 (0 + 1)
        (level_telescope ls tel path t fm w).2.1 :: (Δ1 ++ [Event.duplicate_first_station]),
      hc0, hl, hs', by rw [hw'], ?_, ?_, ?_, ?_, ?_⟩
    · intro i hi
      simp only [oskar_Telescope.setStation]
      rw [List.getElem?_set_ne (by omega)]
    · rw [hw']; simp only; rw [e1]; simp [World.emit, e0]
    · have a : (Event.allSubDirs path :: Δ0).filter (Event.isCallAt (0 + 1)) = [] := by
        apply calls_off_depth
        intro e he j hj
        rcases List.mem_cons.mp he with rfl | he
        · cases hj
        · rcases p0 e he with ⟨_, _, _, rfl⟩ | ⟨_, rfl⟩ <;> cases hj
      have b : Δ1.filter (Event.isCallAt (0 + 1)) = [] := by
        apply calls_off_depth
        intro e he j hj
        have := p1 e he j hj
        omega
      rw [List.filter_append, a, List.filter_cons, List.filter_append, b]
      simp [Event.isCallAt, Event.callDepth?]
    · have : Event.allSubDirs path :: Δ0 ++
          Event.call (oskar_Dir.filePath ⟨path, t⟩ d.name) 0 (0 + 1)
            (level_telescope ls tel path t fm w).2.1 ::
              (Δ1 ++ [Event.duplicate_first_station])
          = (Event.allSubDirs path :: Δ0 ++
            Event.call (oskar_Dir.filePath ⟨path, t⟩ d.name) 0 (0 + 1)
              (level_telescope ls tel path t fm w).2.1 :: Δ1) ++
                [Event.duplicate_first_station] := by simp
      rw [this, List.getLast?_concat]
    · intro hs
      have hw1 : w1.status = 0 := by rw [hw'] at hs; exact hs
      obtain ⟨Δ2, e2, p2⟩ := lds_ok ls d _ _ _ _ _ _ _ hl hw1
      have : Δ1 = Δ2 := by
        rw [e1] at e2
        exact List.append_cancel_left e2
      subst this
      have a : ((Event.allSubDirs path :: Δ0).filterMap Event.loadArgs?).filter
          (fun x => x.2.2.2.2 == 0 + 1) = [] := by
        apply loads_off_depth
        intro e he x hx
        rcases List.mem_cons.mp he with rfl | he
        · cases hx
        · rcases p0 e he with ⟨_, _, _, rfl⟩ | ⟨_, rfl⟩
          · simp only [Event.loadArgs?, Option.some.injEq] at hx
            rw [← hx]
            simp
          · cases hx
      rw [List.filterMap_append, List.filter_append, a, List.filterMap_cons_none (by rfl),
        List.filterMap_append, List.filter_append, p2, expected_station_at_depth]
      simp [Event.loadArgs?]
  · rw [ht] at hlen; simp at hlen
  · rw [ht] at hlen; simp at hlen

/-- C16: at a level with exactly one child directory, reached with status 0
and whose stages succeeded, a walk that returns found slot 0, made exactly
one recursive call for depth + 1, for the child directory and against slot
0, and ended with the duplication step, whatever the number of slots is: the
slots other than slot 0 are handed to the duplication step as the stages of
the level left them, and when the walk succeeded every stage was called
exactly once for the child directory. The first part is the top level, the
second part a deeper level. -/
theorem C16_single_child_descends_once (ls : List oskar_TelescopeLoadAbstract) (path : String)
    (t d : DirTree) (fm : FileMap) (w : World) (hw : w.status = 0) (ht : t.subs = [d]) :
    (∀ tel tel' w', load_directories tel path t ls fm w = some (tel', w') →
      (level_telescope ls tel path t fm w).2.2.status = 0 →
      ∃ c c1 w1 Δ,
        oskar_telescope_station (level_telescope ls tel path t fm w).1 0 = some c ∧
        load_directories_station c (oskar_Dir.filePath ⟨path, t⟩ d.name) d (0 + 1) ls
          (level_telescope ls tel path t fm w).2.1
          ((level_telescope ls tel path t fm w).2.2.emit
            (Event.call (oskar_Dir.filePath ⟨path, t⟩ d.name) 0 (0 + 1)
              (level_telescope ls tel path t fm w).2.1)) = some (c1, w1) ∧
        tel' = (oskar_telescope_duplicate_first_station
          ((level_telescope ls tel path t fm w).1.setStation 0 c1) w1.status).1 ∧
        w'.status = w1.status ∧
        (∀ i, 0 < i →
          ((level_telescope ls tel path t fm w).1.setStation 0 c1).station[i]?
            = (level_telescope ls tel path t fm w).1.station[i]?) ∧
        w'.trace = w.trace ++ Δ ∧
        Δ.filter (Event.isCallAt (0 + 1))
          = [Event.call (oskar_Dir.filePath ⟨path, t⟩ d.name) 0 (0 + 1)
              (level_telescope ls tel path t fm w).2.1] ∧
        Δ.getLast? = some Event.duplicate_first_station ∧
        (w'.status = 0 →
          (Δ.filterMap Event.loadArgs?).filter (fun x => x.2.2.2.2 == 0 + 1)
            = (List.range ls.length).map
                (fun j => (false, j, oskar_Dir.filePath ⟨path, t⟩ d.name, d.subs.length,
                  0 + 1)))) ∧
    (∀ s depth s' w', load_directories_station s path t depth ls fm w = some (s', w') →
      (level_station ls s path t depth fm w).2.2.status = 0 →
      ∃ c c1 w1 Δ,
        oskar_station_child (level_station ls s path t depth fm w).1 0 = some c ∧
        load_directories_station c (oskar_Dir.filePath ⟨path, t⟩ d.name) d (depth + 1) ls
          (level_station ls s path t depth fm w).2.1
          ((level_station ls s path t depth fm w).2.2.emit
            (Event.call (oskar_Dir.filePath ⟨path, t⟩ d.name) 0 (depth + 1)
              (level_station ls s path t depth fm w).2.1)) = some (c1, w1) ∧
        s' = (oskar_station_duplicate_first_child
          ((level_station ls s path t depth fm w).1.setChild 0 c1) w1.status).1 ∧
        w'.status = w1.status ∧
        (∀ i, 0 < i →
          ((level_station ls s path t depth fm w).1.setChild 0 c1).child[i]?
            = (level_station ls s path t depth fm w).1.child[i]?) ∧
        w'.trace = w.trace ++ Δ ∧
        Δ.filter (Event.isCallAt (depth + 1))
          = [Event.call (oskar_Dir.filePath ⟨path, t⟩ d.name) 0 (depth + 1)
              (level_station ls s path t depth fm w).2.1] ∧
        Δ.getLast? = some (Event.duplicate_first_child path) ∧
        (w'.status = 0 →
          (Δ.filterMap Event.loadArgs?).filter (fun x => x.2.2.2.2 == depth + 1)
            = (List.range ls.length).map
                (fun j => (false, j, oskar_Dir.filePath ⟨path, t⟩ d.name, d.subs.length,
                  depth + 1)))) :=
  ⟨fun tel tel' w' h hr => ld_single_descent ls tel path t fm w tel' w' d h hw hr ht,
    fun s depth s' w' h hr => lds_single_descent ls s path t depth fm w s' w' d h hw hr ht⟩

theorem C16_single_child_descends_once_witness :
    (⟨0, []⟩ : World).status = 0 ∧ exTreeOne.subs = [.node "station0" []] ∧
    load_directories exTel "/one" exTreeOne (exPipeline 3) [] ⟨0, []⟩ = some (exOneTel 3) ∧
    (level_telescope (exPipeline 3) exTel "/one" exTreeOne [] ⟨0, []⟩).2.2.status = 0 ∧
    oskar_telescope_num_stations
      (level_telescope (exPipeline 3) exTel "/one" exTreeOne [] ⟨0, []⟩).1 = 3 ∧
    (exOneTel 3).2.status = 0 ∧
    ∃ c c1 w1 Δ,
      oskar_telescope_station
        (level_telescope (exPipeline 3) exTel "/one" exTreeOne [] ⟨0, []⟩).1 0 = some c ∧
      load_directories_station c
        (oskar_Dir.filePath ⟨"/one", exTreeOne⟩ (DirTree.node "station0" []).name)
        (.node "station0" []) (0 + 1) (exPipeline 3)
        (level_telescope (exPipeline 3) exTel "/one" exTreeOne [] ⟨0, []⟩).2.1
        ((level_telescope (exPipeline 3) exTel "/one" exTreeOne [] ⟨0, []⟩).2.2.emit
          (Event.call (oskar_Dir.filePath ⟨"/one", exTreeOne⟩ (DirTree.node "station0" []).name)
            0 (0 + 1)
            (level_telescope (exPipeline 3) exTel "/one" exTreeOne [] ⟨0, []⟩).2.1))
          = some (c1, w1) ∧
      (exOneTel 3).1 = (oskar_telescope_duplicate_first_station
        ((level_telescope (exPipeline 3) exTel "/one" exTreeOne [] ⟨0, []⟩).1.setStation 0 c1)
          w1.status).1 ∧
      (exOneTel 3).2.status = w1.status ∧
      (∀ i, 0 < i →
        ((level_telescope (exPipeline 3) exTel "/one" exTreeOne [] ⟨0, []⟩).1.setStation
            0 c1).station[i]?
          = (level_telescope (exPipeline 3) exTel "/one" exTreeOne [] ⟨0, []⟩).1.station[i]?) ∧
      (exOneTel 3).2.trace = ([] : List Event) ++ Δ ∧
      Δ.filter (Event.isCallAt (0 + 1))
        = [Event.call (oskar_Dir.filePath ⟨"/one", exTreeOne⟩ (DirTree.node "station0" []).name)
            0 (0 + 1)
            (level_telescope (exPipeline 3) exTel "/one" exTreeOne [] ⟨0, []⟩).2.1] ∧
      Δ.getLast? = some Event.duplicate_first_station ∧
      ((exOneTel 3).2.status = 0 →
        (Δ.filterMap Event.loadArgs?).filter (fun x => x.2.2.2.2 == 0 + 1)
          = (List.range (exPipeline 3).length).map
              (fun j => (false, j,
                oskar_Dir.filePath ⟨"/one", exTreeOne⟩ (DirTree.node "station0" []).name,
                (DirTree.node "station0" []).subs.length, 0 + 1))) :=
  ⟨rfl, rfl, rfl, by decide, by decide, by decide,
    (C16_single_child_descends_once (exPipeline 3) "/one" exTreeOne (.node "station0" []) []
      ⟨0, []⟩ rfl rfl).1 exTel (exOneTel 3).1 (exOneTel 3).2 rfl (by decide)⟩


/-! ## The file map handed down the walk (C15) -/

theorem load_all_station_first :
    ∀ (rest : List oskar_TelescopeLoadAbstract) (i : Nat) (s : oskar_Station) (cwd : oskar_Dir)
      (k depth : Nat) (fm : FileMap) (w : World),
      ∃ Δ, (load_all_station rest i s cwd k depth fm w).2.2.trace = w.trace ++ Δ ∧
        ∀ e ∈ Δ, (∃ j p f st, e = Event.load_station j p k depth f st ∧ i ≤ j ∧
          (j = i → f = fm)) ∨ ∃ m, e = Event.log_error m := by
  intro rest
  induction rest with
  | nil =>
    intro i s cwd k depth fm w
    exact ⟨[], by simp [load_all_station], by simp⟩
  | cons l rest ih =>
    intro i s cwd k depth fm w
    simp only [load_all_station]
    split
    · refine ⟨[Event.load_station i cwd.path k depth fm (l.load_station s cwd k depth fm).2.2,
        Event.log_error ("Error in " ++ l.name ++ " in '" ++ cwd.absolutePath ++ "'.")],
        by simp [World.emit], ?_⟩
      intro e he
      simp only [List.mem_cons, List.mem_singleton, List.not_mem_nil, or_false] at he
      rcases he with rfl | rfl
      · exact Or.inl ⟨i, _, fm, _, rfl, Nat.le_refl _, fun _ => rfl⟩
      · exact Or.inr ⟨_, rfl⟩
    · obtain ⟨Δ, h1, h2⟩ := ih (i + 1) (l.load_station s cwd k depth fm).1 cwd k depth
        (l.load_station s cwd k depth fm).2.1
        ⟨(l.load_station s cwd k depth fm).2.2, w.trace ++
          [Event.load_station i cwd.path k depth fm (l.load_station s cwd k depth fm).2.2]⟩
      refine ⟨Event.load_station i cwd.path k depth fm (l.load_station s cwd k depth fm).2.2 :: Δ,
        by rw [h1]; simp, ?_⟩
      intro e he
      rcases List.mem_cons.mp he with rfl | he
      · exact Or.inl ⟨i, _, fm, _, rfl, Nat.le_refl _, fun _ => rfl⟩
      · rcases h2 e he with ⟨j, p, f, st, rfl, hj, _⟩ | ⟨m, rfl⟩
        · exact Or.inl ⟨j, p, f, st, rfl, by omega, fun hji => by omega⟩
        · exact Or.inr ⟨m, rfl⟩

theorem level_station_first (ls : List oskar_TelescopeLoadAbstract) (s : oskar_Station)
    (path : String) (t : DirTree) (depth : Nat) (fm : FileMap) (w : World) (fm1 : FileMap) :
    ∃ Δ, (level_station ls s path t depth fm w).2.2.trace = w.trace ++ Δ ∧
      ∀ e ∈ Δ, e.walkOk depth fm fm1 := by
  obtain ⟨Δ, h1, h2⟩ := load_all_station_first ls 0 s ⟨path, t⟩ t.subs.length depth fm
    (w.emit (Event.allSubDirs path))
  refine ⟨Event.allSubDirs path :: Δ, by rw [level_station, h1]; simp [World.emit], ?_⟩
  intro e he
  rcases List.mem_cons.mp he with rfl | he
  · trivial
  · rcases h2 e he with ⟨j, p, f, st, rfl, _, hj⟩ | ⟨m, rfl⟩
    · exact ⟨Nat.le_refl _, fun _ h0 => hj h0, fun hd => by omega⟩
    · trivial

theorem walkOk_child {depth : Nat} {fm1 fm2 : FileMap} {e : Event}
    (h : e.walkOk (depth + 1) fm1 fm2) : e.childOk (depth + 1) fm1 := by
  cases e
  case load_station j p k d f st => exact ⟨h.1, h.2.1⟩
  case call p i d f => exact ⟨Nat.le_of_lt h.1, fun hd => by have := h.1; omega⟩
  all_goals trivial

theorem childOk_walk {depth : Nat} {fm fm1 : FileMap} {e : Event}
    (h : e.childOk (depth + 1) fm1) : e.walkOk depth fm fm1 := by
  cases e
  case load_station j p k d f st =>
    exact ⟨by have := h.1; omega, fun hd => by have := h.1; omega, h.2⟩
  case call p i d f => exact ⟨h.1, h.2⟩
  all_goals trivial

theorem load_children_first (ls : List oskar_TelescopeLoadAbstract) :
    ∀ (ds : List DirTree),
      (∀ d ∈ ds, ∀ s path depth fm w s' w',
        load_directories_station s path d depth ls fm w = some (s', w') →
        ∃ Δ, w'.trace = w.trace ++ Δ ∧
          ∀ e ∈ Δ, e.walkOk depth fm (level_station ls s path d depth fm w).2.1) →
      ∀ s cwd i depth fm w s' w',
        load_children s cwd ds i depth ls fm w = some (s', w') →
        ∃ Δ, w'.trace = w.trace ++ Δ ∧ ∀ e ∈ Δ, e.childOk (depth + 1) fm := by
  intro ds
  induction ds with
  | nil =>
    intro _ s cwd i depth fm w s' w' h
    rw [load_children_nil] at h
    simp only [Option.some.injEq, Prod.mk.injEq] at h
    exact ⟨[], by simp [h.2], by simp⟩
  | cons d ds ih =>
    intro hP s cwd i depth fm w s' w' h
    obtain ⟨c, c1, w1, _, h2, h3⟩ := load_children_inv h
    obtain ⟨Δ1, e1, p1⟩ := hP d (List.mem_cons_self _ _) _ _ _ _ _ _ _ h2
    obtain ⟨Δ2, e2, p2⟩ := ih (fun x hx => hP x (List.mem_cons_of_mem _ hx)) _ _ _ _ _ _ _ _ h3
    refine ⟨Event.call (cwd.filePath d.name) i (depth + 1) fm :: (Δ1 ++ Δ2),
      by rw [e2, e1]; simp [World.emit], ?_⟩
    intro e he
    rcases List.mem_cons.mp he with rfl | he
    · exact ⟨Nat.le_refl _, fun _ => rfl⟩
    · rcases List.mem_append.mp he with he | he
      · exact walkOk_child (p1 e he)
      · exact p2 e he

theorem lds_first (ls : List oskar_TelescopeLoadAbstract) :
    ∀ (t : DirTree) (s : oskar_Station) (path : String) (depth : Nat) (fm : FileMap) (w : World)
      (s' : oskar_Station) (w' : World),
      load_directories_station s path t depth ls fm w = some (s', w') →
      ∃ Δ, w'.trace = w.trace ++ Δ ∧
        ∀ e ∈ Δ, e.walkOk depth fm (level_station ls s path t depth fm w).2.1 := by
  intro t
  induction t using DirTree.induct_subs with
  | h name subs ih =>
    intro s path depth fm w s' w' h
    rcases lds_inv h with ⟨_, _, h2⟩ | ⟨_, hc⟩
    · exact ⟨[], by simp [h2], by simp⟩
    obtain ⟨Δ0, e0, p0⟩ := level_station_first ls s path (.node name subs) depth fm w
      (level_station ls s path (.node name subs) depth fm w).2.1
    rcases hc with ⟨_, _, h2⟩ | ⟨_, _, _, h2⟩ | ⟨_, d, c, c1, w1, hsub, _, hl, _, h2⟩ |
      ⟨_, _, _, _, h2⟩ | ⟨_, _, _, h2⟩
    · exact ⟨Δ0, by rw [h2, e0], p0⟩
    · exact ⟨Δ0, by rw [h2, e0], p0⟩
    · simp only [DirTree.subs] at hsub
      subst hsub
      obtain ⟨Δ1, e1, p1⟩ := ih d (List.mem_singleton_self d) _ _ _ _ _ _ _ hl
      refine ⟨Δ0 ++ Event.call (oskar_Dir.filePath ⟨path, .node name [d]⟩ d.name) 0 (depth + 1)
        (level_station ls s path (.node name [d]) depth fm w).2.1 :: (Δ1 ++
          [Event.duplicate_first_child path]), ?_, ?_⟩
      · rw [h2]; simp only; rw [e1]; simp [World.emit, e0]
      · intro e he
        rcases List.mem_append.mp he with he | he
        · exact p0 e he
        rcases List.mem_cons.mp he with rfl | he
        · exact ⟨Nat.lt_succ_self _, fun _ => rfl⟩
        rcases List.mem_append.mp he with he | he
        · exact childOk_walk (walkOk_child (p1 e he))
        · rw [List.mem_singleton.mp he]; trivial
    · exact ⟨Δ0, by rw [h2]; exact e0, p0⟩
    · obtain ⟨Δ1, e1, p1⟩ := load_children_first ls subs ih _ _ _ _ _ _ _ _ h2
      refine ⟨Δ0 ++ Δ1, by rw [e1, e0]; simp, ?_⟩
      intro e he
      rcases List.mem_append.mp he with he | he
      · exact p0 e he
      · exact childOk_walk (p1 e he)

theorem load_stations_first (ls : List oskar_TelescopeLoadAbstract) :
    ∀ (ds : List DirTree) (tel : oskar_Telescope) (cwd : oskar_Dir) (i : Nat) (fm : FileMap)
      (w : World) (tel' : oskar_Telescope) (w' : World),
      load_stations tel cwd ds i ls fm w = some (tel', w') →
      ∃ Δ, w'.trace = w.trace ++ Δ ∧ ∀ e ∈ Δ, e.childOk (0 + 1) fm := by
  intro ds
  induction ds with
  | nil =>
    intro tel cwd i fm w tel' w' h
    rw [load_stations_nil] at h
    simp only [Option.some.injEq, Prod.mk.injEq] at h
    exact ⟨[], by simp [h.2], by simp⟩
  | cons d ds ih =>
    intro tel cwd i fm w tel' w' h
    obtain ⟨c, c1, w1, _, h2, h3⟩ := load_stations_inv h
    obtain ⟨Δ1, e1, p1⟩ := lds_first ls d _ _ _ _ _ _ _ h2
    obtain ⟨Δ2, e2, p2⟩ := ih _ _ _ _ _ _ _ h3
    refine ⟨Event.call (cwd.filePath d.name) i (0 + 1) fm :: (Δ1 ++ Δ2),
      by rw [e2, e1]; simp [World.emit], ?_⟩
    intro e he
    rcases List.mem_cons.mp he with rfl | he
    · exact ⟨Nat.le_refl _, fun _ => rfl⟩
    · rcases List.mem_append.mp he with he | he
      · exact walkOk_child (p1 e he)
      · exact p2 e he

theorem ld_first (ls : List oskar_TelescopeLoadAbstract) (tel : oskar_Telescope) (path : String)
    (t : DirTree) (fm : FileMap) (w : World) (tel' : oskar_Telescope) (w' : World)
    (h : load_directories tel path t ls fm w = some (tel', w')) :
    ∃ Δ, w'.trace = w.trace ++ Δ ∧
      ∀ e ∈ Δ, e.childOk (0 + 1) (level_telescope ls tel path t fm w).2.1 := by
  rcases ld_inv h with ⟨_, _, h2⟩ | ⟨_, hc⟩
  · exact ⟨[], by simp [h2], by simp⟩
  obtain ⟨Δ0, e0, q0⟩ := level_telescope_events ls tel path t fm w
  have p0 : ∀ e ∈ Event.allSubDirs path :: Δ0,
      e.childOk (0 + 1) (level_telescope ls tel path t fm w).2.1 := by
    intro e he
    rcases List.mem_cons.mp he with rfl | he
    · trivial
    · rcases q0 e he with ⟨_, _, _, rfl⟩ | ⟨_, rfl⟩ <;> trivial
  rcases hc with ⟨_, _, h2⟩ | ⟨_, _, _, h2⟩ | ⟨_, d, c, c1, w1, hsub, _, hl, _, h2⟩ |
    ⟨_, _, _, _, h2⟩ | ⟨_, _, _, h2⟩
  · exact ⟨_, by rw [h2, e0], p0⟩
  · exact ⟨_, by rw [h2, e0], p0⟩
  · obtain ⟨Δ1, e1, p1⟩ := lds_first ls d _ _ _ _ _ _ _ hl
    refine ⟨(Event.allSubDirs path :: Δ0) ++
      Event.call (oskar_Dir.filePath ⟨path, t⟩ d.name) 0 (0 + 1)
        (level_telescope ls tel path t fm w).2.1 :: (Δ1 ++ [Event.duplicate_first_station]),
      ?_, ?_⟩
    · rw [h2]; simp only; rw [e1]; simp [World.emit, e0]
    · intro e he
      rcases List.mem_append.mp he with he | he
      · exact p0 e he
      rcases List.mem_cons.mp he with rfl | he
      · exact ⟨Nat.le_refl _, fun _ => rfl⟩
      rcases List.mem_append.mp he with he | he
      · exact walkOk_child (p1 e he)
      · rw [List.mem_singleton.mp he]; trivial
  · exact ⟨_, by rw [h2]; exact e0, p0⟩
  · obtain ⟨Δ1, e1, p1⟩ := load_stations_first ls _ _ _ _ _ _ _ _ h2
    refine ⟨(Event.allSubDirs path :: Δ0) ++ Δ1, by rw [e1, e0]; simp, ?_⟩
    intro e he
    rcases List.mem_append.mp he with he | he
    · exact p0 e he
    · exact p1 e he

/-- C15: in a walk of a directory that returns, every recursive call made for
the child directories, and the first stage of every child level, receives
the file map that the stage loop of the level left (the stages of the level
having passed it from one to the next), also the calls made after the whole
sub-tree of an earlier child directory was walked: what the stages below
wrote to their copies is not seen by the level. At a deeper level the first
stage itself receives the file map the level was called with. The first
part is the top level, the second part a deeper level. -/
theorem C15_filemap_inherited_downward_only (ls : List oskar_TelescopeLoadAbstract)
    (path : String) (t : DirTree) (fm : FileMap) (w : World) :
    (∀ tel tel' w', load_directories tel path t ls fm w = some (tel', w') →
      ∃ Δ, w'.trace = w.trace ++ Δ ∧
        (∀ p i f, Event.call p i (0 + 1) f ∈ Δ →
          f = (level_telescope ls tel path t fm w).2.1) ∧
        (∀ p k f st, Event.load_station 0 p k (0 + 1) f st ∈ Δ →
          f = (level_telescope ls tel path t fm w).2.1)) ∧
    (∀ s depth s' w', load_directories_station s path t depth ls fm w = some (s', w') →
      ∃ Δ, w'.trace = w.trace ++ Δ ∧
        (∀ p k f st, Event.load_station 0 p k depth f st ∈ Δ → f = fm) ∧
        (∀ p i f, Event.call p i (depth + 1) f ∈ Δ →
          f = (level_station ls s path t depth fm w).2.1) ∧
        (∀ p k f st, Event.load_station 0 p k (depth + 1) f st ∈ Δ →
          f = (level_station ls s path t depth fm w).2.1)) := by
  constructor
  · intro tel tel' w' h
    obtain ⟨Δ, e, p⟩ := ld_first ls tel path t fm w tel' w' h
    exact ⟨Δ, e, fun q i f hm => (p _ hm).2 rfl, fun q k f st hm => (p _ hm).2 rfl rfl⟩
  · intro s depth s' w' h
    obtain ⟨Δ, e, p⟩ := lds_first ls t s path depth fm w s' w' h
    exact ⟨Δ, e, fun q k f st hm => (p _ hm).2.1 rfl rfl, fun q i f hm => (p _ hm).2 rfl,
      fun q k f st hm => (p _ hm).2.2 rfl rfl⟩

theorem C15_filemap_inherited_downward_only_witness :
    load_directories exTel "/tel" exTreeAB (exPipeline 2) [] ⟨0, []⟩ = some (exWalkTel 2) ∧
    (level_telescope (exPipeline 2) exTel "/tel" exTreeAB [] ⟨0, []⟩).2.1 = [("gain", "/tel")] ∧
    (exWalkTel 2).2.trace.filter (Event.isCallAt 1)
      = [Event.call "/tel/A" 0 1 [("gain", "/tel")], Event.call "/tel/B" 1 1 [("gain", "/tel")]] ∧
    Event.load_station 1 "/tel/A/x" 0 2 [("gain", "/tel/A"), ("gain", "/tel")] 0
      ∈ (exWalkTel 2).2.trace ∧
    ∃ Δ, (exWalkTel 2).2.trace = ([] : List Event) ++ Δ ∧
      (∀ p i f, Event.call p i (0 + 1) f ∈ Δ →
        f = (level_telescope (exPipeline 2) exTel "/tel" exTreeAB [] ⟨0, []⟩).2.1) ∧
      (∀ p k f st, Event.load_station 0 p k (0 + 1) f st ∈ Δ →
        f = (level_telescope (exPipeline 2) exTel "/tel" exTreeAB [] ⟨0, []⟩).2.1) :=
  ⟨rfl, by decide, by decide, by decide,
    (C15_filemap_inherited_downward_only (exPipeline 2) "/tel" exTreeAB [] ⟨0, []⟩).1 exTel
      (exWalkTel 2).1 (exWalkTel 2).2 rfl⟩


/-! ## What is reported on a slot count mismatch (C13) -/

theorem accounted_nil (s : Int) : Accounted s s [] :=
  Or.inl ⟨by simp, Or.inl rfl⟩

theorem accounted_append {s s1 s2 : Int} {A B : List Event} (hA : Accounted s s1 A)
    (hB : Accounted s1 s2 B) : Accounted s s2 (A ++ B) := by
  rcases hA with ⟨a1, a2⟩ | ⟨e, he, hf⟩
  · rcases hB with ⟨b1, b2⟩ | ⟨e, he, hf⟩
    · refine Or.inl ⟨?_, ?_⟩
      · intro e he
        rcases List.mem_append.mp he with he | he
        · exact a1 e he
        · exact b1 e he
      · rcases b2 with b2 | b2
        · rw [b2]; exact a2
        · exact Or.inr b2
    · exact Or.inr ⟨e, List.mem_append_right _ he, hf⟩
  · exact Or.inr ⟨e, List.mem_append_left _ he, hf⟩

theorem accounted_one (s : Int) (e : Event) (h : e.isReport = false) : Accounted s s [e] :=
  Or.inl ⟨by intro x hx; rw [List.mem_singleton.mp hx]; exact h, Or.inl rfl⟩

theorem accounted_call (s : Int) (p : String) (i d : Nat) (f : FileMap) :
    Accounted s s [Event.call p i d f] :=
  accounted_one s _ rfl

theorem accounted_dup_child (s : Int) (p : String) :
    Accounted s s [Event.duplicate_first_child p] :=
  accounted_one s _ rfl

theorem accounted_dup_station (s : Int) : Accounted s s [Event.duplicate_first_station] :=
  accounted_one s _ rfl

theorem accounted_mismatch (s : Int) :
    Accounted s OSKAR_ERR_SETUP_FAIL_TELESCOPE_ENTRIES_MISMATCH [] :=
  Or.inl ⟨by simp, Or.inr rfl⟩

theorem level_station_accounted (ls : List oskar_TelescopeLoadAbstract) (s : oskar_Station)
    (path : String) (t : DirTree) (depth : Nat) (fm : FileMap) (w : World) (hw : w.status = 0) :
    ∃ Δ, (level_station ls s path t depth fm w).2.2.trace = w.trace ++ Δ ∧
      Accounted w.status (level_station ls s path t depth fm w).2.2.status Δ := by
  by_cases hr : (level_station ls s path t depth fm w).2.2.status = 0
  · obtain ⟨Δ, e, _, p⟩ := level_station_ok ls s path t depth fm w hr
    exact ⟨Δ, e, Or.inl ⟨p, Or.inl (by rw [hr, hw])⟩⟩
  · obtain ⟨Δ, h1, _, h3⟩ := load_all_station_events ls 0 s ⟨path, t⟩ t.subs.length depth fm
      (w.emit (Event.allSubDirs path))
    refine ⟨Event.allSubDirs path :: Δ, by rw [level_station, h1]; simp [World.emit], ?_⟩
    rcases h3 with h3 | ⟨j, f, h3⟩
    · exfalso
      apply hr
      rw [level_station, h3]
      exact hw
    · refine Or.inr ⟨_, List.mem_cons_of_mem _ h3, ?_⟩
      simp only [Event.isFailedStage, Event.stage?, bne_iff_ne, ne_eq]
      exact hr

theorem level_telescope_accounted (ls : List oskar_TelescopeLoadAbstract)
    (tel : oskar_Telescope) (path : String) (t : DirTree) (fm : FileMap) (w : World)
    (hw : w.status = 0) :
    ∃ Δ, (level_telescope ls tel path t fm w).2.2.trace = w.trace ++ Δ ∧
      Accounted w.status (level_telescope ls tel path t fm w).2.2.status Δ := by
  by_cases hr : (level_telescope ls tel path t fm w).2.2.status = 0
  · obtain ⟨Δ, e, _, p⟩ := level_telescope_ok ls tel path t fm w hr
    exact ⟨Δ, e, Or.inl ⟨p, Or.inl (by rw [hr, hw])⟩⟩
  · obtain ⟨Δ, h1, _, h3⟩ := load_all_events ls 0 tel ⟨path, t⟩ t.subs.length fm
      (w.emit (Event.allSubDirs path))
    refine ⟨Event.allSubDirs path :: Δ, by rw [level_telescope, h1]; simp [World.emit], ?_⟩
    rcases h3 with h3 | ⟨j, f, h3⟩
    · exfalso
      apply hr
      rw [level_telescope, h3]
      exact hw
    · refine Or.inr ⟨_, List.mem_cons_of_mem _ h3, ?_⟩
      simp only [Event.isFailedStage, Event.stage?, bne_iff_ne, ne_eq]
      exact hr

theorem load_children_accounted (ls : List oskar_TelescopeLoadAbstract) :
    ∀ (ds : List DirTree),
      (∀ d ∈ ds, ∀ s path depth fm w s' w',
        load_directories_station s path d depth ls fm w = some (s', w') →
        ∃ Δ, w'.trace = w.trace ++ Δ ∧ Accounted w.status w'.status Δ) →
      ∀ s cwd i depth fm w s' w',
        load_children s cwd ds i depth ls fm w = some (s', w') →
        ∃ Δ, w'.trace = w.trace ++ Δ ∧ Accounted w.status w'.status Δ := by
  intro ds
  induction ds with
  | nil =>
    intro _ s cwd i depth fm w s' w' h
    rw [load_children_nil] at h
    simp only [Option.some.injEq, Prod.mk.injEq] at h
    exact ⟨[], by simp [h.2], by rw [← h.2]; exact accounted_nil _⟩
  | cons d ds ih =>
    intro hP s cwd i depth fm w s' w' h
    obtain ⟨c, c1, w1, _, h2, h3⟩ := load_children_inv h
    obtain ⟨Δ1, e1, p1⟩ := hP d (List.mem_cons_self _ _) _ _ _ _ _ _ _ h2
    obtain ⟨Δ2, e2, p2⟩ := ih (fun x hx => hP x (List.mem_cons_of_mem _ hx)) _ _ _ _ _ _ _ _ h3
    refine ⟨Event.call (cwd.filePath d.name) i (depth + 1) fm :: (Δ1 ++ Δ2),
      by rw [e2, e1]; simp [World.emit], ?_⟩
    have key := accounted_append (accounted_call w.status (cwd.filePath d.name) i (depth + 1) fm)
      (accounted_append p1 p2)
    exact key

theorem lds_accounted (ls : List oskar_TelescopeLoadAbstract) :
    ∀ (t : DirTree) (s : oskar_Station) (path : String) (depth : Nat) (fm : FileMap) (w : World)
      (s' : oskar_Station) (w' : World),
      load_directories_station s path t depth ls fm w = some (s', w') →
      ∃ Δ, w'.trace = w.trace ++ Δ ∧ Accounted w.status w'.status Δ := by
  intro t
  induction t using DirTree.induct_subs with
  | h name subs ih =>
    intro s path depth fm w s' w' h
    rcases lds_inv h with ⟨_, _, h2⟩ | ⟨hw, hc⟩
    · exact ⟨[], by simp [h2], by rw [h2]; exact accounted_nil _⟩
    obtain ⟨Δ0, e0, p0⟩ := level_station_accounted ls s path (.node name subs) depth fm w hw
    rcases hc with ⟨_, _, h2⟩ | ⟨_, _, _, h2⟩ | ⟨_, d, c, c1, w1, hsub, _, hl, _, h2⟩ |
      ⟨_, _, _, _, h2⟩ | ⟨_, _, _, h2⟩
    · exact ⟨Δ0, by rw [h2, e0], by rw [h2]; exact p0⟩
    · exact ⟨Δ0, by rw [h2, e0], by rw [h2]; exact p0⟩
    · simp only [DirTree.subs] at hsub
      subst hsub
      obtain ⟨Δ1, e1, p1⟩ := ih d (List.mem_singleton_self d) _ _ _ _ _ _ _ hl
      refine ⟨Δ0 ++ Event.call (oskar_Dir.filePath ⟨path, .node name [d]⟩ d.name) 0 (depth + 1)
        (level_station ls s path (.node name [d]) depth fm w).2.1 :: (Δ1 ++
          [Event.duplicate_first_child path]), ?_, ?_⟩
      · rw [h2]; simp only; rw [e1]; simp [World.emit, e0]
      · rw [h2]
        have key := accounted_append p0 (accounted_append
          (accounted_call _ (oskar_Dir.filePath ⟨path, .node name [d]⟩ d.name) 0 (depth + 1)
            (level_station ls s path (.node name [d]) depth fm w).2.1)
          (accounted_append p1 (accounted_dup_child _ path)))
        exact key
    · refine ⟨Δ0 ++ [], by rw [h2]; simp [e0], ?_⟩
      rw [h2]
      exact accounted_append p0 (accounted_mismatch _)
    · obtain ⟨Δ1, e1, p1⟩ := load_children_accounted ls subs ih _ _ _ _ _ _ _ _ h2
      exact ⟨Δ0 ++ Δ1, by rw [e1, e0]; simp, accounted_append p0 p1⟩

theorem load_stations_accounted (ls : List oskar_TelescopeLoadAbstract) :
    ∀ (ds : List DirTree) (tel : oskar_Telescope) (cwd : oskar_Dir) (i : Nat) (fm : FileMap)
      (w : World) (tel' : oskar_Telescope) (w' : World),
      load_stations tel cwd ds i ls fm w = some (tel', w') →
      ∃ Δ, w'.trace = w.trace ++ Δ ∧ Accounted w.status w'.status Δ := by
  intro ds
  induction ds with
  | nil =>
    intro tel cwd i fm w tel' w' h
    rw [load_stations_nil] at h
    simp only [Option.some.injEq, Prod.mk.injEq] at h
    exact ⟨[], by simp [h.2], by rw [← h.2]; exact accounted_nil _⟩
  | cons d ds ih =>
    intro tel cwd i fm w tel' w' h
    obtain ⟨c, c1, w1, _, h2, h3⟩ := load_stations_inv h
    obtain ⟨Δ1, e1, p1⟩ := lds_accounted ls d _ _ _ _ _ _ _ h2
    obtain ⟨Δ2, e2, p2⟩ := ih _ _ _ _ _ _ _ h3
    refine ⟨Event.call (cwd.filePath d.name) i (0 + 1) fm :: (Δ1 ++ Δ2),
      by rw [e2, e1]; simp [World.emit], ?_⟩
    have key := accounted_append (accounted_call w.status (cwd.filePath d.name) i (0 + 1) fm)
      (accounted_append p1 p2)
    exact key

theorem ld_accounted (ls : List oskar_TelescopeLoadAbstract) (tel : oskar_Telescope)
    (path : String) (t : DirTree) (fm : FileMap) (w : World) (tel' : oskar_Telescope)
    (w' : World) (h : load_directories tel path t ls fm w = some (tel', w')) :
    ∃ Δ, w'.trace = w.trace ++ Δ ∧ Accounted w.status w'.status Δ := by
  rcases ld_inv h with ⟨_, _, h2⟩ | ⟨hw, hc⟩
  · exact ⟨[], by simp [h2], by rw [h2]; exact accounted_nil _⟩
  obtain ⟨Δ0, e0, p0⟩ := level_telescope_accounted ls tel path t fm w hw
  rcases hc with ⟨_, _, h2⟩ | ⟨_, _, _, h2⟩ | ⟨_, d, c, c1, w1, hsub, _, hl, _, h2⟩ |
    ⟨_, _, _, _, h2⟩ | ⟨_, _, _, h2⟩
  · exact ⟨Δ0, by rw [h2, e0], by rw [h2]; exact p0⟩
  · exact ⟨Δ0, by rw [h2, e0], by rw [h2]; exact p0⟩
  · obtain ⟨Δ1, e1, p1⟩ := lds_accounted ls d _ _ _ _ _ _ _ hl
    refine ⟨Δ0 ++ Event.call (oskar_Dir.filePath ⟨path, t⟩ d.name) 0 (0 + 1)
      (level_telescope ls tel path t fm w).2.1 :: (Δ1 ++ [Event.duplicate_first_station]),
      ?_, ?_⟩
    · rw [h2]; simp only; rw [e1]; simp [World.emit, e0]
    · rw [h2]
      have key := accounted_append p0 (accounted_append
        (accounted_call _ (oskar_Dir.filePath ⟨path, t⟩ d.name) 0 (0 + 1)
          (level_telescope ls tel path t fm w).2.1)
        (accounted_append p1 (accounted_dup_station _)))
      exact key
  · refine ⟨Δ0 ++ [], by rw [h2]; simp [e0], ?_⟩
    rw [h2]
    exact accounted_append p0 (accounted_mismatch _)
  · obtain ⟨Δ1, e1, p1⟩ := load_stations_accounted ls _ _ _ _ _ _ _ _ h2
    exact ⟨Δ0 ++ Δ1, by rw [e1, e0]; simp, accounted_append p0 p1⟩

theorem filter_isReport_nil {Δ : List Event} (h : ∀ e ∈ Δ, e.isReport = false) :
    Δ.filter Event.isReport = [] := by
  rw [List.filter_eq_nil_iff]
  intro e he
  rw [h e he]
  simp

theorem otl_reports (impl : LoaderKind → oskar_TelescopeLoadAbstract)
    (fs : String → Option DirTree) (tel : oskar_Telescope) (p : String) (root : DirTree)
    (w : World) (tel' : oskar_Telescope) (w' : World) (hw : w.status = 0)
    (hp : fs p = some root) (hm : oskar_telescope_mem_location tel = OSKAR_CPU)
    (h : oskar_telescope_load impl fs tel (some p) w = some (tel', w')) :
    ∃ t3 w3 Δw,
      load_directories tel p root (create_loaders impl) []
        ⟨0, w.trace ++ Event.dir_exists p :: loader_kinds.map Event.new_loader⟩
          = some (t3, w3) ∧
      w3.trace = (w.trace ++ Event.dir_exists p :: loader_kinds.map Event.new_loader) ++ Δw ∧
      Accounted 0 w3.status Δw ∧ w'.status = w3.status ∧
      w'.trace = w.trace ++ ((Event.dir_exists p :: loader_kinds.map Event.new_loader) ++ Δw ++
        ((if w3.status ≠ 0 then [Event.log_load_failed w3.status] else []) ++
          ((List.range (create_loaders impl).length).map Event.delete_loader ++
            [Event.set_station_ids]))) ∧
      ((Event.dir_exists p :: loader_kinds.map Event.new_loader) ++ Δw ++
        ((if w3.status ≠ 0 then [Event.log_load_failed w3.status] else []) ++
          ((List.range (create_loaders impl).length).map Event.delete_loader ++
            [Event.set_station_ids]))).filter Event.isReport
        = Δw.filter Event.isReport ++
          (if w3.status ≠ 0 then [Event.log_load_failed w3.status] else []) := by
  rw [otl_walk _ _ _ _ _ _ hw hp hm] at h
  cases hl : load_directories tel p root (create_loaders impl) []
      ⟨0, w.trace ++ Event.dir_exists p :: loader_kinds.map Event.new_loader⟩ with
  | none => rw [hl] at h; cases h
  | some r =>
    obtain ⟨t3, w3⟩ := r
    rw [hl] at h
    simp only [Option.some.injEq, Prod.mk.injEq] at h
    obtain ⟨Δw, e, a⟩ := ld_accounted _ _ _ _ _ _ _ _ hl
    refine ⟨t3, w3, Δw, rfl, e, a, by rw [← h.2], ?_, ?_⟩
    · rw [← h.2]; simp only; rw [e]; simp
    · have a1 : (Event.dir_exists p :: loader_kinds.map Event.new_loader).filter Event.isReport
          = [] := by
        apply filter_isReport_nil
        intro x hx
        rcases List.mem_cons.mp hx with rfl | hx
        · rfl
        · obtain ⟨k, _, rfl⟩ := List.mem_map.mp hx
          rfl
      have a2 : ((List.range (create_loaders impl).length).map Event.delete_loader ++
          [Event.set_station_ids]).filter Event.isReport = [] := by
        apply filter_isReport_nil
        intro x hx
        rcases List.mem_append.mp hx with hx | hx
        · obtain ⟨k, _, rfl⟩ := List.mem_map.mp hx
          rfl
        · rw [List.mem_singleton.mp hx]; rfl
      have a3 : (if w3.status ≠ 0 then [Event.log_load_failed w3.status] else []).filter
          Event.isReport = (if w3.status ≠ 0 then [Event.log_load_failed w3.status] else []) := by
        split
        · rfl
        · rfl
      rw [List.filter_append, List.filter_append, List.filter_append, a1, a2, a3]
      simp

/-- C13, the code's behaviour: the load of a root with the two
sub-directories `A` and `B` for which the layout stage allocated one slot
fails with the mismatch code, and the only error report of the whole load is
the closing report of `oskar_telescope_load`, which carries the status code
alone; the same tree loaded from another path gives the very same reports,
so no report refers to the directory. -/
theorem C13_mismatch_report_names_no_directory :
    oskar_telescope_load (exImpl 1 7) exFs exTel (some "/tel") ⟨0, []⟩
      = some (exOut 1 7 "/tel") ∧
    exFs "/tel" = some exTreeAB ∧ exTreeAB.subs.length = 2 ∧
    oskar_telescope_num_stations (exOut 1 7 "/tel").1 = 1 ∧
    (exOut 1 7 "/tel").2.status = OSKAR_ERR_SETUP_FAIL_TELESCOPE_ENTRIES_MISMATCH ∧
    (exOut 1 7 "/tel").2.trace.filter Event.isReport
      = [Event.log_load_failed OSKAR_ERR_SETUP_FAIL_TELESCOPE_ENTRIES_MISMATCH] ∧
    oskar_telescope_load (exImpl 1 7) exFsOther exTel (some "/other") ⟨0, []⟩
      = some (exOutOther 1 7 "/other") ∧
    exFsOther "/other" = some exTreeAB ∧
    (exOutOther 1 7 "/other").2.status = (exOut 1 7 "/tel").2.status ∧
    (exOutOther 1 7 "/other").2.trace.filter Event.isReport
      = (exOut 1 7 "/tel").2.trace.filter Event.isReport :=
  ⟨rfl, rfl, rfl, by decide, by decide, by decide, rfl, rfl, by decide, by decide⟩

/-- C13, amended: when the preconditions of `oskar_telescope_load` hold, a
load that ends with a non-zero status although no stage call left one ends
with the mismatch code, and its only error report is the closing report of
`oskar_telescope_load`, which carries that code and no directory; this is
what a root with more than one child directory and a different slot count
gives. At a deeper level with more than one child directory and a different
slot count `load_directories` returns the mismatch code and adds no error
report (last part). -/
theorem C13_mismatch_reported_by_status_only (impl : LoaderKind → oskar_TelescopeLoadAbstract)
    (fs : String → Option DirTree) (tel : oskar_Telescope) (p : String) (root : DirTree)
    (w : World) (tel' : oskar_Telescope) (w' : World) (hw : w.status = 0)
    (hp : fs p = some root) (hm : oskar_telescope_mem_location tel = OSKAR_CPU)
    (h : oskar_telescope_load impl fs tel (some p) w = some (tel', w')) :
    (∃ Δ, w'.trace = w.trace ++ Δ ∧
      (w'.status ≠ 0 → (∀ e ∈ Δ, e.isFailedStage = false) →
        w'.status = OSKAR_ERR_SETUP_FAIL_TELESCOPE_ENTRIES_MISMATCH ∧
        Δ.filter Event.isReport
          = [Event.log_load_failed OSKAR_ERR_SETUP_FAIL_TELESCOPE_ENTRIES_MISMATCH]) ∧
      (1 < root.subs.length →
        (level_telescope (create_loaders impl) tel p root []
          ⟨0, w.trace ++ Event.dir_exists p :: loader_kinds.map Event.new_loader⟩).2.2.status
            = 0 →
        root.subs.length ≠ oskar_telescope_num_stations
          (level_telescope (create_loaders impl) tel p root []
            ⟨0, w.trace ++ Event.dir_exists p :: loader_kinds.map Event.new_loader⟩).1 →
        w'.status = OSKAR_ERR_SETUP_FAIL_TELESCOPE_ENTRIES_MISMATCH ∧
        Δ.filter Event.isReport
          = [Event.log_load_failed OSKAR_ERR_SETUP_FAIL_TELESCOPE_ENTRIES_MISMATCH])) ∧
    (∀ (ls : List oskar_TelescopeLoadAbstract) (s : oskar_Station) (path : String) (t : DirTree)
      (depth : Nat) (fm : FileMap) (w0 : World), w0.status = 0 → 1 < t.subs.length →
      (level_station ls s path t depth fm w0).2.2.status = 0 →
      t.subs.length ≠ oskar_station_num_elements (level_station ls s path t depth fm w0).1 →
      ∃ Δ, load_directories_station s path t depth ls fm w0
          = some ((level_station ls s path t depth fm w0).1,
              ⟨OSKAR_ERR_SETUP_FAIL_TELESCOPE_ENTRIES_MISMATCH, w0.trace ++ Δ⟩) ∧
        ∀ e ∈ Δ, e.isReport = false) := by
  constructor
  · obtain ⟨t3, w3, Δw, hl, e3, a, hs, ht, hf⟩ := otl_reports impl fs tel p root w tel' w' hw hp hm h
    refine ⟨_, ht, ?_, ?_⟩
    · intro hne hall
      rw [hs] at hne
      rcases a with ⟨a1, a2⟩ | ⟨e, he, hfail⟩
      · have hM : w3.status = OSKAR_ERR_SETUP_FAIL_TELESCOPE_ENTRIES_MISMATCH := by
          rcases a2 with a2 | a2
          · exact absurd a2 hne
          · exact a2
        refine ⟨by rw [hs, hM], ?_⟩
        rw [hf, filter_isReport_nil a1, if_pos hne, hM]
        rfl
      · exfalso
        have := hall e (List.mem_append_left _ (List.mem_append_right _ he))
        rw [hfail] at this
        cases this
    · intro hk hr hcount
      obtain ⟨name, d1, d2, ds, rfl⟩ := two_le_subs hk
      rw [ld_many tel p _ d1 d2 ds _ [] _ rfl hr rfl, if_pos hcount] at hl
      simp only [Option.some.injEq, Prod.mk.injEq] at hl
      have hM : w3.status = OSKAR_ERR_SETUP_FAIL_TELESCOPE_ENTRIES_MISMATCH := by
        rw [← hl.2]
      obtain ⟨Δ0, e0, _, p0⟩ := level_telescope_ok (create_loaders impl) tel p
        (.node name (d1 :: d2 :: ds)) []
        ⟨0, w.trace ++ Event.dir_exists p :: loader_kinds.map Event.new_loader⟩ hr
      have hΔ : Δw = Δ0 := by
        have e4 : w3.trace = (w.trace ++ Event.dir_exists p ::
            loader_kinds.map Event.new_loader) ++ Δ0 := by
          rw [← hl.2]; exact e0
        rw [e3] at e4
        exact List.append_cancel_left e4
      have hne : w3.status ≠ 0 := by
        rw [hM]
        exact (show OSKAR_ERR_SETUP_FAIL_TELESCOPE_ENTRIES_MISMATCH ≠ 0 by decide)
      refine ⟨by rw [hs, hM], ?_⟩
      rw [hf, hΔ, filter_isReport_nil p0, if_pos hne, hM]
      rfl
  · intro ls s path t depth fm w0 hw0 hk hr hcount
    obtain ⟨name, d1, d2, ds, rfl⟩ := two_le_subs hk
    obtain ⟨Δ0, e0, _, p0⟩ := level_station_ok ls s path (.node name (d1 :: d2 :: ds)) depth fm
      w0 hr
    refine ⟨Δ0, ?_, p0⟩
    have hcount' : (d1 :: d2 :: ds).length ≠ oskar_station_num_elements
        (level_station ls s path (.node name (d1 :: d2 :: ds)) depth fm w0).1 := hcount
    rw [lds_many s path name d1 d2 ds depth ls fm w0 hw0 hr, if_pos hcount', ← e0]

theorem C13_mismatch_reported_by_status_only_witness :
    (⟨0, []⟩ : World).status = 0 ∧ exFs "/tel" = some exTreeAB ∧
    oskar_telescope_mem_location exTel = OSKAR_CPU ∧
    oskar_telescope_load (exImpl 1 7) exFs exTel (some "/tel") ⟨0, []⟩
      = some (exOut 1 7 "/tel") ∧
    (exOut 1 7 "/tel").2.status ≠ 0 ∧
    (∀ e ∈ (exOut 1 7 "/tel").2.trace, e.isFailedStage = false) ∧
    ((∃ Δ, (exOut 1 7 "/tel").2.trace = ([] : List Event) ++ Δ ∧
      ((exOut 1 7 "/tel").2.status ≠ 0 → (∀ e ∈ Δ, e.isFailedStage = false) →
        (exOut 1 7 "/tel").2.status = OSKAR_ERR_SETUP_FAIL_TELESCOPE_ENTRIES_MISMATCH ∧
        Δ.filter Event.isReport
          = [Event.log_load_failed OSKAR_ERR_SETUP_FAIL_TELESCOPE_ENTRIES_MISMATCH]) ∧
      (1 < exTreeAB.subs.length →
        (level_telescope (create_loaders (exImpl 1 7)) exTel "/tel" exTreeAB []
          ⟨0, [] ++ Event.dir_exists "/tel" :: loader_kinds.map Event.new_loader⟩).2.2.status
            = 0 →
        exTreeAB.subs.length ≠ oskar_telescope_num_stations
          (level_telescope (create_loaders (exImpl 1 7)) exTel "/tel" exTreeAB []
            ⟨0, [] ++ Event.dir_exists "/tel" :: loader_kinds.map Event.new_loader⟩).1 →
        (exOut 1 7 "/tel").2.status = OSKAR_ERR_SETUP_FAIL_TELESCOPE_ENTRIES_MISMATCH ∧
        Δ.filter Event.isReport
          = [Event.log_load_failed OSKAR_ERR_SETUP_FAIL_TELESCOPE_ENTRIES_MISMATCH])) ∧
    (∀ (ls : List oskar_TelescopeLoadAbstract) (s : oskar_Station) (path : String) (t : DirTree)
      (depth : Nat) (fm : FileMap) (w0 : World), w0.status = 0 → 1 < t.subs.length →
      (level_station ls s path t depth fm w0).2.2.status = 0 →
      t.subs.length ≠ oskar_station_num_elements (level_station ls s path t depth fm w0).1 →
      ∃ Δ, load_directories_station s path t depth ls fm w0
          = some ((level_station ls s path t depth fm w0).1,
              ⟨OSKAR_ERR_SETUP_FAIL_TELESCOPE_ENTRIES_MISMATCH, w0.trace ++ Δ⟩) ∧
        ∀ e ∈ Δ, e.isReport = false)) :=
  ⟨rfl, rfl, rfl, rfl, by decide, by decide,
    C13_mismatch_reported_by_status_only (exImpl 1 7) exFs exTel "/tel" exTreeAB ⟨0, []⟩
      (exOut 1 7 "/tel").1 (exOut 1 7 "/tel").2 rfl rfl rfl rfl⟩


/-! ## The reader of the visibility header (C17) -/

theorem exLib_keeps (err : oskar_Tag → Int) : (exLib err).KeepsError := by
  refine ⟨?_, ?_, ?_, ?_⟩ <;>
  · intro h t v s hs
    simp [exLib, exRead, hs]

theorem vis_read_settings_code {H V : Type} (lib : oskar_BinaryLib H V)
    (rm : H → oskar_Tag → V → Int → H × V × Int)
    (h1 : ∀ h t v s, t ≠ oskar_Tag.OSKAR_TAG_SETTINGS →
      rm h t v s = lib.oskar_binary_read_mem h t v s)
    (h2 : ∀ h v s, (rm h .OSKAR_TAG_SETTINGS v s).1
        = (lib.oskar_binary_read_mem h .OSKAR_TAG_SETTINGS v s).1 ∧
      (rm h .OSKAR_TAG_SETTINGS v s).2.1
        = (lib.oskar_binary_read_mem h .OSKAR_TAG_SETTINGS v s).2.1)
    (h : Option H) (status : Int) :
    (oskar_vis_header_read { lib with oskar_binary_read_mem := rm } h status).status
        = (oskar_vis_header_read lib h status).status ∧
      (oskar_vis_header_read { lib with oskar_binary_read_mem := rm } h status).vis
        = (oskar_vis_header_read lib h status).vis ∧
      (oskar_vis_header_read { lib with oskar_binary_read_mem := rm } h status).h
        = (oskar_vis_header_read lib h status).h := by
  cases h with
  | none => exact ⟨rfl, rfl, rfl⟩
  | some h0 =>
    simp only [oskar_vis_header_read]
    split
    · exact ⟨rfl, rfl, rfl⟩
    · split
      · exact ⟨rfl, rfl, rfl⟩
      · simp only [h1 _ .OSKAR_VIS_HEADER_TAG_TELESCOPE_PATH _ _ (by decide),
          h1 _ .OSKAR_VIS_HEADER_TAG_STATION_X_OFFSET_ECEF _ _ (by decide),
          h1 _ .OSKAR_VIS_HEADER_TAG_STATION_Y_OFFSET_ECEF _ _ (by decide),
          h1 _ .OSKAR_VIS_HEADER_TAG_STATION_Z_OFFSET_ECEF _ _ (by decide),
          (h2 _ _ _).1, (h2 _ _ _).2]
        simp

theorem vis_read_keeps {H V : Type} (lib : oskar_BinaryLib H V) (hk : lib.KeepsError)
    (h : Option H) (status : Int) :
    ∀ x ∈ (oskar_vis_header_read lib h status).reads, x.1 ≠ oskar_Tag.OSKAR_TAG_SETTINGS →
      x.2 ≠ 0 → (oskar_vis_header_read lib h status).status ≠ 0 := by
  obtain ⟨ki, kd, kr, km⟩ := hk
  cases h with
  | none => intro x hx; cases hx
  | some h0 =>
    simp only [oskar_vis_header_read]
    split
    · intro x hx; cases hx
    · split
      · intro x _ _ _
        assumption
      · rename_i h6
        intro x hx hne hx0
        simp only [List.mem_append, List.mem_cons, List.mem_singleton, List.not_mem_nil,
          or_false] at hx
        rcases hx with (hx | hx | hx | hx | hx | hx) | hx | hx | hx | hx | hx | hx | hx | hx |
          hx | hx | hx | hx | hx
        iterate 6
          · subst hx
            dsimp only at hx0
            exfalso
            apply h6
            repeat (first | exact hx0 | apply ki)
        · subst hx
          exact absurd rfl hne
        iterate 12
          · subst hx
            dsimp only at hx0
            repeat (first | exact hx0 | apply km | apply kr | apply kd)

/-- C17: in `oskar_vis_header_read` the settings read is given the local
`tag_error`, not `*status`: whatever code a settings read leaves, a settings
read with the same effect on the handle and the destination gives the same
`*status`, the same header and the same handle. Every other read is given
`*status`: with reads that never clear an error (one given a non-zero
status leaves a non-zero status), a non-zero status left by any read other
than the settings read makes `oskar_vis_header_read` return with a non-zero
`*status`. -/
theorem C17_only_settings_error_discarded {H V : Type} (lib : oskar_BinaryLib H V)
    (h : Option H) (status : Int) :
    (∀ rm : H → oskar_Tag → V → Int → H × V × Int,
      (∀ h t v s, t ≠ oskar_Tag.OSKAR_TAG_SETTINGS →
        rm h t v s = lib.oskar_binary_read_mem h t v s) →
      (∀ h v s, (rm h .OSKAR_TAG_SETTINGS v s).1
          = (lib.oskar_binary_read_mem h .OSKAR_TAG_SETTINGS v s).1 ∧
        (rm h .OSKAR_TAG_SETTINGS v s).2.1
          = (lib.oskar_binary_read_mem h .OSKAR_TAG_SETTINGS v s).2.1) →
      (oskar_vis_header_read { lib with oskar_binary_read_mem := rm } h status).status
          = (oskar_vis_header_read lib h status).status ∧
        (oskar_vis_header_read { lib with oskar_binary_read_mem := rm } h status).vis
          = (oskar_vis_header_read lib h status).vis ∧
        (oskar_vis_header_read { lib with oskar_binary_read_mem := rm } h status).h
          = (oskar_vis_header_read lib h status).h) ∧
    (lib.KeepsError →
      ∀ x ∈ (oskar_vis_header_read lib h status).reads,
        x.1 ≠ oskar_Tag.OSKAR_TAG_SETTINGS → x.2 ≠ 0 →
        (oskar_vis_header_read lib h status).status ≠ 0) :=
  ⟨fun rm h1 h2 => vis_read_settings_code lib rm h1 h2 h status,
    fun hk => vis_read_keeps lib hk h status⟩

theorem C17_only_settings_error_discarded_witness :
    (oskar_vis_header_read (exLib (exErrAt .OSKAR_TAG_SETTINGS (-1))) (some 0) 0).tag_error
      = -1 ∧
    (oskar_vis_header_read (exLib (exErrAt .OSKAR_TAG_SETTINGS (-1))) (some 0) 0).status = 0 ∧
    ((oskar_vis_header_read
        { exLib (fun _ => 0) with
          oskar_binary_read_mem :=
            (exLib (exErrAt .OSKAR_TAG_SETTINGS (-1))).oskar_binary_read_mem }
        (some 0) 0).status
        = (oskar_vis_header_read (exLib (fun _ => 0)) (some 0) 0).status ∧
      (oskar_vis_header_read
        { exLib (fun _ => 0) with
          oskar_binary_read_mem :=
            (exLib (exErrAt .OSKAR_TAG_SETTINGS (-1))).oskar_binary_read_mem }
        (some 0) 0).vis
        = (oskar_vis_header_read (exLib (fun _ => 0)) (some 0) 0).vis ∧
      (oskar_vis_header_read
        { exLib (fun _ => 0) with
          oskar_binary_read_mem :=
            (exLib (exErrAt .OSKAR_TAG_SETTINGS (-1))).oskar_binary_read_mem }
        (some 0) 0).h
        = (oskar_vis_header_read (exLib (fun _ => 0)) (some 0) 0).h) ∧
    (exLib (exErrAt .OSKAR_VIS_HEADER_TAG_FREQ_INC_HZ (-5))).KeepsError ∧
    (oskar_Tag.OSKAR_VIS_HEADER_TAG_FREQ_INC_HZ, (-5 : Int))
      ∈ (oskar_vis_header_read (exLib (exErrAt .OSKAR_VIS_HEADER_TAG_FREQ_INC_HZ (-5)))
          (some 0) 0).reads ∧
    (oskar_vis_header_read (exLib (exErrAt .OSKAR_VIS_HEADER_TAG_FREQ_INC_HZ (-5)))
      (some 0) 0).status ≠ 0 :=
  ⟨by decide, by decide,
    (C17_only_settings_error_discarded (exLib (fun _ => 0)) (some 0) 0).1
      (exLib (exErrAt .OSKAR_TAG_SETTINGS (-1))).oskar_binary_read_mem
      (by
        intro h t v s ht
        simp [exLib, exErrAt, ht])
      (by
        intro h v s
        simp only [exLib, exRead]
        split <;> exact ⟨rfl, rfl⟩),
    exLib_keeps _, by decide,
    (C17_only_settings_error_discarded (exLib (exErrAt .OSKAR_VIS_HEADER_TAG_FREQ_INC_HZ (-5)))
      (some 0) 0).2 (exLib_keeps _) (.OSKAR_VIS_HEADER_TAG_FREQ_INC_HZ, -5) (by decide)
      (by decide) (by decide)⟩


/-! ## The image direction cosines (C23) -/

/-- C23: over the real numbers, with the sine and cosine of the reals, the
three direction cosines that `oskar_evaluate_image_lmn_point` computes
satisfy `l^2 + m^2 + n^2 = 1`, for all `ra0`, `dec0`, `ra` and `dec`. -/
theorem C23_lmn_unit_vector (ra0 dec0 ra dec : ℝ) :
    (oskar_evaluate_image_lmn_point Real.sin Real.cos ra0 dec0 ra dec).1 ^ 2 +
      (oskar_evaluate_image_lmn_point Real.sin Real.cos ra0 dec0 ra dec).2.1 ^ 2 +
      (oskar_evaluate_image_lmn_point Real.sin Real.cos ra0 dec0 ra dec).2.2 ^ 2 = 1 := by
  have h0 := Real.sin_sq_add_cos_sq dec0
  have h1 := Real.sin_sq_add_cos_sq (ra - ra0)
  have h2 := Real.sin_sq_add_cos_sq dec
  simp only [oskar_evaluate_image_lmn_point]
  linear_combination (Real.sin dec ^ 2 + Real.cos dec ^ 2 * Real.cos (ra - ra0) ^ 2) * h0 +
    Real.cos dec ^ 2 * h1 + h2


/-! ## The reader of the station coordinates (C21, C22) -/

theorem valid_lines_cons_of_lt {D R : Type} [Zero R] (lib : Coords.oskar_CoordsLib D R)
    (line : String) (rest : List String)
    (h : (lib.oskar_string_to_array_d line 3 (0, 0, 0)).1 < 2) :
    Coords.valid_lines lib (line :: rest) = Coords.valid_lines lib rest := by
  simp only [Coords.valid_lines]
  rw [List.filter_cons_of_neg]
  simp only [decide_eq_true_eq]
  omega

theorem valid_lines_cons_of_le {D R : Type} [Zero R] (lib : Coords.oskar_CoordsLib D R)
    (line : String) (rest : List String)
    (h : ¬ (lib.oskar_string_to_array_d line 3 (0, 0, 0)).1 < 2) :
    Coords.valid_lines lib (line :: rest) = line :: Coords.valid_lines lib rest := by
  simp only [Coords.valid_lines]
  rw [List.filter_cons_of_pos]
  simp only [decide_eq_true_eq]
  omega

theorem read_lines_ok {D R : Type} [Zero R] (lib : Coords.oskar_CoordsLib D R)
    (lon lat alt : R) :
    ∀ (lines : List String) (n : Nat) (tel : Coords.oskar_Telescope D R)
      (calls : List (Coords.Call R)),
      (Coords.read_lines lib lon lat alt lines n tel 0 calls).status = 0 →
      (Coords.read_lines lib lon lat alt lines n tel 0 calls).finished = true ∧
      (Coords.read_lines lib lon lat alt lines n tel 0 calls).n
        = n + (Coords.valid_lines lib lines).length ∧
      ∃ Δ, (Coords.read_lines lib lon lat alt lines n tel 0 calls).calls = calls ++ Δ ∧
        Δ.filter Coords.Call.isStore
          = Coords.stores_from lib lon lat alt n (Coords.valid_lines lib lines) := by
  intro lines
  induction lines with
  | nil =>
    intro n tel calls _
    exact ⟨rfl, rfl, [], by simp [Coords.read_lines], rfl⟩
  | cons line rest ih =>
    intro n tel calls hs
    by_cases hp : (lib.oskar_string_to_array_d line 3 (0, 0, 0)).1 < 2
    · rw [valid_lines_cons_of_lt lib line rest hp]
      simp only [Coords.read_lines, hp, if_true] at hs ⊢
      exact ih n tel calls hs
    · rw [valid_lines_cons_of_le lib line rest hp]
      by_cases hr : tel.num_stations ≤ (n : Int)
      · simp only [Coords.read_lines, hp, hr, if_false, if_true, true_and] at hs ⊢
        split at hs
        · rename_i h1
          exact absurd hs h1
        · rename_i h1
          rw [if_neg h1]
          split at hs
          · rename_i h2
            exact absurd hs h2
          · rename_i h2
            rw [if_neg h2]
            have h2' := not_not.mp h2
            rw [h2'] at hs ⊢
            obtain ⟨a, b, Δ, c, d⟩ := ih _ _ _ hs
            refine ⟨a, by rw [b, List.length_cons]; omega, ?_⟩
            rw [c]
            refine ⟨_, by simp only [List.append_assoc]; rfl, ?_⟩
            simp [Coords.Call.isStore, Coords.stores_from, Coords.stores, d]
      · simp only [Coords.read_lines, hp, hr, if_false, false_and] at hs ⊢
        split at hs
        · rename_i h2
          exact absurd hs h2
        · rename_i h2
          rw [if_neg h2]
          have h2' := not_not.mp h2
          rw [h2'] at hs ⊢
          obtain ⟨a, b, Δ, c, d⟩ := ih _ _ _ hs
          refine ⟨a, by rw [b, List.length_cons]; omega, ?_⟩
          rw [c]
          refine ⟨_, by simp only [List.append_assoc]; rfl, ?_⟩
          simp [Coords.Call.isStore, Coords.stores_from, Coords.stores, d]

theorem stores_from_mem {D R : Type} [Zero R] (lib : Coords.oskar_CoordsLib D R)
    (lon lat alt : R) :
    ∀ (ls : List String) (n i : Nat) (line : String), ls[i]? = some line →
      ∀ c ∈ Coords.stores lib lon lat alt (n + i) line,
        c ∈ Coords.stores_from lib lon lat alt n ls := by
  intro ls
  induction ls with
  | nil => intro n i line h; simp at h
  | cons l rest ih =>
    intro n i line h c hc
    cases i with
    | zero =>
      simp only [List.getElem?_cons_zero, Option.some.injEq] at h
      subst h
      exact List.mem_append_left _ hc
    | succ j =>
      simp only [List.getElem?_cons_succ] at h
      refine List.mem_append_right _ (ih (n + 1) j line h c ?_)
      have e : n + 1 + j = n + (j + 1) := by omega
      rw [e]
      exact hc

/-- C21: when `oskar_telescope_load_station_coords`, called with status 0 on a
model of single or double precision and a file that opens, returns with
status 0, then whatever number of stations the model held before,
`num_stations` is the number of lines from which at least two values were
parsed, the coordinate units are metres, and the calls that store station
coordinates and positions are exactly those for these lines in file order,
the line at position `i` among them (from 0) supplying station `i`. -/
theorem C21_station_count_and_order {D R : Type} [Zero R] (lib : Coords.oskar_CoordsLib D R)
    (tel : Coords.oskar_Telescope D R) (name : String) (lon lat alt : R) (lines : List String)
    (htype : lib.oskar_telescope_type tel = lib.OSKAR_SINGLE ∨
      lib.oskar_telescope_type tel = lib.OSKAR_DOUBLE)
    (hopen : lib.fopen name = some lines)
    (hok : (Coords.oskar_telescope_load_station_coords lib (some tel) (some name)
      lon lat alt 0).status = 0) :
    ∃ tel', (Coords.oskar_telescope_load_station_coords lib (some tel) (some name)
        lon lat alt 0).telescope = some tel' ∧
      tel'.num_stations = ((Coords.valid_lines lib lines).length : Int) ∧
      tel'.coord_units = lib.OSKAR_METRES ∧
      (Coords.oskar_telescope_load_station_coords lib (some tel) (some name)
          lon lat alt 0).calls.filter Coords.Call.isStore
        = Coords.stores_from lib lon lat alt 0 (Coords.valid_lines lib lines) ∧
      ∀ i line, (Coords.valid_lines lib lines)[i]? = some line →
        ∀ c ∈ Coords.stores lib lon lat alt i line,
          c ∈ (Coords.oskar_telescope_load_station_coords lib (some tel) (some name)
            lon lat alt 0).calls := by
  have ht : ¬ (lib.oskar_telescope_type tel ≠ lib.OSKAR_SINGLE ∧
      lib.oskar_telescope_type tel ≠ lib.OSKAR_DOUBLE) := by
    rintro ⟨a, b⟩
    rcases htype with h | h
    · exact a h
    · exact b h
  simp only [Coords.oskar_telescope_load_station_coords, ne_eq, not_true_eq_false, if_false,
    ht, hopen] at hok ⊢
  have hs : (Coords.read_lines lib lon lat alt lines 0
      { tel with longitude_rad := lon, latitude_rad := lat, altitude_m := alt } 0
      [Coords.Call.fopen name true]).status = 0 := by
    split at hok <;> exact hok
  obtain ⟨hf, hn, Δ, hc, hd⟩ := read_lines_ok lib lon lat alt lines 0 _ _ hs
  rw [if_pos hf]
  have hcalls : (Coords.read_lines lib lon lat alt lines 0
      { tel with longitude_rad := lon, latitude_rad := lat, altitude_m := alt } 0
      [Coords.Call.fopen name true]).calls ++ [Coords.Call.fclose]
        = Coords.Call.fopen name true :: (Δ ++ [Coords.Call.fclose]) := by
    rw [hc]; simp
  refine ⟨_, rfl, ?_, rfl, ?_, ?_⟩
  · simp only [hn, Nat.zero_add]
  · simp only [hcalls, List.filter_cons, List.filter_append, hd]
    simp [Coords.Call.isStore]
  · intro i line hi c hmem
    have h1 := stores_from_mem lib lon lat alt _ 0 i line hi c (by rw [Nat.zero_add]; exact hmem)
    rw [← hd] at h1
    simp only [hcalls]
    exact List.mem_cons_of_mem _ (List.mem_append_left _ (List.mem_of_mem_filter h1))

theorem C21_station_count_and_order_witness :
    Coords.exCoordsTel.num_stations = 5 ∧
    Coords.valid_lines Coords.exCoordsLib ["1 2 3", "# x", "4 5", "7"] = ["1 2 3", "4 5"] ∧
    ∃ tel', (Coords.oskar_telescope_load_station_coords Coords.exCoordsLib (some Coords.exCoordsTel)
        (some "layout.txt") 10 20 30 0).telescope = some tel' ∧
      tel'.num_stations
        = ((Coords.valid_lines Coords.exCoordsLib ["1 2 3", "# x", "4 5", "7"]).length : Int) ∧
      tel'.coord_units = Coords.exCoordsLib.OSKAR_METRES ∧
      (Coords.oskar_telescope_load_station_coords Coords.exCoordsLib (some Coords.exCoordsTel)
          (some "layout.txt") 10 20 30 0).calls.filter Coords.Call.isStore
        = Coords.stores_from Coords.exCoordsLib 10 20 30 0
            (Coords.valid_lines Coords.exCoordsLib ["1 2 3", "# x", "4 5", "7"]) ∧
      ∀ i line, (Coords.valid_lines Coords.exCoordsLib ["1 2 3", "# x", "4 5", "7"])[i]? = some line →
        ∀ c ∈ Coords.stores Coords.exCoordsLib 10 20 30 i line,
          c ∈ (Coords.oskar_telescope_load_station_coords Coords.exCoordsLib (some Coords.exCoordsTel)
            (some "layout.txt") 10 20 30 0).calls :=
  ⟨rfl, by decide,
    C21_station_count_and_order Coords.exCoordsLib Coords.exCoordsTel "layout.txt" 10 20 30
      ["1 2 3", "# x", "4 5", "7"] (Or.inr rfl) rfl (by decide)⟩

theorem sameLoaders_set {σ : Type} {b1 b2 n i : Nat}
    {h1 h2 : List (Option (Objects.oskar_TelescopeLoadAbstract σ))}
    (hR : Objects.SameLoaders b1 b2 n h1 h2) (hi : i < n)
    (v : Objects.oskar_TelescopeLoadAbstract σ) :
    Objects.SameLoaders b1 b2 n (h1.set (b1 + i) (some v)) (h2.set (b2 + i) (some v)) := by
  intro j hj
  obtain ⟨l, e1, e2⟩ := hR j hj
  by_cases hji : j = i
  · subst hji
    obtain ⟨a1, _⟩ := List.getElem?_eq_some_iff.mp e1
    obtain ⟨a2, _⟩ := List.getElem?_eq_some_iff.mp e2
    exact ⟨v, by simp [List.getElem?_set, a1], by simp [List.getElem?_set, a2]⟩
  · refine ⟨l, ?_, ?_⟩
    · rw [List.getElem?_set_ne (by omega)]; exact e1
    · rw [List.getElem?_set_ne (by omega)]; exact e2

theorem obj_load_all_station_sim {σ : Type} (b1 b2 n : Nat) :
    ∀ (k i : Nat), i + k ≤ n →
      ∀ (s : oskar_Station) (cwd : oskar_Dir) (nd depth : Nat) (fm : FileMap)
        (m1 m2 : Objects.Machine σ), m1.status = m2.status →
        Objects.SameLoaders b1 b2 n m1.heap m2.heap →
        ∀ s' fm' m1',
          Objects.load_all_station (List.range' (b1 + i) k) i s cwd nd depth fm m1
            = some (s', fm', m1') →
          ∃ m2', Objects.load_all_station (List.range' (b2 + i) k) i s cwd nd depth fm m2
              = some (s', fm', m2') ∧
            m2'.status = m1'.status ∧ Objects.SameLoaders b1 b2 n m1'.heap m2'.heap := by
  intro k
  induction k with
  | zero =>
    intro i _ s cwd nd depth fm m1 m2 hst hR s' fm' m1' h
    simp only [List.range'_zero, Objects.load_all_station, Option.some.injEq,
      Prod.mk.injEq] at h ⊢
    obtain ⟨rfl, rfl, rfl⟩ := h
    exact ⟨m2, ⟨rfl, rfl, rfl⟩, hst.symm, hR⟩
  | succ k ih =>
    intro i hik s cwd nd depth fm m1 m2 hst hR s' fm' m1' h
    obtain ⟨l, e1, e2⟩ := hR i (by omega)
    rw [List.range'_succ] at h ⊢
    simp only [Objects.load_all_station, e1, e2] at h ⊢
    split at h
    · rename_i hne
      rw [if_pos hne]
      simp only [Option.some.injEq, Prod.mk.injEq] at h ⊢
      obtain ⟨rfl, rfl, rfl⟩ := h
      exact ⟨_, ⟨rfl, rfl, rfl⟩, rfl, sameLoaders_set hR (by omega) _⟩
    · rename_i hne
      rw [if_neg hne]
      refine ih (i + 1) (by omega) _ cwd nd depth _ _ _ ?_ ?_ s' fm' m1' h
      · rfl
      · exact sameLoaders_set hR (by omega) _

theorem obj_load_all_sim {σ : Type} (b1 b2 n : Nat) :
    ∀ (k i : Nat), i + k ≤ n →
      ∀ (t : oskar_Telescope) (cwd : oskar_Dir) (nd : Nat) (fm : FileMap)
        (m1 m2 : Objects.Machine σ), m1.status = m2.status →
        Objects.SameLoaders b1 b2 n m1.heap m2.heap →
        ∀ t' fm' m1',
          Objects.load_all (List.range' (b1 + i) k) i t cwd nd fm m1 = some (t', fm', m1') →
          ∃ m2', Objects.load_all (List.range' (b2 + i) k) i t cwd nd fm m2
              = some (t', fm', m2') ∧
            m2'.status = m1'.status ∧ Objects.SameLoaders b1 b2 n m1'.heap m2'.heap := by
  intro k
  induction k with
  | zero =>
    intro i _ t cwd nd fm m1 m2 hst hR t' fm' m1' h
    simp only [List.range'_zero, Objects.load_all, Option.some.injEq, Prod.mk.injEq] at h ⊢
    obtain ⟨rfl, rfl, rfl⟩ := h
    exact ⟨m2, ⟨rfl, rfl, rfl⟩, hst.symm, hR⟩
  | succ k ih =>
    intro i hik t cwd nd fm m1 m2 hst hR t' fm' m1' h
    obtain ⟨l, e1, e2⟩ := hR i (by omega)
    rw [List.range'_succ] at h ⊢
    simp only [Objects.load_all, e1, e2] at h ⊢
    split at h
    · rename_i hne
      rw [if_pos hne]
      simp only [Option.some.injEq, Prod.mk.injEq] at h ⊢
      obtain ⟨rfl, rfl, rfl⟩ := h
      exact ⟨_, ⟨rfl, rfl, rfl⟩, rfl, sameLoaders_set hR (by omega) _⟩
    · rename_i hne
      rw [if_neg hne]
      refine ih (i + 1) (by omega) _ cwd nd _ _ _ ?_ ?_ t' fm' m1' h
      · rfl
      · exact sameLoaders_set hR (by omega) _

theorem obj_load_children_sim {σ : Type} (b1 b2 n : Nat) :
    ∀ (ds : List DirTree),
      (∀ d ∈ ds, ∀ (s : oskar_Station) (path : String) (depth : Nat) (fm : FileMap)
        (m1 m2 : Objects.Machine σ), m1.status = m2.status →
        Objects.SameLoaders b1 b2 n m1.heap m2.heap →
        ∀ s' m1',
          Objects.load_directories_station s path d depth (List.range' b1 n) fm m1
            = some (s', m1') →
          ∃ m2', Objects.load_directories_station s path d depth (List.range' b2 n) fm m2
              = some (s', m2') ∧
            m2'.status = m1'.status ∧ Objects.SameLoaders b1 b2 n m1'.heap m2'.heap) →
      ∀ (s : oskar_Station) (cwd : oskar_Dir) (i depth : Nat) (fm : FileMap)
        (m1 m2 : Objects.Machine σ), m1.status = m2.status →
        Objects.SameLoaders b1 b2 n m1.heap m2.heap →
        ∀ s' m1',
          Objects.load_children s cwd ds i depth (List.range' b1 n) fm m1 = some (s', m1') →
          ∃ m2', Objects.load_children s cwd ds i depth (List.range' b2 n) fm m2
              = some (s', m2') ∧
            m2'.status = m1'.status ∧ Objects.SameLoaders b1 b2 n m1'.heap m2'.heap := by
  intro ds
  induction ds with
  | nil =>
    intro _ s cwd i depth fm m1 m2 hst hR s' m1' h
    rw [Objects.load_children] at h ⊢
    simp only [Option.some.injEq, Prod.mk.injEq] at h ⊢
    obtain ⟨rfl, rfl⟩ := h
    exact ⟨m2, ⟨rfl, rfl⟩, hst.symm, hR⟩
  | cons d ds ih =>
    intro hP s cwd i depth fm m1 m2 hst hR s' m1' h
    rw [Objects.load_children] at h ⊢
    cases hc : oskar_station_child s i with
    | none => rw [hc] at h; cases h
    | some c =>
      rw [hc] at h
      simp only at h ⊢
      cases hl : Objects.load_directories_station c (cwd.filePath d.name) d (depth + 1)
          (List.range' b1 n) fm
          (m1.emit (Event.call (cwd.filePath d.name) i (depth + 1) fm)) with
      | none => rw [hl] at h; cases h
      | some r =>
        obtain ⟨c1, mA⟩ := r
        rw [hl] at h
        simp only at h
        obtain ⟨mB, eB, sB, rB⟩ := hP d (List.mem_cons_self _ _) c (cwd.filePath d.name)
          (depth + 1) fm (m1.emit (Event.call (cwd.filePath d.name) i (depth + 1) fm))
          (m2.emit (Event.call (cwd.filePath d.name) i (depth + 1) fm)) hst hR c1 mA hl
        rw [eB]
        simp only
        exact ih (fun x hx => hP x (List.mem_cons_of_mem _ hx)) _ cwd (i + 1) depth fm mA mB
          sB.symm rB s' m1' h

theorem obj_lds_sim {σ : Type} (b1 b2 n : Nat) :
    ∀ (t : DirTree) (s : oskar_Station) (path : String) (depth : Nat) (fm : FileMap)
      (m1 m2 : Objects.Machine σ), m1.status = m2.status →
      Objects.SameLoaders b1 b2 n m1.heap m2.heap →
      ∀ s' m1',
        Objects.load_directories_station s path t depth (List.range' b1 n) fm m1
          = some (s', m1') →
        ∃ m2', Objects.load_directories_station s path t depth (List.range' b2 n) fm m2
            = some (s', m2') ∧
          m2'.status = m1'.status ∧ Objects.SameLoaders b1 b2 n m1'.heap m2'.heap := by
  intro t
  induction t using DirTree.induct_subs with
  | h name subs ih =>
    intro s path depth fm m1 m2 hst hR s' m1' h
    rw [Objects.load_directories_station] at h ⊢
    by_cases hw : m1.status = 0
    swap
    · have hw2 : m2.status ≠ 0 := by rw [← hst]; exact hw
      simp only [hw, hw2, ne_eq, not_false_eq_true, if_true, Option.some.injEq,
        Prod.mk.injEq] at h ⊢
      obtain ⟨rfl, rfl⟩ := h
      exact ⟨m2, ⟨rfl, rfl⟩, hst.symm, hR⟩
    have hw2 : m2.status = 0 := by rw [← hst]; exact hw
    simp only [hw, hw2, ne_eq, not_true_eq_false, if_false] at h ⊢
    cases hA : Objects.load_all_station (List.range' b1 n) 0 s ⟨path, .node name subs⟩
        subs.length depth fm (m1.emit (Event.allSubDirs path)) with
    | none => rw [hA] at h; cases h
    | some r =>
      obtain ⟨s1, fm1, mA⟩ := r
      rw [hA] at h
      simp only at h
      obtain ⟨mB, eB, sB, rB⟩ := obj_load_all_station_sim b1 b2 n n 0 (by omega) s
        ⟨path, .node name subs⟩ subs.length depth fm (m1.emit (Event.allSubDirs path))
        (m2.emit (Event.allSubDirs path)) hst hR s1 fm1 mA hA
      have eB' : Objects.load_all_station (List.range' b2 n) 0 s ⟨path, .node name subs⟩
          subs.length depth fm (m2.emit (Event.allSubDirs path)) = some (s1, fm1, mB) := eB
      rw [eB']
      simp only
      by_cases hr : mA.status = 0
      swap
      · have hr2 : mB.status ≠ 0 := by rw [sB]; exact hr
        simp only [hr, hr2, ne_eq, not_false_eq_true, if_true, Option.some.injEq,
          Prod.mk.injEq] at h ⊢
        obtain ⟨rfl, rfl⟩ := h
        exact ⟨mB, ⟨rfl, rfl⟩, sB, rB⟩
      have hr2 : mB.status = 0 := by rw [sB]; exact hr
      simp only [hr, hr2, ne_eq, not_true_eq_false, if_false] at h ⊢
      cases subs with
      | nil =>
        simp only [Option.some.injEq, Prod.mk.injEq] at h ⊢
        obtain ⟨rfl, rfl⟩ := h
        exact ⟨mB, ⟨rfl, rfl⟩, sB, rB⟩
      | cons d rest =>
        cases rest with
        | nil =>
          simp only at h ⊢
          cases hc : oskar_station_child s1 0 with
          | none => rw [hc] at h; cases h
          | some c =>
            rw [hc] at h
            simp only at h ⊢
            cases hl : Objects.load_directories_station c
                (oskar_Dir.filePath ⟨path, .node name [d]⟩ d.name) d (depth + 1)
                (List.range' b1 n) fm1
                (mA.emit (Event.call (oskar_Dir.filePath ⟨path, .node name [d]⟩ d.name) 0
                  (depth + 1) fm1)) with
            | none => rw [hl] at h; cases h
            | some q =>
              obtain ⟨c1, mC⟩ := q
              rw [hl] at h
              simp only [Option.some.injEq, Prod.mk.injEq] at h
              obtain ⟨mD, eD, sD, rD⟩ := ih d (List.mem_singleton_self d) c _ (depth + 1) fm1
                (mA.emit (Event.call (oskar_Dir.filePath ⟨path, .node name [d]⟩ d.name) 0
                  (depth + 1) fm1))
                (mB.emit (Event.call (oskar_Dir.filePath ⟨path, .node name [d]⟩ d.name) 0
                  (depth + 1) fm1)) sB.symm rB c1 mC hl
              rw [eD]
              simp only [Option.some.injEq, Prod.mk.injEq]
              obtain ⟨rfl, rfl⟩ := h
              exact ⟨_, ⟨by rw [sD], rfl⟩, by simp only [sD], rD⟩
        | cons d2 ds =>
          simp only at h ⊢
          split at h
          · rename_i hlen
            rw [if_pos hlen]
            simp only [Option.some.injEq, Prod.mk.injEq] at h ⊢
            obtain ⟨rfl, rfl⟩ := h
            exact ⟨_, ⟨rfl, rfl⟩, rfl, rB⟩
          · rename_i hlen
            rw [if_neg hlen]
            exact obj_load_children_sim b1 b2 n _ ih _ _ _ _ _ mA mB sB.symm rB s' m1' h

theorem obj_load_stations_sim {σ : Type} (b1 b2 n : Nat) :
    ∀ (ds : List DirTree) (t : oskar_Telescope) (cwd : oskar_Dir) (i : Nat) (fm : FileMap)
      (m1 m2 : Objects.Machine σ), m1.status = m2.status →
      Objects.SameLoaders b1 b2 n m1.heap m2.heap →
      ∀ t' m1',
        Objects.load_stations t cwd ds i (List.range' b1 n) fm m1 = some (t', m1') →
        ∃ m2', Objects.load_stations t cwd ds i (List.range' b2 n) fm m2 = some (t', m2') ∧
          m2'.status = m1'.status ∧ Objects.SameLoaders b1 b2 n m1'.heap m2'.heap := by
  intro ds
  induction ds with
  | nil =>
    intro t cwd i fm m1 m2 hst hR t' m1' h
    rw [Objects.load_stations] at h ⊢
    simp only [Option.some.injEq, Prod.mk.injEq] at h ⊢
    obtain ⟨rfl, rfl⟩ := h
    exact ⟨m2, ⟨rfl, rfl⟩, hst.symm, hR⟩
  | cons d ds ih =>
    intro t cwd i fm m1 m2 hst hR t' m1' h
    rw [Objects.load_stations] at h ⊢
    cases hc : oskar_telescope_station t i with
    | none => rw [hc] at h; cases h
    | some c =>
      rw [hc] at h
      simp only at h ⊢
      cases hl : Objects.load_directories_station c (cwd.filePath d.name) d (0 + 1)
          (List.range' b1 n) fm
          (m1.emit (Event.call (cwd.filePath d.name) i (0 + 1) fm)) with
      | none => rw [hl] at h; cases h
      | some r =>
        obtain ⟨c1, mA⟩ := r
        rw [hl] at h
        simp only at h
        obtain ⟨mB, eB, sB, rB⟩ := obj_lds_sim b1 b2 n d c (cwd.filePath d.name)
          (0 + 1) fm (m1.emit (Event.call (cwd.filePath d.name) i (0 + 1) fm))
          (m2.emit (Event.call (cwd.filePath d.name) i (0 + 1) fm)) hst hR c1 mA hl
        rw [eB]
        simp only
        exact ih _ cwd (i + 1) fm mA mB sB.symm rB t' m1' h

theorem obj_ld_sim {σ : Type} (b1 b2 n : Nat) (t : oskar_Telescope) (path : String)
    (cwd : DirTree) (fm : FileMap) (m1 m2 : Objects.Machine σ) (hst : m1.status = m2.status)
    (hR : Objects.SameLoaders b1 b2 n m1.heap m2.heap) (t' : oskar_Telescope)
    (m1' : Objects.Machine σ)
    (h : Objects.load_directories t path cwd (List.range' b1 n) fm m1 = some (t', m1')) :
    ∃ m2', Objects.load_directories t path cwd (List.range' b2 n) fm m2 = some (t', m2') ∧
      m2'.status = m1'.status ∧ Objects.SameLoaders b1 b2 n m1'.heap m2'.heap := by
  rw [Objects.load_directories] at h ⊢
  by_cases hw : m1.status = 0
  swap
  · have hw2 : m2.status ≠ 0 := by rw [← hst]; exact hw
    simp only [hw, hw2, ne_eq, not_false_eq_true, if_true, Option.some.injEq,
      Prod.mk.injEq] at h ⊢
    obtain ⟨rfl, rfl⟩ := h
    exact ⟨m2, ⟨rfl, rfl⟩, hst.symm, hR⟩
  have hw2 : m2.status = 0 := by rw [← hst]; exact hw
  simp only [hw, hw2, ne_eq, not_true_eq_false, if_false] at h ⊢
  cases hA : Objects.load_all (List.range' b1 n) 0 t ⟨path, cwd⟩ cwd.subs.length fm
      (m1.emit (Event.allSubDirs path)) with
  | none => rw [hA] at h; cases h
  | some r =>
    obtain ⟨t1, fm1, mA⟩ := r
    rw [hA] at h
    simp only at h
    obtain ⟨mB, eB, sB, rB⟩ := obj_load_all_sim b1 b2 n n 0 (by omega) t ⟨path, cwd⟩
      cwd.subs.length fm (m1.emit (Event.allSubDirs path)) (m2.emit (Event.allSubDirs path))
      hst hR t1 fm1 mA hA
    have eB' : Objects.load_all (List.range' b2 n) 0 t ⟨path, cwd⟩ cwd.subs.length fm
        (m2.emit (Event.allSubDirs path)) = some (t1, fm1, mB) := eB
    rw [eB']
    simp only
    by_cases hr : mA.status = 0
    swap
    · have hr2 : mB.status ≠ 0 := by rw [sB]; exact hr
      simp only [hr, hr2, ne_eq, not_false_eq_true, if_true, Option.some.injEq,
        Prod.mk.injEq] at h ⊢
      obtain ⟨rfl, rfl⟩ := h
      exact ⟨mB, ⟨rfl, rfl⟩, sB, rB⟩
    have hr2 : mB.status = 0 := by rw [sB]; exact hr
    simp only [hr, hr2, ne_eq, not_true_eq_false, if_false] at h ⊢
    cases hsub : cwd.subs with
    | nil =>
      rw [hsub] at h
      simp only [Option.some.injEq, Prod.mk.injEq] at h ⊢
      obtain ⟨rfl, rfl⟩ := h
      exact ⟨mB, ⟨rfl, rfl⟩, sB, rB⟩
    | cons d rest =>
      cases rest with
      | nil =>
        rw [hsub] at h
        simp only at h ⊢
        cases hc : oskar_telescope_station t1 0 with
        | none => rw [hc] at h; cases h
        | some c =>
          rw [hc] at h
          simp only at h ⊢
          cases hl : Objects.load_directories_station c
              (oskar_Dir.filePath ⟨path, cwd⟩ d.name) d (0 + 1) (List.range' b1 n) fm1
              (mA.emit (Event.call (oskar_Dir.filePath ⟨path, cwd⟩ d.name) 0 (0 + 1) fm1)) with
          | none => rw [hl] at h; cases h
          | some q =>
            obtain ⟨c1, mC⟩ := q
            rw [hl] at h
            simp only [Option.some.injEq, Prod.mk.injEq] at h
            obtain ⟨mD, eD, sD, rD⟩ := obj_lds_sim b1 b2 n d c _ (0 + 1) fm1
              (mA.emit (Event.call (oskar_Dir.filePath ⟨path, cwd⟩ d.name) 0 (0 + 1) fm1))
              (mB.emit (Event.call (oskar_Dir.filePath ⟨path, cwd⟩ d.name) 0 (0 + 1) fm1))
              sB.symm rB c1 mC hl
            rw [eD]
            simp only [Option.some.injEq, Prod.mk.injEq]
            obtain ⟨rfl, rfl⟩ := h
            exact ⟨_, ⟨by rw [sD], rfl⟩, by simp only [sD], rD⟩
      | cons d2 ds =>
        rw [hsub] at h
        simp only at h ⊢
        split at h
        · rename_i hlen
          rw [if_pos hlen]
          simp only [Option.some.injEq, Prod.mk.injEq] at h ⊢
          obtain ⟨rfl, rfl⟩ := h
          exact ⟨_, ⟨rfl, rfl⟩, rfl, rB⟩
        · rename_i hlen
          rw [if_neg hlen]
          exact obj_load_stations_sim b1 b2 n _ _ _ _ _ mA mB sB.symm rB t' m1' h

theorem obj_create_loaders {σ : Type} (impl : LoaderKind → Objects.oskar_TelescopeLoadAbstract σ)
    (m : Objects.Machine σ) :
    (Objects.create_loaders impl m).1 = List.range' m.heap.length 10 ∧
      (Objects.create_loaders impl m).2.status = m.status ∧
      (Objects.create_loaders impl m).2.heap
        = m.heap ++ loader_kinds.map (fun k => some (impl k)) := by
  simp [Objects.create_loaders, loader_kinds, Objects.push_back_new, List.range']

theorem sameLoaders_created {σ : Type}
    (impl : LoaderKind → Objects.oskar_TelescopeLoadAbstract σ) (m1 m2 : Objects.Machine σ) :
    Objects.SameLoaders m1.heap.length m2.heap.length 10
      (Objects.create_loaders impl m1).2.heap (Objects.create_loaders impl m2).2.heap := by
  intro j hj
  rw [(obj_create_loaders impl m1).2.2, (obj_create_loaders impl m2).2.2]
  have hlen : (loader_kinds.map (fun k => some (impl k))).length = 10 := by
    simp [loader_kinds]
  have hj' : j < (loader_kinds.map (fun k => some (impl k))).length := by omega
  refine ⟨impl (loader_kinds.get ⟨j, by simpa using hj'⟩), ?_, ?_⟩
  · rw [List.getElem?_append_right (by omega)]
    simp [List.getElem?_eq_getElem hj']
  · rw [List.getElem?_append_right (by omega)]
    simp [List.getElem?_eq_getElem hj']

theorem obj_delete_status {σ : Type} :
    ∀ (ps : List Nat) (i : Nat) (m : Objects.Machine σ),
      (Objects.delete_loaders ps i m).status = m.status := by
  intro ps
  induction ps with
  | nil => intro i m; rfl
  | cons p rest ih => intro i m; rw [Objects.delete_loaders, ih]

theorem obj_delete_heap {σ : Type} :
    ∀ (k b i : Nat) (m : Objects.Machine σ), b + k ≤ m.heap.length →
      ∀ q, (Objects.delete_loaders (List.range' b k) i m).heap[q]?
        = if b ≤ q ∧ q < b + k then some none else m.heap[q]? := by
  intro k
  induction k with
  | zero =>
    intro b i m _ q
    rw [List.range'_zero, Objects.delete_loaders, if_neg (by omega)]
  | succ k ih =>
    intro b i m hb q
    rw [List.range'_succ, Objects.delete_loaders, ih (b + 1) (i + 1) _
      (by simp only [List.length_set]; omega) q]
    by_cases hq : b = q
    · subst hq
      have hbl : b < m.heap.length := by omega
      rw [if_neg (by omega), if_pos (by omega)]
      simp [List.getElem?_set, hbl]
    · simp only [List.getElem?_set_ne hq]
      by_cases h2 : b + 1 ≤ q ∧ q < b + 1 + k
      · rw [if_pos h2, if_pos (by omega)]
      · rw [if_neg h2, if_neg (by omega)]

theorem sameLoaders_length {σ : Type} {b1 b2 n : Nat}
    {h1 h2 : List (Option (Objects.oskar_TelescopeLoadAbstract σ))}
    (hR : Objects.SameLoaders b1 b2 (n + 1) h1 h2) :
    b1 + (n + 1) ≤ h1.length ∧ b2 + (n + 1) ≤ h2.length := by
  obtain ⟨l, e1, e2⟩ := hR n (by omega)
  obtain ⟨a1, _⟩ := List.getElem?_eq_some_iff.mp e1
  obtain ⟨a2, _⟩ := List.getElem?_eq_some_iff.mp e2
  exact ⟨by omega, by omega⟩

theorem obj_emit_status {σ : Type} (m : Objects.Machine σ) (e : Event) :
    (m.emit e).status = m.status := rfl

theorem obj_emit_heap {σ : Type} (m : Objects.Machine σ) (e : Event) :
    (m.emit e).heap = m.heap := rfl

theorem obj_closing_status {σ : Type} (m : Objects.Machine σ) :
    (if ¬ m.status = 0 then m.emit (Event.log_load_failed m.status) else m).status
      = m.status := by
  split <;> rfl

theorem obj_closing_heap {σ : Type} (m : Objects.Machine σ) :
    (if ¬ m.status = 0 then m.emit (Event.log_load_failed m.status) else m).heap
      = m.heap := by
  split <;> rfl

theorem obj_otl_sim {σ : Type} (impl : LoaderKind → Objects.oskar_TelescopeLoadAbstract σ)
    (fs : String → Option DirTree) (tel : oskar_Telescope) (path : Option String)
    (m1 m2 : Objects.Machine σ) (t1 : oskar_Telescope) (m1' : Objects.Machine σ)
    (h0 : m1.status = m2.status)
    (h : Objects.oskar_telescope_load impl fs tel path m1 = some (t1, m1')) :
    ∃ m2', Objects.oskar_telescope_load impl fs tel path m2 = some (t1, m2') ∧
      m2'.status = m1'.status ∧
      ((m1'.heap = m1.heap ∧ m2'.heap = m2.heap) ∨
        ∀ j, j < 10 → m1'.heap[m1.heap.length + j]? = some none ∧
          m2'.heap[m2.heap.length + j]? = some none) := by
  unfold Objects.oskar_telescope_load at h ⊢
  by_cases hw : m1.status = 0
  swap
  · have hw2 : m2.status ≠ 0 := by rw [← h0]; exact hw
    simp only [hw, hw2, ne_eq, not_false_eq_true, if_true, Option.some.injEq,
      Prod.mk.injEq] at h ⊢
    obtain ⟨rfl, rfl⟩ := h
    exact ⟨m2, ⟨rfl, rfl⟩, h0.symm, Or.inl ⟨rfl, rfl⟩⟩
  have hw2 : m2.status = 0 := by rw [← h0]; exact hw
  simp only [hw, hw2, ne_eq, not_true_eq_false, if_false] at h ⊢
  cases path with
  | none =>
    simp only [Option.some.injEq, Prod.mk.injEq] at h ⊢
    obtain ⟨rfl, rfl⟩ := h
    exact ⟨_, ⟨rfl, rfl⟩, rfl, Or.inl ⟨rfl, rfl⟩⟩
  | some p =>
    simp only at h ⊢
    cases hf : fs p with
    | none =>
      rw [hf] at h
      simp only [Option.some.injEq, Prod.mk.injEq] at h ⊢
      obtain ⟨rfl, rfl⟩ := h
      exact ⟨_, ⟨rfl, rfl⟩, rfl, Or.inl ⟨rfl, rfl⟩⟩
    | some root =>
      rw [hf] at h
      simp only at h ⊢
      by_cases hm : oskar_telescope_mem_location tel = OSKAR_CPU
      swap
      · simp only [hm, ne_eq, not_false_eq_true, if_true, Option.some.injEq,
          Prod.mk.injEq] at h ⊢
        obtain ⟨rfl, rfl⟩ := h
        exact ⟨_, ⟨rfl, rfl⟩, rfl, Or.inl ⟨rfl, rfl⟩⟩
      simp only [hm, ne_eq, not_true_eq_false, if_false] at h ⊢
      have c1 := obj_create_loaders impl (m1.emit (Event.dir_exists p))
      have c2 := obj_create_loaders impl (m2.emit (Event.dir_exists p))
      have hR := sameLoaders_created impl (m1.emit (Event.dir_exists p))
        (m2.emit (Event.dir_exists p))
      rw [c1.1] at h
      rw [c2.1]
      rw [obj_emit_heap] at c1 hR h
      rw [obj_emit_heap] at c2 hR ⊢
      cases hl : Objects.load_directories tel p root (List.range' m1.heap.length 10) []
          (Objects.create_loaders impl (m1.emit (Event.dir_exists p))).2 with
      | none => rw [hl] at h; cases h
      | some r =>
        obtain ⟨t3, mA⟩ := r
        rw [hl] at h
        simp only [Option.some.injEq, Prod.mk.injEq] at h
        obtain ⟨mB, eB, sB, rB⟩ := obj_ld_sim _ _ 10 tel p root [] _ _
          (by rw [c1.2.1, c2.2.1]; exact h0) hR t3 mA hl
        rw [eB]
        simp only [Option.some.injEq, Prod.mk.injEq]
        obtain ⟨rfl, rfl⟩ := h
        have lens := sameLoaders_length rB
        refine ⟨_, ⟨rfl, rfl⟩, ?_, Or.inr ?_⟩
        · rw [obj_emit_status, obj_emit_status, obj_delete_status, obj_delete_status,
            obj_closing_status, obj_closing_status, sB]
        · intro j hj
          constructor
          · rw [obj_emit_heap, obj_delete_heap 10 _ 0 _ (by rw [obj_closing_heap]; exact lens.1),
              if_pos ⟨Nat.le_add_right _ _, by omega⟩]
          · rw [obj_emit_heap, obj_delete_heap 10 _ 0 _ (by rw [obj_closing_heap]; exact lens.2),
              if_pos ⟨Nat.le_add_right _ _, by omega⟩]

/-- The data members of a loader reach the model: a second walk over the
loader objects that a first walk used, without deleting and creating them in
between, writes another count into the model than the first. -/
theorem obj_walk_twice : Objects.exWalkTwice = some ([0], [4]) := by decide!

/-- An outcome that exists is the pair of its two components. -/
theorem option_eq_some_getD {α β : Type} (o : Option (α × β)) (d : α × β)
    (h : o.isSome = true) : o = some ((o.getD d).1, (o.getD d).2) := by
  cases o with
  | none => simp at h
  | some x => rfl

/-- C14: two executions of `oskar_telescope_load` with loader objects that
carry data members. The loads are made for the same stage classes, the same
file system, the same fresh model and path, and start with the same status
in two program states whose heaps may differ in every cell, for instance the
state an earlier load left behind. When the first returns a model, the second
returns the same model, hence the same station count, nesting and station
identifiers, and the same status. Either load leaves the heap as it found it
when it returns before the walk; otherwise each of the ten loader objects it
created is deleted when it returns, so no loader survives into a later load. -/
theorem C14_deterministic {σ : Type} (impl : LoaderKind → Objects.oskar_TelescopeLoadAbstract σ)
    (fs : String → Option DirTree) (tel : oskar_Telescope) (path : Option String)
    (m1 m2 : Objects.Machine σ) (t1 : oskar_Telescope) (m1' : Objects.Machine σ)
    (h0 : m1.status = m2.status)
    (h : Objects.oskar_telescope_load impl fs tel path m1 = some (t1, m1')) :
    ∃ t2 m2', Objects.oskar_telescope_load impl fs tel path m2 = some (t2, m2') ∧
      t2 = t1 ∧ m2'.status = m1'.status ∧
      oskar_telescope_num_stations t2 = oskar_telescope_num_stations t1 ∧
      telescope_ids t2 = telescope_ids t1 ∧
      ((m1'.heap = m1.heap ∧ m2'.heap = m2.heap) ∨
        ∀ j, j < 10 → m1'.heap[m1.heap.length + j]? = some none ∧
          m2'.heap[m2.heap.length + j]? = some none) := by
  obtain ⟨m2', e, s, d⟩ := obj_otl_sim impl fs tel path m1 m2 t1 m1' h0 h
  exact ⟨t1, m2', e, rfl, s, rfl, rfl, d⟩

theorem C14_deterministic_witness :
    (⟨0, [], []⟩ : Objects.Machine Nat).status = Objects.exFirstLoad.2.status ∧
    Objects.oskar_telescope_load (Objects.exObjects 2) exFs exTel (some "/tel") ⟨0, [], []⟩
      = some (Objects.exFirstLoad.1, Objects.exFirstLoad.2) ∧
    Objects.exFirstLoad.2.heap.length = 10 ∧
    Objects.exFirstLoad.1.station.map oskar_Station.data = [[1], [3]] ∧
    telescope_ids Objects.exFirstLoad.1 = [0, 1, 2] ∧
    ∃ t2 m2',
      Objects.oskar_telescope_load (Objects.exObjects 2) exFs exTel (some "/tel")
        Objects.exFirstLoad.2 = some (t2, m2') ∧
      t2 = Objects.exFirstLoad.1 ∧ m2'.status = Objects.exFirstLoad.2.status ∧
      oskar_telescope_num_stations t2 = oskar_telescope_num_stations Objects.exFirstLoad.1 ∧
      telescope_ids t2 = telescope_ids Objects.exFirstLoad.1 ∧
      ((Objects.exFirstLoad.2.heap = (⟨0, [], []⟩ : Objects.Machine Nat).heap
          ∧ m2'.heap = Objects.exFirstLoad.2.heap) ∨
        ∀ j, j < 10 →
          Objects.exFirstLoad.2.heap[(⟨0, [], []⟩ : Objects.Machine Nat).heap.length + j]?
            = some none ∧
          m2'.heap[Objects.exFirstLoad.2.heap.length + j]? = some none) :=
  ⟨by decide!, option_eq_some_getD _ _ (by decide!), by decide!, by decide!, by decide!,
    C14_deterministic (Objects.exObjects 2) exFs exTel (some "/tel") ⟨0, [], []⟩
      Objects.exFirstLoad.2 Objects.exFirstLoad.1 Objects.exFirstLoad.2 (by decide!)
      (option_eq_some_getD _ _ (by decide!))⟩

end Oskar
